import Mathlib

/-! Stone Steps Webalizer: persistent node records and state orchestration.

A shallow embedding of the record codecs (`hnode.cpp`, `rcnode.cpp`, `danode.cpp`,
`daily.cpp`, `scnode.cpp`) and of the state orchestration in `preserve.cpp`
(swap-out, `initialize`, `save_state`).

Conventions of the embedding.

* A buffer is a list of bytes; a `void*` into it is the byte offset from the
  start of the buffer. A `serialize` call returns the advanced pointer, a
  `deserialize` call the value read and the advanced pointer.
* Unsigned machine integers are natural numbers; a node is `valid` when every
  field holds a value of its C type. A `double` is carried as its 64-bit
  pattern, which is what the serializer copies.
* Record sizes are natural numbers: a record has to fit into the caller's
  buffer, so the sums stay far below the range of `u_int` and `size_t`.
-/

set_option autoImplicit false

namespace Webalizer

/-! ## Buffers and primitive serializers -/

/-- A memory buffer, one natural number per byte. -/
abbrev Buffer := List Nat

/-- The characters of a `string_t`, without a terminator. -/
abbrev string_t := List Nat

/-- Store `bytes` into `buf` starting at offset `ptr`. -/
def poke (buf : Buffer) (ptr : Nat) (bytes : List Nat) : Buffer :=
  buf.take ptr ++ bytes ++ buf.drop (ptr + bytes.length)

/-- Load `n` bytes of `buf` starting at offset `ptr`. -/
def peek (buf : Buffer) (ptr n : Nat) : List Nat :=
  (buf.drop ptr).take n

/-- The `n` little-endian bytes of `v`. -/
def le_bytes : Nat → Nat → List Nat
  | 0, _ => []
  | n + 1, v => v % 256 :: le_bytes n (v / 256)

/-- The number whose little-endian bytes are `bs`. -/
def le_value : List Nat → Nat
  | [] => 0
  | b :: bs => b + 256 * le_value bs

/-- Store `bytes` at the pointer of the cursor `c` (the buffer and a pointer into
it) and advance the pointer past them. -/
def store (bytes : List Nat) (c : Buffer × Nat) : Buffer × Nat :=
  (poke c.1 c.2 bytes, c.2 + bytes.length)

/-- Modelled from the spec: serialize.h is absent. Spec 4.1: fixed little-endian
encoding of 1/2/4/8-byte unsigned integers. `serialize(ptr, value)` for an
unsigned integer of `w` bytes; returns the buffer and the advanced pointer. -/
def serialize_num (w v : Nat) (c : Buffer × Nat) : Buffer × Nat :=
  store (le_bytes w v) c

/-- Modelled from the spec: serialize.h is absent. Spec 4.1: bool as one byte. -/
def serialize_bool (b : Bool) (c : Buffer × Nat) : Buffer × Nat :=
  serialize_num 1 (if b then 1 else 0) c

/-- Modelled from the spec: serialize.h is absent. Spec 4.1: 8-byte IEEE-754
floats; `v` is the 64-bit pattern of the double. -/
def serialize_double (v : Nat) (c : Buffer × Nat) : Buffer × Nat :=
  serialize_num 8 v c

/-- Modelled from the spec: serialize.h is absent. Spec 4.1: strings are encoded
as a 4-byte length followed by raw bytes (no terminator). The encoded bytes. -/
def string_bytes (s : string_t) : List Nat :=
  le_bytes 4 s.length ++ s

/-- Modelled from the spec: serialize.h is absent. `s_size_of(str)`, the encoded
size of a string. -/
def s_size_of_string (s : string_t) : Nat :=
  4 + s.length

/-- Modelled from the spec: serialize.h is absent. `serialize(ptr, str)`. -/
def serialize_string (s : string_t) (c : Buffer × Nat) : Buffer × Nat :=
  store (string_bytes s) c

/-- Modelled from the spec: serialize.h is absent. `serialize(ptr, chars, size)`
for a character array of a fixed size: the raw characters, no length. -/
def serialize_chars (cs : List Nat) (c : Buffer × Nat) : Buffer × Nat :=
  store cs c

/-- Modelled from the spec: serialize.h is absent. `deserialize(ptr, value)` for an
unsigned integer of `w` bytes: the value and the advanced pointer. -/
def deserialize_num (w : Nat) (buf : Buffer) (ptr : Nat) : Nat × Nat :=
  (le_value (peek buf ptr w), ptr + w)

/-- Modelled from the spec: serialize.h is absent. `deserialize(ptr, flag)`. -/
def deserialize_bool (buf : Buffer) (ptr : Nat) : Bool × Nat :=
  (decide (le_value (peek buf ptr 1) ≠ 0), ptr + 1)

/-- Modelled from the spec: serialize.h is absent. `deserialize(ptr, dbl)`. -/
def deserialize_double (buf : Buffer) (ptr : Nat) : Nat × Nat :=
  deserialize_num 8 buf ptr

/-- Modelled from the spec: serialize.h is absent. `s_size_of<string_t>(ptr)`: the
encoded size of the string at `ptr`, from its length prefix. -/
def s_size_of_string_buf (buf : Buffer) (ptr : Nat) : Nat :=
  4 + le_value (peek buf ptr 4)

/-- Modelled from the spec: serialize.h is absent. `deserialize(ptr, str)`. -/
def deserialize_string (buf : Buffer) (ptr : Nat) : string_t × Nat :=
  (peek buf (ptr + 4) (le_value (peek buf ptr 4)), ptr + s_size_of_string_buf buf ptr)

/-- Modelled from the spec: serialize.h is absent. `deserialize(ptr, chars, size)`. -/
def deserialize_chars (n : Nat) (buf : Buffer) (ptr : Nat) : List Nat × Nat :=
  (peek buf ptr n, ptr + n)

/-- Modelled from the spec: serialize.h is absent. `s_skip_field<type_t>(ptr)` for a
field of `w` bytes. -/
def s_skip_field (w : Nat) (ptr : Nat) : Nat :=
  ptr + w

/-- Every character of a string is one byte and the length fits its prefix. -/
def string_valid (s : string_t) : Bool :=
  decide (s.length < 2 ^ 32) && s.all (fun ch => decide (ch < 256))

/-! ## Declarations outside the sources at hand -/

/-- Modelled from the spec: serialize.h is absent. The serializer of a type whose
layout the spec does not fix: `enc` are the bytes `serialize` stores, `size` is
`s_size_of<T>(ptr)` as read from the encoded bytes at `ptr`, `dec` is what
`deserialize` reads from the bytes at `ptr`. The two laws are the contract of
spec 4.1 for values that are `valid`. -/
structure Codec (α : Type) where
  /-- The bytes stored for a value. -/
  enc : α → List Nat
  /-- The encoded size, read from the bytes at the pointer. -/
  size : List Nat → Nat
  /-- The value read from the bytes at the pointer. -/
  dec : List Nat → α
  /-- The values of the type that the serializer supports. -/
  valid : α → Bool
  /-- The size read from an encoded value is the number of bytes stored. -/
  size_enc : ∀ (a : α) (rest : List Nat), valid a = true → size (enc a ++ rest) = (enc a).length
  /-- Reading an encoded value returns it. -/
  dec_enc : ∀ (a : α) (rest : List Nat), valid a = true → dec (enc a ++ rest) = a

/-- Modelled from the spec: tstamp.h is absent. Spec 4.1 lists the fields of a
timestamp: year, month, day, hour, min, sec, utc-offset-minutes, null-flag. -/
structure tstamp_t where
  year : Nat
  month : Nat
  day : Nat
  hour : Nat
  min : Nat
  sec : Nat
  offset : Int
  null : Bool
deriving DecidableEq, Repr

/-- Modelled from the spec: basenode.h is absent. The members of `base_node<node_t>`
that the sources at hand use: the key string and the type tag that tells a group
from a regular entity (spec 3). -/
structure base_node where
  string : string_t
  flag : Nat
deriving DecidableEq, Repr

/-- Modelled from the spec: datanode.h, basenode.h, tstamp.h, serialize.h and the
hash functions declared in hashtab.h are absent; what the node codecs use of them
is collected here and every result holds for all values of these parameters. -/
structure Externals where
  /-- The bytes of the node header that follow the version u16 (spec 4.1: "a
  version u16 and a datanode payload size"). -/
  hdr_rest : List Nat
  /-- The serializer of the `base_node` members, stored after the node header. -/
  base : Codec base_node
  /-- The serializer of `tstamp_t`. -/
  tstamp : Codec tstamp_t
  /-- The value of a timestamp after `tstamp_t::reset()`. -/
  tstamp_reset : tstamp_t
  /-- The value of a timestamp after `tstamp_t::reset(time_t)`. -/
  tstamp_reset_time : Nat → tstamp_t
  /-- The function `base_node<node_t>::s_hash_value`. -/
  base_hash_value : base_node → Nat
  /-- The function `hash_str` of hashtab.h. -/
  hash_str : Nat → string_t → Nat
  /-- The function `hash_num` of hashtab.h. -/
  hash_num : Nat → Nat → Nat
  /-- The value of `sizeof(u_long)`. -/
  sizeof_u_long : Nat
  /-- The class version of `hnode_t`. -/
  hnode_version : Nat
  /-- The class version of `rcnode_t`. -/
  rcnode_version : Nat
  /-- The class version of `danode_t`. -/
  danode_version : Nat
  /-- The class version of `daily_t`. -/
  daily_version : Nat
  /-- The class version of `scnode_t`. -/
  scnode_version : Nat

/-- Modelled from the spec: datanode.h is absent. `datanode_t<node_t>::s_data_size`,
both overloads: the size of the node header, a version u16 and the rest. -/
def datanode_t.s_data_size (E : Externals) : Nat :=
  2 + E.hdr_rest.length

/-- Modelled from the spec: datanode.h is absent. `datanode_t<node_t>::s_pack_data`
stores the node header at the start of the buffer. -/
def datanode_t.s_pack_data (E : Externals) (version : Nat) (buffer : Buffer) : Buffer :=
  poke buffer 0 (le_bytes 2 version ++ E.hdr_rest)

/-- Modelled from the spec: datanode.h is absent. `s_node_ver(buffer)` reads the
version u16 the record begins with. -/
def s_node_ver (buffer : Buffer) : Nat :=
  le_value (peek buffer 0 2)

/-- Modelled from the spec: basenode.h is absent. `base_node<node_t>::s_data_size()`:
the node header and the base members. -/
def base_node.s_data_size (E : Externals) (b : base_node) : Nat :=
  datanode_t.s_data_size E + (E.base.enc b).length

/-- Modelled from the spec: basenode.h is absent. `base_node<node_t>::s_pack_data`:
the node header, then the base members. -/
def base_node.s_pack_data (E : Externals) (version : Nat) (b : base_node)
    (buffer : Buffer) : Buffer :=
  poke (datanode_t.s_pack_data E version buffer) (datanode_t.s_data_size E) (E.base.enc b)

/-- Modelled from the spec: basenode.h is absent. The static
`base_node<node_t>::s_data_size(buffer)`. -/
def base_node.s_data_size_buf (E : Externals) (buffer : Buffer) : Nat :=
  datanode_t.s_data_size E + E.base.size (buffer.drop (datanode_t.s_data_size E))

/-- Modelled from the spec: basenode.h is absent. `base_node<node_t>::s_unpack_data`. -/
def base_node.s_unpack_data (E : Externals) (buffer : Buffer) : base_node :=
  E.base.dec (buffer.drop (datanode_t.s_data_size E))

/-- Modelled from the spec: serialize.h is absent. `serialize(ptr, tstamp)`. -/
def serialize_tstamp (E : Externals) (t : tstamp_t) (c : Buffer × Nat) : Buffer × Nat :=
  store (E.tstamp.enc t) c

/-- Modelled from the spec: serialize.h is absent. `s_size_of<tstamp_t>(ptr)`. -/
def s_size_of_tstamp_buf (E : Externals) (buf : Buffer) (ptr : Nat) : Nat :=
  E.tstamp.size (buf.drop ptr)

/-- Modelled from the spec: serialize.h is absent. `deserialize(ptr, tstamp)`. -/
def deserialize_tstamp (E : Externals) (buf : Buffer) (ptr : Nat) : tstamp_t × Nat :=
  (E.tstamp.dec (buf.drop ptr), ptr + s_size_of_tstamp_buf E buf ptr)

/-! ## Host nodes (hnode.cpp) -/

/-- Modelled from the spec: vnode.h is absent. An active visit (spec 3), with the
members the sources at hand use: the node id it shares with its host, the dirty
flag and the count of hosts that refer to it. -/
structure vnode_t where
  nodeid : Nat
  dirty : Bool
  hostref : Nat
deriving DecidableEq, Repr

/-- The host node `hnode_t`. The members read in hnode.cpp; `base`, `nodeid` and
`dirty` are inherited from `base_node<hnode_t>`. A null `visit` is `none`, a null
`grp_visit` the empty chain. -/
structure hnode_t where
  base : base_node
  nodeid : Nat
  dirty : Bool
  spammer : Bool
  robot : Bool
  count : Nat
  files : Nat
  pages : Nat
  xfer : Nat
  visits : Nat
  visits_conv : Nat
  visit_avg : Nat
  visit_max : Nat
  max_v_hits : Nat
  max_v_files : Nat
  max_v_pages : Nat
  max_v_xfer : Nat
  name : string_t
  ccode : List Nat
  tstamp : tstamp_t
  city : string_t
  visit : Option vnode_t
  grp_visit : List vnode_t
  dlref : Nat
deriving DecidableEq, Repr

/-- The constant `hnode_t::ccode_size`. -/
def hnode_t.ccode_size : Nat := 2

/-- Every member of the host node holds a value of its C type. -/
def hnode_t.valid (E : Externals) (h : hnode_t) : Bool :=
  E.base.valid h.base && E.tstamp.valid h.tstamp &&
  decide (h.count < 2 ^ 64) && decide (h.files < 2 ^ 64) && decide (h.pages < 2 ^ 64) &&
  decide (h.xfer < 2 ^ 64) && decide (h.visits < 2 ^ 64) && decide (h.visits_conv < 2 ^ 64) &&
  decide (h.visit_avg < 2 ^ 64) && decide (h.visit_max < 2 ^ 64) &&
  decide (h.max_v_hits < 2 ^ 64) && decide (h.max_v_files < 2 ^ 64) &&
  decide (h.max_v_pages < 2 ^ 64) && decide (h.max_v_xfer < 2 ^ 64) &&
  string_valid h.name && string_valid h.city &&
  decide (h.ccode.length = hnode_t.ccode_size) && h.ccode.all (fun ch => decide (ch < 256))

/-- The function `hnode_t::hnode_t(void)`. -/
def hnode_t.new (E : Externals) (b : base_node) : hnode_t :=
  { base := b, nodeid := 0, dirty := false, spammer := false, robot := false,
    count := 0, files := 0, pages := 0, xfer := 0, visits := 0, visits_conv := 0,
    visit_avg := 0, visit_max := 0, max_v_hits := 0, max_v_files := 0,
    max_v_pages := 0, max_v_xfer := 0, name := [], ccode := [0, 0],
    tstamp := E.tstamp_reset, city := [], visit := none, grp_visit := [], dlref := 0 }

/-- The function `hnode_t::s_hash_value`, inherited from `base_node<hnode_t>`. -/
def hnode_t.s_hash_value (E : Externals) (self : hnode_t) : Nat :=
  E.base_hash_value self.base

/-- The function `hnode_t::s_data_size(void) const`. -/
def hnode_t.s_data_size (E : Externals) (self : hnode_t) : Nat :=
  base_node.s_data_size E self.base +
    1 * 3 +
    8 * 3 +
    8 * 3 +
    8 * 3 +
    8 +
    (E.tstamp.enc self.tstamp).length +
    8 +
    8 * 2 +
    s_size_of_string self.name +
    hnode_t.ccode_size +
    s_size_of_string self.city

/-- The function `hnode_t::s_pack_data`: the bytes written and the buffer after. -/
def hnode_t.s_pack_data (E : Externals) (self : hnode_t) (buffer : Buffer) (bufsize : Nat) :
    Nat × Buffer :=
  let basesize := base_node.s_data_size E self.base
  let datasize := hnode_t.s_data_size E self
  if bufsize < datasize then (0, buffer)
  else
    let c : Buffer × Nat := (base_node.s_pack_data E E.hnode_version self.base buffer, basesize)
    let c := serialize_bool self.spammer c
    let c := serialize_num 8 self.count c
    let c := serialize_num 8 self.files c
    let c := serialize_num 8 self.pages c
    let c := serialize_num 8 self.xfer c
    let c := serialize_num 8 self.visits c
    let c := serialize_double self.visit_avg c
    let c := serialize_num 8 self.visit_max c
    let c := serialize_num 8 self.max_v_hits c
    let c := serialize_num 8 self.max_v_files c
    let c := serialize_num 8 self.max_v_pages c
    let c := serialize_num 8 self.max_v_xfer c
    let c := serialize_bool self.visit.isSome c
    let c := serialize_num 8 (hnode_t.s_hash_value E self) c
    let c := serialize_string self.name c
    let c := serialize_chars (self.ccode.take hnode_t.ccode_size) c
    let c := serialize_bool self.robot c
    let c := serialize_num 8 self.visits_conv c
    let c := serialize_tstamp E self.tstamp c
    let c := serialize_string self.city c
    (datasize, c.1)

/-- The static function `hnode_t::s_data_size(const void *buffer)`. -/
def hnode_t.s_data_size_buf (E : Externals) (buffer : Buffer) : Nat :=
  let version := s_node_ver buffer
  let datasize := base_node.s_data_size_buf E buffer +
    1 * 2 +
    8 * 3 +
    8 * 2 +
    8 * 3 +
    8 +
    8 +
    8 * 2
  let datasize := datasize + s_size_of_string_buf buffer datasize + hnode_t.ccode_size
  if version < 2 then datasize
  else
    let datasize := datasize + 1
    if version < 3 then datasize
    else
      let datasize := datasize + 8
      if version < 4 then datasize
      else
        let datasize :=
          if version < 5 then datasize + 8
          else datasize + s_size_of_tstamp_buf E buffer datasize
        if version < 6 then datasize
        else datasize + s_size_of_string_buf buffer datasize

/-- The function `hnode_t::s_unpack_data`: the bytes read and the node after. The
callback gets the node and the stored active flag. -/
def hnode_t.s_unpack_data (E : Externals) (self : hnode_t) (buffer : Buffer) (bufsize : Nat)
    (upcb : Option (hnode_t → Bool → hnode_t)) : Nat × hnode_t :=
  let basesize := base_node.s_data_size_buf E buffer
  let datasize := hnode_t.s_data_size_buf E buffer
  if bufsize < datasize then (0, self)
  else
    let version := s_node_ver buffer
    let base := base_node.s_unpack_data E buffer
    let ptr := basesize
    let spammer := deserialize_bool buffer ptr
    let count := deserialize_num 8 buffer spammer.2
    let files := deserialize_num 8 buffer count.2
    let pages := deserialize_num 8 buffer files.2
    let xfer := deserialize_num 8 buffer pages.2
    let visits := deserialize_num 8 buffer xfer.2
    let visit_avg := deserialize_double buffer visits.2
    let visit_max := deserialize_num 8 buffer visit_avg.2
    let max_v_hits := deserialize_num 8 buffer visit_max.2
    let max_v_files := deserialize_num 8 buffer max_v_hits.2
    let max_v_pages := deserialize_num 8 buffer max_v_files.2
    let max_v_xfer := deserialize_num 8 buffer max_v_pages.2
    let active := deserialize_bool buffer max_v_xfer.2
    let ptr := s_skip_field 8 active.2
    let name := deserialize_string buffer ptr
    let ccode := deserialize_chars hnode_t.ccode_size buffer name.2
    let robot := if version ≥ 2 then deserialize_bool buffer ccode.2 else (false, ccode.2)
    let visits_conv := if version ≥ 3 then deserialize_num 8 buffer robot.2 else (0, robot.2)
    let tstamp :=
      if version ≥ 4 then
        if version ≥ 5 then deserialize_tstamp E buffer visits_conv.2
        else
          let tmp := deserialize_num 8 buffer visits_conv.2
          (E.tstamp_reset_time tmp.1, tmp.2)
      else (E.tstamp_reset, visits_conv.2)
    let city := if version ≥ 6 then (deserialize_string buffer tstamp.2).1 else []
    let node : hnode_t :=
      { self with
        base := base, spammer := spammer.1, count := count.1, files := files.1,
        pages := pages.1, xfer := xfer.1, visits := visits.1, visit_avg := visit_avg.1,
        visit_max := visit_max.1, max_v_hits := max_v_hits.1, max_v_files := max_v_files.1,
        max_v_pages := max_v_pages.1, max_v_xfer := max_v_xfer.1, name := name.1,
        ccode := ccode.1, robot := robot.1, visits_conv := visits_conv.1,
        tstamp := tstamp.1, city := city, visit := none }
    match upcb with
    | some cb => (datasize, cb node active.1)
    | none => (datasize, node)

/-- The function `hnode_t::s_field_value_hash`: the offset of the field and its size. -/
def hnode_t.s_field_value_hash (E : Externals) (buffer : Buffer) : Nat × Nat :=
  (base_node.s_data_size_buf E buffer + 1 * 2 + 8 * 3 + 8 * 2 + 8 * 3 + 8 + 8 * 2, 8)

/-- The function `hnode_t::s_field_xfer`: the offset of the field and its size. -/
def hnode_t.s_field_xfer (E : Externals) (buffer : Buffer) : Nat × Nat :=
  (base_node.s_data_size_buf E buffer + 1 + 8 * 3, 8)

/-- The function `hnode_t::s_field_hits`: the offset of the field and its size. -/
def hnode_t.s_field_hits (E : Externals) (buffer : Buffer) : Nat × Nat :=
  (base_node.s_data_size_buf E buffer + 1, 8)

/-- The bytes of a packed host node that follow the base members, field by field
in the order `hnode_t::s_pack_data` stores them. -/
def hnode_t.payload (E : Externals) (v : hnode_t) : List Nat :=
  le_bytes 1 (if v.spammer then 1 else 0) ++ (le_bytes 8 v.count ++ (le_bytes 8 v.files ++
  (le_bytes 8 v.pages ++ (le_bytes 8 v.xfer ++ (le_bytes 8 v.visits ++
  (le_bytes 8 v.visit_avg ++ (le_bytes 8 v.visit_max ++ (le_bytes 8 v.max_v_hits ++
  (le_bytes 8 v.max_v_files ++ (le_bytes 8 v.max_v_pages ++ (le_bytes 8 v.max_v_xfer ++
  (le_bytes 1 (if v.visit.isSome then 1 else 0) ++ (le_bytes 8 (hnode_t.s_hash_value E v) ++
  (string_bytes v.name ++ (v.ccode.take hnode_t.ccode_size ++
  (le_bytes 1 (if v.robot then 1 else 0) ++ (le_bytes 8 v.visits_conv ++
  (E.tstamp.enc v.tstamp ++ string_bytes v.city))))))))))))))))))

/-- The bytes of a packed node up to the end of the base members: the node header
and the base members. -/
def base_node.record (E : Externals) (version : Nat) (b : base_node) : List Nat :=
  le_bytes 2 version ++ (E.hdr_rest ++ E.base.enc b)

/-! ## Error nodes (rcnode.cpp) -/

/-- The error node `rcnode_t`: rcnode.h is absent, the members are those read in
rcnode.cpp; `base`, `nodeid` and `dirty` are inherited from `base_node<rcnode_t>`. -/
structure rcnode_t where
  base : base_node
  nodeid : Nat
  dirty : Bool
  count : Nat
  hexenc : Bool
  method : string_t
  respcode : Nat
deriving DecidableEq, Repr

/-- Every member of the error node holds a value of its C type. -/
def rcnode_t.valid (E : Externals) (e : rcnode_t) : Bool :=
  E.base.valid e.base && decide (e.count < 2 ^ 64) && decide (e.respcode < 2 ^ 16) &&
  string_valid e.method

/-- The function `rcnode_t::s_data_size(void) const`. -/
def rcnode_t.s_data_size (E : Externals) (self : rcnode_t) : Nat :=
  base_node.s_data_size E self.base + 1 + 2 + 8 * 2 + s_size_of_string self.method

/-- The function `rcnode_t::s_hash_value`. -/
def rcnode_t.s_hash_value (E : Externals) (self : rcnode_t) : Nat :=
  E.hash_str (E.hash_num (E.base_hash_value self.base) self.respcode) self.method

/-- The function `rcnode_t::s_pack_data`: the bytes written and the buffer after. -/
def rcnode_t.s_pack_data (E : Externals) (self : rcnode_t) (buffer : Buffer) (bufsize : Nat) :
    Nat × Buffer :=
  let basesize := base_node.s_data_size E self.base
  let datasize := rcnode_t.s_data_size E self
  if bufsize < datasize then (0, buffer)
  else
    let c : Buffer × Nat := (base_node.s_pack_data E E.rcnode_version self.base buffer, basesize)
    let c := serialize_bool self.hexenc c
    let c := serialize_num 2 self.respcode c
    let c := serialize_num 8 self.count c
    let c := serialize_string self.method c
    let c := serialize_num 8 (rcnode_t.s_hash_value E self) c
    (datasize, c.1)

/-- The static function `rcnode_t::s_data_size(const void *buffer)`. -/
def rcnode_t.s_data_size_buf (E : Externals) (buffer : Buffer) : Nat :=
  let basesize := base_node.s_data_size_buf E buffer
  basesize + 1 + 2 + 8 * 2 + s_size_of_string_buf buffer (basesize + 1 + 2 + 8)

/-- The function `rcnode_t::s_unpack_data`: the bytes read and the node after. -/
def rcnode_t.s_unpack_data (E : Externals) (self : rcnode_t) (buffer : Buffer) (bufsize : Nat)
    (upcb : Option (rcnode_t → rcnode_t)) : Nat × rcnode_t :=
  let basesize := base_node.s_data_size_buf E buffer
  let datasize := rcnode_t.s_data_size_buf E buffer
  if bufsize < datasize then (0, self)
  else
    let base := base_node.s_unpack_data E buffer
    let ptr := basesize
    let hexenc := deserialize_bool buffer ptr
    let respcode := deserialize_num 2 buffer hexenc.2
    let count := deserialize_num 8 buffer respcode.2
    let method := deserialize_string buffer count.2
    let node : rcnode_t :=
      { self with base := base, hexenc := hexenc.1, respcode := respcode.1, count := count.1,
                  method := method.1 }
    match upcb with
    | some cb => (datasize, cb node)
    | none => (datasize, node)

/-- The function `rcnode_t::s_field_value_mp_method`: the offset of the field and its
size. -/
def rcnode_t.s_field_value_mp_method (E : Externals) (buffer : Buffer) : Nat × Nat :=
  let ptr := base_node.s_data_size_buf E buffer + 1 + 2 + 8
  (ptr, s_size_of_string_buf buffer ptr)

/-- The function `rcnode_t::s_field_value_mp_respcode`: the offset of the field and
its size. -/
def rcnode_t.s_field_value_mp_respcode (E : Externals) (buffer : Buffer) : Nat × Nat :=
  (base_node.s_data_size_buf E buffer + 1, 2)

/-- The function `rcnode_t::s_field_value_hash`: the offset of the field and its size. -/
def rcnode_t.s_field_value_hash (E : Externals) (buffer : Buffer) : Nat × Nat :=
  let ptr := base_node.s_data_size_buf E buffer + 1 + 2 + 8
  (ptr + s_size_of_string_buf buffer ptr, 8)

/-- The function `rcnode_t::s_field_hits`: the offset of the field and its size. -/
def rcnode_t.s_field_hits (E : Externals) (buffer : Buffer) : Nat × Nat :=
  (base_node.s_data_size_buf E buffer + 1 + 2, 8)

/-- The bytes of a packed error node that follow the base members, field by field
in the order `rcnode_t::s_pack_data` stores them. -/
def rcnode_t.payload (E : Externals) (e : rcnode_t) : List Nat :=
  le_bytes 1 (if e.hexenc then 1 else 0) ++ (le_bytes 2 e.respcode ++ (le_bytes 8 e.count ++
  (string_bytes e.method ++ le_bytes 8 (rcnode_t.s_hash_value E e))))

/-! ## Active download nodes (danode.cpp) -/

/-- The active download node `danode_t` (danode.h); `nodeid` is inherited from
`keynode_t<uint64_t>`, `dirty` from `datanode_t<danode_t>`. -/
structure danode_t where
  nodeid : Nat
  dirty : Bool
  hits : Nat
  tstamp : tstamp_t
  proctime : Nat
  xfer : Nat
deriving DecidableEq, Repr

/-- Every member of the active download node holds a value of its C type. -/
def danode_t.valid (E : Externals) (a : danode_t) : Bool :=
  E.tstamp.valid a.tstamp && decide (a.hits < 2 ^ 64) && decide (a.proctime < 2 ^ 64) &&
  decide (a.xfer < 2 ^ 64)

/-- The function `danode_t::s_data_size(void) const`. -/
def danode_t.s_data_size (E : Externals) (self : danode_t) : Nat :=
  datanode_t.s_data_size E + 8 * 3 + (E.tstamp.enc self.tstamp).length

/-- The function `danode_t::s_pack_data`: the bytes written and the buffer after. -/
def danode_t.s_pack_data (E : Externals) (self : danode_t) (buffer : Buffer) (bufsize : Nat) :
    Nat × Buffer :=
  let basesize := datanode_t.s_data_size E
  let datasize := danode_t.s_data_size E self
  if bufsize < danode_t.s_data_size E self then (0, buffer)
  else
    let c : Buffer × Nat := (datanode_t.s_pack_data E E.danode_version buffer, basesize)
    let c := serialize_num 8 self.hits c
    let c := serialize_tstamp E self.tstamp c
    let c := serialize_num 8 self.proctime c
    let c := serialize_num 8 self.xfer c
    (datasize, c.1)

/-- The static function `danode_t::s_data_size(const void *buffer)`. -/
def danode_t.s_data_size_buf (E : Externals) (buffer : Buffer) : Nat :=
  let version := s_node_ver buffer
  let datasize := datanode_t.s_data_size E + 8
  let datasize :=
    if version < 2 then datasize + 8
    else datasize + s_size_of_tstamp_buf E buffer datasize
  datasize + 8 * 2

/-- The function `danode_t::s_unpack_data`: the bytes read and the node after. The
call of `datanode_t<danode_t>::s_unpack_data`, declared outside the sources at hand,
reads the node header, which has no member of its own in this model. -/
def danode_t.s_unpack_data (E : Externals) (self : danode_t) (buffer : Buffer) (bufsize : Nat)
    (upcb : Option (danode_t → danode_t)) : Nat × danode_t :=
  let basesize := datanode_t.s_data_size E
  let datasize := danode_t.s_data_size_buf E buffer
  if bufsize < datasize then (0, self)
  else
    let version := s_node_ver buffer
    let ptr := basesize
    let hits := deserialize_num 8 buffer ptr
    let tstamp :=
      if version ≥ 2 then deserialize_tstamp E buffer hits.2
      else
        let tmp := deserialize_num 8 buffer hits.2
        (E.tstamp_reset_time tmp.1, tmp.2)
    let proctime := deserialize_num 8 buffer tstamp.2
    let xfer := deserialize_num 8 buffer proctime.2
    let node : danode_t :=
      { self with hits := hits.1, tstamp := tstamp.1, proctime := proctime.1, xfer := xfer.1 }
    match upcb with
    | some cb => (datasize, cb node)
    | none => (datasize, node)

/-- The bytes of a packed active download node that follow the node header. -/
def danode_t.payload (E : Externals) (a : danode_t) : List Nat :=
  le_bytes 8 a.hits ++ (E.tstamp.enc a.tstamp ++ (le_bytes 8 a.proctime ++ le_bytes 8 a.xfer))

/-- The node header as stored by `datanode_t<node_t>::s_pack_data`. -/
def datanode_t.record (E : Externals) (version : Nat) : List Nat :=
  le_bytes 2 version ++ E.hdr_rest

/-! ## Daily totals (daily.cpp) -/

/-- The daily totals node `daily_t`: daily.h is absent, the members are those read in
daily.cpp; `nodeid` is inherited from `keynode_t<u_int>`, `dirty` from
`datanode_t<daily_t>`. The `double` members are `tm_xfer`, `h_xfer_max` and the six
averages. -/
structure daily_t where
  nodeid : Nat
  dirty : Bool
  td_hours : Nat
  tm_hits : Nat
  tm_files : Nat
  tm_pages : Nat
  tm_hosts : Nat
  tm_visits : Nat
  tm_xfer : Nat
  h_hits_max : Nat
  h_files_max : Nat
  h_pages_max : Nat
  h_xfer_max : Nat
  h_visits_max : Nat
  h_hosts_max : Nat
  h_hits_avg : Nat
  h_files_avg : Nat
  h_pages_avg : Nat
  h_xfer_avg : Nat
  h_visits_avg : Nat
  h_hosts_avg : Nat
deriving DecidableEq, Repr

/-- The function `daily_t::daily_t(u_int month)`. -/
def daily_t.new (month : Nat) : daily_t :=
  { nodeid := month, dirty := false, td_hours := 0,
    tm_hits := 0, tm_files := 0, tm_pages := 0, tm_hosts := 0, tm_visits := 0, tm_xfer := 0,
    h_hits_max := 0, h_files_max := 0, h_pages_max := 0, h_xfer_max := 0, h_visits_max := 0,
    h_hosts_max := 0, h_hits_avg := 0, h_files_avg := 0, h_pages_avg := 0, h_xfer_avg := 0,
    h_visits_avg := 0, h_hosts_avg := 0 }

/-- The function `daily_t::s_data_size(void) const`. -/
def daily_t.s_data_size (E : Externals) : Nat :=
  datanode_t.s_data_size E + E.sizeof_u_long * 10 + 8 * 8 + 2

/-- The function `daily_t::s_pack_data`: the bytes written and the buffer after. -/
def daily_t.s_pack_data (E : Externals) (self : daily_t) (buffer : Buffer) (bufsize : Nat) :
    Nat × Buffer :=
  let datasize := daily_t.s_data_size E
  if bufsize < datasize then (0, buffer)
  else
    let c : Buffer × Nat :=
      (datanode_t.s_pack_data E E.daily_version buffer, datanode_t.s_data_size E)
    let c := serialize_num E.sizeof_u_long self.tm_hits c
    let c := serialize_num E.sizeof_u_long self.tm_files c
    let c := serialize_num E.sizeof_u_long self.tm_pages c
    let c := serialize_num E.sizeof_u_long self.tm_hosts c
    let c := serialize_num E.sizeof_u_long self.tm_visits c
    let c := serialize_double self.tm_xfer c
    let c := serialize_num E.sizeof_u_long self.h_hits_max c
    let c := serialize_num E.sizeof_u_long self.h_files_max c
    let c := serialize_num E.sizeof_u_long self.h_pages_max c
    let c := serialize_double self.h_xfer_max c
    let c := serialize_num E.sizeof_u_long self.h_visits_max c
    let c := serialize_num E.sizeof_u_long self.h_hosts_max c
    let c := serialize_double self.h_hits_avg c
    let c := serialize_double self.h_files_avg c
    let c := serialize_double self.h_pages_avg c
    let c := serialize_double self.h_xfer_avg c
    let c := serialize_double self.h_visits_avg c
    let c := serialize_double self.h_hosts_avg c
    let c := serialize_num 2 self.td_hours c
    (datasize, c.1)

/-- The static function `daily_t::s_data_size(const void *buffer, bool fixver)`. -/
def daily_t.s_data_size_buf (E : Externals) (buffer : Buffer) (fixver : Bool) : Nat :=
  let version := s_node_ver buffer
  let datasize := datanode_t.s_data_size E + E.sizeof_u_long * 5 + 8
  if fixver || decide (version < 2) then datasize
  else datasize + 2 + E.sizeof_u_long * 5 + 8 * 7

/-- The function `daily_t::s_unpack_data`: the bytes read and the node after. The
callback argument `arg` is the pointer value; -1 is the fix-version hint. -/
def daily_t.s_unpack_data (E : Externals) (self : daily_t) (buffer : Buffer) (bufsize : Nat)
    (upcb : Option (daily_t → daily_t)) (arg : Int) : Nat × daily_t :=
  let fixver : Bool := decide (arg = -1)
  let datasize := daily_t.s_data_size_buf E buffer fixver
  if bufsize < datasize then (0, self)
  else
    let version := if fixver then 1 else s_node_ver buffer
    let ptr := if fixver then 0 else datanode_t.s_data_size E
    let tm_hits := deserialize_num E.sizeof_u_long buffer ptr
    let tm_files := deserialize_num E.sizeof_u_long buffer tm_hits.2
    let tm_pages := deserialize_num E.sizeof_u_long buffer tm_files.2
    let tm_hosts := deserialize_num E.sizeof_u_long buffer tm_pages.2
    let tm_visits := deserialize_num E.sizeof_u_long buffer tm_hosts.2
    let tm_xfer := deserialize_double buffer tm_visits.2
    let self : daily_t :=
      { self with tm_hits := tm_hits.1, tm_files := tm_files.1, tm_pages := tm_pages.1,
                  tm_hosts := tm_hosts.1, tm_visits := tm_visits.1, tm_xfer := tm_xfer.1 }
    let node : daily_t :=
      if version ≥ 2 then
        let h_hits_max := deserialize_num E.sizeof_u_long buffer tm_xfer.2
        let h_files_max := deserialize_num E.sizeof_u_long buffer h_hits_max.2
        let h_pages_max := deserialize_num E.sizeof_u_long buffer h_files_max.2
        let h_xfer_max := deserialize_double buffer h_pages_max.2
        let h_visits_max := deserialize_num E.sizeof_u_long buffer h_xfer_max.2
        let h_hosts_max := deserialize_num E.sizeof_u_long buffer h_visits_max.2
        let h_hits_avg := deserialize_double buffer h_hosts_max.2
        let h_files_avg := deserialize_double buffer h_hits_avg.2
        let h_pages_avg := deserialize_double buffer h_files_avg.2
        let h_xfer_avg := deserialize_double buffer h_pages_avg.2
        let h_visits_avg := deserialize_double buffer h_xfer_avg.2
        let h_hosts_avg := deserialize_double buffer h_visits_avg.2
        let td_hours := deserialize_num 2 buffer h_hosts_avg.2
        { self with h_hits_max := h_hits_max.1, h_files_max := h_files_max.1,
                    h_pages_max := h_pages_max.1, h_xfer_max := h_xfer_max.1,
                    h_visits_max := h_visits_max.1, h_hosts_max := h_hosts_max.1,
                    h_hits_avg := h_hits_avg.1, h_files_avg := h_files_avg.1,
                    h_pages_avg := h_pages_avg.1, h_xfer_avg := h_xfer_avg.1,
                    h_visits_avg := h_visits_avg.1, h_hosts_avg := h_hosts_avg.1,
                    td_hours := td_hours.1 }
      else
        { self with h_hits_max := 0, h_files_max := 0, h_pages_max := 0, h_visits_max := 0,
                    h_hits_avg := 0, h_files_avg := 0, h_pages_avg := 0, h_visits_avg := 0,
                    h_xfer_max := 0, h_xfer_avg := 0, td_hours := 0 }
    match upcb with
    | some cb => (datasize, cb node)
    | none => (datasize, node)

/-- The six per-day totals of a legacy daily record, stored without a node header
(the comment on the daily fix in `state_t::upgrade_database`). -/
def daily_t.legacy_record (E : Externals) (hits files pages hosts visits xfer : Nat) :
    List Nat :=
  le_bytes E.sizeof_u_long hits ++ (le_bytes E.sizeof_u_long files ++
  (le_bytes E.sizeof_u_long pages ++ (le_bytes E.sizeof_u_long hosts ++
  (le_bytes E.sizeof_u_long visits ++ le_bytes 8 xfer))))

/-- The bytes of a packed daily totals node that follow the node header. -/
def daily_t.payload (E : Externals) (d : daily_t) : List Nat :=
  le_bytes E.sizeof_u_long d.tm_hits ++ (le_bytes E.sizeof_u_long d.tm_files ++
  (le_bytes E.sizeof_u_long d.tm_pages ++ (le_bytes E.sizeof_u_long d.tm_hosts ++
  (le_bytes E.sizeof_u_long d.tm_visits ++ (le_bytes 8 d.tm_xfer ++
  (le_bytes E.sizeof_u_long d.h_hits_max ++ (le_bytes E.sizeof_u_long d.h_files_max ++
  (le_bytes E.sizeof_u_long d.h_pages_max ++ (le_bytes 8 d.h_xfer_max ++
  (le_bytes E.sizeof_u_long d.h_visits_max ++ (le_bytes E.sizeof_u_long d.h_hosts_max ++
  (le_bytes 8 d.h_hits_avg ++ (le_bytes 8 d.h_files_avg ++ (le_bytes 8 d.h_pages_avg ++
  (le_bytes 8 d.h_xfer_avg ++ (le_bytes 8 d.h_visits_avg ++ (le_bytes 8 d.h_hosts_avg ++
  le_bytes 2 d.td_hours)))))))))))))))))

/-! ## Status code nodes (scnode.cpp) -/

/-- The status code node `scnode_t`: scnode.h is absent, the members are those read
in scnode.cpp. -/
structure scnode_t where
  code : Nat
  count : Nat
  dirty : Bool
deriving DecidableEq, Repr

/-- The function `scnode_t::s_data_size(void) const`. -/
def scnode_t.s_data_size (E : Externals) : Nat :=
  datanode_t.s_data_size E + E.sizeof_u_long

/-- The function `scnode_t::s_pack_data`: the bytes written and the buffer after. -/
def scnode_t.s_pack_data (E : Externals) (self : scnode_t) (buffer : Buffer) (bufsize : Nat) :
    Nat × Buffer :=
  let datasize := scnode_t.s_data_size E
  if bufsize < scnode_t.s_data_size E then (0, buffer)
  else
    let c := serialize_num E.sizeof_u_long self.count (buffer, 0)
    (datasize, c.1)

/-- The static function `scnode_t::s_data_size(const void *buffer)`. -/
def scnode_t.s_data_size_buf (E : Externals) (_buffer : Buffer) : Nat :=
  datanode_t.s_data_size E + E.sizeof_u_long

/-- The function `scnode_t::s_unpack_data`: the bytes read and the node after. The
callback is not called. -/
def scnode_t.s_unpack_data (E : Externals) (self : scnode_t) (buffer : Buffer) (bufsize : Nat) :
    Nat × scnode_t :=
  let datasize := scnode_t.s_data_size_buf E buffer
  if bufsize < datasize then (0, self)
  else
    let count := deserialize_num E.sizeof_u_long buffer 0
    (datasize, { self with count := count.1 })

/-! ## Nodes and tables of the state (preserve.cpp, hashtab.h) -/

/-- Modelled from the spec: unode.h is absent. A URL node (spec 3) with the members
that preserve.cpp reads: the dirty flag and the count of active visits that refer
to the URL. -/
structure unode_t where
  base : base_node
  nodeid : Nat
  dirty : Bool
  vstref : Nat
deriving DecidableEq, Repr

/-- Modelled from the spec: rnode.h is absent. A referrer node; preserve.cpp reads
its dirty flag. -/
structure rnode_t where
  base : base_node
  nodeid : Nat
  dirty : Bool
deriving DecidableEq, Repr

/-- Modelled from the spec: anode.h is absent. A user agent node; preserve.cpp reads
its dirty flag. -/
structure anode_t where
  base : base_node
  nodeid : Nat
  dirty : Bool
deriving DecidableEq, Repr

/-- The search string node `snode_t` (snode.h). -/
structure snode_t where
  base : base_node
  nodeid : Nat
  dirty : Bool
  termcnt : Nat
  count : Nat
  visits : Nat
deriving DecidableEq, Repr

/-- The user node `inode_t` (inode.h); the two times are `double`. -/
structure inode_t where
  base : base_node
  nodeid : Nat
  dirty : Bool
  count : Nat
  files : Nat
  visit : Nat
  tstamp : tstamp_t
  xfer : Nat
  avgtime : Nat
  maxtime : Nat
deriving DecidableEq, Repr

/-- Modelled from the spec: dlnode.h is absent. A download node (spec 3) with the
members that preserve.cpp reads: the dirty flag and the active download record it
owns, `none` for a null pointer. -/
structure dlnode_t where
  base : base_node
  nodeid : Nat
  dirty : Bool
  download : Option danode_t
deriving DecidableEq, Repr

/-- The country node `ccnode_t` (ccnode.h). -/
structure ccnode_t where
  nodeid : Nat
  dirty : Bool
  ccode : string_t
  cdesc : string_t
  count : Nat
  files : Nat
  pages : Nat
  visits : Nat
  xfer : Nat
deriving DecidableEq, Repr

/-- Modelled from the spec: hourly.h is absent. The hourly totals (spec 3: hits,
files, pages, xfer). -/
structure hourly_t where
  nodeid : Nat
  dirty : Bool
  th_hits : Nat
  th_files : Nat
  th_pages : Nat
  th_xfer : Nat
deriving DecidableEq, Repr

/-- Modelled from the spec: totals.h is absent. The members of `totals_t` that
preserve.cpp reads. -/
structure totals_t where
  cur_tstamp : tstamp_t
  f_day : Nat := 0
  l_day : Nat := 0
  t_hit : Nat := 0
  t_file : Nat := 0
  t_page : Nat := 0
  t_visits : Nat := 0
  t_hosts : Nat := 0
  t_xfer : Nat := 0
  t_url : Nat := 0
  t_ref : Nat := 0
  t_agent : Nat := 0
  t_user : Nat := 0
  t_srchits : Nat := 0
  t_search : Nat := 0
  t_dlcount : Nat := 0
  t_downloads : Nat := 0
  t_grp_hosts : Nat := 0
  t_grp_urls : Nat := 0
  t_grp_users : Nat := 0
  t_grp_refs : Nat := 0
  t_grp_agents : Nat := 0
  ht_hits : Nat := 0
  ht_files : Nat := 0
  ht_pages : Nat := 0
  ht_xfer : Nat := 0
  ht_visits : Nat := 0
  ht_hosts : Nat := 0
  hm_hit : Nat := 0
  dt_hosts : Nat := 0
deriving DecidableEq, Repr

/-- Modelled from the spec: sysnode.h is absent. The members of `sysnode_t` that
preserve.cpp reads (spec 3, Sysnode). -/
structure sysnode_t where
  appver : Nat
  appver_last : Nat
  incremental : Bool
  batch : Bool
  fixed_dhv : Bool
  utc_time : Bool
  utc_offset : Int
  sizeof_char : Nat
  sizeof_short : Nat
  sizeof_int : Nat
  sizeof_long : Nat
  sizeof_double : Nat
  byte_order : Nat
deriving DecidableEq, Repr

/-- Modelled from the spec: config.h is absent. The members of `config_t` that
preserve.cpp reads; `resp_codes` are the status codes of the language table and
`ctry` its country codes with their names. -/
structure config_t where
  incremental : Bool
  batch : Bool
  prep_report : Bool
  end_month : Bool
  compact_db : Bool
  db_info : Bool
  memory_mode : Bool
  ignore_hist : Bool
  db_trickle_rate : Nat
  resp_codes : List Nat
  ctry : List (string_t × string_t)
deriving DecidableEq, Repr

/-- The class `hash_table` (hashtab.h): the buckets, each a chain from its head, the
`swap` and `cleared` flags and whether swap-out callbacks are installed. -/
structure hash_table (ν : Type) where
  htab : List (List ν)
  swap : Bool
  cleared : Bool
  cb_set : Bool
deriving DecidableEq, Repr

/-- The nodes of a table in the order in which `hash_table::iterator::next` returns
them: buckets by ascending index, each chain from its head. -/
def hash_table.nodes {ν : Type} (t : hash_table ν) : List ν :=
  t.htab.flatten

/-- The function `hash_table::set_cleared`. -/
def hash_table.set_cleared {ν : Type} (t : hash_table ν) (value : Bool) : hash_table ν :=
  { t with cleared := value }

/-- The function `hash_table::set_swapped_out`. -/
def hash_table.set_swapped_out {ν : Type} (t : hash_table ν) (value : Bool) : hash_table ν :=
  { t with swap := value }

/-- Modelled from the spec: hashtab_tmpl.cpp is absent. `hash_table::set_swap_out_cb`
installs the evaluation and swap-out callbacks. -/
def hash_table.set_swap_out_cb {ν : Type} (t : hash_table ν) : hash_table ν :=
  { t with cb_set := true }

/-- Modelled from the spec: hashtab_tmpl.cpp is absent. `hash_table::clear` (spec 4.2,
bulk clear) empties every bucket; the table "has been emptied but the database may
still hold rows" (`cleared`) and nothing is swapped out "since last clear". -/
def hash_table.clear {ν : Type} (t : hash_table ν) : hash_table ν :=
  { t with htab := t.htab.map (fun _ => []), cleared := true, swap := false }

/-- Modelled from the spec: hashtab_tmpl.cpp is absent. `hash_table::put_node` (spec
4.2): the node is inserted at the head of the bucket of its hash value. -/
def hash_table.put_node {ν : Type} (t : hash_table ν) (hashval : Nat) (n : ν) : hash_table ν :=
  { t with htab := t.htab.modify (fun b => n :: b) (hashval % t.htab.length) }

/-- The status code table `sc_hash_table` (scnode.cpp): the codes in ascending order
behind the unknown code, and the index of the first code of each class. -/
structure sc_hash_table where
  stcodes : List scnode_t
  clsindex : List Nat
deriving DecidableEq, Repr

/-- The function `sc_hash_table::sc_hash_table`. -/
def sc_hash_table.new : sc_hash_table :=
  { stcodes := [{ code := 0, count := 0, dirty := false }], clsindex := [0, 0, 0, 0, 0, 0] }

/-- The function `sc_hash_table::add_status_code`. -/
def sc_hash_table.add_status_code (t : sc_hash_table) (code : Nat) : sc_hash_table :=
  let cls := code / 100
  if cls < 1 ∨ cls > 5 then t
  else if t.stcodes.length ≠ 0 ∧ code ≤ (t.stcodes.getD (t.stcodes.length - 1)
      { code := 0, count := 0, dirty := false }).code then t
  else
    let clsindex :=
      if t.clsindex.getD cls 0 = 0 then t.clsindex.set cls t.stcodes.length else t.clsindex
    { stcodes := t.stcodes ++ [{ code := code, count := 0, dirty := false }],
      clsindex := clsindex }

/-! ## The collaborators of the state -/

/-- The hash tables of the state that `save_state` clears. -/
inductive table_id where
  | dl_htab | hm_htab | um_htab | rm_htab | am_htab | sr_htab | im_htab | rc_htab
deriving DecidableEq, Repr

/-- A call that the state makes to a collaborator outside preserve.cpp: the storage
engine (`database_t`), the history, the file system, `sysnode_t::reset` and
`hash_table::clear`. A write carries the node written. -/
inductive ext_op where
  | access_db_path
  | set_trickle
  | db_open
  | is_sysnode
  | get_sysnode_by_id
  | attach_indexes (rebuild : Bool)
  | truncate
  | sysnode_reset
  | fix_v3_8_0_4
  | get_tdnode_by_id (nodeid : Nat) (arg : Int)
  | get_thnode_by_id (nodeid : Nat) (arg : Int)
  | get_tgnode_by_id
  | put_sysnode (node : sysnode_t)
  | delete_visit (nodeid : Nat)
  | delete_download (nodeid : Nat)
  | put_tgnode (node : totals_t)
  | put_tdnode (node : daily_t)
  | put_thnode (node : hourly_t)
  | put_scnode (node : scnode_t)
  | put_ccnode (node : ccnode_t)
  | put_danode (node : danode_t)
  | put_dlnode (node : dlnode_t)
  | put_vnode (node : vnode_t)
  | put_hnode (node : hnode_t)
  | put_unode (node : unode_t)
  | put_rnode (node : rnode_t)
  | put_anode (node : anode_t)
  | put_snode (node : snode_t)
  | put_inode (node : inode_t)
  | put_rcnode (node : rcnode_t)
  | htab_clear (table : table_id)
  | history_initialize
  | history_update (year month hit file page visits hosts xfer f_day l_day : Nat)
  | history_put
  | del_state_file
deriving DecidableEq, Repr

/-- A call together with its result: whether it succeeded. -/
structure call_t where
  op : ext_op
  ok : Bool
deriving DecidableEq, Repr

/-- Modelled from the spec: database.h, sysnode.h, config.h, totals.h, hourly.h and
version.h are absent. The answers of the collaborators and the constants of the
application: `result` tells whether a call succeeds, given the calls made so far;
the `stored` members are what the reads return; every result holds for all values of
these parameters. -/
structure Outside where
  /-- Whether a call succeeds, given the calls made so far. -/
  result : List call_t → ext_op → Bool
  /-- The row that `get_sysnode_by_id` reads. -/
  stored_sysnode : sysnode_t
  /-- The row that `get_tdnode_by_id` reads for a node id and a callback argument. -/
  stored_daily : Nat → Int → daily_t
  /-- The row that `get_thnode_by_id` reads for a node id and a callback argument. -/
  stored_hourly : Nat → Int → hourly_t
  /-- The row that `get_tgnode_by_id` reads. -/
  stored_totals : totals_t
  /-- The row counts `get_scount`, `get_dlcount`, `get_hcount`, `get_ucount`,
  `get_icount`, `get_rcount` and `get_acount`. -/
  scount : Nat
  dlcount : Nat
  hcount : Nat
  ucount : Nat
  icount : Nat
  rcount : Nat
  acount : Nat
  /-- The value of a system node after `sysnode_t::reset(config)`. -/
  sysnode_reset : config_t → sysnode_t
  /-- The function `sysnode_t::check_byte_order`. -/
  check_byte_order : sysnode_t → Bool
  /-- The function `sysnode_t::check_size_of`. -/
  check_size_of : sysnode_t → Bool
  /-- The function `sysnode_t::check_time_settings`. -/
  check_time_settings : sysnode_t → config_t → Bool
  /-- The function `config_t::is_maintenance`. -/
  is_maintenance : config_t → Bool
  /-- The totals after `totals_t::init_counters`. -/
  totals_init_counters : totals_t → totals_t
  /-- The country node that `ccnode_t::ccnode_t(cc, desc)` constructs. -/
  new_ccnode : string_t → string_t → ccnode_t
  /-- The hash value `ccnode_t::get_hash` of a country node. -/
  ccnode_hash : ccnode_t → Nat
  /-- The path `database_t::get_dbpath` of the database. -/
  db_path : String
  /-- The function `AVG` of util.h on the bit patterns of `double` values:
  `curavg+(value-curavg)/(double)newcnt` in the double arithmetic of the platform,
  which is not modelled. -/
  AVG : Nat → Nat → Nat → Nat
  /-- The application version `VERSION` and the versions that the code compares
  with. -/
  VERSION : Nat
  VERSION_3_3_1_5 : Nat
  VERSION_3_5_1_1 : Nat
  VERSION_3_8_0_4 : Nat
  VERSION_4_0_0_0 : Nat

/-- The result of a function that returns a value or throws an `exception_t` with a
message. -/
inductive result (α : Type) where
  | value (v : α)
  | thrown (msg : String)
deriving DecidableEq, Repr

/-- The state `state_t`: the members that the functions embedded here read, and the
calls made to the collaborators so far. -/
structure state_t where
  config : config_t
  sysnode : sysnode_t
  totals : totals_t
  t_daily : List daily_t
  t_hourly : List hourly_t
  response : sc_hash_table
  cc_htab : hash_table ccnode_t
  dl_htab : hash_table dlnode_t
  hm_htab : hash_table hnode_t
  um_htab : hash_table unode_t
  rm_htab : hash_table rnode_t
  am_htab : hash_table anode_t
  sr_htab : hash_table snode_t
  im_htab : hash_table inode_t
  rc_htab : hash_table rcnode_t
  sp_htab : hash_table base_node
  v_ended : List Nat
  dl_ended : List Nat
  stfile : Bool
  log : List call_t
deriving Repr

/-- Make a call to a collaborator: the result, and the state with the call recorded. -/
def state_t.call (W : Outside) (op : ext_op) (st : state_t) : Bool × state_t :=
  (W.result st.log op, { st with log := st.log ++ [{ op := op, ok := W.result st.log op }] })

/-! ## Swap-out (preserve.cpp, hashtab.h) -/

/-- The function `state_t::eval_hnode_cb`; a null pointer is `none`. -/
def state_t.eval_hnode_cb (hnode : Option hnode_t) : Bool :=
  match hnode with
  | none => false
  | some h => if h.visit.isSome || !h.grp_visit.isEmpty || h.dlref != 0 then false else true

/-- The function `state_t::swap_hnode_cb`. -/
def state_t.swap_hnode_cb (W : Outside) (hnode : hnode_t) (st : state_t) :
    result Bool × state_t :=
  if hnode.dirty then
    let r := state_t.call W (ext_op.put_hnode hnode) st
    if !r.1 then (result.thrown "Cannot swap out a monthly host node to the database", r.2)
    else (result.value true, r.2)
  else (result.value true, st)

/-- The function `state_t::eval_unode_cb`; a null pointer is `none`. -/
def state_t.eval_unode_cb (unode : Option unode_t) : Bool :=
  match unode with
  | none => false
  | some u => if u.vstref != 0 then false else true

/-- The function `state_t::swap_unode_cb`. -/
def state_t.swap_unode_cb (W : Outside) (unode : unode_t) (st : state_t) :
    result Bool × state_t :=
  if unode.dirty then
    let r := state_t.call W (ext_op.put_unode unode) st
    if !r.1 then (result.thrown "Cannot swap out a URL node to the database", r.2)
    else (result.value true, r.2)
  else (result.value true, st)

/-- Modelled from the spec: hashtab_tmpl.cpp is absent. `hash_table::swap_out_bucket`
walks a chain (spec 4.2 and the comments on `eval_cb_t` and `swap_cb_t` in
hashtab.h): the evaluator is called first; if the node is evictable the writer is
called and then the node is unlinked; a writer that returns false ends the walk with
false, one that throws ends it with the exception, and the node stays linked.
Returns the result, the chain after, and the state after. -/
def hash_table.swap_out_bucket {ν σ : Type} (evalcb : Option ν → Bool)
    (swapcb : ν → σ → result Bool × σ) : List ν → σ → result Bool × List ν × σ
  | [], s => (result.value true, [], s)
  | n :: rest, s =>
    if evalcb (some n) then
      match swapcb n s with
      | (result.value true, s1) => hash_table.swap_out_bucket evalcb swapcb rest s1
      | (result.value false, s1) => (result.value false, n :: rest, s1)
      | (result.thrown msg, s1) => (result.thrown msg, n :: rest, s1)
    else
      let r := hash_table.swap_out_bucket evalcb swapcb rest s
      (r.1, n :: r.2.1, r.2.2)

/-- Modelled from the spec: hashtab_tmpl.cpp is absent. The walk of
`hash_table::swap_out` over the buckets, in index order, up to the first bucket whose
walk does not end with true. -/
def hash_table.swap_out_buckets {ν σ : Type} (evalcb : Option ν → Bool)
    (swapcb : ν → σ → result Bool × σ) : List (List ν) → σ → result Bool × List (List ν) × σ
  | [], s => (result.value true, [], s)
  | b :: bs, s =>
    match hash_table.swap_out_bucket evalcb swapcb b s with
    | (result.value true, b1, s1) =>
      let r := hash_table.swap_out_buckets evalcb swapcb bs s1
      (r.1, b1 :: r.2.1, r.2.2)
    | (r, b1, s1) => (r, b1 :: bs, s1)

/-- Modelled from the spec: hashtab_tmpl.cpp is absent. `hash_table::swap_out` (spec
4.2 and 4.4.6): walks the buckets; after a complete walk the table is marked swapped
out. Returns the result, the table after, and the state after. -/
def hash_table.swap_out {ν σ : Type} (evalcb : Option ν → Bool)
    (swapcb : ν → σ → result Bool × σ) (t : hash_table ν) (s : σ) :
    result Bool × hash_table ν × σ :=
  match hash_table.swap_out_buckets evalcb swapcb t.htab s with
  | (result.value true, htab, s1) => (result.value true, { t with htab := htab, swap := true }, s1)
  | (r, htab, s1) => (r, { t with htab := htab }, s1)

/-- The function `state_t::swap_out`, with the callbacks that `initialize` installs in
the database mode. -/
def state_t.swap_out (W : Outside) (st : state_t) : result Unit × state_t :=
  match hash_table.swap_out state_t.eval_hnode_cb (state_t.swap_hnode_cb W) st.hm_htab st with
  | (result.thrown msg, hm, s1) => (result.thrown msg, { s1 with hm_htab := hm })
  | (result.value false, hm, s1) =>
    (result.thrown "Cannot swap out the monthly hosts table", { s1 with hm_htab := hm })
  | (result.value true, hm, s1) =>
    let s2 : state_t := { s1 with hm_htab := hm }
    match hash_table.swap_out state_t.eval_unode_cb (state_t.swap_unode_cb W) s2.um_htab s2 with
    | (result.thrown msg, um, s3) => (result.thrown msg, { s3 with um_htab := um })
    | (result.value false, um, s3) =>
      (result.thrown "Cannot swap out the monthly URL table", { s3 with um_htab := um })
    | (result.value true, um, s3) => (result.value (), { s3 with um_htab := um })

/-! ## Saving the state (preserve.cpp) -/

/-- A statement of a function body run on the state: `none` when control goes on to
the next statement, otherwise the result with which the function ends (a return
code or an exception); and the state after. -/
abbrev step := state_t → Option (result Nat) × state_t

/-- Two statements in sequence: the second runs when the first goes on. -/
def step.seq (f g : step) : step := fun st =>
  match (f st).1 with
  | some r => (some r, (f st).2)
  | none => g (f st).2

/-- A loop over a list: the body runs for each element in turn, up to the first
element at which the function ends. -/
def step.for_each {ν : Type} (body : ν → step) : List ν → step
  | [] => fun st => (none, st)
  | n :: ns => step.seq (body n) (step.for_each body ns)

/-- A statement that only changes the state. -/
def step.update (f : state_t → state_t) : step := fun st => (none, f st)

/-- A call without a result that is checked: it is recorded as made. -/
def step.note (op : ext_op) : step := fun st =>
  (none, { st with log := st.log ++ [{ op := op, ok := true }] })

/-- The statement `if(!call) return code;`. -/
def step.call_or_return (W : Outside) (op : ext_op) (code : Nat) : step := fun st =>
  if (state_t.call W op st).1 then (none, (state_t.call W op st).2)
  else (some (result.value code), (state_t.call W op st).2)

/-- The statement `if(!call) throw exception_t(0, msg);`. -/
def step.call_or_throw (W : Outside) (op : ext_op) (msg : String) : step := fun st =>
  if (state_t.call W op st).1 then (none, (state_t.call W op st).2)
  else (some (result.thrown msg), (state_t.call W op st).2)

/-- `save_state`: the application versions and the runtime part of sysnode are set
and sysnode is written. -/
def state_t.save_sysnode (W : Outside) : step := fun st =>
  let sysnode := st.sysnode
  let sysnode := if sysnode.appver = 0 then { sysnode with appver := W.VERSION } else sysnode
  let sysnode := { sysnode with appver_last := W.VERSION }
  let sysnode :=
    if !W.is_maintenance st.config then
      { sysnode with incremental := st.config.incremental, batch := st.config.batch }
    else sysnode
  step.call_or_throw W (ext_op.put_sysnode sysnode)
    "Cannot write the system node to the database" { st with sysnode := sysnode }

/-- `save_state`: "delete stale active visits", then "delete stale active
downloads". -/
def state_t.save_ended (W : Outside) : step := fun st =>
  step.seq
    (step.seq
      (step.for_each (fun nodeid => step.call_or_throw W (ext_op.delete_visit nodeid)
        ("Cannot detele an ended visit from the database (ID: " ++ toString nodeid ++ ")"))
        st.v_ended)
      (step.update (fun st => { st with v_ended := [] })))
    (step.seq
      (step.for_each (fun nodeid => step.call_or_throw W (ext_op.delete_download nodeid)
        ("Cannot detele a finished download job from the database (ID: " ++ toString nodeid
          ++ ")"))
        st.dl_ended)
      (step.update (fun st => { st with dl_ended := [] }))) st

/-- `save_state`: "save totals", the "monthly (by day) total array", the "daily (by
hour) total array", the "response codes" and the "country codes" with any activity. -/
def state_t.save_totals (W : Outside) : step := fun st =>
  step.seq (step.call_or_return W (ext_op.put_tgnode st.totals) 1)
    (step.seq
      (step.for_each (fun i => step.call_or_return W
        (ext_op.put_tdnode (st.t_daily.getD i (daily_t.new 0))) 1) (List.range 31))
      (step.seq
        (step.for_each (fun i => step.call_or_return W
          (ext_op.put_thnode (st.t_hourly.getD i
            { nodeid := 0, dirty := false, th_hits := 0, th_files := 0, th_pages := 0,
              th_xfer := 0 })) 1) (List.range 24))
        (step.seq
          (step.for_each (fun sc => step.call_or_return W (ext_op.put_scnode sc) 1)
            st.response.stcodes)
          (step.for_each (fun (cc : ccnode_t) =>
            if cc.count ≠ 0 then step.call_or_return W (ext_op.put_ccnode cc) 22
            else step.update id) st.cc_htab.nodes)))) st

/-- `save_state`, "downloads": for each download the dirty active download record is
saved first, "to keep referencial integrity in case of an error", then the dirty
download; the table is cleared. -/
def state_t.save_downloads (W : Outside) : step := fun st =>
  step.seq
    (step.for_each (fun (dl : dlnode_t) =>
      step.seq
        (match dl.download with
          | some download =>
            if download.dirty then step.call_or_return W (ext_op.put_danode download) 1
            else step.update id
          | none => step.update id)
        (if dl.dirty then step.call_or_return W (ext_op.put_dlnode dl) 1 else step.update id))
      st.dl_htab.nodes)
    (step.seq (step.update (fun st => { st with dl_htab := st.dl_htab.clear }))
      (step.note (ext_op.htab_clear table_id.dl_htab))) st

/-- `save_state`, "monthly hosts": for each host the dirty active visit is saved
first, then the dirty host; the table is cleared. -/
def state_t.save_hosts (W : Outside) : step := fun st =>
  step.seq
    (step.for_each (fun (h : hnode_t) =>
      step.seq
        (match h.visit with
          | some visit =>
            if visit.dirty then step.call_or_return W (ext_op.put_vnode visit) 1
            else step.update id
          | none => step.update id)
        (if h.dirty then step.call_or_return W (ext_op.put_hnode h) 1 else step.update id))
      st.hm_htab.nodes)
    (step.seq (step.update (fun st => { st with hm_htab := st.hm_htab.clear }))
      (step.note (ext_op.htab_clear table_id.hm_htab))) st

/-- `save_state`, "URL list". -/
def state_t.save_urls (W : Outside) : step := fun st =>
  step.seq
    (step.for_each (fun (u : unode_t) =>
      if u.dirty then step.call_or_return W (ext_op.put_unode u) 1 else step.update id)
      st.um_htab.nodes)
    (step.seq (step.update (fun st => { st with um_htab := st.um_htab.clear }))
      (step.note (ext_op.htab_clear table_id.um_htab))) st

/-- `save_state`, "Referrer list": written when `totals.t_ref != 0`. -/
def state_t.save_referrers (W : Outside) : step := fun st =>
  step.seq
    (if st.totals.t_ref ≠ 0 then
      step.for_each (fun (r : rnode_t) =>
        if r.dirty then step.call_or_return W (ext_op.put_rnode r) 1 else step.update id)
        st.rm_htab.nodes
    else step.update id)
    (step.seq (step.update (fun st => { st with rm_htab := st.rm_htab.clear }))
      (step.note (ext_op.htab_clear table_id.rm_htab))) st

/-- `save_state`, "User agent list": written when `totals.t_agent != 0`. -/
def state_t.save_agents (W : Outside) : step := fun st =>
  step.seq
    (if st.totals.t_agent ≠ 0 then
      step.for_each (fun (a : anode_t) =>
        if a.dirty then step.call_or_return W (ext_op.put_anode a) 1 else step.update id)
        st.am_htab.nodes
    else step.update id)
    (step.seq (step.update (fun st => { st with am_htab := st.am_htab.clear }))
      (step.note (ext_op.htab_clear table_id.am_htab))) st

/-- `save_state`, "Search String list". -/
def state_t.save_search (W : Outside) : step := fun st =>
  step.seq
    (step.for_each (fun (n : snode_t) =>
      if n.dirty then step.call_or_return W (ext_op.put_snode n) 1 else step.update id)
      st.sr_htab.nodes)
    (step.seq (step.update (fun st => { st with sr_htab := st.sr_htab.clear }))
      (step.note (ext_op.htab_clear table_id.sr_htab))) st

/-- `save_state`, "username list". -/
def state_t.save_users (W : Outside) : step := fun st =>
  step.seq
    (step.for_each (fun (n : inode_t) =>
      if n.dirty then step.call_or_return W (ext_op.put_inode n) 1 else step.update id)
      st.im_htab.nodes)
    (step.seq (step.update (fun st => { st with im_htab := st.im_htab.clear }))
      (step.note (ext_op.htab_clear table_id.im_htab))) st

/-- `save_state`, "error list". -/
def state_t.save_errors (W : Outside) : step := fun st =>
  step.seq
    (step.for_each (fun (n : rcnode_t) =>
      if n.dirty then step.call_or_return W (ext_op.put_rcnode n) 1 else step.update id)
      st.rc_htab.nodes)
    (step.seq (step.update (fun st => { st with rc_htab := st.rc_htab.clear }))
      (step.note (ext_op.htab_clear table_id.rc_htab))) st

/-- `save_state`: the history of the current month is updated and written; in an
incremental run an old state file is deleted, and a failure to delete it is only
reported. -/
def state_t.save_history (W : Outside) : step := fun st =>
  step.seq
    (step.note (ext_op.history_update st.totals.cur_tstamp.year st.totals.cur_tstamp.month
      st.totals.t_hit st.totals.t_file st.totals.t_page st.totals.t_visits st.totals.t_hosts
      st.totals.t_xfer st.totals.f_day st.totals.l_day))
    (step.seq (step.note ext_op.history_put)
      (if st.config.incremental && st.stfile then
        (fun st => (none, (state_t.call W ext_op.del_state_file st).2))
      else step.update id)) st

/-- The function `state_t::save_state`: the return code or the exception, and the
state after. -/
def state_t.save_state (W : Outside) (st : state_t) : result Nat × state_t :=
  match
    step.seq (state_t.save_sysnode W) (step.seq (state_t.save_ended W)
      (step.seq (state_t.save_totals W) (step.seq (state_t.save_downloads W)
      (step.seq (state_t.save_hosts W) (step.seq (state_t.save_urls W)
      (step.seq (state_t.save_referrers W) (step.seq (state_t.save_agents W)
      (step.seq (state_t.save_search W) (step.seq (state_t.save_users W)
      (step.seq (state_t.save_errors W) (state_t.save_history W))))))))))) st
  with
  | (some r, st1) => (r, st1)
  | (none, st1) => (result.value 0, st1)

/-- The calls that `save_state` makes, in order. -/
def state_t.save_state_calls (W : Outside) (st : state_t) : List call_t :=
  (state_t.save_state W st).2.log.drop st.log.length

/-- The table whose rows a write of `save_state` belongs to, for the three tables
that refer to one another: 0 for the downloads (a download or its active download
record), 1 for the hosts (a host or its active visit), 2 for the URLs. -/
def ext_op.row_table : ext_op → Option Nat
  | ext_op.put_danode _ => some 0
  | ext_op.put_dlnode _ => some 0
  | ext_op.put_vnode _ => some 1
  | ext_op.put_hnode _ => some 1
  | ext_op.put_unode _ => some 2
  | _ => none

/-- The position in `save_state` of the block that makes a call. -/
def ext_op.phase : ext_op → Nat
  | ext_op.put_sysnode _ => 0
  | ext_op.delete_visit _ => 1
  | ext_op.delete_download _ => 2
  | ext_op.put_tgnode _ => 3
  | ext_op.put_tdnode _ => 4
  | ext_op.put_thnode _ => 5
  | ext_op.put_scnode _ => 6
  | ext_op.put_ccnode _ => 7
  | ext_op.put_danode _ => 8
  | ext_op.put_dlnode _ => 8
  | ext_op.htab_clear table_id.dl_htab => 9
  | ext_op.put_vnode _ => 10
  | ext_op.put_hnode _ => 10
  | ext_op.htab_clear table_id.hm_htab => 11
  | ext_op.put_unode _ => 12
  | ext_op.htab_clear table_id.um_htab => 13
  | ext_op.put_rnode _ => 14
  | ext_op.htab_clear table_id.rm_htab => 15
  | ext_op.put_anode _ => 16
  | ext_op.htab_clear table_id.am_htab => 17
  | ext_op.put_snode _ => 18
  | ext_op.htab_clear table_id.sr_htab => 19
  | ext_op.put_inode _ => 20
  | ext_op.htab_clear table_id.im_htab => 21
  | ext_op.put_rcnode _ => 22
  | ext_op.htab_clear table_id.rc_htab => 23
  | ext_op.history_update _ _ _ _ _ _ _ _ _ _ => 24
  | ext_op.history_put => 25
  | ext_op.del_state_file => 26
  | _ => 0

/-- The dependents of a row have been written: for the write of a download with a
dirty active download record, the successful write of that record is among the calls
`seen`; for the write of a host with a dirty active visit, the successful write of
that visit is. -/
def call_t.deps_in (seen : List call_t) (c : call_t) : Prop :=
  match c.op with
  | ext_op.put_dlnode dl =>
    ∀ a, dl.download = some a → a.dirty = true →
      ({ op := ext_op.put_danode a, ok := true } : call_t) ∈ seen
  | ext_op.put_hnode h =>
    ∀ v, h.visit = some v → v.dirty = true →
      ({ op := ext_op.put_vnode v, ok := true } : call_t) ∈ seen
  | _ => True

/-- Every call of a sequence has its dependents among the calls `seen` before the
sequence or among the earlier calls of the sequence. -/
def deps_first : List call_t → List call_t → Prop
  | _, [] => True
  | seen, c :: cs => c.deps_in seen ∧ deps_first (seen ++ [c]) cs

/-- A sequence of calls as `save_state` makes them within the blocks `lo` to `hi`:
blocks in order, dependents first. -/
def good_trace (lo hi : Nat) (d : List call_t) : Prop :=
  (∀ c ∈ d, lo ≤ c.op.phase ∧ c.op.phase ≤ hi) ∧
    d.Pairwise (fun a b => a.op.phase ≤ b.op.phase) ∧ deps_first [] d

/-- A statement appends to the calls made so far a sequence that is a `good_trace`. -/
def step.good (lo hi : Nat) (f : step) : Prop :=
  ∀ st, ∃ d, (f st).2.log = st.log ++ d ∧ good_trace lo hi d

/-- In a sequence of calls the write `op` succeeds before the table is cleared. -/
def written_before_clear (op : ext_op) (t : table_id) (calls : List call_t) : Prop :=
  ∃ pre post, calls = pre ++ { op := op, ok := true } :: post ∧
    ({ op := ext_op.htab_clear t, ok := true } : call_t) ∈ post

/-- A statement only appends to the calls made so far. -/
def step.extends (f : step) : Prop :=
  ∀ st, ∃ d, (f st).2.log = st.log ++ d

/-- When the statement goes on, the calls it has appended satisfy `Q`. -/
def step.ensures (f : step) (Q : state_t → List call_t → Prop) : Prop :=
  ∀ st, (f st).1 = none → ∃ d, (f st).2.log = st.log ++ d ∧ Q st d

/-- A statement does not change a part of the state. -/
def step.preserves {α : Type} (π : state_t → α) (f : step) : Prop :=
  ∀ st, π (f st).2 = π st

/-- A statement does not end the function with the return code 0. -/
def step.nonzero (f : step) : Prop :=
  ∀ st, (f st).1 ≠ some (result.value 0)

/-! ## Opening the database (preserve.cpp) -/

/-- The function `daily_t::reset`; `datanode_t<daily_t>::reset`, declared outside the
sources at hand, leaves a node that is not dirty. -/
def daily_t.reset (_self : daily_t) (nodeid : Nat) : daily_t :=
  daily_t.new nodeid

/-- The function `ccnode_t::reset` (ccnode.h). -/
def ccnode_t.reset (self : ccnode_t) : ccnode_t :=
  { self with count := 0, files := 0, xfer := 0, visits := 0 }

/-- Modelled from the spec: ccnode.cpp is absent. `cc_hash_table::reset` resets the
statistics of every country (spec 4.4.4, "reset country stats"). -/
def cc_hash_table.reset (t : hash_table ccnode_t) : hash_table ccnode_t :=
  { t with htab := t.htab.map (fun b => b.map ccnode_t.reset) }

/-- The function `state_t::init_counters`. -/
def state_t.init_counters (W : Outside) (st : state_t) : state_t :=
  { st with
    totals := W.totals_init_counters st.totals,
    response := { st.response with
                  stcodes := st.response.stcodes.map (fun n => { n with count := 0 }) },
    t_daily := (List.range 31).map (fun i =>
      daily_t.reset (st.t_daily.getD i (daily_t.new 0)) (i + 1)),
    t_hourly := (List.range 24).map (fun i =>
      { nodeid := i, dirty := false, th_hits := 0, th_files := 0, th_pages := 0, th_xfer := 0 }),
    cc_htab := cc_hash_table.reset st.cc_htab }

/-- The function `state_t::del_htabs`. -/
def state_t.del_htabs (st : state_t) : state_t :=
  { st with
    dl_htab := st.dl_htab.clear, hm_htab := st.hm_htab.clear, um_htab := st.um_htab.clear,
    rm_htab := st.rm_htab.clear, am_htab := st.am_htab.clear, sr_htab := st.sr_htab.clear,
    im_htab := st.im_htab.clear, rc_htab := st.rc_htab.clear, sp_htab := st.sp_htab.clear }

/-- `upgrade_database`: the record counts that are missing in the totals read from a
database older than 3.5.1.1 are recovered from the row counts; the differences are
taken in `uint64_t`. -/
def state_t.recover_counts (W : Outside) (appver : Nat) (t : totals_t) : totals_t :=
  if appver < W.VERSION_3_5_1_1 then
    let t := if t.t_srchits ≠ 0 ∧ t.t_search = 0 then { t with t_search := W.scount } else t
    let t :=
      if t.t_dlcount ≠ 0 ∧ t.t_downloads = 0 then { t with t_downloads := W.dlcount } else t
    let t :=
      if t.t_grp_hosts = 0 then
        { t with t_grp_hosts := (W.hcount + 2 ^ 64 - t.t_hosts % 2 ^ 64) % 2 ^ 64 }
      else t
    let t :=
      if t.t_grp_urls = 0 then
        { t with t_grp_urls := (W.ucount + 2 ^ 64 - t.t_url % 2 ^ 64) % 2 ^ 64 }
      else t
    let t :=
      if t.t_grp_users = 0 then
        { t with t_grp_users := (W.icount + 2 ^ 64 - t.t_user % 2 ^ 64) % 2 ^ 64 }
      else t
    let t :=
      if t.t_grp_refs = 0 then
        { t with t_grp_refs := (W.rcount + 2 ^ 64 - t.t_ref % 2 ^ 64) % 2 ^ 64 }
      else t
    if t.t_grp_agents = 0 then
      { t with t_grp_agents := (W.acount + 2 ^ 64 - t.t_agent % 2 ^ 64) % 2 ^ 64 }
    else t
  else t

/-- `upgrade_database`: the statements after the check that sysnode is populated. -/
def state_t.upgrade_steps (W : Outside) : step := fun st =>
  step.seq
    (if st.sysnode.appver_last ≤ W.VERSION_3_8_0_4 then
      step.call_or_return W ext_op.fix_v3_8_0_4 25
    else step.update id)
    (step.seq
      (if st.sysnode.appver < W.VERSION_3_3_1_5 ∧ st.sysnode.fixed_dhv = false then
        step.seq
          (step.for_each (fun i =>
            step.seq (step.call_or_return W (ext_op.get_tdnode_by_id i (-1)) 5)
              (step.call_or_return W (ext_op.put_tdnode (W.stored_daily i (-1))) 5))
            (List.range 31))
          (step.seq
            (step.for_each (fun i =>
              step.seq (step.call_or_return W (ext_op.get_thnode_by_id i (-1)) 6)
                (step.call_or_return W (ext_op.put_thnode (W.stored_hourly i (-1))) 6))
              (List.range 24))
            (step.update (fun st => { st with sysnode := { st.sysnode with fixed_dhv := true } })))
      else step.update id)
      (step.seq (step.call_or_return W ext_op.get_tgnode_by_id 3)
        (step.seq
          (fun st => step.call_or_return W
            (ext_op.put_tgnode (state_t.recover_counts W st.sysnode.appver W.stored_totals)) 1 st)
          (fun st => step.call_or_throw W
            (ext_op.put_sysnode { st.sysnode with appver_last := W.VERSION })
            "Cannot write the system node to the database"
            { st with sysnode := { st.sysnode with appver_last := W.VERSION } })))) st

/-- The function `state_t::upgrade_database`: the return code or the exception, and
the state after. -/
def state_t.upgrade_database (W : Outside) (st : state_t) : result Nat × state_t :=
  if st.sysnode.appver = 0 then (result.value 0, st)
  else
    match state_t.upgrade_steps W st with
    | (some r, st1) => (r, st1)
    | (none, st1) => (result.value 0, st1)

/-- `initialize`: sysnode is reset from the configuration and the database is opened.
`none` when control goes on. -/
def state_t.initialize_open (W : Outside) (st : state_t) :
    Option (result Bool) × state_t :=
  let st : state_t :=
    { st with sysnode := W.sysnode_reset st.config,
              log := st.log ++ [{ op := ext_op.sysnode_reset, ok := true }] }
  let r : Option (result Bool) × state_t :=
    if W.is_maintenance st.config then
      if !(state_t.call W ext_op.access_db_path st).1 then
        (some (result.value false), (state_t.call W ext_op.access_db_path st).2)
      else (none, (state_t.call W ext_op.access_db_path st).2)
    else
      if st.config.db_trickle_rate ≠ 0 ∧ st.config.memory_mode = false then
        (none, { st with log := st.log ++ [{ op := ext_op.set_trickle, ok := true }] })
      else (none, st)
  match r.1 with
  | some x => (some x, r.2)
  | none =>
    if !(state_t.call W ext_op.db_open r.2).1 then
      (some (result.thrown ("Cannot open the database " ++ W.db_path)),
        (state_t.call W ext_op.db_open r.2).2)
    else (none, (state_t.call W ext_op.db_open r.2).2)

/-- `initialize`: "If there is a system node, check if we have anything to do, given
state of the database and current run parameters." `none` when control goes on. -/
def state_t.initialize_sysnode (W : Outside) (st : state_t) :
    Option (result Bool) × state_t :=
  let r := state_t.call W ext_op.is_sysnode st
  if !r.1 then (none, r.2)
  else
    let r := state_t.call W ext_op.get_sysnode_by_id r.2
    if !r.1 then
      (some (result.thrown "Cannot read the system node from the database"), r.2)
    else
      let st : state_t := { r.2 with sysnode := W.stored_sysnode }
      if !W.check_byte_order st.sysnode then
        (some (result.thrown "Incompatible database format (byte order)"), st)
      else if st.sysnode.appver_last < W.VERSION_4_0_0_0 ∧ st.config.db_info = false then
        (some (result.thrown "Cannot open a database with a version prior to v4.0"), st)
      else if !W.check_size_of st.sysnode then
        (some (result.thrown "Incompatible database format (data type sizes)"), st)
      else if st.config.db_info = false ∧ W.check_time_settings st.sysnode st.config = false then
        (some (result.thrown "Incompatible database format (time settings)"), st)
      else if st.config.compact_db = false ∧ st.config.db_info = false then
        if st.config.prep_report = true ∨ st.config.end_month = true then
          let r := state_t.call W (ext_op.attach_indexes st.sysnode.batch) st
          if !r.1 then
            (some (result.thrown "Cannot activate secondary database indexes"), r.2)
          else (none, r.2)
        else
          if st.config.incremental = false ∧ st.sysnode.incremental = true then
            (some (result.thrown
              "Cannot truncate an incremental database for a non-incremental run"), st)
          else if st.config.incremental = false ∨ st.sysnode.incremental = false then
            let r := state_t.call W ext_op.truncate st
            if !r.1 then (some (result.thrown "Cannot truncate the database\n"), r.2)
            else
              (none, { r.2 with sysnode := W.sysnode_reset r.2.config,
                                log := r.2.log ++ [{ op := ext_op.sysnode_reset, ok := true }] })
          else (none, st)
      else (none, st)

/-- `initialize`: the statements from "Initialize history" to the end, which
initialize the history and the runtime structures. -/
def state_t.initialize_structures (W : Outside) (st : state_t) : state_t :=
  let st : state_t :=
    { st with log := st.log ++ [{ op := ext_op.history_initialize, ok := true }] }
  let st : state_t :=
    { st with response := st.config.resp_codes.foldl sc_hash_table.add_status_code st.response }
  let st : state_t :=
    { st with cc_htab := st.config.ctry.foldl (fun t c =>
                t.put_node (W.ccnode_hash (W.new_ccnode c.1 c.2)) (W.new_ccnode c.1 c.2))
                st.cc_htab }
  let st : state_t :=
    { st with
      hm_htab := (st.hm_htab.set_cleared false).set_swapped_out false,
      um_htab := (st.um_htab.set_cleared false).set_swapped_out false,
      rm_htab := (st.rm_htab.set_cleared false).set_swapped_out false,
      am_htab := (st.am_htab.set_cleared false).set_swapped_out false,
      sr_htab := (st.sr_htab.set_cleared false).set_swapped_out false,
      im_htab := (st.im_htab.set_cleared false).set_swapped_out false,
      rc_htab := (st.rc_htab.set_cleared false).set_swapped_out false,
      dl_htab := (st.dl_htab.set_cleared false).set_swapped_out false }
  let st := state_t.init_counters W st
  let st := state_t.del_htabs st
  if st.config.memory_mode = false then
    { st with hm_htab := st.hm_htab.set_swap_out_cb, um_htab := st.um_htab.set_swap_out_cb }
  else st

/-- `initialize`: the statements after the sysnode block. The database is upgraded when
another version wrote it last, then the history and the runtime structures are
initialized. -/
def state_t.initialize_runtime (W : Outside) (st : state_t) : result Bool × state_t :=
  if st.config.db_info then (result.value true, st)
  else if st.sysnode.appver_last ≠ W.VERSION then
    match state_t.upgrade_database W st with
    | (result.thrown msg, st1) => (result.thrown msg, st1)
    | (result.value code, st1) =>
      if code ≠ 0 then
        (result.thrown "Cannot upgrade the database to the latest version", st1)
      else (result.value true, state_t.initialize_structures W st1)
  else (result.value true, state_t.initialize_structures W st)

/-- The function `state_t::initialize`: the value returned or the exception, and the
state after. -/
def state_t.initialize (W : Outside) (st : state_t) : result Bool × state_t :=
  match state_t.initialize_open W st with
  | (some r, st1) => (r, st1)
  | (none, st1) =>
    match state_t.initialize_sysnode W st1 with
    | (some r, st2) => (r, st2)
    | (none, st2) => state_t.initialize_runtime W st2

/-- The calls that `initialize` makes, in order. -/
def state_t.initialize_calls (W : Outside) (st : state_t) : List call_t :=
  ( state_t.initialize W st).2.log.drop st.log.length

/-- The state in which `initialize` has opened the database and has read the stored
sysnode: both `is_sysnode` and `get_sysnode_by_id` have succeeded. -/
def state_t.sysnode_read (W : Outside) (st : state_t) : state_t :=
  { (state_t.initialize_open W st).2 with
    sysnode := W.stored_sysnode,
    log := (state_t.initialize_open W st).2.log ++
      [{ op := ext_op.is_sysnode, ok := true }, { op := ext_op.get_sysnode_by_id, ok := true }] }

/-- The state after a successful `database.truncate()` followed by
`sysnode.reset(config)`. -/
def state_t.truncated (W : Outside) (st : state_t) : state_t :=
  { st with
    sysnode := W.sysnode_reset st.config,
    log := st.log ++
      [{ op := ext_op.truncate, ok := true }, { op := ext_op.sysnode_reset, ok := true }] }

/-- The calls that a statement appends are calls of operations in `P`, and the
messages of the exceptions it throws are in `Q`. -/
def step.within (P : ext_op → Prop) (Q : String → Prop) (f : step) : Prop :=
  ∀ st, (∃ d, (f st).2.log = st.log ++ d ∧ ∀ c ∈ d, P c.op) ∧
    ∀ msg, (f st).1 = some (result.thrown msg) → Q msg

/-- The operations other than `truncate` and `sysnode_t::reset`. -/
def ext_op.keeps_data (op : ext_op) : Prop :=
  op ≠ ext_op.truncate ∧ op ≠ ext_op.sysnode_reset

/-- The persisted members of two host nodes agree: every member that
`hnode_t::s_pack_data` stores, apart from the base members and the active flag. -/
def hnode_t.persisted_eq (a b : hnode_t) : Prop :=
  a.spammer = b.spammer ∧ a.robot = b.robot ∧ a.count = b.count ∧ a.files = b.files ∧
  a.pages = b.pages ∧ a.xfer = b.xfer ∧ a.visits = b.visits ∧ a.visits_conv = b.visits_conv ∧
  a.visit_avg = b.visit_avg ∧ a.visit_max = b.visit_max ∧ a.max_v_hits = b.max_v_hits ∧
  a.max_v_files = b.max_v_files ∧ a.max_v_pages = b.max_v_pages ∧
  a.max_v_xfer = b.max_v_xfer ∧ a.name = b.name ∧ a.ccode = b.ccode ∧
  a.tstamp = b.tstamp ∧ a.city = b.city

/-! ## A sample instance of the outside declarations -/

/-- A serializer of timestamps with fixed field widths (year u16, month to sec one
byte each, offset as a biased u16, null flag one byte): one instance of the
serializer contract. -/
def sample_tstamp_codec : Codec tstamp_t where
  enc t := [t.year % 256, t.year / 256, t.month, t.day, t.hour, t.min, t.sec,
    (t.offset + 32768).toNat % 256, (t.offset + 32768).toNat / 256, if t.null then 1 else 0]
  size _ := 10
  dec bs :=
    match bs with
    | y0 :: y1 :: mo :: d :: h :: mi :: s :: o0 :: o1 :: n :: _ =>
      { year := y0 + 256 * y1, month := mo, day := d, hour := h, min := mi, sec := s,
        offset := ((o0 + 256 * o1 : Nat) : Int) - 32768, null := decide (n ≠ 0) }
    | _ => { year := 0, month := 0, day := 0, hour := 0, min := 0, sec := 0, offset := 0,
             null := true }
  valid t := decide (t.year < 65536) && decide (t.month < 256) && decide (t.day < 256) &&
    decide (t.hour < 256) && decide (t.min < 256) && decide (t.sec < 256) &&
    decide (-32768 ≤ t.offset) && decide (t.offset < 32768)
  size_enc := by
    intro a rest _
    rfl
  dec_enc := by
    intro a rest h
    cases a with
    | mk year month day hour min sec offset null =>
      simp only [Bool.and_eq_true, decide_eq_true_eq] at h
      obtain ⟨⟨⟨⟨⟨⟨⟨h1, _⟩, _⟩, _⟩, _⟩, _⟩, h7⟩, h8⟩ := h
      simp only [List.cons_append, tstamp_t.mk.injEq, true_and]
      refine ⟨by omega, by omega, ?_⟩
      cases null <;> simp

/-- A serializer of the base members (type tag, then the key string behind a
one-byte length): one instance of the serializer contract. -/
def sample_base_codec : Codec base_node where
  enc b := b.flag :: b.string.length :: b.string
  size bs :=
    match bs with
    | _ :: l :: _ => 2 + l
    | _ => 0
  dec bs :=
    match bs with
    | f :: l :: tl => { string := tl.take l, flag := f }
    | _ => { string := [], flag := 0 }
  valid b := decide (b.flag < 256) && decide (b.string.length < 256)
  size_enc := by
    intro a rest _
    simp only [List.cons_append, List.length_cons]
    omega
  dec_enc := by
    intro a rest _
    cases a with
    | mk string flag => simp

/-- A sample instance of the outside declarations: a six-byte node header (the
version and a four-byte payload size), eight-byte `u_long`, the newest record
versions that the unpack functions know. -/
def sample_externals : Externals where
  hdr_rest := [0, 0, 0, 0]
  base := sample_base_codec
  tstamp := sample_tstamp_codec
  tstamp_reset := { year := 0, month := 0, day := 0, hour := 0, min := 0, sec := 0,
                    offset := 0, null := true }
  tstamp_reset_time := fun t =>
    { year := 1970, month := 1, day := 1 + t / 86400, hour := t / 3600 % 24,
      min := t / 60 % 60, sec := t % 60, offset := 0, null := false }
  base_hash_value := fun b => b.string.foldl (fun h ch => (h * 33 + ch) % 2 ^ 64) 0
  hash_str := fun h s => s.foldl (fun h ch => (h * 33 + ch) % 2 ^ 64) h
  hash_num := fun h n => (h * 33 + n) % 2 ^ 64
  sizeof_u_long := 8
  hnode_version := 6
  rcnode_version := 1
  danode_version := 2
  daily_version := 2
  scnode_version := 1

/-- A sample host node: 10.0.0.1, resolved to "ab", seven hits. -/
def sample_hnode : hnode_t :=
  { base := { string := [49, 48, 46, 48, 46, 48, 46, 49], flag := 1 },
    nodeid := 5, dirty := true, spammer := false, robot := true,
    count := 7, files := 5, pages := 3, xfer := 70000, visits := 2, visits_conv := 1,
    visit_avg := 4611686018427387904, visit_max := 120, max_v_hits := 4, max_v_files := 3,
    max_v_pages := 2, max_v_xfer := 65536, name := [97, 98], ccode := [99, 97],
    tstamp := { year := 2020, month := 6, day := 15, hour := 10, min := 0, sec := 0,
                offset := -300, null := false },
    city := [79, 116], visit := none, grp_visit := [], dlref := 0 }

/-- A sample error node: GET /x answered with 404, three times. -/
def sample_rcnode : rcnode_t :=
  { base := { string := [47, 120], flag := 1 }, nodeid := 9, dirty := true, count := 3,
    hexenc := false, method := [71, 69, 84], respcode := 404 }

/-- A sample active download node. -/
def sample_danode : danode_t :=
  { nodeid := 4, dirty := true, hits := 2,
    tstamp := { year := 2020, month := 6, day := 15, hour := 10, min := 0, sec := 2,
                offset := 0, null := false },
    proctime := 1500, xfer := 1048576 }

/-- A sample daily totals node. -/
def sample_daily : daily_t :=
  { nodeid := 15, dirty := true, td_hours := 1,
    tm_hits := 1, tm_files := 1, tm_pages := 1, tm_hosts := 1, tm_visits := 1,
    tm_xfer := 4652218415073722368,
    h_hits_max := 1, h_files_max := 1, h_pages_max := 1, h_xfer_max := 4652218415073722368,
    h_visits_max := 1, h_hosts_max := 1, h_hits_avg := 4607182418800017408,
    h_files_avg := 4607182418800017408, h_pages_avg := 4607182418800017408,
    h_xfer_avg := 4652218415073722368, h_visits_avg := 4607182418800017408,
    h_hosts_avg := 4607182418800017408 }

/-- An empty hash table with the given number of buckets. -/
def hash_table.empty (ν : Type) (buckets : Nat) : hash_table ν :=
  { htab := List.replicate buckets [], swap := false, cleared := false, cb_set := false }

/-- A sample configuration: an incremental log-processing run in the database mode. -/
def sample_config : config_t :=
  { incremental := true, batch := false, prep_report := false, end_month := false,
    compact_db := false, db_info := false, memory_mode := false, ignore_hist := false,
    db_trickle_rate := 0, resp_codes := [200, 404], ctry := [([117, 115], [85, 83])] }

/-- A sample system node, written by an incremental run of the current version. -/
def sample_sysnode : sysnode_t :=
  { appver := 67108864, appver_last := 67108864, incremental := true, batch := false,
    fixed_dhv := true, utc_time := true, utc_offset := 0, sizeof_char := 1, sizeof_short := 2,
    sizeof_int := 4, sizeof_long := 8, sizeof_double := 8, byte_order := 305419896 }

/-- A sample timestamp, 2020-06-15 10:00:00 UTC. -/
def sample_tstamp : tstamp_t :=
  { year := 2020, month := 6, day := 15, hour := 10, min := 0, sec := 0, offset := 0,
    null := false }

/-- A sample reading of the bit pattern of a `double` as an exact rational: the
pattern pairs a numerator with a denominator. -/
def sample_val (n : Nat) : ℚ :=
  mkRat (Nat.unpair n).1 (Nat.unpair n).2

/-- The sample bit pattern of a rational that is not negative. -/
def sample_enc (q : ℚ) : Nat :=
  Nat.pair q.num.toNat q.den

/-- A sample `AVG` that computes in exact rational arithmetic under `sample_val`. -/
def sample_AVG (curavg value newcnt : Nat) : Nat :=
  sample_enc (sample_val curavg + ((value : ℚ) - sample_val curavg) / (newcnt : ℚ))

/-- Sample collaborators whose calls succeed as `result` tells: the stored system
node is `sample_sysnode`, every check passes, the version is 4.0.0.0. -/
def sample_outside (result : List call_t → ext_op → Bool) : Outside :=
  { result := result,
    stored_sysnode := sample_sysnode,
    stored_daily := fun nodeid _ => daily_t.new nodeid,
    stored_hourly := fun nodeid _ =>
      { nodeid := nodeid, dirty := false, th_hits := 0, th_files := 0, th_pages := 0,
        th_xfer := 0 },
    stored_totals := { cur_tstamp := sample_tstamp },
    scount := 0, dlcount := 0, hcount := 0, ucount := 0, icount := 0, rcount := 0, acount := 0,
    sysnode_reset := fun config =>
      { sample_sysnode with appver := 0, appver_last := 0, incremental := config.incremental,
                            batch := config.batch, fixed_dhv := false },
    check_byte_order := fun s => s.byte_order == 305419896,
    check_size_of := fun s => s.sizeof_long == 8,
    check_time_settings := fun _ _ => true,
    is_maintenance := fun c => c.prep_report || c.end_month || c.compact_db || c.db_info,
    totals_init_counters := fun _ => { cur_tstamp := sample_tstamp },
    new_ccnode := fun cc desc =>
      { nodeid := cc.foldl (fun idx ch => idx * 32 + (ch - 96)) 0, dirty := false, ccode := cc,
        cdesc := desc, count := 0, files := 0, pages := 0, visits := 0, xfer := 0 },
    ccnode_hash := fun n => n.ccode.foldl (fun h ch => (h * 33 + ch) % 2 ^ 64) 0,
    db_path := "webalizer.db",
    AVG := sample_AVG,
    VERSION := 67108864, VERSION_3_3_1_5 := 50528517, VERSION_3_5_1_1 := 50659585,
    VERSION_3_8_0_4 := 50855940, VERSION_4_0_0_0 := 67108864 }

/-- A sample referrer node that has changed since it was last written. -/
def sample_rnode : rnode_t :=
  { base := { string := [45], flag := 1 }, nodeid := 3, dirty := true }

/-- A sample state: one dirty host without visits or downloads in the hosts table,
one dirty referrer in the referrers table, `t_ref` zero. -/
def sample_state : state_t :=
  { config := sample_config,
    sysnode := sample_sysnode,
    totals := { cur_tstamp := sample_tstamp, t_hit := 7, t_hosts := 1, t_ref := 0 },
    t_daily := (List.range 31).map (fun i => daily_t.new (i + 1)),
    t_hourly := (List.range 24).map (fun i =>
      { nodeid := i, dirty := false, th_hits := 0, th_files := 0, th_pages := 0, th_xfer := 0 }),
    response := sc_hash_table.new,
    cc_htab := hash_table.empty ccnode_t 2,
    dl_htab := hash_table.empty dlnode_t 2,
    hm_htab := { hash_table.empty hnode_t 2 with htab := [[], [sample_hnode]] },
    um_htab := hash_table.empty unode_t 2,
    rm_htab := { hash_table.empty rnode_t 2 with htab := [[sample_rnode], []] },
    am_htab := hash_table.empty anode_t 2,
    sr_htab := hash_table.empty snode_t 2,
    im_htab := hash_table.empty inode_t 2,
    rc_htab := hash_table.empty rcnode_t 2,
    sp_htab := hash_table.empty base_node 2,
    v_ended := [], dl_ended := [], stfile := false, log := [] }

/-- A sample state for a run that is not incremental, on the same database. -/
def sample_state_full_run : state_t :=
  { sample_state with config := { sample_config with incremental := false } }

/-- A sample download node with a dirty active download record. -/
def sample_dlnode : dlnode_t :=
  { base := { string := [102], flag := 1 }, nodeid := 4, dirty := true,
    download := some sample_danode }

/-- A sample state with references: a dirty download that owns a dirty active
download record, a dirty host with a dirty active visit, and a dirty URL. -/
def sample_state_refs : state_t :=
  { sample_state with
    totals := { cur_tstamp := sample_tstamp, t_hit := 7, t_hosts := 1, t_ref := 1 },
    dl_htab := { hash_table.empty dlnode_t 2 with htab := [[sample_dlnode], []] },
    hm_htab := { hash_table.empty hnode_t 2 with
                 htab := [[], [{ sample_hnode with
                                 visit := some { nodeid := 5, dirty := true, hostref := 1 } }]] },
    um_htab := { hash_table.empty unode_t 2 with
                 htab := [[{ base := { string := [47], flag := 1 }, nodeid := 8, dirty := true,
                             vstref := 1 }], []] } }

/-! ## Timestamp-driven updates (preserve.cpp) -/

/-- The index `day-1` of a day of the month in `t_daily`, computed in `u_int`: for
the day 0 it is past the end of the array. -/
def day_index (day : Nat) : Nat :=
  (day + 4294967295) % 4294967296

/-- The function `state_t::update_avg_max`: the average and the maximum after. -/
def state_t.update_avg_max (W : Outside) (avgval maxval value newcnt : Nat) : Nat × Nat :=
  (W.AVG avgval value newcnt, if value > maxval then value else maxval)

/-- `update_hourly_stats`: the statements on `daily`, the record of the current day.
The hour count `td_hours` is a `u_short`; the maxima are compared as integers, as the
counters of the hour are. -/
def state_t.update_hourly_daily (W : Outside) (totals : totals_t) (daily : daily_t) : daily_t :=
  let daily := { daily with td_hours := (daily.td_hours + 1) % 65536 }
  let hits := state_t.update_avg_max W daily.h_hits_avg daily.h_hits_max totals.ht_hits
    daily.td_hours
  let files := state_t.update_avg_max W daily.h_files_avg daily.h_files_max totals.ht_files
    daily.td_hours
  let pages := state_t.update_avg_max W daily.h_pages_avg daily.h_pages_max totals.ht_pages
    daily.td_hours
  let xfer := state_t.update_avg_max W daily.h_xfer_avg daily.h_xfer_max totals.ht_xfer
    daily.td_hours
  let visits := state_t.update_avg_max W daily.h_visits_avg daily.h_visits_max
    totals.ht_visits daily.td_hours
  let hosts := state_t.update_avg_max W daily.h_hosts_avg daily.h_hosts_max totals.ht_hosts
    daily.td_hours
  { daily with
    h_hits_avg := hits.1, h_hits_max := hits.2, h_files_avg := files.1, h_files_max := files.2,
    h_pages_avg := pages.1, h_pages_max := pages.2, h_xfer_avg := xfer.1, h_xfer_max := xfer.2,
    h_visits_avg := visits.1, h_visits_max := visits.2,
    h_hosts_avg := hosts.1, h_hosts_max := hosts.2 }

/-- The function `state_t::update_hourly_stats`. An index past the end of `t_daily`
is undefined in C++; the model leaves the array as it is there. -/
def state_t.update_hourly_stats (W : Outside) (st : state_t) : state_t :=
  if st.totals.ht_hits = 0 then st
  else
    { st with
      t_daily := st.t_daily.modify (state_t.update_hourly_daily W st.totals)
        (day_index st.totals.cur_tstamp.day),
      totals := { st.totals with
        hm_hit := if st.totals.ht_hits > st.totals.hm_hit then st.totals.ht_hits
                  else st.totals.hm_hit,
        ht_hits := 0, ht_files := 0, ht_pages := 0, ht_xfer := 0, ht_visits := 0,
        ht_hosts := 0 } }

/-- `set_tstamp`: a new year or month restarts the first and the last day, and the
last day processed is adjusted. -/
def state_t.set_tstamp_days (tstamp : tstamp_t) (st : state_t) : state_t :=
  let st : state_t :=
    if st.totals.cur_tstamp.year ≠ tstamp.year ∨ st.totals.cur_tstamp.month ≠ tstamp.month then
      { st with totals := { st.totals with
          cur_tstamp := { st.totals.cur_tstamp with month := tstamp.month, year := tstamp.year },
          f_day := tstamp.day, l_day := tstamp.day } }
    else st
  if tstamp.day > st.totals.l_day then
    { st with totals := { st.totals with l_day := tstamp.day } }
  else st

/-- `set_tstamp`: "update min/sec stuff". -/
def state_t.set_tstamp_min_sec (tstamp : tstamp_t) (st : state_t) : state_t :=
  let st : state_t :=
    if st.totals.cur_tstamp.sec ≠ tstamp.sec then
      { st with totals := { st.totals with
          cur_tstamp := { st.totals.cur_tstamp with sec := tstamp.sec } } }
    else st
  if st.totals.cur_tstamp.min ≠ tstamp.min then
    { st with totals := { st.totals with
        cur_tstamp := { st.totals.cur_tstamp with min := tstamp.min } } }
  else st

/-- `set_tstamp`: "check for hour change". -/
def state_t.set_tstamp_hour (W : Outside) (tstamp : tstamp_t) (st : state_t) : state_t :=
  if st.totals.cur_tstamp.hour ≠ tstamp.hour then
    { state_t.update_hourly_stats W st with
      totals := { (state_t.update_hourly_stats W st).totals with
        cur_tstamp := { (state_t.update_hourly_stats W st).totals.cur_tstamp with
          hour := tstamp.hour } } }
  else st

/-- `set_tstamp`: "check for day change". An index past the end of `t_daily` is
undefined in C++; the model leaves the array as it is there. -/
def state_t.set_tstamp_day (tstamp : tstamp_t) (st : state_t) : state_t :=
  if st.totals.cur_tstamp.day ≠ tstamp.day then
    { st with
      t_daily := st.t_daily.modify (fun daily => { daily with tm_hosts := st.totals.dt_hosts })
        (day_index st.totals.cur_tstamp.day),
      totals := { st.totals with
        dt_hosts := 0,
        cur_tstamp := { st.totals.cur_tstamp with day := tstamp.day } } }
  else st

/-- The function `state_t::set_tstamp`. -/
def state_t.set_tstamp (W : Outside) (tstamp : tstamp_t) (st : state_t) : state_t :=
  let st := state_t.set_tstamp_days tstamp st
  let st := state_t.set_tstamp_min_sec tstamp st
  let st := state_t.set_tstamp_hour W tstamp st
  let st := state_t.set_tstamp_day tstamp st
  { st with totals := { st.totals with cur_tstamp := tstamp } }

/-- The counts of the records of one hour: hits, files, pages, transfer, visits and
hosts. -/
structure hour_counts where
  hits : Nat
  files : Nat
  pages : Nat
  xfer : Nat
  visits : Nat
  hosts : Nat
deriving DecidableEq, Repr

/-- Modelled from the spec: the record loop that counts a log record is absent. Spec
4.5: "On every aggregated record: increment per-kind totals, per-hour accumulators";
here the accumulators of the hour grow by the counts of a batch of records, in
`uint64_t`. -/
def state_t.accumulate (c : hour_counts) (st : state_t) : state_t :=
  { st with totals := { st.totals with
      ht_hits := (st.totals.ht_hits + c.hits) % 2 ^ 64,
      ht_files := (st.totals.ht_files + c.files) % 2 ^ 64,
      ht_pages := (st.totals.ht_pages + c.pages) % 2 ^ 64,
      ht_xfer := (st.totals.ht_xfer + c.xfer) % 2 ^ 64,
      ht_visits := (st.totals.ht_visits + c.visits) % 2 ^ 64,
      ht_hosts := (st.totals.ht_hosts + c.hosts) % 2 ^ 64 } }

/-- A run over a log: for each entry `set_tstamp` is called with its timestamp, then
its records are counted. -/
def state_t.run_log (W : Outside) (events : List (tstamp_t × hour_counts)) (st : state_t) :
    state_t :=
  events.foldl (fun s e => state_t.accumulate e.2 (state_t.set_tstamp W e.1 s)) st

/-- The hours of one day: before each call of `update_hourly_stats` the records of
the hour are counted. -/
def state_t.run_hours (W : Outside) (hours : List hour_counts) (st : state_t) : state_t :=
  hours.foldl (fun s h => state_t.update_hourly_stats W (state_t.accumulate h s)) st

/-- A timestamp names a day of a month and an hour of a day. -/
def tstamp_t.in_month (t : tstamp_t) : Prop :=
  1 ≤ t.day ∧ t.day ≤ 31 ∧ t.hour ≤ 23

/-- Within a month the timestamp `b` is not before `a`, as far as the day and the hour
tell. -/
def tstamp_t.not_before (a b : tstamp_t) : Prop :=
  a.day < b.day ∨ (a.day = b.day ∧ a.hour ≤ b.hour)

instance (t : tstamp_t) : Decidable (tstamp_t.in_month t) := by
  unfold tstamp_t.in_month
  infer_instance

instance (a b : tstamp_t) : Decidable (tstamp_t.not_before a b) := by
  unfold tstamp_t.not_before
  infer_instance

/-- The hour counts of the days agree with the current day and hour: no day has more
than 24 hours, the current day has no more hours than the current hour, and the days
after it have none. -/
def state_t.hours_in_order (st : state_t) : Prop :=
  tstamp_t.in_month st.totals.cur_tstamp ∧
  ∀ i d, st.t_daily[i]? = some d →
    d.td_hours ≤ 24 ∧ (i + 1 = st.totals.cur_tstamp.day → d.td_hours ≤ st.totals.cur_tstamp.hour) ∧
    (st.totals.cur_tstamp.day < i + 1 → d.td_hours = 0)

/-- The sample state with freshly initialised counters: the state after
`init_counters`. -/
def sample_state_fresh : state_t :=
  state_t.init_counters (sample_outside (fun _ _ => true)) sample_state

/-- A sample log that is not in chronological order: 26 entries of one hit each on
the 15th, whose hours alternate between 10 and 11. -/
def sample_log_back_and_forth : List (tstamp_t × hour_counts) :=
  (List.range 26).map (fun i => ({ sample_tstamp with hour := 10 + i % 2 },
    { hits := 1, files := 1, pages := 1, xfer := 100, visits := 0, hosts := 0 }))

/-- A sample log in chronological order: three hours on the 15th and one on the
16th. -/
def sample_log : List (tstamp_t × hour_counts) :=
  [({ sample_tstamp with hour := 10 }, ⟨3, 2, 1, 300, 1, 1⟩),
   ({ sample_tstamp with hour := 11 }, ⟨5, 5, 2, 900, 0, 0⟩),
   ({ sample_tstamp with hour := 23 }, ⟨1, 0, 0, 0, 0, 0⟩),
   ({ sample_tstamp with day := 16, hour := 23 }, ⟨2, 1, 1, 50, 1, 1⟩)]

/-- Every count of the hour is a `uint64_t`. -/
def hour_counts.valid (c : hour_counts) : Prop :=
  c.hits < 2 ^ 64 ∧ c.files < 2 ^ 64 ∧ c.pages < 2 ^ 64 ∧ c.xfer < 2 ^ 64 ∧
  c.visits < 2 ^ 64 ∧ c.hosts < 2 ^ 64

instance (c : hour_counts) : Decidable (hour_counts.valid c) := by
  unfold hour_counts.valid
  infer_instance

/-- No records of an unfinished hour are counted: the accumulators of the hour are
zero. -/
def totals_t.hour_empty (t : totals_t) : Prop :=
  t.ht_hits = 0 ∧ t.ht_files = 0 ∧ t.ht_pages = 0 ∧ t.ht_xfer = 0 ∧ t.ht_visits = 0 ∧
  t.ht_hosts = 0

instance (t : totals_t) : Decidable (totals_t.hour_empty t) := by
  unfold totals_t.hour_empty
  infer_instance

/-- Under the reading `val` of a `double`, the average `avg` is the mean of the counts
`xs` and `mx` is the largest of them. -/
def stat_summarizes (val : Nat → ℚ) (avg mx : Nat) (xs : List Nat) : Prop :=
  val avg = (xs.sum : ℚ) / (xs.length : ℚ) ∧ mx = xs.foldl max 0

/-- The hourly statistics of the daily record `d` are those of the hours `hs`: the
number of hours, and the mean and the largest of the hourly hits, files, pages,
transfers, visits and hosts. -/
def daily_t.summarizes (val : Nat → ℚ) (d : daily_t) (hs : List hour_counts) : Prop :=
  d.td_hours = hs.length ∧
  stat_summarizes val d.h_hits_avg d.h_hits_max (hs.map (fun h => h.hits)) ∧
  stat_summarizes val d.h_files_avg d.h_files_max (hs.map (fun h => h.files)) ∧
  stat_summarizes val d.h_pages_avg d.h_pages_max (hs.map (fun h => h.pages)) ∧
  stat_summarizes val d.h_xfer_avg d.h_xfer_max (hs.map (fun h => h.xfer)) ∧
  stat_summarizes val d.h_visits_avg d.h_visits_max (hs.map (fun h => h.visits)) ∧
  stat_summarizes val d.h_hosts_avg d.h_hosts_max (hs.map (fun h => h.hosts))

/-- A daily record without hours: no hour counted, the averages `0.0` and the maxima
zero. -/
def daily_t.no_hours (d : daily_t) : Prop :=
  d.td_hours = 0 ∧
  d.h_hits_avg = 0 ∧ d.h_hits_max = 0 ∧ d.h_files_avg = 0 ∧ d.h_files_max = 0 ∧
  d.h_pages_avg = 0 ∧ d.h_pages_max = 0 ∧ d.h_xfer_avg = 0 ∧ d.h_xfer_max = 0 ∧
  d.h_visits_avg = 0 ∧ d.h_visits_max = 0 ∧ d.h_hosts_avg = 0 ∧ d.h_hosts_max = 0

instance (d : daily_t) : Decidable (daily_t.no_hours d) := by
  unfold daily_t.no_hours
  infer_instance

/-- Three sample hours. -/
def sample_hours : List hour_counts :=
  [⟨4, 3, 2, 400, 1, 1⟩, ⟨5, 1, 1, 100, 0, 0⟩, ⟨9, 9, 3, 1200, 2, 1⟩]

/-- A sample state in the hour of 2020-06-15 10:00 with five hits counted in this
hour. -/
def sample_state_busy_hour : state_t :=
  state_t.accumulate ⟨5, 4, 2, 700, 1, 1⟩ sample_state

/-- A sample country node that has counted traffic. -/
def sample_ccnode : ccnode_t :=
  { nodeid := 691, dirty := true, ccode := [117, 115], cdesc := [85, 83], count := 9, files := 7,
    pages := 5, visits := 2, xfer := 4096 }

/-! ## City nodes (ctnode.cpp) -/

/-- The character at position `i` of the C string of a `string_t`: the terminator 0
at its end. -/
def c_char (s : string_t) (i : Nat) : Nat :=
  s.getD i 0

/-- The city node `ctnode_t`: ctnode.h is absent, the members are those read in
ctnode.cpp; `nodeid` is inherited from `keynode_t<uint64_t>`. -/
structure ctnode_t where
  nodeid : Nat
  ccode : string_t
  city : string_t
  hits : Nat
  files : Nat
  pages : Nat
  visits : Nat
  xfer : Nat
deriving DecidableEq, Repr

/-- The function `ctnode_t::make_nodeid`; a null `ccode` is `none`. The characters are
cast to `u_char` and shifted in `uint64_t`. -/
def ctnode_t.make_nodeid (geoname_id : Nat) (ccode : Option string_t) : result Nat :=
  match ccode with
  | none => result.value geoname_id
  | some cc =>
    if c_char cc 0 = 0 ∨ c_char cc 0 = 42 then result.value geoname_id
    else if c_char cc 1 = 0 ∨ c_char cc 2 ≠ 0 then
      result.thrown "Country code must be two characters long"
    else
      result.value
        ((((c_char cc 0 % 256) <<< 48) % 2 ^ 64 ||| ((c_char cc 1 % 256) <<< 32) % 2 ^ 64) |||
          geoname_id)

/-- The function `ctnode_t::ctnode_t(geoname_id, city, ccode)`: the exception of
`make_nodeid` leaves the constructor. -/
def ctnode_t.new (geoname_id : Nat) (city ccode : string_t) : result ctnode_t :=
  match ctnode_t.make_nodeid geoname_id (some ccode) with
  | result.thrown msg => result.thrown msg
  | result.value nodeid =>
    result.value
      { nodeid := nodeid, ccode := if ccode ≠ [] then ccode else [42], city := city,
        hits := 0, files := 0, pages := 0, visits := 0, xfer := 0 }

/-- Modelled from the spec: hashtab_tmpl.cpp is absent. `hash_table::find_node` with a
parameter block (spec 4.2, "find"): the first node of the bucket of the hash value that
the comparison `compare` of the table accepts. -/
def hash_table.find_node {ν : Type} (t : hash_table ν) (hashval : Nat) (compare : ν → Bool) :
    Option ν :=
  (t.htab.getD (hashval % t.htab.length) []).find? compare

/-- Modelled from the spec: ctnode.h is absent. The comparison of a city node with the
parameter block of `get_ctnode`: the key of a city is "(geoname-id, country-code)
packed" (spec 3), the node id that `make_nodeid` makes. -/
def ctnode_t.match_key (geoname_id : Nat) (ccode : string_t) (n : ctnode_t) : Bool :=
  decide (ctnode_t.make_nodeid geoname_id (some ccode) = result.value n.nodeid)

/-- The function `ct_hash_table::get_ctnode`: the node returned and the table after,
or the exception. `get_hash` stands for `ctnode_t::get_hash` of ctnode.h, which is
absent. -/
def ct_hash_table.get_ctnode (get_hash : Nat → string_t → Nat) (t : hash_table ctnode_t)
    (geoname_id : Nat) (city ccode : string_t) : result (ctnode_t × hash_table ctnode_t) :=
  let hashval := get_hash geoname_id ccode
  if (decide (geoname_id = 0)) ≠ (decide (city = [])) then
    result.thrown "GeoName ID must match city name in whether it contains data or not"
  else
    match t.find_node hashval (ctnode_t.match_key geoname_id ccode) with
    | some ctnode => result.value (ctnode, t)
    | none =>
      match ctnode_t.new geoname_id city ccode with
      | result.thrown msg => result.thrown msg
      | result.value ctnode => result.value (ctnode, t.put_node hashval ctnode)

/-- A country code of two characters in the sense of `make_nodeid`: two bytes, none
the terminator, the first not `'*'`. -/
def two_char_ccode (cc : string_t) : Prop :=
  cc.length = 2 ∧ (∀ c ∈ cc, 0 < c ∧ c < 256) ∧ c_char cc 0 ≠ 42

instance (cc : string_t) : Decidable (two_char_ccode cc) := by
  unfold two_char_ccode
  infer_instance

/-! ## Status codes (scnode.cpp) -/

/-- The loop of `sc_hash_table::get_status_code` over the nodes from `index` on: the
index of the node with the code, or 0 when the loop ends or breaks. -/
def sc_hash_table.find_from (code : Nat) : List scnode_t → Nat → Nat
  | [], _ => 0
  | n :: rest, index =>
    if n.code = code then index
    else if code < n.code then 0
    else sc_hash_table.find_from code rest (index + 1)

/-- The function `sc_hash_table::get_status_code`, as the index in `stcodes` of the
node it returns a reference to. -/
def sc_hash_table.get_status_code_index (t : sc_hash_table) (code : Nat) : Nat :=
  let cls := code / 100
  if cls < 1 ∨ cls > 5 then 0
  else
    sc_hash_table.find_from code (t.stcodes.drop (t.clsindex.getD cls 0))
      (t.clsindex.getD cls 0)

/-- The function `sc_hash_table::get_status_code`: the node it returns. -/
def sc_hash_table.get_status_code (t : sc_hash_table) (code : Nat) : scnode_t :=
  t.stcodes.getD (t.get_status_code_index code) { code := 0, count := 0, dirty := false }

/-! ## Country codes (util.cpp) -/

/-- The value of a `char` that holds the byte `c`, the type being signed. -/
def char_value (c : Nat) : Int :=
  if c < 128 then (c : Int) else (c : Int) - 256

/-- The loop of `ctry_idx` over the characters up to the terminator:
`idx = (idx <<= 5) | (*cp1 - 'a' + 1)` in `uint64_t`. -/
def ctry_idx_loop (idx : Nat) : List Nat → Nat
  | [] => idx
  | c :: rest =>
    if c = 0 then idx
    else
      ctry_idx_loop (((idx <<< 5) % 2 ^ 64) ||| ((char_value c - 97 + 1) % 2 ^ 64).toNat) rest

/-- The function `ctry_idx`; a null `str` is `none`. -/
def ctry_idx (str : Option string_t) : Nat :=
  match str with
  | none => 0
  | some s => if c_char s 0 = 42 then 0 else ctry_idx_loop 0 s

/-- The loop of `idx_ctry`: `while(idx)` writes the characters from the end of the
buffer backwards. An index of 64 bits ends the loop within 13 rounds, the fuel. More
than 7 characters pass the start of `buf`, which is undefined in C++; the model goes
on writing. -/
def idx_ctry_loop : Nat → Nat → List Nat → List Nat
  | 0, _, acc => acc
  | fuel + 1, idx, acc =>
    if idx = 0 then acc
    else idx_ctry_loop fuel (idx >>> 5) (((idx &&& 31) + 97 - 1) % 256 :: acc)

/-- The function `idx_ctry`. -/
def idx_ctry (idx : Nat) : string_t :=
  if idx = 0 then [42] else idx_ctry_loop 13 idx []

/-- A country code of lowercase letters `a`..`z`. -/
def lowercase_code (s : string_t) : Prop :=
  ∀ c ∈ s, 97 ≤ c ∧ c ≤ 122

instance (s : string_t) : Decidable (lowercase_code s) := by
  unfold lowercase_code
  infer_instance

/-! ## The visit of a host (hnode.cpp) -/

/-- The function `hnode_t::set_visit`. A pointer to a visit is its address in the heap
of visit nodes, a null pointer `none`; the host is its member `visit`, the only member
the function touches. The type of `hostref` is declared in vnode.h, which is absent:
`m` is the number of its values, and `hostref--` and `hostref++` wrap around. -/
def hnode_t.set_visit (m : Nat) (visit vnode : Option Nat) (heap : Nat → vnode_t) :
    Option Nat × (Nat → vnode_t) :=
  if visit = vnode then (visit, heap)
  else
    let heap : Nat → vnode_t :=
      match visit with
      | some p => Function.update heap p
          { heap p with hostref := ((heap p).hostref + m - 1) % m }
      | none => heap
    match vnode with
    | some q => (some q, Function.update heap q
        { heap q with hostref := ((heap q).hostref + 1) % m })
    | none => (none, heap)

/-- A sample heap of visits: the visit at address 1 is referred to by one host, the
others by none. -/
def sample_heap (p : Nat) : vnode_t :=
  { nodeid := p, dirty := false, hostref := if p = 1 then 1 else 0 }

/-- A country code that `get_ctnode` is called with: empty, `"*"` or two characters,
none of them the terminator. -/
def ct_ccode (cc : string_t) : Prop :=
  cc = [] ∨ cc = [42] ∨ (cc.length = 2 ∧ ∀ c ∈ cc, 0 < c ∧ c < 256)

instance (cc : string_t) : Decidable (ct_ccode cc) := by
  unfold ct_ccode
  infer_instance

/-- The GeoName ID and the city name do not match in whether they contain data. -/
def geoname_mismatch (geoname_id : Nat) (city : string_t) : Prop :=
  (geoname_id = 0 ∧ city ≠ []) ∨ (geoname_id ≠ 0 ∧ city = [])

instance (geoname_id : Nat) (city : string_t) : Decidable (geoname_mismatch geoname_id city) := by
  unfold geoname_mismatch
  infer_instance

/-- A sample hash of a city key. -/
def sample_ct_hash (geoname_id : Nat) (ccode : string_t) : Nat :=
  (geoname_id * 33 + ccode.foldl (fun h c => h * 33 + c) 0) % 2 ^ 64

/-- The table after a sequence of `add_status_code` calls on a fresh `sc_hash_table`. -/
def sc_hash_table.of_codes (codes : List Nat) : sc_hash_table :=
  codes.foldl sc_hash_table.add_status_code sc_hash_table.new

/-- The shape that `add_status_code` keeps: the unknown code at index 0, the codes
strictly ascending and in the classes 1 to 5, and for each class an index that is 0
while the class has no code and that no code of the class stands before. -/
def sc_hash_table.well_formed (t : sc_hash_table) : Prop :=
  (∃ rest, t.stcodes = { code := 0, count := 0, dirty := false } :: rest) ∧
  t.stcodes.Pairwise (fun a b => a.code < b.code) ∧
  t.clsindex.length = 6 ∧
  (∀ n ∈ t.stcodes, n.code = 0 ∨ (1 ≤ n.code / 100 ∧ n.code / 100 ≤ 5)) ∧
  ∀ cls, 1 ≤ cls → cls ≤ 5 →
    (t.clsindex.getD cls 0 = 0 → ∀ n ∈ t.stcodes, n.code / 100 ≠ cls) ∧
    (t.clsindex.getD cls 0 ≠ 0 → t.clsindex.getD cls 0 < t.stcodes.length ∧
      ∀ j n, t.stcodes[j]? = some n → j < t.clsindex.getD cls 0 → n.code / 100 ≠ cls)

/-! ## Julian dates (util.cpp) -/

/-- The table `mtable` of `jdate1`: the days of a common year before each month. -/
def jdate1_mtable : List Nat :=
  [0, 31, 59, 90, 120, 151, 181, 212, 243, 273, 304, 334]

/-- The function `jdate1` for a date of the common era, whose year, month and day are
not negative. The sum is taken in `uint64_t`; a month outside 1..12 indexes `mtable`
out of its bounds, which is undefined in C++ and reads 0 here. -/
def jdate1 (year month day : Nat) : Nat :=
  let days := (year * 365 + day + jdate1_mtable.getD (month - 1) 0 + year / 4 +
    (2 ^ 64 - year / 100 % 2 ^ 64) + year / 400) % 2 ^ 64
  if month < 3 ∧ year % 4 = 0 ∧ ¬ (year % 100 ≠ 0 ∧ year % 400 ≠ 0) then
    (days + 2 ^ 64 - 1) % 2 ^ 64
  else days

/-! ## Comparison of strings (tstring.h) -/

/-- The operator `string_base::operator >= (const char_t *str)`. The function
`compare` is declared in tstring.h and defined outside the sources at hand: it is a
parameter. -/
def string_base.operator_ge (compare : string_t → string_t → Int) (s str : string_t) : Bool :=
  if compare s str ≤ 0 then true else false

/-- The operator `string_base::operator < (const char_t *str)`. -/
def string_base.operator_lt (compare : string_t → string_t → Int) (s str : string_t) : Bool :=
  if compare s str < 0 then true else false

/-- A sample `compare`: the difference of the first characters that differ, the
terminator 0 standing at the end of each string. -/
def sample_compare : string_t → string_t → Int
  | [], [] => 0
  | [], c :: _ => -(c : Int)
  | c :: _, [] => (c : Int)
  | a :: s, b :: t => if a = b then sample_compare s t else (a : Int) - (b : Int)

/-! ## Copies of host nodes (hnode.cpp) -/

/-- The copy constructor `hnode_t::hnode_t(const hnode_t& hnode)`. The copy
constructor of `base_node<hnode_t>` is declared in basenode.h, which is absent: it is
taken to copy the members of the base, the node id and the dirty flag. The visit is
shared and its `hostref` incremented: the copy refers to the visit with the count after
the increment. -/
def hnode_t.copy (hnode : hnode_t) : hnode_t :=
  { base := hnode.base, nodeid := hnode.nodeid, dirty := hnode.dirty,
    spammer := hnode.spammer, robot := hnode.robot, count := hnode.count,
    files := hnode.files, pages := hnode.pages, xfer := hnode.xfer,
    visits := hnode.visits, visits_conv := hnode.visits_conv,
    visit_avg := hnode.visit_avg, visit_max := hnode.visit_max,
    max_v_hits := hnode.max_v_hits, max_v_files := hnode.max_v_files,
    max_v_pages := hnode.max_v_pages, max_v_xfer := hnode.max_v_xfer,
    name := hnode.name, ccode := [hnode.ccode.getD 0 0, hnode.ccode.getD 1 0],
    dlref := 0, tstamp := hnode.tstamp, grp_visit := [],
    visit := hnode.visit.map (fun v => { v with hostref := v.hostref + 1 }),
    city := [] }

/-- The function `state_t::put_hnode`: the copy of the node is put into the hosts
table under the hash of its key string. -/
def state_t.put_hnode (E : Externals) (tmp : hnode_t) (st : state_t) : hnode_t × state_t :=
  (hnode_t.copy tmp,
    { st with hm_htab := st.hm_htab.put_node (E.hash_str 0 tmp.base.string) (hnode_t.copy tmp) })

/-! ## Samples of an upgrade and of legacy records -/

/-- The daily node ids that a sequence of calls reads with `get_tdnode_by_id`. -/
def daily_ids_read (calls : List call_t) : List Nat :=
  calls.filterMap (fun c =>
    match c.op with
    | ext_op.get_tdnode_by_id nodeid _ => some nodeid
    | _ => none)

/-- The daily node ids that a sequence of calls writes with `put_tdnode`. -/
def daily_ids_written (calls : List call_t) : List Nat :=
  calls.filterMap (fun c =>
    match c.op with
    | ext_op.put_tdnode daily => some daily.nodeid
    | _ => none)

/-- A sample state on a database last written by version 3.3.1.4, before daily and
hourly records carried a version. -/
def sample_state_old_database : state_t :=
  { sample_state with
    sysnode := { sample_sysnode with appver := 50528516, appver_last := 50528516,
                                     fixed_dhv := false } }

/-- A sample daily node whose members hold values of an earlier use. -/
def sample_daily_used : daily_t :=
  { daily_t.new 15 with h_hosts_max := 7, h_hosts_avg := 4607182418800017408 }

/-- A sample version-1 record of daily totals: the node header with version 1 and the
six per-day totals. -/
def sample_daily_v1_record : List Nat :=
  le_bytes 2 1 ++ sample_externals.hdr_rest ++
    daily_t.legacy_record sample_externals 120 100 40 9 11 4652218415073722368

/-! ## Searching in strings (util.cpp) -/

/-- The function `strlen`: the number of characters before the terminator. -/
def strlen (s : string_t) : Nat :=
  (s.takeWhile (fun c => c != 0)).length

/-- The function `bmh_delta_table::reset(const char *str, u_int slen)`: the array
`deltas` after, `none` when it is NULL; a null `str` is `none`. -/
def bmh_delta_table.reset (str : Option string_t) (slen : Nat) : Option (List Nat) :=
  match str with
  | none => none
  | some s =>
    if c_char s 0 = 0 then none
    else
      let slen := if slen = 0 then strlen s else slen
      some ((List.range (slen - 1)).foldl
        (fun deltas index => deltas.set (c_char s index % 256) (slen - index - 1))
        (List.replicate 256 slen))

/-- `strstr_ex`: the loop that uses the delta table, from the index `i1` on. The
result is the offset in `str1` of the pointer returned, `none` for NULL; the outer
`none` tells that the loop has not ended within the fuel, which a delta of zero
causes. The index is a `u_int`. -/
def strstr_ex_bmh (str1 str2 : string_t) (l1 l2 : Nat) (deltas : List Nat) :
    Nat → Nat → Option (Option Nat)
  | 0, _ => none
  | fuel + 1, i1 =>
    if i1 < l1 then
      if c_char str1 i1 = c_char str2 (l2 - 1) ∧
          (List.range (l2 - 1)).all (fun k => c_char str1 (i1 - l2 + 1 + k) == c_char str2 k)
      then some (some i1)
      else
        strstr_ex_bmh str1 str2 l1 l2 deltas fuel
          ((i1 + deltas.getD (c_char str1 i1 % 256) 0) % 4294967296)
    else some none

/-- `strstr_ex`: the inner loop that matches the pattern left to right at `cptr`; the
number of characters matched, `cp1 - cptr`. -/
def strstr_ex_match (str1 str2 : string_t) (cptr l1 : Nat) : Nat → Nat → Nat
  | 0, k => k
  | fuel + 1, k =>
    if c_char str1 (cptr + k) ≠ 0 ∧ c_char str2 k ≠ 0 ∧
        c_char str1 (cptr + k) = c_char str2 k ∧ k ≠ l1 then
      strstr_ex_match str1 str2 cptr l1 fuel (k + 1)
    else k

/-- `strstr_ex`: the loop without a delta table, from the offset `cptr` with `l1`
characters left. The inner loop ends within `str2.length + 1` rounds. -/
def strstr_ex_scan (str1 str2 : string_t) (l2 : Nat) : Nat → Nat → Nat → Option Nat
  | 0, _, _ => none
  | fuel + 1, cptr, l1 =>
    if c_char str1 cptr ≠ 0 ∧ l1 ≥ l2 then
      if c_char str2 (strstr_ex_match str1 str2 cptr l1 (str2.length + 1) 0) = 0 then some cptr
      else strstr_ex_scan str1 str2 l2 fuel (cptr + 1) (l1 - 1)
    else none

/-- The function `strstr_ex`. A null string is `none`; `delta` is `none` for a null
pointer and for a table that is not valid, else the array of the table. The result is
the offset in `str1` of the pointer returned, `none` for NULL; the outer `none` tells
that the loop with the delta table does not end. The loop without a table ends within
`str1.length + 1` rounds. -/
def strstr_ex (str1 str2 : Option string_t) (l1 l2 : Nat) (delta : Option (List Nat)) :
    Option (Option Nat) :=
  match str1, str2 with
  | some s1, some s2 =>
    if c_char s1 0 = 0 ∨ c_char s2 0 = 0 then some none
    else
      let l1 := if l1 = 0 then strlen s1 else l1
      let l2 := if l2 = 0 then strlen s2 else l2
      if l2 > l1 then some none
      else
        match delta with
        | some deltas => strstr_ex_bmh s1 s2 l1 l2 deltas (l1 + 1) (l2 - 1)
        | none => some (strstr_ex_scan s1 s2 l2 (s1.length + 1) 0 l1)
  | _, _ => some none

/-- `isinstrex`: the loop for a pattern with a leading wildcard, backwards from the
ends of the pattern (`cp1`) and of the string (`cp2`). -/
def isinstrex_back (str cp : string_t) : Nat → Nat → Nat → Bool
  | 0, cp1, _ => decide (cp1 = 0)
  | fuel + 1, cp1, cp2 =>
    if cp1 ≠ 0 ∧ cp2 ≠ 0 then
      if c_char cp cp1 = 42 then true
      else if c_char cp cp1 ≠ c_char str cp2 then false
      else isinstrex_back str cp fuel (cp1 - 1) (cp2 - 1)
    else decide (cp1 = 0)

/-- `isinstrex`: the "normal forward scan" up to the end `eos` of the string. -/
def isinstrex_forward (str cp : string_t) (eos : Nat) : Nat → Nat → Nat → Bool
  | 0, cp1, cp2 => decide (c_char cp cp1 = 42 ∨ (c_char cp cp1 = 0 ∧ cp2 = eos))
  | fuel + 1, cp1, cp2 =>
    if cp2 ≠ eos then
      if c_char cp cp1 = 42 then true
      else if c_char cp cp1 ≠ c_char str cp2 then false
      else isinstrex_forward str cp eos fuel (cp1 + 1) (cp2 + 1)
    else decide (c_char cp cp1 = 42 ∨ (c_char cp cp1 = 0 ∧ cp2 = eos))

/-- The function `isinstrex`. A null string is `none`; the result is `none` when the
search of `strstr_ex` does not end. The backward loop ends within `cplen` rounds, the
forward scan within `slen + 1`. -/
def isinstrex (str cp : Option string_t) (slen cplen : Nat) (substr : Bool)
    (deltas : Option (List Nat)) : Option Bool :=
  match str, cp with
  | some s, some p =>
    if c_char s 0 = 0 ∨ c_char p 0 = 0 then some false
    else
      let slen := if slen = 0 then strlen s else slen
      let cplen := if cplen = 0 then strlen p else cplen
      if c_char p 0 = 42 then
        if slen < cplen - 1 then some false
        else some (isinstrex_back s p cplen (cplen - 1) (slen - 1))
      else
        if substr = true ∧ c_char p (cplen - 1) ≠ 42 then
          (strstr_ex (some s) (some p) slen cplen deltas).map (fun r => r.isSome)
        else if c_char p (cplen - 1) = 42 ∧ slen < cplen - 1 then some false
        else if c_char p (cplen - 1) ≠ 42 ∧ slen < cplen then some false
        else some (isinstrex_forward s p slen (slen + 1) 0 0)
  | _, _ => some false

/-- The sample text "aabcaabcab" of the comment on `strstr_ex`. -/
def sample_text : string_t :=
  [97, 97, 98, 99, 97, 97, 98, 99, 97, 98]

/-- The sample pattern "abcab" of the comment on `strstr_ex`. -/
def sample_pattern : string_t :=
  [97, 98, 99, 97, 98]

/-! ## Decoding of URLs (util.cpp) -/

/-- The function `isdigitex` (util.h). -/
def isdigitex (ch : Nat) : Bool :=
  decide (48 ≤ ch) && decide (ch ≤ 57)

/-- The function `isxdigitex` (util.h). -/
def isxdigitex (ch : Nat) : Bool :=
  (decide (48 ≤ ch) && decide (ch ≤ 57)) || (decide (65 ≤ ch) && decide (ch ≤ 70)) ||
  (decide (97 ≤ ch) && decide (ch ≤ 102))

/-- The function `from_hex(u_char c)`; `toupper` in the "C" locale. -/
def from_hex_char (c : Nat) : Nat :=
  if 48 ≤ c ∧ c ≤ 57 then c - 48
  else
    let c := if 97 ≤ c ∧ c ≤ 122 then c - 32 else c
    if 65 ≤ c ∧ c ≤ 70 then c - 65 + 10 else 0

/-- The function `from_hex(const u_char *cp1, u_char *cp2)`: the byte stored at
`cp2`, made of the two characters `c1` and `c2` at `cp1`. -/
def from_hex (c1 c2 : Nat) : Nat :=
  let b := ((from_hex_char c1 <<< 4) % 256) ||| from_hex_char c2
  if b < 32 ∨ b = 127 then 95 else b

/-- The loop of `url_decode(const char *str, char *out, u_int *slen)` over the
characters from `cp1` on: the bytes written at `cp2` before the terminator. Each round
reads at least one character that is not the terminator, so the loop ends within as
many rounds as the string has characters. -/
def url_decode_loop : Nat → List Nat → List Nat
  | 0, _ => []
  | fuel + 1, s =>
    if c_char s 0 = 0 then []
    else if c_char s 0 = 37 then
      if isxdigitex (c_char s 1) && isxdigitex (c_char s 2) then
        from_hex (c_char s 1) (c_char s 2) :: url_decode_loop fuel (s.drop 3)
      else 37 :: url_decode_loop fuel (s.drop 1)
    else c_char s 0 :: url_decode_loop fuel (s.drop 1)

/-- The function `url_decode(const char *str, char *out, u_int *slen)`: the bytes
written to `out` before the terminator, whose number is stored in `slen`. -/
def url_decode (str : string_t) : List Nat :=
  url_decode_loop str.length str

/-! ## Numbers and strings (util.cpp) -/

/-- The first loop of `ul2str`: the characters written from `str` on, the last digit
first. A value of 64 bits ends the loop within 20 rounds. -/
def ul2str_digits : Nat → Nat → List Nat
  | 0, _ => []
  | fuel + 1, value =>
    (48 + value % 10 % 256) % 256 ::
      (if value / 10 ≠ 0 then ul2str_digits fuel (value / 10) else [])

/-- The second loop of `ul2str`: `while(cp1 < --cp2)` swaps the characters at `cp1`
and `cp2`. -/
def ul2str_swap : Nat → List Nat → Nat → Nat → List Nat
  | 0, buf, _, _ => buf
  | fuel + 1, buf, cp1, cp2 =>
    if cp1 < cp2 - 1 then
      ul2str_swap fuel ((buf.set cp1 (buf.getD (cp2 - 1) 0)).set (cp2 - 1) (buf.getD cp1 0))
        (cp1 + 1) (cp2 - 1)
    else buf

/-- The function `ul2str`: the characters written at `str` before the terminator, and
the number returned. -/
def ul2str (value : Nat) : List Nat × Nat :=
  let digits := ul2str_digits 20 value
  (ul2str_swap digits.length digits 0 digits.length, digits.length)

/-- The loop of `str2ul` over the characters from `cp` on; the value is a
`uint64_t`, the offset `cp - str` is cast to `u_int`. -/
def str2ul_loop (len : Nat) : List Nat → Nat → Nat → Nat
  | [], _, value => value
  | c :: rest, cp, value =>
    if c ≠ 0 ∧ cp % 4294967296 < len ∧ isdigitex c = true then
      str2ul_loop len rest (cp + 1) ((value * 10 % 2 ^ 64 + (c - 48)) % 2 ^ 64)
    else value

/-- The function `str2ul`, without the end pointer `eptr`. -/
def str2ul (str : string_t) (len : Nat) : Nat :=
  if c_char str 0 = 0 ∨ len = 0 ∨ isdigitex (c_char str 0) = false then 0
  else str2ul_loop len (str.drop 1) 1 (c_char str 0 - 48)

/-! ## Iterators of hash tables (hashtab.h) -/

/-- The class `hash_table::iterator`. A null `htab` is `none`; a pointer to a node is
the chain from that node on, a null pointer the empty chain. -/
structure hash_iterator (ν : Type) where
  htab : Option (List (List ν))
  index : Nat
  maxhash : Nat
  nptr : List ν

/-- The function `hash_table::begin`. -/
def hash_table.begin {ν : Type} (t : hash_table ν) : hash_iterator ν :=
  { htab := some t.htab, index := 0, maxhash := t.htab.length, nptr := [] }

/-- `iterator::next`: the loop `while(index < maxhash)` over the heads of the
buckets; it ends within `maxhash - index` rounds. -/
def hash_iterator.next_head {ν : Type} (buckets : List (List ν)) :
    Nat → hash_iterator ν → Option ν × hash_iterator ν
  | 0, it => (none, it)
  | fuel + 1, it =>
    if it.index < it.maxhash then
      match buckets.getD it.index [] with
      | [] => hash_iterator.next_head buckets fuel { it with nptr := [], index := it.index + 1 }
      | n :: chain => (some n, { it with nptr := n :: chain, index := it.index + 1 })
    else (none, it)

/-- The function `hash_table::iterator::next`: the node returned, `none` for NULL, and
the iterator after. -/
def hash_iterator.next {ν : Type} (it : hash_iterator ν) : Option ν × hash_iterator ν :=
  match it.htab with
  | none => (none, it)
  | some buckets =>
    match it.nptr with
    | _ :: n :: chain => (some n, { it with nptr := n :: chain })
    | _ => hash_iterator.next_head buckets (it.maxhash - it.index) it

/-- The results of `k` successive calls of `next`. -/
def hash_iterator.run {ν : Type} : Nat → hash_iterator ν → List (Option ν)
  | 0, _ => []
  | k + 1, it => (hash_iterator.next it).1 :: hash_iterator.run k (hash_iterator.next it).2

/-- The nodes that an iterator has yet to return: the rest of the current chain and
the chains of the buckets from `index` on. -/
def hash_iterator.remaining {ν : Type} (buckets : List (List ν)) (it : hash_iterator ν) :
    List ν :=
  it.nptr.tail ++ (buckets.drop it.index).flatten

/-- A sample table of four buckets with the nodes 7 and 3 in the second bucket and 9
in the fourth. -/
def sample_table : hash_table Nat :=
  { hash_table.empty Nat 4 with htab := [[], [7, 3], [], [9]] }
/-! ## Bytes, buffers and cursors -/

theorem length_le_bytes (n v : Nat) : (le_bytes n v).length = n := by
  induction n generalizing v with
  | zero => rfl
  | succ n ih => simp [le_bytes, ih]

theorem le_value_le_bytes (n v : Nat) (h : v < 256 ^ n) : le_value (le_bytes n v) = v := by
  induction n generalizing v with
  | zero => simp at h; subst h; rfl
  | succ n ih =>
    have h2 : v / 256 < 256 ^ n := by
      rw [Nat.div_lt_iff_lt_mul (by norm_num)]
      rw [pow_succ] at h; exact h
    simp only [le_bytes, le_value, ih _ h2]
    omega

theorem poke_poke (buf : Buffer) (p : Nat) (a b : List Nat) (hp : p ≤ buf.length) :
    poke (poke buf p a) (p + a.length) b = poke buf p (a ++ b) := by
  unfold poke
  have h1 : (List.take p buf).length = p := by simp [hp]
  have e1 : List.take (p + a.length) (List.take p buf ++ a ++ List.drop (p + a.length) buf)
      = List.take p buf ++ a := by
    rw [List.take_append_of_le_length (by simp [h1])]
    rw [List.take_of_length_le (by simp [h1])]
  have e2 : List.drop (p + a.length + b.length)
      (List.take p buf ++ a ++ List.drop (p + a.length) buf)
      = List.drop (p + (a ++ b).length) buf := by
    rw [List.drop_append_eq_append_drop]
    rw [List.drop_of_length_le (by simp [h1])]
    simp [h1]
    congr 1
    omega
  rw [e1, e2]
  simp

theorem poke_zero (buf : Buffer) (a : List Nat) : poke buf 0 a = a ++ buf.drop a.length := by
  simp [poke]

theorem store_store (a b : List Nat) (c : Buffer × Nat) (hp : c.2 ≤ c.1.length) :
    store b (store a c) = store (a ++ b) c := by
  simp only [store, poke_poke _ _ _ _ hp, List.length_append, Nat.add_assoc]

theorem drop_step (buf : Buffer) (p n : Nat) (f tl : List Nat) (h : buf.drop p = f ++ tl)
    (hn : f.length = n) : buf.drop (p + n) = tl := by
  subst hn
  rw [← List.drop_drop, h]
  simp

theorem peek_of_drop (buf : Buffer) (p n : Nat) (f tl : List Nat) (h : buf.drop p = f ++ tl)
    (hn : f.length = n) : peek buf p n = f := by
  subst hn
  simp [peek, h]

theorem deserialize_num_eq (w v : Nat) (buf : Buffer) (p : Nat) (tl : List Nat)
    (h : buf.drop p = le_bytes w v ++ tl) (hv : v < 256 ^ w) :
    deserialize_num w buf p = (v, p + w) := by
  simp only [deserialize_num, peek_of_drop buf p w _ tl h (length_le_bytes w v),
    le_value_le_bytes w v hv]

theorem deserialize_bool_eq (b : Bool) (buf : Buffer) (p : Nat) (tl : List Nat)
    (h : buf.drop p = le_bytes 1 (if b then 1 else 0) ++ tl) :
    deserialize_bool buf p = (b, p + 1) := by
  simp only [deserialize_bool, peek_of_drop buf p 1 _ tl h (length_le_bytes 1 _)]
  cases b <;> simp [le_bytes, le_value]

theorem s_size_of_string_buf_eq (s : string_t) (buf : Buffer) (p : Nat) (tl : List Nat)
    (h : buf.drop p = string_bytes s ++ tl) (hs : s.length < 2 ^ 32) :
    s_size_of_string_buf buf p = 4 + s.length := by
  have h1 : buf.drop p = le_bytes 4 s.length ++ (s ++ tl) := by
    simpa [string_bytes] using h
  simp only [s_size_of_string_buf, peek_of_drop buf p 4 _ _ h1 (length_le_bytes 4 _)]
  rw [le_value_le_bytes 4 _ (by norm_num; omega)]

theorem deserialize_string_eq (s : string_t) (buf : Buffer) (p : Nat) (tl : List Nat)
    (h : buf.drop p = string_bytes s ++ tl) (hs : s.length < 2 ^ 32) :
    deserialize_string buf p = (s, p + (4 + s.length)) := by
  have h1 : buf.drop p = le_bytes 4 s.length ++ (s ++ tl) := by
    simpa [string_bytes] using h
  have h2 := drop_step buf p 4 _ _ h1 (length_le_bytes 4 _)
  simp only [deserialize_string, s_size_of_string_buf_eq s buf p tl h hs,
    peek_of_drop buf p 4 _ _ h1 (length_le_bytes 4 _)]
  rw [le_value_le_bytes 4 _ (by norm_num; omega), peek_of_drop buf (p + 4) _ s tl h2 rfl]

theorem deserialize_chars_eq (cs : List Nat) (n : Nat) (buf : Buffer) (p : Nat) (tl : List Nat)
    (h : buf.drop p = cs ++ tl) (hn : cs.length = n) :
    deserialize_chars n buf p = (cs, p + n) := by
  simp only [deserialize_chars, peek_of_drop buf p n cs tl h hn]

theorem string_valid_length (s : string_t) (h : string_valid s = true) : s.length < 2 ^ 32 := by
  simp only [string_valid, Bool.and_eq_true, decide_eq_true_eq] at h
  exact h.1

theorem length_string_bytes (s : string_t) : (string_bytes s).length = 4 + s.length := by
  simp [string_bytes, length_le_bytes]

/-! ## The node header and the base members -/

theorem length_base_record (E : Externals) (ver : Nat) (b : base_node) :
    (base_node.record E ver b).length = base_node.s_data_size E b := by
  simp only [base_node.record, base_node.s_data_size, datanode_t.s_data_size,
    List.length_append, length_le_bytes]
  omega

theorem base_pack_eq (E : Externals) (ver : Nat) (b : base_node) (buffer : Buffer) :
    ((base_node.s_pack_data E ver b buffer, base_node.s_data_size E b) : Buffer × Nat)
      = store (base_node.record E ver b) (buffer, 0) := by
  have h := poke_poke buffer 0 (le_bytes 2 ver ++ E.hdr_rest) (E.base.enc b) (Nat.zero_le _)
  simp only [List.length_append, length_le_bytes, Nat.zero_add] at h
  simp only [base_node.s_pack_data, datanode_t.s_pack_data, datanode_t.s_data_size, store,
    base_node.s_data_size, base_node.record, h, List.append_assoc, List.length_append,
    length_le_bytes, Nat.zero_add, Nat.add_assoc]

theorem s_node_ver_eq (ver : Nat) (tl : List Nat) (hv : ver < 65536) :
    s_node_ver (le_bytes 2 ver ++ tl) = ver := by
  have h : (le_bytes 2 ver ++ tl).drop 0 = le_bytes 2 ver ++ tl := rfl
  simp only [s_node_ver, peek_of_drop _ 0 2 _ tl h (length_le_bytes 2 ver)]
  exact le_value_le_bytes 2 ver (by norm_num; exact hv)

theorem base_record_ver (E : Externals) (ver : Nat) (b : base_node) (tl : List Nat)
    (hv : ver < 65536) : s_node_ver (base_node.record E ver b ++ tl) = ver := by
  simp only [base_node.record, List.append_assoc]
  exact s_node_ver_eq ver _ hv

theorem base_record_drop_hdr (E : Externals) (ver : Nat) (b : base_node) (tl : List Nat) :
    (base_node.record E ver b ++ tl).drop (datanode_t.s_data_size E) = E.base.enc b ++ tl := by
  have h : (base_node.record E ver b ++ tl).drop 0
      = (le_bytes 2 ver ++ E.hdr_rest) ++ (E.base.enc b ++ tl) := by
    simp [base_node.record]
  have h2 := drop_step _ 0 (datanode_t.s_data_size E) _ _ h
    (by simp [datanode_t.s_data_size, length_le_bytes])
  simpa using h2

theorem base_record_size (E : Externals) (ver : Nat) (b : base_node) (tl : List Nat)
    (hb : E.base.valid b = true) :
    base_node.s_data_size_buf E (base_node.record E ver b ++ tl) = base_node.s_data_size E b := by
  simp only [base_node.s_data_size_buf, base_record_drop_hdr, E.base.size_enc b tl hb,
    base_node.s_data_size]

theorem base_record_drop (E : Externals) (ver : Nat) (b : base_node) (tl : List Nat) :
    (base_node.record E ver b ++ tl).drop (base_node.s_data_size E b) = tl := by
  rw [← length_base_record E ver b]
  simp

/-! ## Host nodes -/

theorem hnode_pack_eq (E : Externals) (v : hnode_t) (buffer : Buffer) (bufsize : Nat)
    (hsz : hnode_t.s_data_size E v ≤ bufsize) :
    hnode_t.s_pack_data E v buffer bufsize
      = (hnode_t.s_data_size E v,
          poke buffer 0 (base_node.record E E.hnode_version v.base ++ hnode_t.payload E v)) := by
  have hlt : ¬ bufsize < hnode_t.s_data_size E v := by omega
  simp only [hnode_t.s_pack_data, hlt, if_false, base_pack_eq, serialize_bool, serialize_num,
    serialize_double, serialize_string, serialize_chars, serialize_tstamp]
  simp only [store_store _ _ (buffer, 0) (Nat.zero_le _)]
  simp only [store, hnode_t.payload, List.append_assoc]

theorem deserialize_tstamp_eq (E : Externals) (t : tstamp_t) (buf : Buffer) (p : Nat)
    (tl : List Nat) (h : buf.drop p = E.tstamp.enc t ++ tl) (ht : E.tstamp.valid t = true) :
    deserialize_tstamp E buf p = (t, p + (E.tstamp.enc t).length) := by
  simp only [deserialize_tstamp, s_size_of_tstamp_buf, h, E.tstamp.dec_enc t tl ht,
    E.tstamp.size_enc t tl ht]

theorem hnode_valid_parts (E : Externals) (v : hnode_t) (h : hnode_t.valid E v = true) :
    E.base.valid v.base = true ∧ E.tstamp.valid v.tstamp = true ∧
    v.count < 2 ^ 64 ∧ v.files < 2 ^ 64 ∧ v.pages < 2 ^ 64 ∧ v.xfer < 2 ^ 64 ∧
    v.visits < 2 ^ 64 ∧ v.visits_conv < 2 ^ 64 ∧ v.visit_avg < 2 ^ 64 ∧
    v.visit_max < 2 ^ 64 ∧ v.max_v_hits < 2 ^ 64 ∧ v.max_v_files < 2 ^ 64 ∧
    v.max_v_pages < 2 ^ 64 ∧ v.max_v_xfer < 2 ^ 64 ∧
    string_valid v.name = true ∧ string_valid v.city = true ∧
    v.ccode.length = hnode_t.ccode_size := by
  simp only [hnode_t.valid, Bool.and_eq_true, decide_eq_true_eq] at h
  tauto

theorem hnode_record_length (E : Externals) (v : hnode_t) (h : hnode_t.valid E v = true) :
    (base_node.record E E.hnode_version v.base ++ hnode_t.payload E v).length
      = hnode_t.s_data_size E v := by
  have hc := (hnode_valid_parts E v h).2.2.2.2.2.2.2.2.2.2.2.2.2.2.2.2
  simp only [List.length_append, length_base_record, hnode_t.payload, length_le_bytes,
    length_string_bytes, List.length_take, hc, hnode_t.s_data_size, s_size_of_string,
    hnode_t.ccode_size]
  omega

theorem hnode_size_layout (E : Externals) (v : hnode_t) (rest : List Nat)
    (h : hnode_t.valid E v = true) (hver : 6 ≤ E.hnode_version) (hver2 : E.hnode_version < 65536) :
    hnode_t.s_data_size_buf E
        (base_node.record E E.hnode_version v.base ++ (hnode_t.payload E v ++ rest))
      = hnode_t.s_data_size E v := by
  have hsize : hnode_t.s_data_size E v = base_node.s_data_size E v.base + 1 + 8 + 8 + 8 + 8 + 8
      + 8 + 8 + 8 + 8 + 8 + 8 + 1 + 8 + (4 + v.name.length) + hnode_t.ccode_size + 1 + 8
      + (E.tstamp.enc v.tstamp).length + (4 + v.city.length) := by
    simp only [hnode_t.s_data_size, s_size_of_string]
    omega
  rw [hsize]
  obtain ⟨hvb, hvt, hcount, hfiles, hpages, hxfer, hvisits, hconv, havg, hvmax, hmh, hmf, hmp,
    hmx, hname, hcity, hcc⟩ := hnode_valid_parts E v h
  have hname := string_valid_length _ hname
  have hcity := string_valid_length _ hcity
  have hp8 : (2 : Nat) ^ 64 = 256 ^ 8 := by norm_num
  rw [hp8] at hcount hfiles hpages hxfer hvisits hconv havg hvmax hmh hmf hmp hmx
  have hbs := base_record_size E E.hnode_version v.base (hnode_t.payload E v ++ rest) hvb
  have hvr := base_record_ver E E.hnode_version v.base (hnode_t.payload E v ++ rest) hver2
  have e0 := base_record_drop E E.hnode_version v.base (hnode_t.payload E v ++ rest)
  generalize base_node.record E E.hnode_version v.base ++ (hnode_t.payload E v ++ rest) = buf
    at hbs hvr e0 ⊢
  generalize base_node.s_data_size E v.base = bs at hbs e0 ⊢
  simp only [hnode_t.payload, List.append_assoc] at e0
  have e1 := drop_step _ _ 1 _ _ e0 (length_le_bytes 1 _)
  have e2 := drop_step _ _ 8 _ _ e1 (length_le_bytes 8 _)
  have e3 := drop_step _ _ 8 _ _ e2 (length_le_bytes 8 _)
  have e4 := drop_step _ _ 8 _ _ e3 (length_le_bytes 8 _)
  have e5 := drop_step _ _ 8 _ _ e4 (length_le_bytes 8 _)
  have e6 := drop_step _ _ 8 _ _ e5 (length_le_bytes 8 _)
  have e7 := drop_step _ _ 8 _ _ e6 (length_le_bytes 8 _)
  have e8 := drop_step _ _ 8 _ _ e7 (length_le_bytes 8 _)
  have e9 := drop_step _ _ 8 _ _ e8 (length_le_bytes 8 _)
  have e10 := drop_step _ _ 8 _ _ e9 (length_le_bytes 8 _)
  have e11 := drop_step _ _ 8 _ _ e10 (length_le_bytes 8 _)
  have e12 := drop_step _ _ 8 _ _ e11 (length_le_bytes 8 _)
  have e13 := drop_step _ _ 1 _ _ e12 (length_le_bytes 1 _)
  have e14 := drop_step _ _ 8 _ _ e13 (length_le_bytes 8 _)
  have e15 := drop_step _ _ (4 + v.name.length) _ _ e14 (length_string_bytes _)
  have e16 := drop_step _ _ hnode_t.ccode_size _ _ e15 (by simp [hcc])
  have e17 := drop_step _ _ 1 _ _ e16 (length_le_bytes 1 _)
  have e18 := drop_step _ _ 8 _ _ e17 (length_le_bytes 8 _)
  have e19 := drop_step _ _ (E.tstamp.enc v.tstamp).length _ _ e18 rfl
  have e19 : List.drop (bs + 1 + 8 + 8 + 8 + 8 + 8 + 8 + 8 + 8 + 8 + 8 + 8 + 1 + 8
      + (4 + v.name.length) + hnode_t.ccode_size + 1 + 8 + (E.tstamp.enc v.tstamp).length) buf
      = string_bytes v.city ++ rest := e19
  have o1 : bs + 1 * 2 + 8 * 3 + 8 * 2 + 8 * 3 + 8 + 8 + 8 * 2
      = bs + 1 + 8 + 8 + 8 + 8 + 8 + 8 + 8 + 8 + 8 + 8 + 8 + 1 + 8 := by omega
  have s14 := s_size_of_string_buf_eq _ _ _ _ e14 hname
  have s18 := E.tstamp.size_enc v.tstamp (string_bytes v.city ++ rest) hvt
  rw [← e18] at s18
  have s19 := s_size_of_string_buf_eq _ _ _ _ e19 hcity
  have c2 : ¬ E.hnode_version < 2 := by omega
  have c3 : ¬ E.hnode_version < 3 := by omega
  have c4 : ¬ E.hnode_version < 4 := by omega
  have c5 : ¬ E.hnode_version < 5 := by omega
  have c6 : ¬ E.hnode_version < 6 := by omega
  simp only [hnode_t.s_data_size_buf, hbs, hvr, o1, s14, c2, c3, c4, c5, c6, if_false,
    s_size_of_tstamp_buf, s18, s19]

theorem hnode_unpack_layout (E : Externals) (v w : hnode_t) (rest : List Nat) (bufsize : Nat)
    (h : hnode_t.valid E v = true) (hver : 6 ≤ E.hnode_version) (hver2 : E.hnode_version < 65536)
    (hsz : hnode_t.s_data_size E v ≤ bufsize) :
    hnode_t.s_unpack_data E w
        (base_node.record E E.hnode_version v.base ++ (hnode_t.payload E v ++ rest)) bufsize none
      = (hnode_t.s_data_size E v,
          { w with
            base := v.base,
            spammer := v.spammer, count := v.count, files := v.files,
            pages := v.pages, xfer := v.xfer, visits := v.visits, visit_avg := v.visit_avg,
            visit_max := v.visit_max, max_v_hits := v.max_v_hits,
            max_v_files := v.max_v_files, max_v_pages := v.max_v_pages,
            max_v_xfer := v.max_v_xfer, name := v.name,
            ccode := v.ccode.take hnode_t.ccode_size, robot := v.robot,
            visits_conv := v.visits_conv, tstamp := v.tstamp, city := v.city,
            visit := none }) := by
  have hds := hnode_size_layout E v rest h hver hver2
  have hub : base_node.s_unpack_data E
      (base_node.record E E.hnode_version v.base ++ (hnode_t.payload E v ++ rest))
      = v.base := by
    simp only [base_node.s_unpack_data, base_record_drop_hdr]
    exact E.base.dec_enc v.base _ (hnode_valid_parts E v h).1
  have hlt : ¬ bufsize < hnode_t.s_data_size E v := by omega
  obtain ⟨hvb, hvt, hcount, hfiles, hpages, hxfer, hvisits, hconv, havg, hvmax, hmh, hmf, hmp,
    hmx, hname, hcity, hcc⟩ := hnode_valid_parts E v h
  have hname := string_valid_length _ hname
  have hcity := string_valid_length _ hcity
  have hp8 : (2 : Nat) ^ 64 = 256 ^ 8 := by norm_num
  rw [hp8] at hcount hfiles hpages hxfer hvisits hconv havg hvmax hmh hmf hmp hmx
  have hbs := base_record_size E E.hnode_version v.base (hnode_t.payload E v ++ rest) hvb
  have hvr := base_record_ver E E.hnode_version v.base (hnode_t.payload E v ++ rest) hver2
  have e0 := base_record_drop E E.hnode_version v.base (hnode_t.payload E v ++ rest)
  generalize base_node.record E E.hnode_version v.base ++ (hnode_t.payload E v ++ rest) = buf
    at hbs hvr e0 hds hub ⊢
  generalize base_node.s_data_size E v.base = bs at hbs e0 ⊢
  simp only [hnode_t.payload, List.append_assoc] at e0
  have e1 := drop_step _ _ 1 _ _ e0 (length_le_bytes 1 _)
  have e2 := drop_step _ _ 8 _ _ e1 (length_le_bytes 8 _)
  have e3 := drop_step _ _ 8 _ _ e2 (length_le_bytes 8 _)
  have e4 := drop_step _ _ 8 _ _ e3 (length_le_bytes 8 _)
  have e5 := drop_step _ _ 8 _ _ e4 (length_le_bytes 8 _)
  have e6 := drop_step _ _ 8 _ _ e5 (length_le_bytes 8 _)
  have e7 := drop_step _ _ 8 _ _ e6 (length_le_bytes 8 _)
  have e8 := drop_step _ _ 8 _ _ e7 (length_le_bytes 8 _)
  have e9 := drop_step _ _ 8 _ _ e8 (length_le_bytes 8 _)
  have e10 := drop_step _ _ 8 _ _ e9 (length_le_bytes 8 _)
  have e11 := drop_step _ _ 8 _ _ e10 (length_le_bytes 8 _)
  have e12 := drop_step _ _ 8 _ _ e11 (length_le_bytes 8 _)
  have e13 := drop_step _ _ 1 _ _ e12 (length_le_bytes 1 _)
  have e14 := drop_step _ _ 8 _ _ e13 (length_le_bytes 8 _)
  have e15 := drop_step _ _ (4 + v.name.length) _ _ e14 (length_string_bytes _)
  have e16 := drop_step _ _ hnode_t.ccode_size _ _ e15 (by simp [hcc])
  have e17 := drop_step _ _ 1 _ _ e16 (length_le_bytes 1 _)
  have e18 := drop_step _ _ 8 _ _ e17 (length_le_bytes 8 _)
  have e19 := drop_step _ _ (E.tstamp.enc v.tstamp).length _ _ e18 rfl
  have e19 : List.drop (bs + 1 + 8 + 8 + 8 + 8 + 8 + 8 + 8 + 8 + 8 + 8 + 8 + 1 + 8
      + (4 + v.name.length) + hnode_t.ccode_size + 1 + 8 + (E.tstamp.enc v.tstamp).length) buf
      = string_bytes v.city ++ rest := e19
  have r0 := deserialize_bool_eq _ _ _ _ e0
  have r1 := deserialize_num_eq 8 _ _ _ _ e1 hcount
  have r2 := deserialize_num_eq 8 _ _ _ _ e2 hfiles
  have r3 := deserialize_num_eq 8 _ _ _ _ e3 hpages
  have r4 := deserialize_num_eq 8 _ _ _ _ e4 hxfer
  have r5 := deserialize_num_eq 8 _ _ _ _ e5 hvisits
  have r6 := deserialize_num_eq 8 _ _ _ _ e6 havg
  have r7 := deserialize_num_eq 8 _ _ _ _ e7 hvmax
  have r8 := deserialize_num_eq 8 _ _ _ _ e8 hmh
  have r9 := deserialize_num_eq 8 _ _ _ _ e9 hmf
  have r10 := deserialize_num_eq 8 _ _ _ _ e10 hmp
  have r11 := deserialize_num_eq 8 _ _ _ _ e11 hmx
  have r12 := deserialize_bool_eq _ _ _ _ e12
  have r14 := deserialize_string_eq _ _ _ _ e14 hname
  have r15 := deserialize_chars_eq _ hnode_t.ccode_size _ _ _ e15 (by simp [hcc])
  have r16 := deserialize_bool_eq _ _ _ _ e16
  have r17 := deserialize_num_eq 8 _ _ _ _ e17 hconv
  have r18 := deserialize_tstamp_eq E _ _ _ _ e18 hvt
  have r19 := deserialize_string_eq _ _ _ _ e19 hcity
  have c2 : E.hnode_version ≥ 2 := by omega
  have c3 : E.hnode_version ≥ 3 := by omega
  have c4 : E.hnode_version ≥ 4 := by omega
  have c5 : E.hnode_version ≥ 5 := by omega
  have c6 : E.hnode_version ≥ 6 := by omega
  simp only [hnode_t.s_unpack_data, hds, hub, hlt, hbs, hvr, if_false, if_true, s_skip_field,
    deserialize_double, r0, r1, r2, r3, r4, r5, r6, r7, r8, r9, r10, r11, r12, r14, r15, r16,
    r17, r18, r19, c2, c3, c4, c5, c6]

/-! ## Error nodes -/

theorem rcnode_valid_parts (E : Externals) (e : rcnode_t) (h : rcnode_t.valid E e = true) :
    E.base.valid e.base = true ∧ e.count < 2 ^ 64 ∧ e.respcode < 2 ^ 16 ∧
    string_valid e.method = true := by
  simp only [rcnode_t.valid, Bool.and_eq_true, decide_eq_true_eq] at h
  tauto

theorem rcnode_pack_eq (E : Externals) (e : rcnode_t) (buffer : Buffer) (bufsize : Nat)
    (hsz : rcnode_t.s_data_size E e ≤ bufsize) :
    rcnode_t.s_pack_data E e buffer bufsize
      = (rcnode_t.s_data_size E e,
          poke buffer 0 (base_node.record E E.rcnode_version e.base ++ rcnode_t.payload E e)) := by
  have hlt : ¬ bufsize < rcnode_t.s_data_size E e := by omega
  simp only [rcnode_t.s_pack_data, hlt, if_false, base_pack_eq, serialize_bool, serialize_num,
    serialize_string]
  simp only [store_store _ _ (buffer, 0) (Nat.zero_le _)]
  simp only [store, rcnode_t.payload, List.append_assoc]

theorem rcnode_size_layout (E : Externals) (e : rcnode_t) (rest : List Nat)
    (h : rcnode_t.valid E e = true) :
    rcnode_t.s_data_size_buf E
        (base_node.record E E.rcnode_version e.base ++ (rcnode_t.payload E e ++ rest))
      = rcnode_t.s_data_size E e := by
  obtain ⟨hvb, _, _, hm⟩ := rcnode_valid_parts E e h
  have hm := string_valid_length _ hm
  have hbs := base_record_size E E.rcnode_version e.base (rcnode_t.payload E e ++ rest) hvb
  have e0 := base_record_drop E E.rcnode_version e.base (rcnode_t.payload E e ++ rest)
  simp only [rcnode_t.s_data_size]
  generalize base_node.record E E.rcnode_version e.base ++ (rcnode_t.payload E e ++ rest) = buf
    at hbs e0 ⊢
  generalize base_node.s_data_size E e.base = bs at hbs e0 ⊢
  simp only [rcnode_t.payload, List.append_assoc] at e0
  have e1 := drop_step _ _ 1 _ _ e0 (length_le_bytes 1 _)
  have e2 := drop_step _ _ 2 _ _ e1 (length_le_bytes 2 _)
  have e3 := drop_step _ _ 8 _ _ e2 (length_le_bytes 8 _)
  have s3 := s_size_of_string_buf_eq _ _ _ _ e3 hm
  simp only [rcnode_t.s_data_size_buf, hbs, s3, s_size_of_string]

/-! ## Active download nodes -/

theorem length_hdr_record (E : Externals) (ver : Nat) :
    (datanode_t.record E ver).length = datanode_t.s_data_size E := by
  simp only [datanode_t.record, datanode_t.s_data_size, List.length_append, length_le_bytes]

theorem hdr_pack_eq (E : Externals) (ver : Nat) (buffer : Buffer) :
    ((datanode_t.s_pack_data E ver buffer, datanode_t.s_data_size E) : Buffer × Nat)
      = store (datanode_t.record E ver) (buffer, 0) := by
  simp only [datanode_t.s_pack_data, store, datanode_t.record, datanode_t.s_data_size,
    List.length_append, length_le_bytes, Nat.zero_add]

theorem hdr_record_ver (E : Externals) (ver : Nat) (tl : List Nat) (hv : ver < 65536) :
    s_node_ver (datanode_t.record E ver ++ tl) = ver := by
  simp only [datanode_t.record, List.append_assoc]
  exact s_node_ver_eq ver _ hv

theorem hdr_record_drop (E : Externals) (ver : Nat) (tl : List Nat) :
    (datanode_t.record E ver ++ tl).drop (datanode_t.s_data_size E) = tl := by
  rw [← length_hdr_record E ver]
  simp

theorem danode_valid_parts (E : Externals) (a : danode_t) (h : danode_t.valid E a = true) :
    E.tstamp.valid a.tstamp = true ∧ a.hits < 2 ^ 64 ∧ a.proctime < 2 ^ 64 ∧ a.xfer < 2 ^ 64 := by
  simp only [danode_t.valid, Bool.and_eq_true, decide_eq_true_eq] at h
  tauto

theorem danode_pack_eq (E : Externals) (a : danode_t) (buffer : Buffer) (bufsize : Nat)
    (hsz : danode_t.s_data_size E a ≤ bufsize) :
    danode_t.s_pack_data E a buffer bufsize
      = (danode_t.s_data_size E a,
          poke buffer 0 (datanode_t.record E E.danode_version ++ danode_t.payload E a)) := by
  have hlt : ¬ bufsize < danode_t.s_data_size E a := by omega
  simp only [danode_t.s_pack_data, hlt, if_false, hdr_pack_eq, serialize_num, serialize_tstamp]
  simp only [store_store _ _ (buffer, 0) (Nat.zero_le _)]
  simp only [store, danode_t.payload, List.append_assoc]

theorem danode_size_layout (E : Externals) (a : danode_t) (rest : List Nat)
    (h : danode_t.valid E a = true) (hver : 2 ≤ E.danode_version)
    (hver2 : E.danode_version < 65536) :
    danode_t.s_data_size_buf E
        (datanode_t.record E E.danode_version ++ (danode_t.payload E a ++ rest))
      = danode_t.s_data_size E a := by
  obtain ⟨hvt, _, _, _⟩ := danode_valid_parts E a h
  have hvr := hdr_record_ver E E.danode_version (danode_t.payload E a ++ rest) hver2
  have e0 := hdr_record_drop E E.danode_version (danode_t.payload E a ++ rest)
  simp only [danode_t.s_data_size]
  generalize datanode_t.record E E.danode_version ++ (danode_t.payload E a ++ rest) = buf
    at hvr e0 ⊢
  simp only [danode_t.payload, List.append_assoc] at e0
  have e1 := drop_step _ _ 8 _ _ e0 (length_le_bytes 8 _)
  have s1 := E.tstamp.size_enc a.tstamp (le_bytes 8 a.proctime ++ (le_bytes 8 a.xfer ++ rest)) hvt
  rw [← e1] at s1
  have c2 : ¬ E.danode_version < 2 := by omega
  simp only [danode_t.s_data_size_buf, hvr, c2, if_false, s_size_of_tstamp_buf, s1]
  omega

/-! ## Daily totals -/

theorem daily_pack_eq (E : Externals) (d : daily_t) (buffer : Buffer) (bufsize : Nat)
    (hsz : daily_t.s_data_size E ≤ bufsize) :
    daily_t.s_pack_data E d buffer bufsize
      = (daily_t.s_data_size E,
          poke buffer 0 (datanode_t.record E E.daily_version ++ daily_t.payload E d)) := by
  have hlt : ¬ bufsize < daily_t.s_data_size E := by omega
  simp only [daily_t.s_pack_data, hlt, if_false, hdr_pack_eq, serialize_num, serialize_double]
  simp only [store_store _ _ (buffer, 0) (Nat.zero_le _)]
  simp only [store, daily_t.payload, List.append_assoc]

theorem daily_size_layout (E : Externals) (tl : List Nat) (hver : 2 ≤ E.daily_version)
    (hver2 : E.daily_version < 65536) :
    daily_t.s_data_size_buf E (datanode_t.record E E.daily_version ++ tl) false
      = daily_t.s_data_size E := by
  have hvr := hdr_record_ver E E.daily_version tl hver2
  have c2 : ¬ E.daily_version < 2 := by omega
  simp only [daily_t.s_data_size_buf, hvr, c2, Bool.false_or, decide_False, Bool.false_eq_true,
    if_false, daily_t.s_data_size]
  omega

/-- C2: for a host node, an error node, an active download node and a daily totals
node, the size that the static `s_data_size(buffer)` predicts from the packed record
equals the number of bytes `s_pack_data` reports, which is the instance
`s_data_size()`. The class versions are declared outside the sources at hand: each
is a u16 and not older than the layout that `s_pack_data` writes (6 for hosts, 2 for
active downloads and daily totals). -/
theorem packed_size_prediction (E : Externals) (h : hnode_t) (e : rcnode_t) (a : danode_t)
    (d : daily_t) (buffer : Buffer) (bufsize : Nat)
    (hh : hnode_t.valid E h = true) (he : rcnode_t.valid E e = true)
    (ha : danode_t.valid E a = true)
    (hhv : 6 ≤ E.hnode_version ∧ E.hnode_version < 65536)
    (hav : 2 ≤ E.danode_version ∧ E.danode_version < 65536)
    (hdv : 2 ≤ E.daily_version ∧ E.daily_version < 65536)
    (hhsz : hnode_t.s_data_size E h ≤ bufsize) (hesz : rcnode_t.s_data_size E e ≤ bufsize)
    (hasz : danode_t.s_data_size E a ≤ bufsize) (hdsz : daily_t.s_data_size E ≤ bufsize) :
    (hnode_t.s_data_size_buf E (hnode_t.s_pack_data E h buffer bufsize).2
        = (hnode_t.s_pack_data E h buffer bufsize).1 ∧
      (hnode_t.s_pack_data E h buffer bufsize).1 = hnode_t.s_data_size E h) ∧
    (rcnode_t.s_data_size_buf E (rcnode_t.s_pack_data E e buffer bufsize).2
        = (rcnode_t.s_pack_data E e buffer bufsize).1 ∧
      (rcnode_t.s_pack_data E e buffer bufsize).1 = rcnode_t.s_data_size E e) ∧
    (danode_t.s_data_size_buf E (danode_t.s_pack_data E a buffer bufsize).2
        = (danode_t.s_pack_data E a buffer bufsize).1 ∧
      (danode_t.s_pack_data E a buffer bufsize).1 = danode_t.s_data_size E a) ∧
    (daily_t.s_data_size_buf E (daily_t.s_pack_data E d buffer bufsize).2 false
        = (daily_t.s_pack_data E d buffer bufsize).1 ∧
      (daily_t.s_pack_data E d buffer bufsize).1 = daily_t.s_data_size E) := by
  rw [hnode_pack_eq E h buffer bufsize hhsz, rcnode_pack_eq E e buffer bufsize hesz,
    danode_pack_eq E a buffer bufsize hasz, daily_pack_eq E d buffer bufsize hdsz]
  simp only [poke_zero, List.append_assoc, and_true]
  exact ⟨hnode_size_layout E h _ hh hhv.1 hhv.2, rcnode_size_layout E e _ he,
    danode_size_layout E a _ ha hav.1 hav.2, daily_size_layout E _ hdv.1 hdv.2⟩

/-- C1: a host node without an active visit, packed with `hnode_t::s_pack_data` into
a buffer of at least `s_data_size()` bytes and unpacked from that buffer with
`hnode_t::s_unpack_data` without a callback, comes back with every persisted member
(spammer, robot, count, files, pages, xfer, visits, visits_conv, visit_avg, visit_max,
max_v_hits, max_v_files, max_v_pages, max_v_xfer, name, country code, tstamp, city)
and its null visit unchanged, and both calls return the same byte count, which is
`s_data_size()`. The node unpacked into is arbitrary, so a fresh one is covered. The
class version of `hnode_t` is declared outside the sources at hand: it is a u16 and at
least 6, the version of the layout that `s_pack_data` writes. -/
theorem hnode_pack_unpack_roundtrip (E : Externals) (v w : hnode_t) (buffer : Buffer)
    (bufsize : Nat) (hvalid : hnode_t.valid E v = true) (hvisit : v.visit = none)
    (hver : 6 ≤ E.hnode_version) (hver2 : E.hnode_version < 65536)
    (hsz : hnode_t.s_data_size E v ≤ bufsize) :
    hnode_t.persisted_eq
        (hnode_t.s_unpack_data E w (hnode_t.s_pack_data E v buffer bufsize).2 bufsize none).2 v ∧
      (hnode_t.s_unpack_data E w (hnode_t.s_pack_data E v buffer bufsize).2 bufsize none).2.visit
        = v.visit ∧
      (hnode_t.s_pack_data E v buffer bufsize).1
        = (hnode_t.s_unpack_data E w (hnode_t.s_pack_data E v buffer bufsize).2 bufsize none).1 ∧
      (hnode_t.s_pack_data E v buffer bufsize).1 = hnode_t.s_data_size E v := by
  have hcc := (hnode_valid_parts E v hvalid).2.2.2.2.2.2.2.2.2.2.2.2.2.2.2.2
  have hlen := hnode_record_length E v hvalid
  rw [hnode_pack_eq E v buffer bufsize hsz]
  simp only [poke_zero, List.append_assoc]
  rw [hnode_unpack_layout E v w _ bufsize hvalid hver hver2 hsz]
  simp only [hnode_t.persisted_eq, hvisit, and_self, true_and]
  rw [List.take_of_length_le (by omega)]
  exact ⟨⟨rfl, trivial⟩, trivial⟩

/-- C1, at a sample node and a 200-byte buffer of 0xAA bytes. -/
theorem hnode_pack_unpack_roundtrip_witness :
    hnode_t.valid sample_externals sample_hnode = true ∧
      hnode_t.s_data_size sample_externals sample_hnode ≤ 200 ∧
      hnode_t.persisted_eq
        (hnode_t.s_unpack_data sample_externals (hnode_t.new sample_externals ⟨[], 0⟩)
          (hnode_t.s_pack_data sample_externals sample_hnode (List.replicate 200 170) 200).2
          200 none).2 sample_hnode :=
  ⟨by decide, by decide,
    (hnode_pack_unpack_roundtrip sample_externals sample_hnode
      (hnode_t.new sample_externals ⟨[], 0⟩) (List.replicate 200 170) 200
      (by decide) rfl (by decide) (by decide) (by decide)).1⟩

/-- C2, at the sample nodes and a 200-byte buffer. -/
theorem packed_size_prediction_witness :
    hnode_t.s_data_size_buf sample_externals
        (hnode_t.s_pack_data sample_externals sample_hnode (List.replicate 200 170) 200).2
      = hnode_t.s_data_size sample_externals sample_hnode ∧
    daily_t.s_data_size_buf sample_externals
        (daily_t.s_pack_data sample_externals sample_daily (List.replicate 200 170) 200).2 false
      = daily_t.s_data_size sample_externals := by
  have h := packed_size_prediction sample_externals sample_hnode sample_rcnode sample_danode
    sample_daily (List.replicate 200 170) 200 (by decide) (by decide) (by decide)
    (by decide) (by decide) (by decide) (by decide) (by decide) (by decide) (by decide)
  exact ⟨h.1.1.trans h.1.2, h.2.2.2.1.trans h.2.2.2.2⟩

/-! ## Field offsets -/

theorem hnode_fields_layout (E : Externals) (v : hnode_t) (rest : List Nat)
    (h : hnode_t.valid E v = true) :
    let buf := base_node.record E E.hnode_version v.base ++ (hnode_t.payload E v ++ rest)
    peek buf (hnode_t.s_field_hits E buf).1 (hnode_t.s_field_hits E buf).2
        = le_bytes 8 v.count ∧
      peek buf (hnode_t.s_field_xfer E buf).1 (hnode_t.s_field_xfer E buf).2
        = le_bytes 8 v.xfer ∧
      peek buf (hnode_t.s_field_value_hash E buf).1 (hnode_t.s_field_value_hash E buf).2
        = le_bytes 8 (hnode_t.s_hash_value E v) := by
  intro buf
  have hvb := (hnode_valid_parts E v h).1
  have hbs := base_record_size E E.hnode_version v.base (hnode_t.payload E v ++ rest) hvb
  have e0 := base_record_drop E E.hnode_version v.base (hnode_t.payload E v ++ rest)
  change base_node.s_data_size_buf E buf = _ at hbs
  change List.drop _ buf = _ at e0
  generalize base_node.s_data_size E v.base = bs at hbs e0
  simp only [hnode_t.payload, List.append_assoc] at e0
  have e1 := drop_step _ _ 1 _ _ e0 (length_le_bytes 1 _)
  have e2 := drop_step _ _ 8 _ _ e1 (length_le_bytes 8 _)
  have e3 := drop_step _ _ 8 _ _ e2 (length_le_bytes 8 _)
  have e4 := drop_step _ _ 8 _ _ e3 (length_le_bytes 8 _)
  have e5 := drop_step _ _ 8 _ _ e4 (length_le_bytes 8 _)
  have e6 := drop_step _ _ 8 _ _ e5 (length_le_bytes 8 _)
  have e7 := drop_step _ _ 8 _ _ e6 (length_le_bytes 8 _)
  have e8 := drop_step _ _ 8 _ _ e7 (length_le_bytes 8 _)
  have e9 := drop_step _ _ 8 _ _ e8 (length_le_bytes 8 _)
  have e10 := drop_step _ _ 8 _ _ e9 (length_le_bytes 8 _)
  have e11 := drop_step _ _ 8 _ _ e10 (length_le_bytes 8 _)
  have e12 := drop_step _ _ 8 _ _ e11 (length_le_bytes 8 _)
  have e13 := drop_step _ _ 1 _ _ e12 (length_le_bytes 1 _)
  have o4 : bs + 1 + 8 * 3 = bs + 1 + 8 + 8 + 8 := by omega
  have o13 : bs + 1 * 2 + 8 * 3 + 8 * 2 + 8 * 3 + 8 + 8 * 2
      = bs + 1 + 8 + 8 + 8 + 8 + 8 + 8 + 8 + 8 + 8 + 8 + 8 + 1 := by omega
  simp only [hnode_t.s_field_hits, hnode_t.s_field_xfer, hnode_t.s_field_value_hash, hbs, o4,
    o13]
  exact ⟨peek_of_drop _ _ 8 _ _ e1 (length_le_bytes 8 _),
    peek_of_drop _ _ 8 _ _ e4 (length_le_bytes 8 _),
    peek_of_drop _ _ 8 _ _ e13 (length_le_bytes 8 _)⟩

theorem rcnode_fields_layout (E : Externals) (e : rcnode_t) (rest : List Nat)
    (h : rcnode_t.valid E e = true) :
    let buf := base_node.record E E.rcnode_version e.base ++ (rcnode_t.payload E e ++ rest)
    peek buf (rcnode_t.s_field_hits E buf).1 (rcnode_t.s_field_hits E buf).2
        = le_bytes 8 e.count ∧
      peek buf (rcnode_t.s_field_value_mp_respcode E buf).1
          (rcnode_t.s_field_value_mp_respcode E buf).2
        = le_bytes 2 e.respcode ∧
      peek buf (rcnode_t.s_field_value_mp_method E buf).1
          (rcnode_t.s_field_value_mp_method E buf).2
        = string_bytes e.method ∧
      peek buf (rcnode_t.s_field_value_hash E buf).1 (rcnode_t.s_field_value_hash E buf).2
        = le_bytes 8 (rcnode_t.s_hash_value E e) := by
  intro buf
  obtain ⟨hvb, _, _, hm⟩ := rcnode_valid_parts E e h
  have hm := string_valid_length _ hm
  have hbs := base_record_size E E.rcnode_version e.base (rcnode_t.payload E e ++ rest) hvb
  have e0 := base_record_drop E E.rcnode_version e.base (rcnode_t.payload E e ++ rest)
  change base_node.s_data_size_buf E buf = _ at hbs
  change List.drop _ buf = _ at e0
  generalize base_node.s_data_size E e.base = bs at hbs e0
  simp only [rcnode_t.payload, List.append_assoc] at e0
  have e1 := drop_step _ _ 1 _ _ e0 (length_le_bytes 1 _)
  have e2 := drop_step _ _ 2 _ _ e1 (length_le_bytes 2 _)
  have e3 := drop_step _ _ 8 _ _ e2 (length_le_bytes 8 _)
  have e4 := drop_step _ _ (4 + e.method.length) _ _ e3 (length_string_bytes _)
  have s3 := s_size_of_string_buf_eq _ _ _ _ e3 hm
  simp only [rcnode_t.s_field_hits, rcnode_t.s_field_value_mp_respcode,
    rcnode_t.s_field_value_mp_method, rcnode_t.s_field_value_hash, hbs, s3]
  exact ⟨peek_of_drop _ _ 8 _ _ e2 (length_le_bytes 8 _),
    peek_of_drop _ _ 2 _ _ e1 (length_le_bytes 2 _),
    peek_of_drop _ _ _ _ _ e3 (length_string_bytes _),
    peek_of_drop _ _ 8 _ _ e4 (length_le_bytes 8 _)⟩

/-- C3: on the packed record of a host node `v` and of an error node `e`, every
field-offset helper returns the offset at which that field's encoded bytes lie and
the number of those bytes: `hnode_t::s_field_hits`, `s_field_xfer` and
`s_field_value_hash` locate the eight bytes of `v.count`, `v.xfer` and the value hash
of `v`; `rcnode_t::s_field_hits`, `s_field_value_mp_respcode`,
`s_field_value_mp_method` and `s_field_value_hash` locate the bytes of `e.count`,
`e.respcode`, `e.method` (length prefix included) and the value hash of `e`. -/
theorem field_offsets_locate_fields (E : Externals) (v : hnode_t) (e : rcnode_t)
    (buffer : Buffer) (bufsize : Nat)
    (hv : hnode_t.valid E v = true) (he : rcnode_t.valid E e = true)
    (hvsz : hnode_t.s_data_size E v ≤ bufsize) (hesz : rcnode_t.s_data_size E e ≤ bufsize) :
    (peek (hnode_t.s_pack_data E v buffer bufsize).2
          (hnode_t.s_field_hits E (hnode_t.s_pack_data E v buffer bufsize).2).1
          (hnode_t.s_field_hits E (hnode_t.s_pack_data E v buffer bufsize).2).2
        = le_bytes 8 v.count ∧
      peek (hnode_t.s_pack_data E v buffer bufsize).2
          (hnode_t.s_field_xfer E (hnode_t.s_pack_data E v buffer bufsize).2).1
          (hnode_t.s_field_xfer E (hnode_t.s_pack_data E v buffer bufsize).2).2
        = le_bytes 8 v.xfer ∧
      peek (hnode_t.s_pack_data E v buffer bufsize).2
          (hnode_t.s_field_value_hash E (hnode_t.s_pack_data E v buffer bufsize).2).1
          (hnode_t.s_field_value_hash E (hnode_t.s_pack_data E v buffer bufsize).2).2
        = le_bytes 8 (hnode_t.s_hash_value E v)) ∧
    (peek (rcnode_t.s_pack_data E e buffer bufsize).2
          (rcnode_t.s_field_hits E (rcnode_t.s_pack_data E e buffer bufsize).2).1
          (rcnode_t.s_field_hits E (rcnode_t.s_pack_data E e buffer bufsize).2).2
        = le_bytes 8 e.count ∧
      peek (rcnode_t.s_pack_data E e buffer bufsize).2
          (rcnode_t.s_field_value_mp_respcode E (rcnode_t.s_pack_data E e buffer bufsize).2).1
          (rcnode_t.s_field_value_mp_respcode E (rcnode_t.s_pack_data E e buffer bufsize).2).2
        = le_bytes 2 e.respcode ∧
      peek (rcnode_t.s_pack_data E e buffer bufsize).2
          (rcnode_t.s_field_value_mp_method E (rcnode_t.s_pack_data E e buffer bufsize).2).1
          (rcnode_t.s_field_value_mp_method E (rcnode_t.s_pack_data E e buffer bufsize).2).2
        = string_bytes e.method ∧
      peek (rcnode_t.s_pack_data E e buffer bufsize).2
          (rcnode_t.s_field_value_hash E (rcnode_t.s_pack_data E e buffer bufsize).2).1
          (rcnode_t.s_field_value_hash E (rcnode_t.s_pack_data E e buffer bufsize).2).2
        = le_bytes 8 (rcnode_t.s_hash_value E e)) := by
  rw [hnode_pack_eq E v buffer bufsize hvsz, rcnode_pack_eq E e buffer bufsize hesz]
  simp only [poke_zero, List.append_assoc]
  exact ⟨hnode_fields_layout E v _ hv, rcnode_fields_layout E e _ he⟩

/-- C3, at the sample nodes: the hit counts 7 and 3 are found at the offsets. -/
theorem field_offsets_locate_fields_witness :
    peek (hnode_t.s_pack_data sample_externals sample_hnode (List.replicate 200 170) 200).2
        (hnode_t.s_field_hits sample_externals
          (hnode_t.s_pack_data sample_externals sample_hnode (List.replicate 200 170) 200).2).1
        (hnode_t.s_field_hits sample_externals
          (hnode_t.s_pack_data sample_externals sample_hnode (List.replicate 200 170) 200).2).2
      = le_bytes 8 7 ∧
    peek (rcnode_t.s_pack_data sample_externals sample_rcnode (List.replicate 200 170) 200).2
        (rcnode_t.s_field_hits sample_externals
          (rcnode_t.s_pack_data sample_externals sample_rcnode (List.replicate 200 170) 200).2).1
        (rcnode_t.s_field_hits sample_externals
          (rcnode_t.s_pack_data sample_externals sample_rcnode (List.replicate 200 170) 200).2).2
      = le_bytes 8 3 := by
  have h := field_offsets_locate_fields sample_externals sample_hnode sample_rcnode
    (List.replicate 200 170) 200 (by decide) (by decide) (by decide) (by decide)
  exact ⟨h.1.1, h.2.1⟩

/-! ## Status code nodes -/

/-- C4, evaluated: the record that `scnode_t::s_pack_data` produces for the status
code node (404, count 258) in a 16-byte buffer of 0xAA bytes. The 14 bytes reported
are the node header size plus a `u_long`, but the count lies at offset 0 and no node
header is stored: the version read from the record is 258, the low 16 bits of the
count, not the class version 1, the bytes after the header size are not the count,
and `s_unpack_data` reads the count back from offset 0. -/
theorem scnode_pack_stores_no_header :
    scnode_t.s_pack_data sample_externals ⟨404, 258, true⟩ (List.replicate 16 170) 16
        = (14, [2, 1, 0, 0, 0, 0, 0, 0, 170, 170, 170, 170, 170, 170, 170, 170]) ∧
      s_node_ver
          (scnode_t.s_pack_data sample_externals ⟨404, 258, true⟩ (List.replicate 16 170) 16).2
        = 258 ∧
      sample_externals.scnode_version = 1 ∧
      peek (scnode_t.s_pack_data sample_externals ⟨404, 258, true⟩ (List.replicate 16 170) 16).2
          (datanode_t.s_data_size sample_externals) 8
        ≠ le_bytes 8 258 ∧
      peek (scnode_t.s_pack_data sample_externals ⟨404, 258, true⟩ (List.replicate 16 170) 16).2
          0 8
        = le_bytes 8 258 ∧
      scnode_t.s_unpack_data sample_externals ⟨404, 0, false⟩
          (scnode_t.s_pack_data sample_externals ⟨404, 258, true⟩ (List.replicate 16 170) 16).2
          16
        = (14, ⟨404, 258, false⟩) := by
  decide

/-! ## The fix of legacy daily totals -/

theorem daily_unpack_totals (E : Externals) (w : daily_t) (buf : Buffer) (bufsize : Nat)
    (arg : Int) (hits files pages hosts visits xfer : Nat) (tl : List Nat)
    (hsz : daily_t.s_data_size_buf E buf (decide (arg = -1)) ≤ bufsize)
    (hdrop : buf.drop (if decide (arg = -1) = true then 0 else datanode_t.s_data_size E)
      = le_bytes E.sizeof_u_long hits ++ (le_bytes E.sizeof_u_long files ++
        (le_bytes E.sizeof_u_long pages ++ (le_bytes E.sizeof_u_long hosts ++
        (le_bytes E.sizeof_u_long visits ++ (le_bytes 8 xfer ++ tl))))))
    (h1 : hits < 256 ^ E.sizeof_u_long) (h2 : files < 256 ^ E.sizeof_u_long)
    (h3 : pages < 256 ^ E.sizeof_u_long) (h4 : hosts < 256 ^ E.sizeof_u_long)
    (h5 : visits < 256 ^ E.sizeof_u_long) (h6 : xfer < 2 ^ 64) :
    (daily_t.s_unpack_data E w buf bufsize none arg).2.tm_hits = hits ∧
    (daily_t.s_unpack_data E w buf bufsize none arg).2.tm_files = files ∧
    (daily_t.s_unpack_data E w buf bufsize none arg).2.tm_pages = pages ∧
    (daily_t.s_unpack_data E w buf bufsize none arg).2.tm_hosts = hosts ∧
    (daily_t.s_unpack_data E w buf bufsize none arg).2.tm_visits = visits ∧
    (daily_t.s_unpack_data E w buf bufsize none arg).2.tm_xfer = xfer := by
  have hlt : ¬ bufsize < daily_t.s_data_size_buf E buf (decide (arg = -1)) := by omega
  have hp8 : (2 : Nat) ^ 64 = 256 ^ 8 := by norm_num
  rw [hp8] at h6
  simp only [daily_t.s_unpack_data, hlt, if_false, deserialize_double]
  generalize (if decide (arg = -1) = true then 0 else datanode_t.s_data_size E) = p
    at hdrop ⊢
  have e1 := drop_step _ _ _ _ _ hdrop (length_le_bytes _ _)
  have e2 := drop_step _ _ _ _ _ e1 (length_le_bytes _ _)
  have e3 := drop_step _ _ _ _ _ e2 (length_le_bytes _ _)
  have e4 := drop_step _ _ _ _ _ e3 (length_le_bytes _ _)
  have e5 := drop_step _ _ _ _ _ e4 (length_le_bytes _ _)
  have r0 := deserialize_num_eq _ _ _ _ _ hdrop h1
  have r1 := deserialize_num_eq _ _ _ _ _ e1 h2
  have r2 := deserialize_num_eq _ _ _ _ _ e2 h3
  have r3 := deserialize_num_eq _ _ _ _ _ e3 h4
  have r4 := deserialize_num_eq _ _ _ _ _ e4 h5
  have r5 := deserialize_num_eq _ _ _ _ _ e5 h6
  simp only [r0, r1, r2, r3, r4, r5]
  refine ⟨?_, ?_, ?_, ?_, ?_, ?_⟩ <;> split_ifs <;> rfl

theorem daily_size_buf_le (E : Externals) (buf : Buffer) (fixver : Bool) :
    daily_t.s_data_size_buf E buf fixver ≤ daily_t.s_data_size E := by
  simp only [daily_t.s_data_size_buf, daily_t.s_data_size]
  split <;> omega

/-- C5: a legacy daily totals record, the six per-day totals without a node header,
lies at the start of a buffer of sufficient size. Unpacking it with the fix-version
hint (`arg == -1`) into a node (`fixed`) and packing that node gives a record
(`packed`) whose version is the current class version of `daily_t`, and unpacking
that record without the hint gives a node (`back`) with the `tm_hits`, `tm_files`,
`tm_pages`, `tm_hosts`, `tm_visits` and `tm_xfer` of the legacy record. The nodes
unpacked into are arbitrary, so fresh ones are covered. -/
theorem daily_fix_version_preserves_totals (E : Externals)
    (hits files pages hosts visits xfer : Nat) (rest : List Nat) (w w2 : daily_t)
    (buffer : Buffer) (bufsize : Nat) (arg : Int) (fixed back : daily_t) (packed : Buffer)
    (h1 : hits < 256 ^ E.sizeof_u_long) (h2 : files < 256 ^ E.sizeof_u_long)
    (h3 : pages < 256 ^ E.sizeof_u_long) (h4 : hosts < 256 ^ E.sizeof_u_long)
    (h5 : visits < 256 ^ E.sizeof_u_long) (h6 : xfer < 2 ^ 64)
    (hver : E.daily_version < 65536) (harg : arg ≠ -1)
    (hsz : daily_t.s_data_size E ≤ bufsize)
    (hfixed : fixed = (daily_t.s_unpack_data E w
      (daily_t.legacy_record E hits files pages hosts visits xfer ++ rest) bufsize none (-1)).2)
    (hpacked : packed = (daily_t.s_pack_data E fixed buffer bufsize).2)
    (hback : back = (daily_t.s_unpack_data E w2 packed bufsize none arg).2) :
    s_node_ver packed = E.daily_version ∧
      back.tm_hits = hits ∧ back.tm_files = files ∧ back.tm_pages = pages ∧
      back.tm_hosts = hosts ∧ back.tm_visits = visits ∧ back.tm_xfer = xfer := by
  have hfix := daily_unpack_totals E w
    (daily_t.legacy_record E hits files pages hosts visits xfer ++ rest) bufsize (-1)
    hits files pages hosts visits xfer rest
    (le_trans (daily_size_buf_le E _ _) hsz)
    (by simp [daily_t.legacy_record]) h1 h2 h3 h4 h5 h6
  rw [← hfixed] at hfix
  obtain ⟨f1, f2, f3, f4, f5, f6⟩ := hfix
  rw [daily_pack_eq E fixed buffer bufsize hsz] at hpacked
  simp only [poke_zero, List.append_assoc] at hpacked
  subst hpacked
  refine ⟨hdr_record_ver E E.daily_version _ hver, ?_⟩
  have hd : decide (arg = -1) = false := by simp [harg]
  have hb := daily_unpack_totals E w2
    (datanode_t.record E E.daily_version ++ (daily_t.payload E fixed ++
      List.drop (datanode_t.record E E.daily_version ++ daily_t.payload E fixed).length buffer))
    bufsize arg hits files pages hosts visits xfer
    (le_bytes E.sizeof_u_long fixed.h_hits_max ++ (le_bytes E.sizeof_u_long fixed.h_files_max ++
      (le_bytes E.sizeof_u_long fixed.h_pages_max ++ (le_bytes 8 fixed.h_xfer_max ++
      (le_bytes E.sizeof_u_long fixed.h_visits_max ++ (le_bytes E.sizeof_u_long fixed.h_hosts_max ++
      (le_bytes 8 fixed.h_hits_avg ++ (le_bytes 8 fixed.h_files_avg ++
      (le_bytes 8 fixed.h_pages_avg ++ (le_bytes 8 fixed.h_xfer_avg ++
      (le_bytes 8 fixed.h_visits_avg ++ (le_bytes 8 fixed.h_hosts_avg ++
      (le_bytes 2 fixed.td_hours ++
        List.drop (datanode_t.record E E.daily_version ++ daily_t.payload E fixed).length
          buffer)))))))))))))
    (le_trans (daily_size_buf_le E _ _) hsz)
    (by
      rw [hd]
      simp only [Bool.false_eq_true, if_false, hdr_record_drop, daily_t.payload,
        List.append_assoc, f1, f2, f3, f4, f5, f6])
    h1 h2 h3 h4 h5 h6
  rw [← hback] at hb
  exact hb

/-- C5, at the legacy record of a day with 120 hits in a 200-byte buffer. -/
theorem daily_fix_version_preserves_totals_witness :
    daily_t.s_data_size sample_externals ≤ 200 ∧
      (daily_t.s_unpack_data sample_externals (daily_t.new 15)
        (daily_t.s_pack_data sample_externals
          (daily_t.s_unpack_data sample_externals (daily_t.new 15)
            (daily_t.legacy_record sample_externals 120 100 40 9 11 4652218415073722368
              ++ List.replicate 152 170) 200 none (-1)).2
          (List.replicate 200 170) 200).2 200 none 0).2.tm_hits = 120 :=
  ⟨by decide,
    (daily_fix_version_preserves_totals sample_externals 120 100 40 9 11 4652218415073722368
      (List.replicate 152 170) (daily_t.new 15) (daily_t.new 15) (List.replicate 200 170) 200 0
      _ _ _ (by decide) (by decide) (by decide) (by decide) (by decide) (by decide)
      (by decide) (by decide) (by decide) rfl rfl rfl).2.1⟩

/-! ## Swap-out -/

/-- C6: the swap-out evaluators never report a pinned node evictable.
`state_t::eval_hnode_cb` returns true exactly when the host pointer is not null and the
host has no active visit, no group-visit chain and `dlref == 0`;
`state_t::eval_unode_cb` returns true exactly when the URL pointer is not null and
`vstref == 0`. -/
theorem swap_evaluators_exact (hnode : Option hnode_t) (unode : Option unode_t) :
    (state_t.eval_hnode_cb hnode = true ↔
        ∃ h, hnode = some h ∧ h.visit = none ∧ h.grp_visit = [] ∧ h.dlref = 0) ∧
      (state_t.eval_unode_cb unode = true ↔ ∃ u, unode = some u ∧ u.vstref = 0) := by
  constructor
  · cases hnode with
    | none => simp [state_t.eval_hnode_cb]
    | some h =>
      cases hv : h.visit <;> cases hg : h.grp_visit <;>
        simp [state_t.eval_hnode_cb, hv, hg]
  · cases unode with
    | none => simp [state_t.eval_unode_cb]
    | some u => simp [state_t.eval_unode_cb]

theorem swap_out_bucket_throws {ν σ : Type} (evalcb : Option ν → Bool)
    (swapcb : ν → σ → result Bool × σ) (msg : String) (bad : ν → Prop)
    (hcb : ∀ n s, (swapcb n s).1 = result.value true ∨ (swapcb n s).1 = result.thrown msg)
    (hbad : ∀ n s, bad n → (swapcb n s).1 = result.thrown msg)
    (b : List ν) (s : σ) :
    ((hash_table.swap_out_bucket evalcb swapcb b s).1 = result.value true ∨
        (hash_table.swap_out_bucket evalcb swapcb b s).1 = result.thrown msg) ∧
      ∀ h ∈ b, bad h → evalcb (some h) = true →
        (hash_table.swap_out_bucket evalcb swapcb b s).1 = result.thrown msg ∧
          h ∈ (hash_table.swap_out_bucket evalcb swapcb b s).2.1 := by
  induction b generalizing s with
  | nil => simp [hash_table.swap_out_bucket]
  | cons n rest ih =>
    by_cases he : evalcb (some n) = true
    · rcases hr : swapcb n s with ⟨r, s1⟩
      have h1 := hcb n s
      rw [hr] at h1
      rcases h1 with h1 | h1
      · simp only at h1
        subst h1
        have hstep : hash_table.swap_out_bucket evalcb swapcb (n :: rest) s
            = hash_table.swap_out_bucket evalcb swapcb rest s1 := by
          simp only [hash_table.swap_out_bucket, he, if_true, hr]
        rw [hstep]
        refine ⟨(ih s1).1, ?_⟩
        intro h hmem hb hev
        rcases List.mem_cons.mp hmem with rfl | hmem
        · have := hbad h s hb
          rw [hr] at this
          simp at this
        · exact (ih s1).2 h hmem hb hev
      · simp only at h1
        subst h1
        have hstep : hash_table.swap_out_bucket evalcb swapcb (n :: rest) s
            = (result.thrown msg, n :: rest, s1) := by
          simp only [hash_table.swap_out_bucket, he, if_true, hr]
        rw [hstep]
        exact ⟨Or.inr rfl, fun h hmem _ _ => ⟨rfl, hmem⟩⟩
    · have hstep : hash_table.swap_out_bucket evalcb swapcb (n :: rest) s
          = ((hash_table.swap_out_bucket evalcb swapcb rest s).1,
              n :: (hash_table.swap_out_bucket evalcb swapcb rest s).2.1,
              (hash_table.swap_out_bucket evalcb swapcb rest s).2.2) := by
        simp only [hash_table.swap_out_bucket, he, Bool.false_eq_true, if_false]
      rw [hstep]
      refine ⟨(ih s).1, ?_⟩
      intro h hmem hb hev
      rcases List.mem_cons.mp hmem with rfl | hmem
      · exact absurd hev he
      · exact ⟨((ih s).2 h hmem hb hev).1, List.mem_cons_of_mem _ ((ih s).2 h hmem hb hev).2⟩

theorem swap_out_buckets_throws {ν σ : Type} (evalcb : Option ν → Bool)
    (swapcb : ν → σ → result Bool × σ) (msg : String) (bad : ν → Prop)
    (hcb : ∀ n s, (swapcb n s).1 = result.value true ∨ (swapcb n s).1 = result.thrown msg)
    (hbad : ∀ n s, bad n → (swapcb n s).1 = result.thrown msg)
    (bs : List (List ν)) (s : σ) :
    ((hash_table.swap_out_buckets evalcb swapcb bs s).1 = result.value true ∨
        (hash_table.swap_out_buckets evalcb swapcb bs s).1 = result.thrown msg) ∧
      ∀ h ∈ bs.flatten, bad h → evalcb (some h) = true →
        (hash_table.swap_out_buckets evalcb swapcb bs s).1 = result.thrown msg ∧
          h ∈ (hash_table.swap_out_buckets evalcb swapcb bs s).2.1.flatten := by
  induction bs generalizing s with
  | nil => simp [hash_table.swap_out_buckets]
  | cons b bs ih =>
    have hb := swap_out_bucket_throws evalcb swapcb msg bad hcb hbad b s
    rcases hr : hash_table.swap_out_bucket evalcb swapcb b s with ⟨r, b1, s1⟩
    rw [hr] at hb
    simp only at hb
    rcases hb.1 with h1 | h1
    · subst h1
      have hstep : hash_table.swap_out_buckets evalcb swapcb (b :: bs) s
          = ((hash_table.swap_out_buckets evalcb swapcb bs s1).1,
              b1 :: (hash_table.swap_out_buckets evalcb swapcb bs s1).2.1,
              (hash_table.swap_out_buckets evalcb swapcb bs s1).2.2) := by
        simp only [hash_table.swap_out_buckets, hr]
      rw [hstep]
      refine ⟨(ih s1).1, ?_⟩
      intro h hmem hbd hev
      simp only [List.flatten_cons, List.mem_append] at hmem ⊢
      rcases hmem with hmem | hmem
      · have := (hb.2 h hmem hbd hev).1
        simp at this
      · exact ⟨((ih s1).2 h hmem hbd hev).1, Or.inr ((ih s1).2 h hmem hbd hev).2⟩
    · subst h1
      have hstep : hash_table.swap_out_buckets evalcb swapcb (b :: bs) s
          = (result.thrown msg, b1 :: bs, s1) := by
        simp only [hash_table.swap_out_buckets, hr]
      rw [hstep]
      refine ⟨Or.inr rfl, ?_⟩
      intro h hmem hbd hev
      refine ⟨rfl, ?_⟩
      simp only [List.flatten_cons, List.mem_append] at hmem ⊢
      rcases hmem with hmem | hmem
      · exact Or.inl (hb.2 h hmem hbd hev).2
      · exact Or.inr hmem

theorem swap_out_table_throws {ν σ : Type} (evalcb : Option ν → Bool)
    (swapcb : ν → σ → result Bool × σ) (msg : String) (bad : ν → Prop)
    (hcb : ∀ n s, (swapcb n s).1 = result.value true ∨ (swapcb n s).1 = result.thrown msg)
    (hbad : ∀ n s, bad n → (swapcb n s).1 = result.thrown msg)
    (t : hash_table ν) (s : σ) :
    ((hash_table.swap_out evalcb swapcb t s).1 = result.value true ∨
        (hash_table.swap_out evalcb swapcb t s).1 = result.thrown msg) ∧
      ∀ h ∈ t.nodes, bad h → evalcb (some h) = true →
        (hash_table.swap_out evalcb swapcb t s).1 = result.thrown msg ∧
          h ∈ (hash_table.swap_out evalcb swapcb t s).2.1.nodes := by
  have hb := swap_out_buckets_throws evalcb swapcb msg bad hcb hbad t.htab s
  rcases hr : hash_table.swap_out_buckets evalcb swapcb t.htab s with ⟨r, htab, s1⟩
  rw [hr] at hb
  simp only at hb
  rcases hb.1 with h1 | h1
  · subst h1
    have hstep : hash_table.swap_out evalcb swapcb t s
        = (result.value true, { t with htab := htab, swap := true }, s1) := by
      simp only [hash_table.swap_out, hr]
    rw [hstep]
    refine ⟨Or.inl rfl, ?_⟩
    intro h hmem hbd hev
    have := (hb.2 h hmem hbd hev).1
    simp at this
  · subst h1
    have hstep : hash_table.swap_out evalcb swapcb t s
        = (result.thrown msg, { t with htab := htab }, s1) := by
      simp only [hash_table.swap_out, hr]
    rw [hstep]
    exact ⟨Or.inr rfl, fun h hmem hbd hev => ⟨rfl, (hb.2 h hmem hbd hev).2⟩⟩

theorem swap_out_bucket_inv {ν σ : Type} (evalcb : Option ν → Bool)
    (swapcb : ν → σ → result Bool × σ) (P : σ → Prop)
    (hP : ∀ n s, P s → P (swapcb n s).2) (b : List ν) (s : σ) (hs : P s) :
    P (hash_table.swap_out_bucket evalcb swapcb b s).2.2 := by
  induction b generalizing s with
  | nil => simpa [hash_table.swap_out_bucket] using hs
  | cons n rest ih =>
    by_cases he : evalcb (some n) = true
    · have hn := hP n s hs
      rcases hr : swapcb n s with ⟨r, s1⟩
      rw [hr] at hn
      cases r with
      | value v =>
        cases v with
        | true =>
          simp only [hash_table.swap_out_bucket, he, if_true, hr]
          exact ih s1 hn
        | false =>
          simp only [hash_table.swap_out_bucket, he, if_true, hr]
          exact hn
      | thrown m =>
        simp only [hash_table.swap_out_bucket, he, if_true, hr]
        exact hn
    · simp only [hash_table.swap_out_bucket, he, Bool.false_eq_true, if_false]
      exact ih s hs

theorem swap_out_buckets_inv {ν σ : Type} (evalcb : Option ν → Bool)
    (swapcb : ν → σ → result Bool × σ) (P : σ → Prop)
    (hP : ∀ n s, P s → P (swapcb n s).2) (bs : List (List ν)) (s : σ) (hs : P s) :
    P (hash_table.swap_out_buckets evalcb swapcb bs s).2.2 := by
  induction bs generalizing s with
  | nil => simpa [hash_table.swap_out_buckets] using hs
  | cons b bs ih =>
    have hb := swap_out_bucket_inv evalcb swapcb P hP b s hs
    rcases hr : hash_table.swap_out_bucket evalcb swapcb b s with ⟨r, b1, s1⟩
    rw [hr] at hb
    cases r with
    | value v =>
      cases v with
      | true =>
        simp only [hash_table.swap_out_buckets, hr]
        exact ih s1 hb
      | false =>
        simp only [hash_table.swap_out_buckets, hr]
        exact hb
    | thrown m =>
      simp only [hash_table.swap_out_buckets, hr]
      exact hb

theorem swap_out_table_inv {ν σ : Type} (evalcb : Option ν → Bool)
    (swapcb : ν → σ → result Bool × σ) (P : σ → Prop)
    (hP : ∀ n s, P s → P (swapcb n s).2) (t : hash_table ν) (s : σ) (hs : P s) :
    P (hash_table.swap_out evalcb swapcb t s).2.2 := by
  have hb := swap_out_buckets_inv evalcb swapcb P hP t.htab s hs
  rcases hr : hash_table.swap_out_buckets evalcb swapcb t.htab s with ⟨r, htab, s1⟩
  rw [hr] at hb
  cases r with
  | value v =>
    cases v <;> simp only [hash_table.swap_out, hr] <;> exact hb
  | thrown m =>
    simp only [hash_table.swap_out, hr]
    exact hb

theorem swap_hnode_cb_cases (W : Outside) (h : hnode_t) (s : state_t) :
    (state_t.swap_hnode_cb W h s).1 = result.value true ∨
      (state_t.swap_hnode_cb W h s).1
        = result.thrown "Cannot swap out a monthly host node to the database" := by
  simp only [state_t.swap_hnode_cb]
  split_ifs <;> simp

theorem swap_hnode_cb_bad (W : Outside) (h : hnode_t) (s : state_t)
    (hb : h.dirty = true ∧ ∀ log, W.result log (ext_op.put_hnode h) = false) :
    (state_t.swap_hnode_cb W h s).1
      = result.thrown "Cannot swap out a monthly host node to the database" := by
  simp [state_t.swap_hnode_cb, hb.1, state_t.call, hb.2]

theorem swap_hnode_cb_um_htab (W : Outside) (h : hnode_t) (s : state_t) :
    (state_t.swap_hnode_cb W h s).2.um_htab = s.um_htab := by
  simp only [state_t.swap_hnode_cb]
  split_ifs <;> simp [state_t.call]

theorem swap_unode_cb_cases (W : Outside) (u : unode_t) (s : state_t) :
    (state_t.swap_unode_cb W u s).1 = result.value true ∨
      (state_t.swap_unode_cb W u s).1
        = result.thrown "Cannot swap out a URL node to the database" := by
  simp only [state_t.swap_unode_cb]
  split_ifs <;> simp

theorem swap_unode_cb_bad (W : Outside) (u : unode_t) (s : state_t)
    (hb : u.dirty = true ∧ ∀ log, W.result log (ext_op.put_unode u) = false) :
    (state_t.swap_unode_cb W u s).1
      = result.thrown "Cannot swap out a URL node to the database" := by
  simp [state_t.swap_unode_cb, hb.1, state_t.call, hb.2]

/-- C7, refuted as stated: in the sample state the hosts table holds one dirty host
that the evaluator reports evictable; when the storage engine fails every write,
`state_t::swap_out` does not return normally but throws "Cannot swap out a monthly
host node to the database". -/
theorem swap_out_write_failure_is_raised :
    sample_hnode ∈ sample_state.hm_htab.nodes ∧
      state_t.eval_hnode_cb (some sample_hnode) = true ∧ sample_hnode.dirty = true ∧
      (state_t.swap_out (sample_outside (fun _ _ => false)) sample_state).1
        = result.thrown "Cannot swap out a monthly host node to the database" ∧
      (state_t.swap_out (sample_outside (fun _ _ => false)) sample_state).1
        ≠ result.value () := by
  decide

/-- C7, amended: when the database write of a dirty evictable node fails during
`state_t::swap_out`, the swap-out ends early by throwing. For a host the exception is
"Cannot swap out a monthly host node to the database"; for a URL it is "Cannot swap
out a URL node to the database", unless the walk of the hosts table has already
thrown. In both cases the node whose write fails is still in its table. -/
theorem swap_out_write_failure_throws (W : Outside) (st : state_t) :
    (∀ h ∈ st.hm_htab.nodes, state_t.eval_hnode_cb (some h) = true → h.dirty = true →
        (∀ log, W.result log (ext_op.put_hnode h) = false) →
        (state_t.swap_out W st).1
            = result.thrown "Cannot swap out a monthly host node to the database" ∧
          h ∈ (state_t.swap_out W st).2.hm_htab.nodes) ∧
      (∀ u ∈ st.um_htab.nodes, state_t.eval_unode_cb (some u) = true → u.dirty = true →
        (∀ log, W.result log (ext_op.put_unode u) = false) →
        ((state_t.swap_out W st).1
              = result.thrown "Cannot swap out a monthly host node to the database" ∨
            (state_t.swap_out W st).1
              = result.thrown "Cannot swap out a URL node to the database") ∧
          u ∈ (state_t.swap_out W st).2.um_htab.nodes) := by
  have hh := swap_out_table_throws state_t.eval_hnode_cb (state_t.swap_hnode_cb W)
    "Cannot swap out a monthly host node to the database"
    (fun h => h.dirty = true ∧ ∀ log, W.result log (ext_op.put_hnode h) = false)
    (swap_hnode_cb_cases W) (swap_hnode_cb_bad W) st.hm_htab st
  have hinv := swap_out_table_inv state_t.eval_hnode_cb (state_t.swap_hnode_cb W)
    (fun s => s.um_htab = st.um_htab)
    (fun n s hs => (swap_hnode_cb_um_htab W n s).trans hs) st.hm_htab st rfl
  rcases hr : hash_table.swap_out state_t.eval_hnode_cb (state_t.swap_hnode_cb W)
    st.hm_htab st with ⟨r, hm, s1⟩
  rw [hr] at hh hinv
  simp only at hh hinv
  constructor
  · intro h hmem hev hd hfail
    obtain ⟨h1, h2⟩ := hh.2 h hmem ⟨hd, hfail⟩ hev
    subst h1
    have hstep : state_t.swap_out W st
        = (result.thrown "Cannot swap out a monthly host node to the database",
            { s1 with hm_htab := hm }) := by
      simp only [state_t.swap_out, hr]
    rw [hstep]
    exact ⟨rfl, h2⟩
  · intro u hmem hev hd hfail
    rcases hh.1 with h1 | h1
    · subst h1
      have hmem2 : u ∈ ({ s1 with hm_htab := hm } : state_t).um_htab.nodes := by
        show u ∈ s1.um_htab.nodes
        rw [hinv]
        exact hmem
      have hu := swap_out_table_throws state_t.eval_unode_cb (state_t.swap_unode_cb W)
        "Cannot swap out a URL node to the database"
        (fun u => u.dirty = true ∧ ∀ log, W.result log (ext_op.put_unode u) = false)
        (swap_unode_cb_cases W) (swap_unode_cb_bad W)
        ({ s1 with hm_htab := hm } : state_t).um_htab ({ s1 with hm_htab := hm } : state_t)
      obtain ⟨u1, u2⟩ := hu.2 u hmem2 ⟨hd, hfail⟩ hev
      rcases hr2 : hash_table.swap_out state_t.eval_unode_cb (state_t.swap_unode_cb W)
        ({ s1 with hm_htab := hm } : state_t).um_htab ({ s1 with hm_htab := hm } : state_t)
        with ⟨r2, um, s3⟩
      rw [hr2] at u1 u2
      simp only at u1 u2
      subst u1
      have hstep : state_t.swap_out W st
          = (result.thrown "Cannot swap out a URL node to the database",
              { s3 with um_htab := um }) := by
        simp only [state_t.swap_out, hr]
        rw [hr2]
      rw [hstep]
      exact ⟨Or.inr rfl, u2⟩
    · subst h1
      have hstep : state_t.swap_out W st
          = (result.thrown "Cannot swap out a monthly host node to the database",
              { s1 with hm_htab := hm }) := by
        simp only [state_t.swap_out, hr]
      rw [hstep]
      refine ⟨Or.inl rfl, ?_⟩
      show u ∈ s1.um_htab.nodes
      rw [hinv]
      exact hmem

/-- C7 as amended, at the sample state with a storage engine that fails every
write. -/
theorem swap_out_write_failure_throws_witness :
    (state_t.swap_out (sample_outside (fun _ _ => false)) sample_state).1
        = result.thrown "Cannot swap out a monthly host node to the database" ∧
      sample_hnode ∈
        (state_t.swap_out (sample_outside (fun _ _ => false)) sample_state).2.hm_htab.nodes :=
  (swap_out_write_failure_throws (sample_outside (fun _ _ => false)) sample_state).1
    sample_hnode (by decide) (by decide) (by decide) (fun _ => rfl)

/-! ## The order of the writes of `save_state` -/

theorem deps_in_mono (c : call_t) (seen seen2 : List call_t) (h : ∀ x ∈ seen, x ∈ seen2)
    (hc : c.deps_in seen) : c.deps_in seen2 := by
  unfold call_t.deps_in at hc ⊢
  split
  · next dl heq =>
    rw [heq] at hc
    exact fun a h1 h2 => h _ (hc a h1 h2)
  · next hn heq =>
    rw [heq] at hc
    exact fun v h1 h2 => h _ (hc v h1 h2)
  · trivial

theorem deps_first_mono (d : List call_t) (seen seen2 : List call_t)
    (h : ∀ x ∈ seen, x ∈ seen2) (hd : deps_first seen d) : deps_first seen2 d := by
  induction d generalizing seen seen2 with
  | nil => trivial
  | cons c cs ih =>
    refine ⟨deps_in_mono c seen seen2 h hd.1, ih (seen ++ [c]) (seen2 ++ [c]) ?_ hd.2⟩
    intro x hx
    rcases List.mem_append.mp hx with hx | hx
    · exact List.mem_append_left _ (h x hx)
    · exact List.mem_append_right _ hx

theorem deps_first_append (d1 d2 seen : List call_t) (h1 : deps_first seen d1)
    (h2 : deps_first [] d2) : deps_first seen (d1 ++ d2) := by
  induction d1 generalizing seen with
  | nil => exact deps_first_mono d2 [] seen (fun x hx => absurd hx (List.not_mem_nil x)) h2
  | cons c cs ih => exact ⟨h1.1, ih (seen ++ [c]) h1.2⟩

theorem deps_first_split (d seen pre post : List call_t) (c : call_t)
    (hd : deps_first seen d) (heq : d = pre ++ c :: post) : c.deps_in (seen ++ pre) := by
  induction pre generalizing seen d with
  | nil =>
    subst heq
    simpa using hd.1
  | cons p ps ih =>
    subst heq
    have := ih (ps ++ c :: post) (seen ++ [p]) hd.2 rfl
    simpa using this

theorem good_trace_nil (lo hi : Nat) : good_trace lo hi [] :=
  ⟨fun c hc => absurd hc (List.not_mem_nil c), List.Pairwise.nil, trivial⟩

theorem good_trace_mono (lo hi lo2 hi2 : Nat) (d : List call_t) (h1 : lo2 ≤ lo)
    (h2 : hi ≤ hi2) (hd : good_trace lo hi d) : good_trace lo2 hi2 d :=
  ⟨fun c hc => ⟨le_trans h1 (hd.1 c hc).1, le_trans (hd.1 c hc).2 h2⟩, hd.2.1, hd.2.2⟩

theorem good_trace_append (lo1 hi1 lo2 hi2 : Nat) (d1 d2 : List call_t)
    (h1 : good_trace lo1 hi1 d1) (h2 : good_trace lo2 hi2 d2) (h12 : hi1 ≤ lo2)
    (hlo : lo1 ≤ lo2) (hhi : hi1 ≤ hi2) : good_trace lo1 hi2 (d1 ++ d2) := by
  refine ⟨?_, ?_, deps_first_append d1 d2 [] h1.2.2 h2.2.2⟩
  · intro c hc
    rcases List.mem_append.mp hc with hc | hc
    · exact ⟨(h1.1 c hc).1, le_trans (h1.1 c hc).2 hhi⟩
    · exact ⟨le_trans hlo (h2.1 c hc).1, (h2.1 c hc).2⟩
  · rw [List.pairwise_append]
    exact ⟨h1.2.1, h2.2.1, fun a ha b hb =>
      le_trans (h1.1 a ha).2 (le_trans h12 (h2.1 b hb).1)⟩

theorem good_seq (lo1 hi1 lo2 hi2 : Nat) (f g : step) (hf : step.good lo1 hi1 f)
    (hg : step.good lo2 hi2 g) (h12 : hi1 ≤ lo2) (hlo : lo1 ≤ lo2) (hhi : hi1 ≤ hi2) :
    step.good lo1 hi2 (step.seq f g) := by
  intro st
  obtain ⟨d1, e1, g1⟩ := hf st
  cases hr : (f st).1 with
  | some r =>
    refine ⟨d1, ?_, good_trace_mono lo1 hi1 lo1 hi2 d1 (le_refl _) hhi g1⟩
    simp only [step.seq, hr, e1]
  | none =>
    obtain ⟨d2, e2, g2⟩ := hg (f st).2
    refine ⟨d1 ++ d2, ?_, good_trace_append lo1 hi1 lo2 hi2 d1 d2 g1 g2 h12 hlo hhi⟩
    simp only [step.seq, hr, e2, e1, List.append_assoc]

theorem good_for_each {ν : Type} (k : Nat) (body : ν → step) (l : List ν)
    (hb : ∀ n, step.good k k (body n)) : step.good k k (step.for_each body l) := by
  induction l with
  | nil => exact fun st => ⟨[], by simp [step.for_each], good_trace_nil k k⟩
  | cons n ns ih =>
    exact good_seq k k k k (body n) (step.for_each body ns) (hb n) ih (le_refl _) (le_refl _)
      (le_refl _)

theorem good_update (lo hi : Nat) (f : state_t → state_t) (hf : ∀ st, (f st).log = st.log) :
    step.good lo hi (step.update f) :=
  fun st => ⟨[], by simp [step.update, hf], good_trace_nil lo hi⟩

theorem good_trace_single (k : Nat) (c : call_t) (hk : c.op.phase = k)
    (hd : c.deps_in []) : good_trace k k [c] := by
  refine ⟨?_, List.pairwise_singleton _ _, ⟨hd, trivial⟩⟩
  intro x hx
  rw [List.mem_singleton.mp hx, hk]
  exact ⟨le_refl _, le_refl _⟩

theorem good_note (k : Nat) (op : ext_op) (hk : op.phase = k)
    (hd : ∀ ok, ({ op := op, ok := ok } : call_t).deps_in []) : step.good k k (step.note op) :=
  fun _ => ⟨[{ op := op, ok := true }], rfl, good_trace_single k _ hk (hd true)⟩

theorem good_call_or_return (W : Outside) (k : Nat) (op : ext_op) (code : Nat)
    (hk : op.phase = k) (hd : ∀ ok, ({ op := op, ok := ok } : call_t).deps_in []) :
    step.good k k (step.call_or_return W op code) := by
  intro st
  refine ⟨[{ op := op, ok := W.result st.log op }], ?_, good_trace_single k _ hk (hd _)⟩
  simp only [step.call_or_return, state_t.call]
  split <;> rfl

theorem good_call_or_throw (W : Outside) (k : Nat) (op : ext_op) (msg : String)
    (hk : op.phase = k) (hd : ∀ ok, ({ op := op, ok := ok } : call_t).deps_in []) :
    step.good k k (step.call_or_throw W op msg) := by
  intro st
  refine ⟨[{ op := op, ok := W.result st.log op }], ?_, good_trace_single k _ hk (hd _)⟩
  simp only [step.call_or_throw, state_t.call]
  split <;> rfl

theorem good_dependent_then_row (W : Outside) (k : Nat) (dep row : ext_op)
    (need : Bool) (dirty : Bool) (hdep : dep.phase = k) (hrow : row.phase = k)
    (hdd : ∀ ok, ({ op := dep, ok := ok } : call_t).deps_in [])
    (hrd : ∀ ok seen, (need = true → ({ op := dep, ok := true } : call_t) ∈ seen) →
      ({ op := row, ok := ok } : call_t).deps_in seen) :
    step.good k k
      (step.seq (if need then step.call_or_return W dep 1 else step.update id)
        (if dirty then step.call_or_return W row 1 else step.update id)) := by
  intro st
  cases need with
  | false =>
    cases dirty with
    | false => exact ⟨[], by simp [step.seq, step.update], good_trace_nil k k⟩
    | true =>
      refine ⟨[{ op := row, ok := W.result st.log row }], ?_,
        good_trace_single k _ hrow (hrd _ _ (fun h => absurd h (by simp)))⟩
      simp only [step.seq, step.update, step.call_or_return, state_t.call, Bool.false_eq_true,
        if_false, if_true, id]
      split <;> rfl
  | true =>
    cases hr : W.result st.log dep with
    | false =>
      refine ⟨[{ op := dep, ok := false }], ?_, good_trace_single k _ hdep (hdd _)⟩
      simp [step.seq, step.call_or_return, state_t.call, hr]
    | true =>
      cases dirty with
      | false =>
        refine ⟨[{ op := dep, ok := true }], ?_, good_trace_single k _ hdep (hdd _)⟩
        simp [step.seq, step.update, step.call_or_return, state_t.call, hr]
      | true =>
        refine ⟨[{ op := dep, ok := true },
          { op := row, ok := W.result (st.log ++ [{ op := dep, ok := true }]) row }], ?_, ?_, ?_, ?_⟩
        · simp only [step.seq, step.call_or_return, state_t.call, hr, if_true]
          split <;> simp
        · intro c hc
          simp only [List.mem_cons, List.mem_singleton, List.not_mem_nil, or_false] at hc
          rcases hc with rfl | rfl
          · simp [hdep]
          · simp [hrow]
        · simp [hdep, hrow]
        · exact ⟨hdd _, hrd _ _ (fun _ => by simp), trivial⟩

theorem good_download_body (W : Outside) (dl : dlnode_t) :
    step.good 8 8
      (step.seq
        (match dl.download with
          | some download =>
            if download.dirty then step.call_or_return W (ext_op.put_danode download) 1
            else step.update id
          | none => step.update id)
        (if dl.dirty then step.call_or_return W (ext_op.put_dlnode dl) 1 else step.update id)) := by
  cases hdl : dl.download with
  | none =>
    exact good_dependent_then_row W 8 (ext_op.put_dlnode dl) (ext_op.put_dlnode dl) false
      dl.dirty rfl rfl
      (fun _ a h => by rw [hdl] at h; exact absurd h (by simp))
      (fun _ _ _ a h => by rw [hdl] at h; exact absurd h (by simp))
  | some a =>
    exact good_dependent_then_row W 8 (ext_op.put_danode a) (ext_op.put_dlnode dl) a.dirty
      dl.dirty rfl rfl (fun _ => trivial)
      (fun _ seen hs b hb hd => by
        rw [hdl] at hb
        cases hb
        exact hs hd)

theorem good_host_body (W : Outside) (h : hnode_t) :
    step.good 10 10
      (step.seq
        (match h.visit with
          | some visit =>
            if visit.dirty then step.call_or_return W (ext_op.put_vnode visit) 1
            else step.update id
          | none => step.update id)
        (if h.dirty then step.call_or_return W (ext_op.put_hnode h) 1 else step.update id)) := by
  cases hv : h.visit with
  | none =>
    exact good_dependent_then_row W 10 (ext_op.put_hnode h) (ext_op.put_hnode h) false
      h.dirty rfl rfl
      (fun _ a h => by rw [hv] at h; exact absurd h (by simp))
      (fun _ _ _ a h => by rw [hv] at h; exact absurd h (by simp))
  | some v =>
    exact good_dependent_then_row W 10 (ext_op.put_vnode v) (ext_op.put_hnode h) v.dirty
      h.dirty rfl rfl (fun _ => trivial)
      (fun _ seen hs b hb hd => by
        rw [hv] at hb
        cases hb
        exact hs hd)

theorem good_clear (k : Nat) (f : state_t → state_t) (t : table_id)
    (hf : ∀ st, (f st).log = st.log) (hk : (ext_op.htab_clear t).phase = k) :
    step.good k k (step.seq (step.update f) (step.note (ext_op.htab_clear t))) :=
  good_seq k k k k _ _ (good_update k k f hf) (good_note k _ hk (fun _ => trivial))
    (le_refl _) (le_refl _) (le_refl _)

theorem good_dirty_row (W : Outside) (k : Nat) (dirty : Bool) (op : ext_op)
    (hk : op.phase = k) (hd : ∀ ok, ({ op := op, ok := ok } : call_t).deps_in []) :
    step.good k k (if dirty then step.call_or_return W op 1 else step.update id) := by
  cases dirty with
  | false => exact good_update k k id (fun _ => rfl)
  | true => exact good_call_or_return W k op 1 hk hd

theorem good_seq_at (lo1 hi1 lo2 hi2 : Nat) (f g : step) (st : state_t)
    (hf : step.good lo1 hi1 f) (hg : step.good lo2 hi2 g) (h12 : hi1 ≤ lo2) (hlo : lo1 ≤ lo2)
    (hhi : hi1 ≤ hi2) : ∃ d, (step.seq f g st).2.log = st.log ++ d ∧ good_trace lo1 hi2 d :=
  good_seq lo1 hi1 lo2 hi2 f g hf hg h12 hlo hhi st

theorem good_save_sysnode (W : Outside) : step.good 0 0 (state_t.save_sysnode W) := by
  intro st
  unfold state_t.save_sysnode
  exact good_call_or_throw W 0 (ext_op.put_sysnode _) _ rfl (fun _ => trivial) _

theorem good_save_ended (W : Outside) : step.good 1 2 (state_t.save_ended W) := by
  intro st
  unfold state_t.save_ended
  refine good_seq_at 1 1 2 2 _ _ st ?_ ?_ (by decide) (by decide) (by decide)
  · refine good_seq 1 1 1 1 _ _ (good_for_each 1 _ _ ?_) (good_update 1 1 _ (fun _ => rfl))
      (le_refl _) (le_refl _) (le_refl _)
    exact fun n => good_call_or_throw W 1 (ext_op.delete_visit n) _ rfl (fun _ => trivial)
  · refine good_seq 2 2 2 2 _ _ (good_for_each 2 _ _ ?_) (good_update 2 2 _ (fun _ => rfl))
      (le_refl _) (le_refl _) (le_refl _)
    exact fun n => good_call_or_throw W 2 (ext_op.delete_download n) _ rfl (fun _ => trivial)

theorem good_save_totals (W : Outside) : step.good 3 7 (state_t.save_totals W) := by
  intro st
  unfold state_t.save_totals
  refine good_seq_at 3 3 4 7 _ _ st ?_ ?_ (by decide) (by decide) (by decide)
  · exact good_call_or_return W 3 (ext_op.put_tgnode _) 1 rfl (fun _ => trivial)
  refine good_seq 4 4 5 7 _ _ (good_for_each 4 _ _ ?_) ?_ (by decide) (by decide) (by decide)
  · exact fun _ => good_call_or_return W 4 (ext_op.put_tdnode _) 1 rfl (fun _ => trivial)
  refine good_seq 5 5 6 7 _ _ (good_for_each 5 _ _ ?_) ?_ (by decide) (by decide) (by decide)
  · exact fun _ => good_call_or_return W 5 (ext_op.put_thnode _) 1 rfl (fun _ => trivial)
  refine good_seq 6 6 7 7 _ _ (good_for_each 6 _ _ ?_) (good_for_each 7 _ _ ?_) (by decide)
    (by decide) (by decide)
  · exact fun sc => good_call_or_return W 6 (ext_op.put_scnode sc) 1 rfl (fun _ => trivial)
  · intro cc
    show step.good 7 7 (if cc.count ≠ 0 then _ else _)
    by_cases hc : cc.count ≠ 0
    · rw [if_pos hc]
      exact good_call_or_return W 7 (ext_op.put_ccnode cc) 22 rfl (fun _ => trivial)
    · rw [if_neg hc]
      exact good_update 7 7 id (fun _ => rfl)

theorem good_save_downloads (W : Outside) : step.good 8 9 (state_t.save_downloads W) := by
  intro st
  unfold state_t.save_downloads
  refine good_seq_at 8 8 9 9 _ _ st (good_for_each 8 _ _ ?_)
    (good_clear 9 _ table_id.dl_htab (fun _ => rfl) rfl) (by decide) (by decide) (by decide)
  exact fun dl => good_download_body W dl

theorem good_save_hosts (W : Outside) : step.good 10 11 (state_t.save_hosts W) := by
  intro st
  unfold state_t.save_hosts
  refine good_seq_at 10 10 11 11 _ _ st (good_for_each 10 _ _ ?_)
    (good_clear 11 _ table_id.hm_htab (fun _ => rfl) rfl) (by decide) (by decide) (by decide)
  exact fun h => good_host_body W h

theorem good_save_urls (W : Outside) : step.good 12 13 (state_t.save_urls W) := by
  intro st
  unfold state_t.save_urls
  refine good_seq_at 12 12 13 13 _ _ st (good_for_each 12 _ _ ?_)
    (good_clear 13 _ table_id.um_htab (fun _ => rfl) rfl) (by decide) (by decide) (by decide)
  exact fun n => good_dirty_row W 12 n.dirty (ext_op.put_unode n) rfl (fun _ => trivial)

theorem good_save_search (W : Outside) : step.good 18 19 (state_t.save_search W) := by
  intro st
  unfold state_t.save_search
  refine good_seq_at 18 18 19 19 _ _ st (good_for_each 18 _ _ ?_)
    (good_clear 19 _ table_id.sr_htab (fun _ => rfl) rfl) (by decide) (by decide) (by decide)
  exact fun n => good_dirty_row W 18 n.dirty (ext_op.put_snode n) rfl (fun _ => trivial)

theorem good_save_users (W : Outside) : step.good 20 21 (state_t.save_users W) := by
  intro st
  unfold state_t.save_users
  refine good_seq_at 20 20 21 21 _ _ st (good_for_each 20 _ _ ?_)
    (good_clear 21 _ table_id.im_htab (fun _ => rfl) rfl) (by decide) (by decide) (by decide)
  exact fun n => good_dirty_row W 20 n.dirty (ext_op.put_inode n) rfl (fun _ => trivial)

theorem good_save_errors (W : Outside) : step.good 22 23 (state_t.save_errors W) := by
  intro st
  unfold state_t.save_errors
  refine good_seq_at 22 22 23 23 _ _ st (good_for_each 22 _ _ ?_)
    (good_clear 23 _ table_id.rc_htab (fun _ => rfl) rfl) (by decide) (by decide) (by decide)
  exact fun n => good_dirty_row W 22 n.dirty (ext_op.put_rcnode n) rfl (fun _ => trivial)

theorem good_save_referrers (W : Outside) : step.good 14 15 (state_t.save_referrers W) := by
  intro st
  unfold state_t.save_referrers
  refine good_seq_at 14 14 15 15 _ _ st ?_
    (good_clear 15 _ table_id.rm_htab (fun _ => rfl) rfl) (by decide) (by decide) (by decide)
  by_cases ht : st.totals.t_ref ≠ 0
  · rw [if_pos ht]
    refine good_for_each 14 _ _ ?_
    exact fun n => good_dirty_row W 14 n.dirty (ext_op.put_rnode n) rfl (fun _ => trivial)
  · rw [if_neg ht]
    exact good_update 14 14 id (fun _ => rfl)

theorem good_save_agents (W : Outside) : step.good 16 17 (state_t.save_agents W) := by
  intro st
  unfold state_t.save_agents
  refine good_seq_at 16 16 17 17 _ _ st ?_
    (good_clear 17 _ table_id.am_htab (fun _ => rfl) rfl) (by decide) (by decide) (by decide)
  by_cases ht : st.totals.t_agent ≠ 0
  · rw [if_pos ht]
    refine good_for_each 16 _ _ ?_
    exact fun n => good_dirty_row W 16 n.dirty (ext_op.put_anode n) rfl (fun _ => trivial)
  · rw [if_neg ht]
    exact good_update 16 16 id (fun _ => rfl)

theorem good_save_history (W : Outside) : step.good 24 26 (state_t.save_history W) := by
  intro st
  unfold state_t.save_history
  refine good_seq_at 24 24 25 26 _ _ st
    (good_note 24 (ext_op.history_update _ _ _ _ _ _ _ _ _ _) rfl (fun _ => trivial))
    (good_seq 25 25 26 26 _ _ (good_note 25 ext_op.history_put rfl (fun _ => trivial)) ?_
      (by decide) (by decide) (by decide))
    (by decide) (by decide) (by decide)
  cases st.config.incremental && st.stfile with
  | false => exact good_update 26 26 id (fun _ => rfl)
  | true =>
    exact fun s => ⟨[{ op := ext_op.del_state_file, ok := W.result s.log ext_op.del_state_file }],
      rfl, good_trace_single 26 _ rfl trivial⟩

theorem good_save_state_steps (W : Outside) :
    step.good 0 26
      (step.seq (state_t.save_sysnode W) (step.seq (state_t.save_ended W)
        (step.seq (state_t.save_totals W) (step.seq (state_t.save_downloads W)
        (step.seq (state_t.save_hosts W) (step.seq (state_t.save_urls W)
        (step.seq (state_t.save_referrers W) (step.seq (state_t.save_agents W)
        (step.seq (state_t.save_search W) (step.seq (state_t.save_users W)
        (step.seq (state_t.save_errors W) (state_t.save_history W)))))))))))) :=
  good_seq 0 0 1 26 _ _ (good_save_sysnode W)
    (good_seq 1 2 3 26 _ _ (good_save_ended W)
    (good_seq 3 7 8 26 _ _ (good_save_totals W)
    (good_seq 8 9 10 26 _ _ (good_save_downloads W)
    (good_seq 10 11 12 26 _ _ (good_save_hosts W)
    (good_seq 12 13 14 26 _ _ (good_save_urls W)
    (good_seq 14 15 16 26 _ _ (good_save_referrers W)
    (good_seq 16 17 18 26 _ _ (good_save_agents W)
    (good_seq 18 19 20 26 _ _ (good_save_search W)
    (good_seq 20 21 22 26 _ _ (good_save_users W)
    (good_seq 22 23 24 26 _ _ (good_save_errors W) (good_save_history W)
      (by decide) (by decide) (by decide))
      (by decide) (by decide) (by decide))
      (by decide) (by decide) (by decide))
      (by decide) (by decide) (by decide))
      (by decide) (by decide) (by decide))
      (by decide) (by decide) (by decide))
      (by decide) (by decide) (by decide))
      (by decide) (by decide) (by decide))
      (by decide) (by decide) (by decide))
      (by decide) (by decide) (by decide))
      (by decide) (by decide) (by decide)

theorem save_state_state_eq (W : Outside) (st : state_t) :
    (state_t.save_state W st).2 =
      (step.seq (state_t.save_sysnode W) (step.seq (state_t.save_ended W)
        (step.seq (state_t.save_totals W) (step.seq (state_t.save_downloads W)
        (step.seq (state_t.save_hosts W) (step.seq (state_t.save_urls W)
        (step.seq (state_t.save_referrers W) (step.seq (state_t.save_agents W)
        (step.seq (state_t.save_search W) (step.seq (state_t.save_users W)
        (step.seq (state_t.save_errors W) (state_t.save_history W))))))))))) st).2 := by
  unfold state_t.save_state
  split <;> simp_all

theorem save_state_calls_good (W : Outside) (st : state_t) :
    good_trace 0 26 (state_t.save_state_calls W st) := by
  obtain ⟨d, hd, hg⟩ := good_save_state_steps W st
  have : state_t.save_state_calls W st = d := by
    simp only [state_t.save_state_calls, save_state_state_eq, hd, List.drop_left]
  rw [this]
  exact hg

theorem row_table_phase (x : ext_op) (i : Nat) (h : x.row_table = some i) :
    x.phase = 2 * i + 8 := by
  cases x <;> simp [ext_op.row_table] at h <;> subst h <;> rfl

theorem pairwise_split {α : Type} (R : α → α → Prop) (pre mid post : List α) (x y : α)
    (h : (pre ++ x :: (mid ++ y :: post)).Pairwise R) : R x y := by
  rw [List.pairwise_append] at h
  have h2 := (List.pairwise_cons.mp h.2.1).1
  exact h2 y (by simp)

/-- C9: in the sequence of calls that `save_state` makes, a parent row is never written
before its dirty dependent. Whenever the row of a download with a dirty active
download record is written, the successful `put_danode` of that record is among the
calls before it; whenever the row of a host with a dirty active visit is written, the
successful `put_vnode` of that visit is among the calls before it; and of any two
writes of which the first is a row of a later table (downloads, then hosts, then
URLs) none comes first: download rows come before host rows and host rows before URL
rows. -/
theorem save_state_writes_dependents_first (W : Outside) (st : state_t) :
    (∀ pre post c dl a, state_t.save_state_calls W st = pre ++ c :: post →
        c.op = ext_op.put_dlnode dl → dl.download = some a → a.dirty = true →
        ({ op := ext_op.put_danode a, ok := true } : call_t) ∈ pre) ∧
      (∀ pre post c h v, state_t.save_state_calls W st = pre ++ c :: post →
        c.op = ext_op.put_hnode h → h.visit = some v → v.dirty = true →
        ({ op := ext_op.put_vnode v, ok := true } : call_t) ∈ pre) ∧
      (∀ pre mid post x y i j, state_t.save_state_calls W st = pre ++ x :: (mid ++ y :: post) →
        x.op.row_table = some i → y.op.row_table = some j → i ≤ j) := by
  have hg := save_state_calls_good W st
  refine ⟨?_, ?_, ?_⟩
  · intro pre post c dl a heq hop hdl hd
    have h := deps_first_split _ [] pre post c hg.2.2 heq
    simp only [call_t.deps_in, hop, List.nil_append] at h
    exact h a hdl hd
  · intro pre post c h v heq hop hv hd
    have h2 := deps_first_split _ [] pre post c hg.2.2 heq
    simp only [call_t.deps_in, hop, List.nil_append] at h2
    exact h2 v hv hd
  · intro pre mid post x y i j heq hx hy
    have hp := hg.2.1
    rw [heq] at hp
    have hxy := pairwise_split _ pre mid post x y hp
    rw [row_table_phase x.op i hx, row_table_phase y.op j hy] at hxy
    omega

set_option maxRecDepth 100000 in
/-- C9, at the sample state with references and a storage engine that succeeds: the
sixtieth call writes the download, and the write of its active download record is
among the fifty-nine calls before it. -/
theorem save_state_writes_dependents_first_witness :
    ({ op := ext_op.put_danode sample_danode, ok := true } : call_t) ∈
      (state_t.save_state_calls (sample_outside (fun _ _ => true)) sample_state_refs).take 59 :=
  (save_state_writes_dependents_first (sample_outside (fun _ _ => true)) sample_state_refs).1
    ((state_t.save_state_calls (sample_outside (fun _ _ => true)) sample_state_refs).take 59)
    ((state_t.save_state_calls (sample_outside (fun _ _ => true)) sample_state_refs).drop 60)
    { op := ext_op.put_dlnode sample_dlnode, ok := true } sample_dlnode sample_danode
    (by decide) rfl rfl rfl

/-! ## What `save_state` has written when it returns 0 -/

theorem extends_of_good (lo hi : Nat) (f : step) (h : step.good lo hi f) : step.extends f :=
  fun st => (h st).imp (fun _ hd => hd.1)

theorem extends_seq (f g : step) (hf : step.extends f) (hg : step.extends g) :
    step.extends (step.seq f g) := by
  intro st
  obtain ⟨d1, e1⟩ := hf st
  cases hr : (f st).1 with
  | some r => exact ⟨d1, by simp only [step.seq, hr, e1]⟩
  | none =>
    obtain ⟨d2, e2⟩ := hg (f st).2
    exact ⟨d1 ++ d2, by simp only [step.seq, hr, e2, e1, List.append_assoc]⟩

theorem seq_none (f g : step) (st : state_t) (h : (step.seq f g st).1 = none) :
    (f st).1 = none ∧ (g (f st).2).1 = none ∧ step.seq f g st = g (f st).2 := by
  cases hr : (f st).1 with
  | some r => simp [step.seq, hr] at h
  | none =>
    have hs : step.seq f g st = g (f st).2 := by simp only [step.seq, hr]
    rw [hs] at h
    exact ⟨rfl, h, hs⟩

theorem ensures_seq_left (f g : step) (Q : state_t → List call_t → Prop)
    (hf : step.ensures f Q) (hg : step.extends g)
    (hQ : ∀ st d e, Q st d → Q st (d ++ e)) : step.ensures (step.seq f g) Q := by
  intro st h
  obtain ⟨h1, _, h3⟩ := seq_none f g st h
  obtain ⟨d1, e1, q1⟩ := hf st h1
  obtain ⟨d2, e2⟩ := hg (f st).2
  exact ⟨d1 ++ d2, by rw [h3, e2, e1, List.append_assoc], hQ st d1 d2 q1⟩

theorem ensures_seq_right (f g : step) (Q : state_t → List call_t → Prop)
    (hf : step.extends f) (hg : step.ensures g Q)
    (hfr : ∀ st d, Q (f st).2 d → Q st d)
    (hQ : ∀ st d e, Q st d → Q st (e ++ d)) : step.ensures (step.seq f g) Q := by
  intro st h
  obtain ⟨_, h2, h3⟩ := seq_none f g st h
  obtain ⟨d1, e1⟩ := hf st
  obtain ⟨d2, e2, q2⟩ := hg (f st).2 h2
  exact ⟨d1 ++ d2, by rw [h3, e2, e1, List.append_assoc], hQ st d2 d1 (hfr st d2 q2)⟩

theorem written_before_clear_left (op : ext_op) (t : table_id) (d e : List call_t)
    (h : written_before_clear op t d) : written_before_clear op t (e ++ d) := by
  obtain ⟨pre, post, heq, hc⟩ := h
  exact ⟨e ++ pre, post, by rw [heq, List.append_assoc], hc⟩

theorem written_before_clear_right (op : ext_op) (t : table_id) (d e : List call_t)
    (h : written_before_clear op t d) : written_before_clear op t (d ++ e) := by
  obtain ⟨pre, post, heq, hc⟩ := h
  exact ⟨pre, post ++ e, by rw [heq]; simp, List.mem_append_left _ hc⟩

theorem for_each_written {ν : Type} (body : ν → step) (dirty : ν → Bool)
    (op : ν → ext_op)
    (hb : ∀ n st, (body n st).1 = none → ∃ d, (body n st).2.log = st.log ++ d ∧
      (dirty n = true → ({ op := op n, ok := true } : call_t) ∈ d))
    (l : List ν) (st : state_t) (h : (step.for_each body l st).1 = none) :
    ∃ d, (step.for_each body l st).2.log = st.log ++ d ∧
      ∀ n ∈ l, dirty n = true → ({ op := op n, ok := true } : call_t) ∈ d := by
  induction l generalizing st with
  | nil => exact ⟨[], by simp [step.for_each], fun n hn => absurd hn (List.not_mem_nil n)⟩
  | cons n ns ih =>
    obtain ⟨h1, h2, h3⟩ := seq_none (body n) (step.for_each body ns) st h
    obtain ⟨d1, e1, q1⟩ := hb n st h1
    obtain ⟨d2, e2, q2⟩ := ih (body n st).2 h2
    refine ⟨d1 ++ d2, ?_, ?_⟩
    · show (step.seq (body n) (step.for_each body ns) st).2.log = _
      rw [h3, e2, e1, List.append_assoc]
    · intro m hm hd
      rcases List.mem_cons.mp hm with rfl | hm
      · exact List.mem_append_left _ (q1 hd)
      · exact List.mem_append_right _ (q2 m hm hd)

theorem dirty_row_written (W : Outside) (dirty : Bool) (op : ext_op) (st : state_t)
    (h : ((if dirty then step.call_or_return W op 1 else step.update id) st).1 = none) :
    ∃ d, ((if dirty then step.call_or_return W op 1 else step.update id) st).2.log = st.log ++ d ∧
      (dirty = true → ({ op := op, ok := true } : call_t) ∈ d) := by
  cases dirty with
  | false => exact ⟨[], by simp [step.update], fun h => absurd h (by simp)⟩
  | true =>
    simp only [if_true, step.call_or_return, state_t.call] at h ⊢
    cases hr : W.result st.log op with
    | false => simp [hr] at h
    | true => exact ⟨[{ op := op, ok := true }], by simp, fun _ => by simp⟩

theorem preserves_seq {α : Type} (π : state_t → α) (f g : step) (hf : step.preserves π f)
    (hg : step.preserves π g) : step.preserves π (step.seq f g) := by
  intro st
  cases hr : (f st).1 with
  | some r => simp only [step.seq, hr, hf st]
  | none => simp only [step.seq, hr, hg (f st).2, hf st]

theorem preserves_for_each {α ν : Type} (π : state_t → α) (body : ν → step) (l : List ν)
    (hb : ∀ n, step.preserves π (body n)) : step.preserves π (step.for_each body l) := by
  induction l with
  | nil => exact fun _ => rfl
  | cons n ns ih => exact preserves_seq π _ _ (hb n) ih

theorem preserves_update {α : Type} (π : state_t → α) (f : state_t → state_t)
    (hf : ∀ st, π (f st) = π st) : step.preserves π (step.update f) :=
  fun st => hf st

theorem preserves_note {α : Type} (π : state_t → α) (op : ext_op)
    (hlog : ∀ st l, π { st with log := l } = π st) : step.preserves π (step.note op) :=
  fun st => hlog st _

theorem preserves_call_or_return {α : Type} (π : state_t → α) (W : Outside) (op : ext_op)
    (code : Nat) (hlog : ∀ st l, π { st with log := l } = π st) :
    step.preserves π (step.call_or_return W op code) := by
  intro st
  simp only [step.call_or_return, state_t.call]
  split <;> exact hlog st _

theorem preserves_call_or_throw {α : Type} (π : state_t → α) (W : Outside) (op : ext_op)
    (msg : String) (hlog : ∀ st l, π { st with log := l } = π st) :
    step.preserves π (step.call_or_throw W op msg) := by
  intro st
  simp only [step.call_or_throw, state_t.call]
  split <;> exact hlog st _

theorem preserves_dirty_row {α : Type} (π : state_t → α) (W : Outside) (dirty : Bool)
    (op : ext_op) (hlog : ∀ st l, π { st with log := l } = π st) :
    step.preserves π (if dirty then step.call_or_return W op 1 else step.update id) := by
  cases dirty with
  | false => exact preserves_update π id (fun _ => rfl)
  | true => exact preserves_call_or_return π W op 1 hlog

theorem nonzero_seq (f g : step) (hf : step.nonzero f) (hg : step.nonzero g) :
    step.nonzero (step.seq f g) := by
  intro st
  cases hr : (f st).1 with
  | some r =>
    simp only [step.seq, hr]
    have := hf st
    rw [hr] at this
    exact this
  | none =>
    simp only [step.seq, hr]
    exact hg (f st).2

theorem nonzero_for_each {ν : Type} (body : ν → step) (l : List ν)
    (hb : ∀ n, step.nonzero (body n)) : step.nonzero (step.for_each body l) := by
  induction l with
  | nil => exact fun _ => by simp [step.for_each]
  | cons n ns ih => exact nonzero_seq _ _ (hb n) ih

theorem nonzero_update (f : state_t → state_t) : step.nonzero (step.update f) :=
  fun _ => by simp [step.update]

theorem nonzero_note (op : ext_op) : step.nonzero (step.note op) :=
  fun _ => by simp [step.note]

theorem nonzero_call_or_return (W : Outside) (op : ext_op) (code : Nat) (hc : code ≠ 0) :
    step.nonzero (step.call_or_return W op code) := by
  intro st
  simp only [step.call_or_return]
  split
  · simp
  · simp [hc]

theorem nonzero_call_or_throw (W : Outside) (op : ext_op) (msg : String) :
    step.nonzero (step.call_or_throw W op msg) := by
  intro st
  simp only [step.call_or_throw]
  split <;> simp

theorem nonzero_dirty_row (W : Outside) (dirty : Bool) (op : ext_op) :
    step.nonzero (if dirty then step.call_or_return W op 1 else step.update id) := by
  cases dirty with
  | false => exact nonzero_update id
  | true => exact nonzero_call_or_return W op 1 (by decide)

theorem preserves_save_sysnode {α : Type} (π : state_t → α) (W : Outside)
    (hlog : ∀ st l, π { st with log := l } = π st)
    (hsys : ∀ st s, π { st with sysnode := s } = π st) :
    step.preserves π (state_t.save_sysnode W) := by
  intro st
  unfold state_t.save_sysnode
  simp only
  rw [preserves_call_or_throw π W _ _ hlog]
  exact hsys st _

theorem nonzero_save_sysnode (W : Outside) : step.nonzero (state_t.save_sysnode W) := by
  intro st
  unfold state_t.save_sysnode
  exact nonzero_call_or_throw W _ _ _

theorem preserves_save_ended {α : Type} (π : state_t → α) (W : Outside)
    (hlog : ∀ st l, π { st with log := l } = π st)
    (hv : ∀ st v, π { st with v_ended := v } = π st)
    (hdl : ∀ st v, π { st with dl_ended := v } = π st) :
    step.preserves π (state_t.save_ended W) := by
  intro st
  unfold state_t.save_ended
  exact preserves_seq π _ _
    (preserves_seq π _ _
      (preserves_for_each π _ _ (fun _ => preserves_call_or_throw π W _ _ hlog))
      (preserves_update π _ (fun s => hv s _)))
    (preserves_seq π _ _
      (preserves_for_each π _ _ (fun _ => preserves_call_or_throw π W _ _ hlog))
      (preserves_update π _ (fun s => hdl s _))) st

theorem nonzero_save_ended (W : Outside) : step.nonzero (state_t.save_ended W) := by
  intro st
  unfold state_t.save_ended
  exact nonzero_seq _ _
    (nonzero_seq _ _ (nonzero_for_each _ _ (fun _ => nonzero_call_or_throw W _ _))
      (nonzero_update _))
    (nonzero_seq _ _ (nonzero_for_each _ _ (fun _ => nonzero_call_or_throw W _ _))
      (nonzero_update _)) st

theorem preserves_save_totals {α : Type} (π : state_t → α) (W : Outside)
    (hlog : ∀ st l, π { st with log := l } = π st) :
    step.preserves π (state_t.save_totals W) := by
  intro st
  unfold state_t.save_totals
  refine preserves_seq π _ _ (preserves_call_or_return π W _ _ hlog)
    (preserves_seq π _ _
      (preserves_for_each π _ _ (fun _ => preserves_call_or_return π W _ _ hlog))
      (preserves_seq π _ _
        (preserves_for_each π _ _ (fun _ => preserves_call_or_return π W _ _ hlog))
        (preserves_seq π _ _
          (preserves_for_each π _ _ (fun _ => preserves_call_or_return π W _ _ hlog))
          (preserves_for_each π _ _ ?_)))) st
  intro cc
  show step.preserves π (if cc.count ≠ 0 then _ else _)
  split
  · exact preserves_call_or_return π W _ _ hlog
  · exact preserves_update π id (fun _ => rfl)

theorem nonzero_save_totals (W : Outside) : step.nonzero (state_t.save_totals W) := by
  intro st
  unfold state_t.save_totals
  refine nonzero_seq _ _ (nonzero_call_or_return W _ _ (by decide))
    (nonzero_seq _ _
      (nonzero_for_each _ _ (fun _ => nonzero_call_or_return W _ _ (by decide)))
      (nonzero_seq _ _
        (nonzero_for_each _ _ (fun _ => nonzero_call_or_return W _ _ (by decide)))
        (nonzero_seq _ _
          (nonzero_for_each _ _ (fun _ => nonzero_call_or_return W _ _ (by decide)))
          (nonzero_for_each _ _ ?_)))) st
  intro cc
  show step.nonzero (if cc.count ≠ 0 then _ else _)
  split
  · exact nonzero_call_or_return W _ _ (by decide)
  · exact nonzero_update id

theorem preserves_save_downloads {α : Type} (π : state_t → α) (W : Outside)
    (hlog : ∀ st l, π { st with log := l } = π st)
    (htab : ∀ st t, π { st with dl_htab := t } = π st) :
    step.preserves π (state_t.save_downloads W) := by
  intro st
  unfold state_t.save_downloads
  refine preserves_seq π _ _ (preserves_for_each π _ _ ?_)
    (preserves_seq π _ _ (preserves_update π _ (fun s => htab s _)) (preserves_note π _ hlog)) st
  intro dl
  refine preserves_seq π _ _ ?_ (preserves_dirty_row π W _ _ hlog)
  cases dl.download with
  | none => exact preserves_update π id (fun _ => rfl)
  | some x => exact preserves_dirty_row π W x.dirty _ hlog

theorem nonzero_save_downloads (W : Outside) : step.nonzero (state_t.save_downloads W) := by
  intro st
  unfold state_t.save_downloads
  refine nonzero_seq _ _ (nonzero_for_each _ _ ?_)
    (nonzero_seq _ _ (nonzero_update _) (nonzero_note _)) st
  intro dl
  refine nonzero_seq _ _ ?_ (nonzero_dirty_row W _ _)
  cases dl.download with
  | none => exact nonzero_update id
  | some x => exact nonzero_dirty_row W x.dirty _

theorem preserves_save_hosts {α : Type} (π : state_t → α) (W : Outside)
    (hlog : ∀ st l, π { st with log := l } = π st)
    (htab : ∀ st t, π { st with hm_htab := t } = π st) :
    step.preserves π (state_t.save_hosts W) := by
  intro st
  unfold state_t.save_hosts
  refine preserves_seq π _ _ (preserves_for_each π _ _ ?_)
    (preserves_seq π _ _ (preserves_update π _ (fun s => htab s _)) (preserves_note π _ hlog)) st
  intro h
  refine preserves_seq π _ _ ?_ (preserves_dirty_row π W _ _ hlog)
  cases h.visit with
  | none => exact preserves_update π id (fun _ => rfl)
  | some x => exact preserves_dirty_row π W x.dirty _ hlog

theorem nonzero_save_hosts (W : Outside) : step.nonzero (state_t.save_hosts W) := by
  intro st
  unfold state_t.save_hosts
  refine nonzero_seq _ _ (nonzero_for_each _ _ ?_)
    (nonzero_seq _ _ (nonzero_update _) (nonzero_note _)) st
  intro h
  refine nonzero_seq _ _ ?_ (nonzero_dirty_row W _ _)
  cases h.visit with
  | none => exact nonzero_update id
  | some x => exact nonzero_dirty_row W x.dirty _

theorem preserves_save_urls {α : Type} (π : state_t → α) (W : Outside)
    (hlog : ∀ st l, π { st with log := l } = π st)
    (htab : ∀ st t, π { st with um_htab := t } = π st) :
    step.preserves π (state_t.save_urls W) := by
  intro st
  unfold state_t.save_urls
  exact preserves_seq π _ _
    (preserves_for_each π _ _ (fun _ => preserves_dirty_row π W _ _ hlog))
    (preserves_seq π _ _ (preserves_update π _ (fun s => htab s _)) (preserves_note π _ hlog)) st

theorem nonzero_save_urls (W : Outside) : step.nonzero (state_t.save_urls W) := by
  intro st
  unfold state_t.save_urls
  exact nonzero_seq _ _ (nonzero_for_each _ _ (fun _ => nonzero_dirty_row W _ _))
    (nonzero_seq _ _ (nonzero_update _) (nonzero_note _)) st

theorem preserves_save_search {α : Type} (π : state_t → α) (W : Outside)
    (hlog : ∀ st l, π { st with log := l } = π st)
    (htab : ∀ st t, π { st with sr_htab := t } = π st) :
    step.preserves π (state_t.save_search W) := by
  intro st
  unfold state_t.save_search
  exact preserves_seq π _ _
    (preserves_for_each π _ _ (fun _ => preserves_dirty_row π W _ _ hlog))
    (preserves_seq π _ _ (preserves_update π _ (fun s => htab s _)) (preserves_note π _ hlog)) st

theorem nonzero_save_search (W : Outside) : step.nonzero (state_t.save_search W) := by
  intro st
  unfold state_t.save_search
  exact nonzero_seq _ _ (nonzero_for_each _ _ (fun _ => nonzero_dirty_row W _ _))
    (nonzero_seq _ _ (nonzero_update _) (nonzero_note _)) st

theorem preserves_save_users {α : Type} (π : state_t → α) (W : Outside)
    (hlog : ∀ st l, π { st with log := l } = π st)
    (htab : ∀ st t, π { st with im_htab := t } = π st) :
    step.preserves π (state_t.save_users W) := by
  intro st
  unfold state_t.save_users
  exact preserves_seq π _ _
    (preserves_for_each π _ _ (fun _ => preserves_dirty_row π W _ _ hlog))
    (preserves_seq π _ _ (preserves_update π _ (fun s => htab s _)) (preserves_note π _ hlog)) st

theorem nonzero_save_users (W : Outside) : step.nonzero (state_t.save_users W) := by
  intro st
  unfold state_t.save_users
  exact nonzero_seq _ _ (nonzero_for_each _ _ (fun _ => nonzero_dirty_row W _ _))
    (nonzero_seq _ _ (nonzero_update _) (nonzero_note _)) st

theorem preserves_save_errors {α : Type} (π : state_t → α) (W : Outside)
    (hlog : ∀ st l, π { st with log := l } = π st)
    (htab : ∀ st t, π { st with rc_htab := t } = π st) :
    step.preserves π (state_t.save_errors W) := by
  intro st
  unfold state_t.save_errors
  exact preserves_seq π _ _
    (preserves_for_each π _ _ (fun _ => preserves_dirty_row π W _ _ hlog))
    (preserves_seq π _ _ (preserves_update π _ (fun s => htab s _)) (preserves_note π _ hlog)) st

theorem nonzero_save_errors (W : Outside) : step.nonzero (state_t.save_errors W) := by
  intro st
  unfold state_t.save_errors
  exact nonzero_seq _ _ (nonzero_for_each _ _ (fun _ => nonzero_dirty_row W _ _))
    (nonzero_seq _ _ (nonzero_update _) (nonzero_note _)) st

theorem preserves_save_referrers {α : Type} (π : state_t → α) (W : Outside)
    (hlog : ∀ st l, π { st with log := l } = π st)
    (htab : ∀ st t, π { st with rm_htab := t } = π st) :
    step.preserves π (state_t.save_referrers W) := by
  intro st
  unfold state_t.save_referrers
  refine preserves_seq π _ _ ?_
    (preserves_seq π _ _ (preserves_update π _ (fun s => htab s _)) (preserves_note π _ hlog)) st
  split
  · exact preserves_for_each π _ _ (fun _ => preserves_dirty_row π W _ _ hlog)
  · exact preserves_update π id (fun _ => rfl)

theorem nonzero_save_referrers (W : Outside) : step.nonzero (state_t.save_referrers W) := by
  intro st
  unfold state_t.save_referrers
  refine nonzero_seq _ _ ?_ (nonzero_seq _ _ (nonzero_update _) (nonzero_note _)) st
  split
  · exact nonzero_for_each _ _ (fun _ => nonzero_dirty_row W _ _)
  · exact nonzero_update id

theorem preserves_save_agents {α : Type} (π : state_t → α) (W : Outside)
    (hlog : ∀ st l, π { st with log := l } = π st)
    (htab : ∀ st t, π { st with am_htab := t } = π st) :
    step.preserves π (state_t.save_agents W) := by
  intro st
  unfold state_t.save_agents
  refine preserves_seq π _ _ ?_
    (preserves_seq π _ _ (preserves_update π _ (fun s => htab s _)) (preserves_note π _ hlog)) st
  split
  · exact preserves_for_each π _ _ (fun _ => preserves_dirty_row π W _ _ hlog)
  · exact preserves_update π id (fun _ => rfl)

theorem nonzero_save_agents (W : Outside) : step.nonzero (state_t.save_agents W) := by
  intro st
  unfold state_t.save_agents
  refine nonzero_seq _ _ ?_ (nonzero_seq _ _ (nonzero_update _) (nonzero_note _)) st
  split
  · exact nonzero_for_each _ _ (fun _ => nonzero_dirty_row W _ _)
  · exact nonzero_update id

theorem nonzero_save_history (W : Outside) : step.nonzero (state_t.save_history W) := by
  intro st
  unfold state_t.save_history
  refine nonzero_seq _ _ (nonzero_note _) (nonzero_seq _ _ (nonzero_note _) ?_) st
  split
  · exact fun _ => by simp
  · exact nonzero_update id

theorem extends_update (f : state_t → state_t) (hf : ∀ st, (f st).log = st.log) :
    step.extends (step.update f) :=
  fun st => ⟨[], by simp [step.update, hf]⟩

theorem extends_note (op : ext_op) : step.extends (step.note op) :=
  fun _ => ⟨[{ op := op, ok := true }], rfl⟩

theorem extends_call_or_return (W : Outside) (op : ext_op) (code : Nat) :
    step.extends (step.call_or_return W op code) := by
  intro st
  refine ⟨[{ op := op, ok := W.result st.log op }], ?_⟩
  simp only [step.call_or_return, state_t.call]
  split <;> rfl

theorem extends_dirty_row (W : Outside) (dirty : Bool) (op : ext_op) :
    step.extends (if dirty then step.call_or_return W op 1 else step.update id) := by
  cases dirty with
  | false => exact extends_update id (fun _ => rfl)
  | true => exact extends_call_or_return W op 1

theorem table_block_ensures {ν : Type} (loop : step) (l : List ν) (dirty : ν → Bool)
    (op : ν → ext_op) (f : state_t → state_t) (t : table_id)
    (hloop : ∀ st, (loop st).1 = none → ∃ d, (loop st).2.log = st.log ++ d ∧
      ∀ n ∈ l, dirty n = true → ({ op := op n, ok := true } : call_t) ∈ d)
    (hf : ∀ st, (f st).log = st.log) (st : state_t)
    (h : (step.seq loop (step.seq (step.update f) (step.note (ext_op.htab_clear t))) st).1
      = none) :
    ∃ d, (step.seq loop (step.seq (step.update f) (step.note (ext_op.htab_clear t))) st).2.log
        = st.log ++ d ∧
      ∀ n ∈ l, dirty n = true → written_before_clear (op n) t d := by
  obtain ⟨h1, _, h3⟩ := seq_none _ _ st h
  obtain ⟨d, hd, hq⟩ := hloop st h1
  refine ⟨d ++ [{ op := ext_op.htab_clear t, ok := true }], ?_, ?_⟩
  · rw [h3]
    simp only [step.seq, step.update, step.note, hf, hd, List.append_assoc]
  · intro n hn hdirty
    obtain ⟨l1, l2, hl⟩ := List.append_of_mem (hq n hn hdirty)
    exact ⟨l1, l2 ++ [{ op := ext_op.htab_clear t, ok := true }], by rw [hl]; simp, by simp⟩

theorem dependent_row_written (W : Outside) (first : step) (dirty : Bool) (op : ext_op)
    (hfirst : step.extends first) (st : state_t)
    (h : (step.seq first (if dirty then step.call_or_return W op 1 else step.update id) st).1
      = none) :
    ∃ d, (step.seq first (if dirty then step.call_or_return W op 1 else step.update id) st).2.log
        = st.log ++ d ∧
      (dirty = true → ({ op := op, ok := true } : call_t) ∈ d) := by
  obtain ⟨_, h2, h3⟩ := seq_none _ _ st h
  obtain ⟨d1, e1⟩ := hfirst st
  obtain ⟨d2, e2, q2⟩ := dirty_row_written W dirty op (first st).2 h2
  exact ⟨d1 ++ d2, by rw [h3, e2, e1, List.append_assoc],
    fun hd => List.mem_append_right _ (q2 hd)⟩

theorem ensures_after {ν : Type} (f g : step) (π : state_t → List ν)
    (Q : List ν → List call_t → Prop) (hf : step.extends f) (hp : step.preserves π f)
    (hg : step.ensures g (fun st d => Q (π st) d)) (hQ : ∀ l d e, Q l d → Q l (e ++ d)) :
    step.ensures (step.seq f g) (fun st d => Q (π st) d) :=
  ensures_seq_right f g _ hf hg (fun st d h => by rw [← hp st]; exact h)
    (fun _ d e h => hQ _ d e h)

theorem ensures_before {ν : Type} (f g : step) (π : state_t → List ν)
    (Q : List ν → List call_t → Prop) (hf : step.ensures f (fun st d => Q (π st) d))
    (hg : step.extends g) (hQ : ∀ l d e, Q l d → Q l (d ++ e)) :
    step.ensures (step.seq f g) (fun st d => Q (π st) d) :=
  ensures_seq_left f g _ hf hg (fun _ d e h => hQ _ d e h)

theorem written_all_left {ν : Type} (dirty : ν → Bool) (op : ν → ext_op) (t : table_id)
    (l : List ν) (d e : List call_t)
    (h : ∀ n ∈ l, dirty n = true → written_before_clear (op n) t d) :
    ∀ n ∈ l, dirty n = true → written_before_clear (op n) t (e ++ d) :=
  fun n hn hd => written_before_clear_left _ _ _ _ (h n hn hd)

theorem written_all_right {ν : Type} (dirty : ν → Bool) (op : ν → ext_op) (t : table_id)
    (l : List ν) (d e : List call_t)
    (h : ∀ n ∈ l, dirty n = true → written_before_clear (op n) t d) :
    ∀ n ∈ l, dirty n = true → written_before_clear (op n) t (d ++ e) :=
  fun n hn hd => written_before_clear_right _ _ _ _ (h n hn hd)

theorem ensures_save_downloads (W : Outside) :
    step.ensures (state_t.save_downloads W)
      (fun st d => ∀ n ∈ (fun st => st.dl_htab.nodes) st, n.dirty = true →
        written_before_clear (ext_op.put_dlnode n) table_id.dl_htab d) := by
  intro st h
  unfold state_t.save_downloads at h ⊢
  refine table_block_ensures _ st.dl_htab.nodes (fun n => n.dirty) (fun n => ext_op.put_dlnode n) _
    table_id.dl_htab ?_ ?_ st h
  swap
  · exact fun _ => rfl
  refine for_each_written _ (fun n => n.dirty) (fun n => ext_op.put_dlnode n) ?_ _
  intro n s hs
  refine dependent_row_written W _ n.dirty (ext_op.put_dlnode n) ?_ s hs
  cases n.download with
  | none => exact fun s => ⟨[], by simp [step.update]⟩
  | some x =>
    exact extends_dirty_row W x.dirty _

theorem ensures_save_hosts (W : Outside) :
    step.ensures (state_t.save_hosts W)
      (fun st d => ∀ n ∈ (fun st => st.hm_htab.nodes) st, n.dirty = true →
        written_before_clear (ext_op.put_hnode n) table_id.hm_htab d) := by
  intro st h
  unfold state_t.save_hosts at h ⊢
  refine table_block_ensures _ st.hm_htab.nodes (fun n => n.dirty) (fun n => ext_op.put_hnode n) _
    table_id.hm_htab ?_ ?_ st h
  swap
  · exact fun _ => rfl
  refine for_each_written _ (fun n => n.dirty) (fun n => ext_op.put_hnode n) ?_ _
  intro n s hs
  refine dependent_row_written W _ n.dirty (ext_op.put_hnode n) ?_ s hs
  cases n.visit with
  | none => exact fun s => ⟨[], by simp [step.update]⟩
  | some x =>
    exact extends_dirty_row W x.dirty _

theorem ensures_save_urls (W : Outside) :
    step.ensures (state_t.save_urls W)
      (fun st d => ∀ n ∈ (fun st => st.um_htab.nodes) st, n.dirty = true →
        written_before_clear (ext_op.put_unode n) table_id.um_htab d) := by
  intro st h
  unfold state_t.save_urls at h ⊢
  refine table_block_ensures _ st.um_htab.nodes (fun n => n.dirty) (fun n => ext_op.put_unode n) _
    table_id.um_htab ?_ ?_ st h
  swap
  · exact fun _ => rfl
  exact for_each_written _ (fun n => n.dirty) (fun n => ext_op.put_unode n)
    (fun n s hs => dirty_row_written W n.dirty (ext_op.put_unode n) s hs) _

theorem ensures_save_referrers (W : Outside) :
    step.ensures (state_t.save_referrers W)
      (fun st d => ∀ n ∈ (fun st => if st.totals.t_ref ≠ 0 then st.rm_htab.nodes else []) st, n.dirty = true →
        written_before_clear (ext_op.put_rnode n) table_id.rm_htab d) := by
  intro st h
  unfold state_t.save_referrers at h ⊢
  by_cases ht : st.totals.t_ref ≠ 0
  · simp only [if_pos ht] at h ⊢
    refine table_block_ensures _ st.rm_htab.nodes (fun n => n.dirty) (fun n => ext_op.put_rnode n) _
      table_id.rm_htab ?_ ?_ st h
    swap
    · exact fun _ => rfl
    exact for_each_written _ (fun n => n.dirty) (fun n => ext_op.put_rnode n)
      (fun n s hs => dirty_row_written W n.dirty (ext_op.put_rnode n) s hs) _
  · simp only [if_neg ht] at h ⊢
    obtain ⟨d, hd⟩ := extends_seq _ _ (extends_update id (fun _ => rfl))
      (extends_seq _ _ (extends_update _ (fun _ => rfl)) (extends_note _)) st
    exact ⟨d, hd, fun n hn => absurd hn (List.not_mem_nil n)⟩

theorem ensures_save_agents (W : Outside) :
    step.ensures (state_t.save_agents W)
      (fun st d => ∀ n ∈ (fun st => if st.totals.t_agent ≠ 0 then st.am_htab.nodes else []) st, n.dirty = true →
        written_before_clear (ext_op.put_anode n) table_id.am_htab d) := by
  intro st h
  unfold state_t.save_agents at h ⊢
  by_cases ht : st.totals.t_agent ≠ 0
  · simp only [if_pos ht] at h ⊢
    refine table_block_ensures _ st.am_htab.nodes (fun n => n.dirty) (fun n => ext_op.put_anode n) _
      table_id.am_htab ?_ ?_ st h
    swap
    · exact fun _ => rfl
    exact for_each_written _ (fun n => n.dirty) (fun n => ext_op.put_anode n)
      (fun n s hs => dirty_row_written W n.dirty (ext_op.put_anode n) s hs) _
  · simp only [if_neg ht] at h ⊢
    obtain ⟨d, hd⟩ := extends_seq _ _ (extends_update id (fun _ => rfl))
      (extends_seq _ _ (extends_update _ (fun _ => rfl)) (extends_note _)) st
    exact ⟨d, hd, fun n hn => absurd hn (List.not_mem_nil n)⟩

theorem ensures_save_search (W : Outside) :
    step.ensures (state_t.save_search W)
      (fun st d => ∀ n ∈ (fun st => st.sr_htab.nodes) st, n.dirty = true →
        written_before_clear (ext_op.put_snode n) table_id.sr_htab d) := by
  intro st h
  unfold state_t.save_search at h ⊢
  refine table_block_ensures _ st.sr_htab.nodes (fun n => n.dirty) (fun n => ext_op.put_snode n) _
    table_id.sr_htab ?_ ?_ st h
  swap
  · exact fun _ => rfl
  exact for_each_written _ (fun n => n.dirty) (fun n => ext_op.put_snode n)
    (fun n s hs => dirty_row_written W n.dirty (ext_op.put_snode n) s hs) _

theorem ensures_save_users (W : Outside) :
    step.ensures (state_t.save_users W)
      (fun st d => ∀ n ∈ (fun st => st.im_htab.nodes) st, n.dirty = true →
        written_before_clear (ext_op.put_inode n) table_id.im_htab d) := by
  intro st h
  unfold state_t.save_users at h ⊢
  refine table_block_ensures _ st.im_htab.nodes (fun n => n.dirty) (fun n => ext_op.put_inode n) _
    table_id.im_htab ?_ ?_ st h
  swap
  · exact fun _ => rfl
  exact for_each_written _ (fun n => n.dirty) (fun n => ext_op.put_inode n)
    (fun n s hs => dirty_row_written W n.dirty (ext_op.put_inode n) s hs) _

theorem ensures_save_errors (W : Outside) :
    step.ensures (state_t.save_errors W)
      (fun st d => ∀ n ∈ (fun st => st.rc_htab.nodes) st, n.dirty = true →
        written_before_clear (ext_op.put_rcnode n) table_id.rc_htab d) := by
  intro st h
  unfold state_t.save_errors at h ⊢
  refine table_block_ensures _ st.rc_htab.nodes (fun n => n.dirty) (fun n => ext_op.put_rcnode n) _
    table_id.rc_htab ?_ ?_ st h
  swap
  · exact fun _ => rfl
  exact for_each_written _ (fun n => n.dirty) (fun n => ext_op.put_rcnode n)
    (fun n s hs => dirty_row_written W n.dirty (ext_op.put_rcnode n) s hs) _

theorem ensures_save_state_downloads (W : Outside) :
    step.ensures
      (step.seq (state_t.save_sysnode W)
      (step.seq (state_t.save_ended W)
      (step.seq (state_t.save_totals W)
      (step.seq (state_t.save_downloads W)
      (step.seq (state_t.save_hosts W)
      (step.seq (state_t.save_urls W)
      (step.seq (state_t.save_referrers W)
      (step.seq (state_t.save_agents W)
      (step.seq (state_t.save_search W)
      (step.seq (state_t.save_users W)
      (step.seq (state_t.save_errors W)
      (state_t.save_history W))))))))))))
      (fun st d => ∀ n ∈ (fun st => st.dl_htab.nodes) st, n.dirty = true →
        written_before_clear (ext_op.put_dlnode n) table_id.dl_htab d) :=
  ensures_after _ _ (fun st => st.dl_htab.nodes) (fun l d => ∀ n ∈ l, n.dirty = true → written_before_clear (ext_op.put_dlnode n) table_id.dl_htab d)
      (extends_of_good 0 0 _ (good_save_sysnode W)) (preserves_save_sysnode _ W (fun _ _ => rfl) (fun _ _ => rfl))
      (ensures_after _ _ (fun st => st.dl_htab.nodes) (fun l d => ∀ n ∈ l, n.dirty = true → written_before_clear (ext_op.put_dlnode n) table_id.dl_htab d)
      (extends_of_good 1 2 _ (good_save_ended W)) (preserves_save_ended _ W (fun _ _ => rfl) (fun _ _ => rfl) (fun _ _ => rfl))
      (ensures_after _ _ (fun st => st.dl_htab.nodes) (fun l d => ∀ n ∈ l, n.dirty = true → written_before_clear (ext_op.put_dlnode n) table_id.dl_htab d)
      (extends_of_good 3 7 _ (good_save_totals W)) (preserves_save_totals _ W (fun _ _ => rfl))
      (ensures_before _ _ (fun st => st.dl_htab.nodes) (fun l d => ∀ n ∈ l, n.dirty = true → written_before_clear (ext_op.put_dlnode n) table_id.dl_htab d)
      (ensures_save_downloads W)
      (extends_seq _ _ (extends_of_good 10 11 _ (good_save_hosts W))
      (extends_seq _ _ (extends_of_good 12 13 _ (good_save_urls W))
      (extends_seq _ _ (extends_of_good 14 15 _ (good_save_referrers W))
      (extends_seq _ _ (extends_of_good 16 17 _ (good_save_agents W))
      (extends_seq _ _ (extends_of_good 18 19 _ (good_save_search W))
      (extends_seq _ _ (extends_of_good 20 21 _ (good_save_users W))
      (extends_seq _ _ (extends_of_good 22 23 _ (good_save_errors W))
      (extends_of_good 24 26 _ (good_save_history W)))))))))
      (written_all_right (fun n => n.dirty) (fun n => ext_op.put_dlnode n) table_id.dl_htab))
      (written_all_left (fun n => n.dirty) (fun n => ext_op.put_dlnode n) table_id.dl_htab))
      (written_all_left (fun n => n.dirty) (fun n => ext_op.put_dlnode n) table_id.dl_htab))
      (written_all_left (fun n => n.dirty) (fun n => ext_op.put_dlnode n) table_id.dl_htab)

theorem ensures_save_state_hosts (W : Outside) :
    step.ensures
      (step.seq (state_t.save_sysnode W)
      (step.seq (state_t.save_ended W)
      (step.seq (state_t.save_totals W)
      (step.seq (state_t.save_downloads W)
      (step.seq (state_t.save_hosts W)
      (step.seq (state_t.save_urls W)
      (step.seq (state_t.save_referrers W)
      (step.seq (state_t.save_agents W)
      (step.seq (state_t.save_search W)
      (step.seq (state_t.save_users W)
      (step.seq (state_t.save_errors W)
      (state_t.save_history W))))))))))))
      (fun st d => ∀ n ∈ (fun st => st.hm_htab.nodes) st, n.dirty = true →
        written_before_clear (ext_op.put_hnode n) table_id.hm_htab d) :=
  ensures_after _ _ (fun st => st.hm_htab.nodes) (fun l d => ∀ n ∈ l, n.dirty = true → written_before_clear (ext_op.put_hnode n) table_id.hm_htab d)
      (extends_of_good 0 0 _ (good_save_sysnode W)) (preserves_save_sysnode _ W (fun _ _ => rfl) (fun _ _ => rfl))
      (ensures_after _ _ (fun st => st.hm_htab.nodes) (fun l d => ∀ n ∈ l, n.dirty = true → written_before_clear (ext_op.put_hnode n) table_id.hm_htab d)
      (extends_of_good 1 2 _ (good_save_ended W)) (preserves_save_ended _ W (fun _ _ => rfl) (fun _ _ => rfl) (fun _ _ => rfl))
      (ensures_after _ _ (fun st => st.hm_htab.nodes) (fun l d => ∀ n ∈ l, n.dirty = true → written_before_clear (ext_op.put_hnode n) table_id.hm_htab d)
      (extends_of_good 3 7 _ (good_save_totals W)) (preserves_save_totals _ W (fun _ _ => rfl))
      (ensures_after _ _ (fun st => st.hm_htab.nodes) (fun l d => ∀ n ∈ l, n.dirty = true → written_before_clear (ext_op.put_hnode n) table_id.hm_htab d)
      (extends_of_good 8 9 _ (good_save_downloads W)) (preserves_save_downloads _ W (fun _ _ => rfl) (fun _ _ => rfl))
      (ensures_before _ _ (fun st => st.hm_htab.nodes) (fun l d => ∀ n ∈ l, n.dirty = true → written_before_clear (ext_op.put_hnode n) table_id.hm_htab d)
      (ensures_save_hosts W)
      (extends_seq _ _ (extends_of_good 12 13 _ (good_save_urls W))
      (extends_seq _ _ (extends_of_good 14 15 _ (good_save_referrers W))
      (extends_seq _ _ (extends_of_good 16 17 _ (good_save_agents W))
      (extends_seq _ _ (extends_of_good 18 19 _ (good_save_search W))
      (extends_seq _ _ (extends_of_good 20 21 _ (good_save_users W))
      (extends_seq _ _ (extends_of_good 22 23 _ (good_save_errors W))
      (extends_of_good 24 26 _ (good_save_history W))))))))
      (written_all_right (fun n => n.dirty) (fun n => ext_op.put_hnode n) table_id.hm_htab))
      (written_all_left (fun n => n.dirty) (fun n => ext_op.put_hnode n) table_id.hm_htab))
      (written_all_left (fun n => n.dirty) (fun n => ext_op.put_hnode n) table_id.hm_htab))
      (written_all_left (fun n => n.dirty) (fun n => ext_op.put_hnode n) table_id.hm_htab))
      (written_all_left (fun n => n.dirty) (fun n => ext_op.put_hnode n) table_id.hm_htab)

theorem ensures_save_state_urls (W : Outside) :
    step.ensures
      (step.seq (state_t.save_sysnode W)
      (step.seq (state_t.save_ended W)
      (step.seq (state_t.save_totals W)
      (step.seq (state_t.save_downloads W)
      (step.seq (state_t.save_hosts W)
      (step.seq (state_t.save_urls W)
      (step.seq (state_t.save_referrers W)
      (step.seq (state_t.save_agents W)
      (step.seq (state_t.save_search W)
      (step.seq (state_t.save_users W)
      (step.seq (state_t.save_errors W)
      (state_t.save_history W))))))))))))
      (fun st d => ∀ n ∈ (fun st => st.um_htab.nodes) st, n.dirty = true →
        written_before_clear (ext_op.put_unode n) table_id.um_htab d) :=
  ensures_after _ _ (fun st => st.um_htab.nodes) (fun l d => ∀ n ∈ l, n.dirty = true → written_before_clear (ext_op.put_unode n) table_id.um_htab d)
      (extends_of_good 0 0 _ (good_save_sysnode W)) (preserves_save_sysnode _ W (fun _ _ => rfl) (fun _ _ => rfl))
      (ensures_after _ _ (fun st => st.um_htab.nodes) (fun l d => ∀ n ∈ l, n.dirty = true → written_before_clear (ext_op.put_unode n) table_id.um_htab d)
      (extends_of_good 1 2 _ (good_save_ended W)) (preserves_save_ended _ W (fun _ _ => rfl) (fun _ _ => rfl) (fun _ _ => rfl))
      (ensures_after _ _ (fun st => st.um_htab.nodes) (fun l d => ∀ n ∈ l, n.dirty = true → written_before_clear (ext_op.put_unode n) table_id.um_htab d)
      (extends_of_good 3 7 _ (good_save_totals W)) (preserves_save_totals _ W (fun _ _ => rfl))
      (ensures_after _ _ (fun st => st.um_htab.nodes) (fun l d => ∀ n ∈ l, n.dirty = true → written_before_clear (ext_op.put_unode n) table_id.um_htab d)
      (extends_of_good 8 9 _ (good_save_downloads W)) (preserves_save_downloads _ W (fun _ _ => rfl) (fun _ _ => rfl))
      (ensures_after _ _ (fun st => st.um_htab.nodes) (fun l d => ∀ n ∈ l, n.dirty = true → written_before_clear (ext_op.put_unode n) table_id.um_htab d)
      (extends_of_good 10 11 _ (good_save_hosts W)) (preserves_save_hosts _ W (fun _ _ => rfl) (fun _ _ => rfl))
      (ensures_before _ _ (fun st => st.um_htab.nodes) (fun l d => ∀ n ∈ l, n.dirty = true → written_before_clear (ext_op.put_unode n) table_id.um_htab d)
      (ensures_save_urls W)
      (extends_seq _ _ (extends_of_good 14 15 _ (good_save_referrers W))
      (extends_seq _ _ (extends_of_good 16 17 _ (good_save_agents W))
      (extends_seq _ _ (extends_of_good 18 19 _ (good_save_search W))
      (extends_seq _ _ (extends_of_good 20 21 _ (good_save_users W))
      (extends_seq _ _ (extends_of_good 22 23 _ (good_save_errors W))
      (extends_of_good 24 26 _ (good_save_history W)))))))
      (written_all_right (fun n => n.dirty) (fun n => ext_op.put_unode n) table_id.um_htab))
      (written_all_left (fun n => n.dirty) (fun n => ext_op.put_unode n) table_id.um_htab))
      (written_all_left (fun n => n.dirty) (fun n => ext_op.put_unode n) table_id.um_htab))
      (written_all_left (fun n => n.dirty) (fun n => ext_op.put_unode n) table_id.um_htab))
      (written_all_left (fun n => n.dirty) (fun n => ext_op.put_unode n) table_id.um_htab))
      (written_all_left (fun n => n.dirty) (fun n => ext_op.put_unode n) table_id.um_htab)

theorem ensures_save_state_referrers (W : Outside) :
    step.ensures
      (step.seq (state_t.save_sysnode W)
      (step.seq (state_t.save_ended W)
      (step.seq (state_t.save_totals W)
      (step.seq (state_t.save_downloads W)
      (step.seq (state_t.save_hosts W)
      (step.seq (state_t.save_urls W)
      (step.seq (state_t.save_referrers W)
      (step.seq (state_t.save_agents W)
      (step.seq (state_t.save_search W)
      (step.seq (state_t.save_users W)
      (step.seq (state_t.save_errors W)
      (state_t.save_history W))))))))))))
      (fun st d => ∀ n ∈ (fun st => if st.totals.t_ref ≠ 0 then st.rm_htab.nodes else []) st, n.dirty = true →
        written_before_clear (ext_op.put_rnode n) table_id.rm_htab d) :=
  ensures_after _ _ (fun st => if st.totals.t_ref ≠ 0 then st.rm_htab.nodes else []) (fun l d => ∀ n ∈ l, n.dirty = true → written_before_clear (ext_op.put_rnode n) table_id.rm_htab d)
      (extends_of_good 0 0 _ (good_save_sysnode W)) (preserves_save_sysnode _ W (fun _ _ => rfl) (fun _ _ => rfl))
      (ensures_after _ _ (fun st => if st.totals.t_ref ≠ 0 then st.rm_htab.nodes else []) (fun l d => ∀ n ∈ l, n.dirty = true → written_before_clear (ext_op.put_rnode n) table_id.rm_htab d)
      (extends_of_good 1 2 _ (good_save_ended W)) (preserves_save_ended _ W (fun _ _ => rfl) (fun _ _ => rfl) (fun _ _ => rfl))
      (ensures_after _ _ (fun st => if st.totals.t_ref ≠ 0 then st.rm_htab.nodes else []) (fun l d => ∀ n ∈ l, n.dirty = true → written_before_clear (ext_op.put_rnode n) table_id.rm_htab d)
      (extends_of_good 3 7 _ (good_save_totals W)) (preserves_save_totals _ W (fun _ _ => rfl))
      (ensures_after _ _ (fun st => if st.totals.t_ref ≠ 0 then st.rm_htab.nodes else []) (fun l d => ∀ n ∈ l, n.dirty = true → written_before_clear (ext_op.put_rnode n) table_id.rm_htab d)
      (extends_of_good 8 9 _ (good_save_downloads W)) (preserves_save_downloads _ W (fun _ _ => rfl) (fun _ _ => rfl))
      (ensures_after _ _ (fun st => if st.totals.t_ref ≠ 0 then st.rm_htab.nodes else []) (fun l d => ∀ n ∈ l, n.dirty = true → written_before_clear (ext_op.put_rnode n) table_id.rm_htab d)
      (extends_of_good 10 11 _ (good_save_hosts W)) (preserves_save_hosts _ W (fun _ _ => rfl) (fun _ _ => rfl))
      (ensures_after _ _ (fun st => if st.totals.t_ref ≠ 0 then st.rm_htab.nodes else []) (fun l d => ∀ n ∈ l, n.dirty = true → written_before_clear (ext_op.put_rnode n) table_id.rm_htab d)
      (extends_of_good 12 13 _ (good_save_urls W)) (preserves_save_urls _ W (fun _ _ => rfl) (fun _ _ => rfl))
      (ensures_before _ _ (fun st => if st.totals.t_ref ≠ 0 then st.rm_htab.nodes else []) (fun l d => ∀ n ∈ l, n.dirty = true → written_before_clear (ext_op.put_rnode n) table_id.rm_htab d)
      (ensures_save_referrers W)
      (extends_seq _ _ (extends_of_good 16 17 _ (good_save_agents W))
      (extends_seq _ _ (extends_of_good 18 19 _ (good_save_search W))
      (extends_seq _ _ (extends_of_good 20 21 _ (good_save_users W))
      (extends_seq _ _ (extends_of_good 22 23 _ (good_save_errors W))
      (extends_of_good 24 26 _ (good_save_history W))))))
      (written_all_right (fun n => n.dirty) (fun n => ext_op.put_rnode n) table_id.rm_htab))
      (written_all_left (fun n => n.dirty) (fun n => ext_op.put_rnode n) table_id.rm_htab))
      (written_all_left (fun n => n.dirty) (fun n => ext_op.put_rnode n) table_id.rm_htab))
      (written_all_left (fun n => n.dirty) (fun n => ext_op.put_rnode n) table_id.rm_htab))
      (written_all_left (fun n => n.dirty) (fun n => ext_op.put_rnode n) table_id.rm_htab))
      (written_all_left (fun n => n.dirty) (fun n => ext_op.put_rnode n) table_id.rm_htab))
      (written_all_left (fun n => n.dirty) (fun n => ext_op.put_rnode n) table_id.rm_htab)

theorem ensures_save_state_agents (W : Outside) :
    step.ensures
      (step.seq (state_t.save_sysnode W)
      (step.seq (state_t.save_ended W)
      (step.seq (state_t.save_totals W)
      (step.seq (state_t.save_downloads W)
      (step.seq (state_t.save_hosts W)
      (step.seq (state_t.save_urls W)
      (step.seq (state_t.save_referrers W)
      (step.seq (state_t.save_agents W)
      (step.seq (state_t.save_search W)
      (step.seq (state_t.save_users W)
      (step.seq (state_t.save_errors W)
      (state_t.save_history W))))))))))))
      (fun st d => ∀ n ∈ (fun st => if st.totals.t_agent ≠ 0 then st.am_htab.nodes else []) st, n.dirty = true →
        written_before_clear (ext_op.put_anode n) table_id.am_htab d) :=
  ensures_after _ _ (fun st => if st.totals.t_agent ≠ 0 then st.am_htab.nodes else []) (fun l d => ∀ n ∈ l, n.dirty = true → written_before_clear (ext_op.put_anode n) table_id.am_htab d)
      (extends_of_good 0 0 _ (good_save_sysnode W)) (preserves_save_sysnode _ W (fun _ _ => rfl) (fun _ _ => rfl))
      (ensures_after _ _ (fun st => if st.totals.t_agent ≠ 0 then st.am_htab.nodes else []) (fun l d => ∀ n ∈ l, n.dirty = true → written_before_clear (ext_op.put_anode n) table_id.am_htab d)
      (extends_of_good 1 2 _ (good_save_ended W)) (preserves_save_ended _ W (fun _ _ => rfl) (fun _ _ => rfl) (fun _ _ => rfl))
      (ensures_after _ _ (fun st => if st.totals.t_agent ≠ 0 then st.am_htab.nodes else []) (fun l d => ∀ n ∈ l, n.dirty = true → written_before_clear (ext_op.put_anode n) table_id.am_htab d)
      (extends_of_good 3 7 _ (good_save_totals W)) (preserves_save_totals _ W (fun _ _ => rfl))
      (ensures_after _ _ (fun st => if st.totals.t_agent ≠ 0 then st.am_htab.nodes else []) (fun l d => ∀ n ∈ l, n.dirty = true → written_before_clear (ext_op.put_anode n) table_id.am_htab d)
      (extends_of_good 8 9 _ (good_save_downloads W)) (preserves_save_downloads _ W (fun _ _ => rfl) (fun _ _ => rfl))
      (ensures_after _ _ (fun st => if st.totals.t_agent ≠ 0 then st.am_htab.nodes else []) (fun l d => ∀ n ∈ l, n.dirty = true → written_before_clear (ext_op.put_anode n) table_id.am_htab d)
      (extends_of_good 10 11 _ (good_save_hosts W)) (preserves_save_hosts _ W (fun _ _ => rfl) (fun _ _ => rfl))
      (ensures_after _ _ (fun st => if st.totals.t_agent ≠ 0 then st.am_htab.nodes else []) (fun l d => ∀ n ∈ l, n.dirty = true → written_before_clear (ext_op.put_anode n) table_id.am_htab d)
      (extends_of_good 12 13 _ (good_save_urls W)) (preserves_save_urls _ W (fun _ _ => rfl) (fun _ _ => rfl))
      (ensures_after _ _ (fun st => if st.totals.t_agent ≠ 0 then st.am_htab.nodes else []) (fun l d => ∀ n ∈ l, n.dirty = true → written_before_clear (ext_op.put_anode n) table_id.am_htab d)
      (extends_of_good 14 15 _ (good_save_referrers W)) (preserves_save_referrers _ W (fun _ _ => rfl) (fun _ _ => rfl))
      (ensures_before _ _ (fun st => if st.totals.t_agent ≠ 0 then st.am_htab.nodes else []) (fun l d => ∀ n ∈ l, n.dirty = true → written_before_clear (ext_op.put_anode n) table_id.am_htab d)
      (ensures_save_agents W)
      (extends_seq _ _ (extends_of_good 18 19 _ (good_save_search W))
      (extends_seq _ _ (extends_of_good 20 21 _ (good_save_users W))
      (extends_seq _ _ (extends_of_good 22 23 _ (good_save_errors W))
      (extends_of_good 24 26 _ (good_save_history W)))))
      (written_all_right (fun n => n.dirty) (fun n => ext_op.put_anode n) table_id.am_htab))
      (written_all_left (fun n => n.dirty) (fun n => ext_op.put_anode n) table_id.am_htab))
      (written_all_left (fun n => n.dirty) (fun n => ext_op.put_anode n) table_id.am_htab))
      (written_all_left (fun n => n.dirty) (fun n => ext_op.put_anode n) table_id.am_htab))
      (written_all_left (fun n => n.dirty) (fun n => ext_op.put_anode n) table_id.am_htab))
      (written_all_left (fun n => n.dirty) (fun n => ext_op.put_anode n) table_id.am_htab))
      (written_all_left (fun n => n.dirty) (fun n => ext_op.put_anode n) table_id.am_htab))
      (written_all_left (fun n => n.dirty) (fun n => ext_op.put_anode n) table_id.am_htab)

theorem ensures_save_state_search (W : Outside) :
    step.ensures
      (step.seq (state_t.save_sysnode W)
      (step.seq (state_t.save_ended W)
      (step.seq (state_t.save_totals W)
      (step.seq (state_t.save_downloads W)
      (step.seq (state_t.save_hosts W)
      (step.seq (state_t.save_urls W)
      (step.seq (state_t.save_referrers W)
      (step.seq (state_t.save_agents W)
      (step.seq (state_t.save_search W)
      (step.seq (state_t.save_users W)
      (step.seq (state_t.save_errors W)
      (state_t.save_history W))))))))))))
      (fun st d => ∀ n ∈ (fun st => st.sr_htab.nodes) st, n.dirty = true →
        written_before_clear (ext_op.put_snode n) table_id.sr_htab d) :=
  ensures_after _ _ (fun st => st.sr_htab.nodes) (fun l d => ∀ n ∈ l, n.dirty = true → written_before_clear (ext_op.put_snode n) table_id.sr_htab d)
      (extends_of_good 0 0 _ (good_save_sysnode W)) (preserves_save_sysnode _ W (fun _ _ => rfl) (fun _ _ => rfl))
      (ensures_after _ _ (fun st => st.sr_htab.nodes) (fun l d => ∀ n ∈ l, n.dirty = true → written_before_clear (ext_op.put_snode n) table_id.sr_htab d)
      (extends_of_good 1 2 _ (good_save_ended W)) (preserves_save_ended _ W (fun _ _ => rfl) (fun _ _ => rfl) (fun _ _ => rfl))
      (ensures_after _ _ (fun st => st.sr_htab.nodes) (fun l d => ∀ n ∈ l, n.dirty = true → written_before_clear (ext_op.put_snode n) table_id.sr_htab d)
      (extends_of_good 3 7 _ (good_save_totals W)) (preserves_save_totals _ W (fun _ _ => rfl))
      (ensures_after _ _ (fun st => st.sr_htab.nodes) (fun l d => ∀ n ∈ l, n.dirty = true → written_before_clear (ext_op.put_snode n) table_id.sr_htab d)
      (extends_of_good 8 9 _ (good_save_downloads W)) (preserves_save_downloads _ W (fun _ _ => rfl) (fun _ _ => rfl))
      (ensures_after _ _ (fun st => st.sr_htab.nodes) (fun l d => ∀ n ∈ l, n.dirty = true → written_before_clear (ext_op.put_snode n) table_id.sr_htab d)
      (extends_of_good 10 11 _ (good_save_hosts W)) (preserves_save_hosts _ W (fun _ _ => rfl) (fun _ _ => rfl))
      (ensures_after _ _ (fun st => st.sr_htab.nodes) (fun l d => ∀ n ∈ l, n.dirty = true → written_before_clear (ext_op.put_snode n) table_id.sr_htab d)
      (extends_of_good 12 13 _ (good_save_urls W)) (preserves_save_urls _ W (fun _ _ => rfl) (fun _ _ => rfl))
      (ensures_after _ _ (fun st => st.sr_htab.nodes) (fun l d => ∀ n ∈ l, n.dirty = true → written_before_clear (ext_op.put_snode n) table_id.sr_htab d)
      (extends_of_good 14 15 _ (good_save_referrers W)) (preserves_save_referrers _ W (fun _ _ => rfl) (fun _ _ => rfl))
      (ensures_after _ _ (fun st => st.sr_htab.nodes) (fun l d => ∀ n ∈ l, n.dirty = true → written_before_clear (ext_op.put_snode n) table_id.sr_htab d)
      (extends_of_good 16 17 _ (good_save_agents W)) (preserves_save_agents _ W (fun _ _ => rfl) (fun _ _ => rfl))
      (ensures_before _ _ (fun st => st.sr_htab.nodes) (fun l d => ∀ n ∈ l, n.dirty = true → written_before_clear (ext_op.put_snode n) table_id.sr_htab d)
      (ensures_save_search W)
      (extends_seq _ _ (extends_of_good 20 21 _ (good_save_users W))
      (extends_seq _ _ (extends_of_good 22 23 _ (good_save_errors W))
      (extends_of_good 24 26 _ (good_save_history W))))
      (written_all_right (fun n => n.dirty) (fun n => ext_op.put_snode n) table_id.sr_htab))
      (written_all_left (fun n => n.dirty) (fun n => ext_op.put_snode n) table_id.sr_htab))
      (written_all_left (fun n => n.dirty) (fun n => ext_op.put_snode n) table_id.sr_htab))
      (written_all_left (fun n => n.dirty) (fun n => ext_op.put_snode n) table_id.sr_htab))
      (written_all_left (fun n => n.dirty) (fun n => ext_op.put_snode n) table_id.sr_htab))
      (written_all_left (fun n => n.dirty) (fun n => ext_op.put_snode n) table_id.sr_htab))
      (written_all_left (fun n => n.dirty) (fun n => ext_op.put_snode n) table_id.sr_htab))
      (written_all_left (fun n => n.dirty) (fun n => ext_op.put_snode n) table_id.sr_htab))
      (written_all_left (fun n => n.dirty) (fun n => ext_op.put_snode n) table_id.sr_htab)

theorem ensures_save_state_users (W : Outside) :
    step.ensures
      (step.seq (state_t.save_sysnode W)
      (step.seq (state_t.save_ended W)
      (step.seq (state_t.save_totals W)
      (step.seq (state_t.save_downloads W)
      (step.seq (state_t.save_hosts W)
      (step.seq (state_t.save_urls W)
      (step.seq (state_t.save_referrers W)
      (step.seq (state_t.save_agents W)
      (step.seq (state_t.save_search W)
      (step.seq (state_t.save_users W)
      (step.seq (state_t.save_errors W)
      (state_t.save_history W))))))))))))
      (fun st d => ∀ n ∈ (fun st => st.im_htab.nodes) st, n.dirty = true →
        written_before_clear (ext_op.put_inode n) table_id.im_htab d) :=
  ensures_after _ _ (fun st => st.im_htab.nodes) (fun l d => ∀ n ∈ l, n.dirty = true → written_before_clear (ext_op.put_inode n) table_id.im_htab d)
      (extends_of_good 0 0 _ (good_save_sysnode W)) (preserves_save_sysnode _ W (fun _ _ => rfl) (fun _ _ => rfl))
      (ensures_after _ _ (fun st => st.im_htab.nodes) (fun l d => ∀ n ∈ l, n.dirty = true → written_before_clear (ext_op.put_inode n) table_id.im_htab d)
      (extends_of_good 1 2 _ (good_save_ended W)) (preserves_save_ended _ W (fun _ _ => rfl) (fun _ _ => rfl) (fun _ _ => rfl))
      (ensures_after _ _ (fun st => st.im_htab.nodes) (fun l d => ∀ n ∈ l, n.dirty = true → written_before_clear (ext_op.put_inode n) table_id.im_htab d)
      (extends_of_good 3 7 _ (good_save_totals W)) (preserves_save_totals _ W (fun _ _ => rfl))
      (ensures_after _ _ (fun st => st.im_htab.nodes) (fun l d => ∀ n ∈ l, n.dirty = true → written_before_clear (ext_op.put_inode n) table_id.im_htab d)
      (extends_of_good 8 9 _ (good_save_downloads W)) (preserves_save_downloads _ W (fun _ _ => rfl) (fun _ _ => rfl))
      (ensures_after _ _ (fun st => st.im_htab.nodes) (fun l d => ∀ n ∈ l, n.dirty = true → written_before_clear (ext_op.put_inode n) table_id.im_htab d)
      (extends_of_good 10 11 _ (good_save_hosts W)) (preserves_save_hosts _ W (fun _ _ => rfl) (fun _ _ => rfl))
      (ensures_after _ _ (fun st => st.im_htab.nodes) (fun l d => ∀ n ∈ l, n.dirty = true → written_before_clear (ext_op.put_inode n) table_id.im_htab d)
      (extends_of_good 12 13 _ (good_save_urls W)) (preserves_save_urls _ W (fun _ _ => rfl) (fun _ _ => rfl))
      (ensures_after _ _ (fun st => st.im_htab.nodes) (fun l d => ∀ n ∈ l, n.dirty = true → written_before_clear (ext_op.put_inode n) table_id.im_htab d)
      (extends_of_good 14 15 _ (good_save_referrers W)) (preserves_save_referrers _ W (fun _ _ => rfl) (fun _ _ => rfl))
      (ensures_after _ _ (fun st => st.im_htab.nodes) (fun l d => ∀ n ∈ l, n.dirty = true → written_before_clear (ext_op.put_inode n) table_id.im_htab d)
      (extends_of_good 16 17 _ (good_save_agents W)) (preserves_save_agents _ W (fun _ _ => rfl) (fun _ _ => rfl))
      (ensures_after _ _ (fun st => st.im_htab.nodes) (fun l d => ∀ n ∈ l, n.dirty = true → written_before_clear (ext_op.put_inode n) table_id.im_htab d)
      (extends_of_good 18 19 _ (good_save_search W)) (preserves_save_search _ W (fun _ _ => rfl) (fun _ _ => rfl))
      (ensures_before _ _ (fun st => st.im_htab.nodes) (fun l d => ∀ n ∈ l, n.dirty = true → written_before_clear (ext_op.put_inode n) table_id.im_htab d)
      (ensures_save_users W)
      (extends_seq _ _ (extends_of_good 22 23 _ (good_save_errors W))
      (extends_of_good 24 26 _ (good_save_history W)))
      (written_all_right (fun n => n.dirty) (fun n => ext_op.put_inode n) table_id.im_htab))
      (written_all_left (fun n => n.dirty) (fun n => ext_op.put_inode n) table_id.im_htab))
      (written_all_left (fun n => n.dirty) (fun n => ext_op.put_inode n) table_id.im_htab))
      (written_all_left (fun n => n.dirty) (fun n => ext_op.put_inode n) table_id.im_htab))
      (written_all_left (fun n => n.dirty) (fun n => ext_op.put_inode n) table_id.im_htab))
      (written_all_left (fun n => n.dirty) (fun n => ext_op.put_inode n) table_id.im_htab))
      (written_all_left (fun n => n.dirty) (fun n => ext_op.put_inode n) table_id.im_htab))
      (written_all_left (fun n => n.dirty) (fun n => ext_op.put_inode n) table_id.im_htab))
      (written_all_left (fun n => n.dirty) (fun n => ext_op.put_inode n) table_id.im_htab))
      (written_all_left (fun n => n.dirty) (fun n => ext_op.put_inode n) table_id.im_htab)

theorem ensures_save_state_errors (W : Outside) :
    step.ensures
      (step.seq (state_t.save_sysnode W)
      (step.seq (state_t.save_ended W)
      (step.seq (state_t.save_totals W)
      (step.seq (state_t.save_downloads W)
      (step.seq (state_t.save_hosts W)
      (step.seq (state_t.save_urls W)
      (step.seq (state_t.save_referrers W)
      (step.seq (state_t.save_agents W)
      (step.seq (state_t.save_search W)
      (step.seq (state_t.save_users W)
      (step.seq (state_t.save_errors W)
      (state_t.save_history W))))))))))))
      (fun st d => ∀ n ∈ (fun st => st.rc_htab.nodes) st, n.dirty = true →
        written_before_clear (ext_op.put_rcnode n) table_id.rc_htab d) :=
  ensures_after _ _ (fun st => st.rc_htab.nodes) (fun l d => ∀ n ∈ l, n.dirty = true → written_before_clear (ext_op.put_rcnode n) table_id.rc_htab d)
      (extends_of_good 0 0 _ (good_save_sysnode W)) (preserves_save_sysnode _ W (fun _ _ => rfl) (fun _ _ => rfl))
      (ensures_after _ _ (fun st => st.rc_htab.nodes) (fun l d => ∀ n ∈ l, n.dirty = true → written_before_clear (ext_op.put_rcnode n) table_id.rc_htab d)
      (extends_of_good 1 2 _ (good_save_ended W)) (preserves_save_ended _ W (fun _ _ => rfl) (fun _ _ => rfl) (fun _ _ => rfl))
      (ensures_after _ _ (fun st => st.rc_htab.nodes) (fun l d => ∀ n ∈ l, n.dirty = true → written_before_clear (ext_op.put_rcnode n) table_id.rc_htab d)
      (extends_of_good 3 7 _ (good_save_totals W)) (preserves_save_totals _ W (fun _ _ => rfl))
      (ensures_after _ _ (fun st => st.rc_htab.nodes) (fun l d => ∀ n ∈ l, n.dirty = true → written_before_clear (ext_op.put_rcnode n) table_id.rc_htab d)
      (extends_of_good 8 9 _ (good_save_downloads W)) (preserves_save_downloads _ W (fun _ _ => rfl) (fun _ _ => rfl))
      (ensures_after _ _ (fun st => st.rc_htab.nodes) (fun l d => ∀ n ∈ l, n.dirty = true → written_before_clear (ext_op.put_rcnode n) table_id.rc_htab d)
      (extends_of_good 10 11 _ (good_save_hosts W)) (preserves_save_hosts _ W (fun _ _ => rfl) (fun _ _ => rfl))
      (ensures_after _ _ (fun st => st.rc_htab.nodes) (fun l d => ∀ n ∈ l, n.dirty = true → written_before_clear (ext_op.put_rcnode n) table_id.rc_htab d)
      (extends_of_good 12 13 _ (good_save_urls W)) (preserves_save_urls _ W (fun _ _ => rfl) (fun _ _ => rfl))
      (ensures_after _ _ (fun st => st.rc_htab.nodes) (fun l d => ∀ n ∈ l, n.dirty = true → written_before_clear (ext_op.put_rcnode n) table_id.rc_htab d)
      (extends_of_good 14 15 _ (good_save_referrers W)) (preserves_save_referrers _ W (fun _ _ => rfl) (fun _ _ => rfl))
      (ensures_after _ _ (fun st => st.rc_htab.nodes) (fun l d => ∀ n ∈ l, n.dirty = true → written_before_clear (ext_op.put_rcnode n) table_id.rc_htab d)
      (extends_of_good 16 17 _ (good_save_agents W)) (preserves_save_agents _ W (fun _ _ => rfl) (fun _ _ => rfl))
      (ensures_after _ _ (fun st => st.rc_htab.nodes) (fun l d => ∀ n ∈ l, n.dirty = true → written_before_clear (ext_op.put_rcnode n) table_id.rc_htab d)
      (extends_of_good 18 19 _ (good_save_search W)) (preserves_save_search _ W (fun _ _ => rfl) (fun _ _ => rfl))
      (ensures_after _ _ (fun st => st.rc_htab.nodes) (fun l d => ∀ n ∈ l, n.dirty = true → written_before_clear (ext_op.put_rcnode n) table_id.rc_htab d)
      (extends_of_good 20 21 _ (good_save_users W)) (preserves_save_users _ W (fun _ _ => rfl) (fun _ _ => rfl))
      (ensures_before _ _ (fun st => st.rc_htab.nodes) (fun l d => ∀ n ∈ l, n.dirty = true → written_before_clear (ext_op.put_rcnode n) table_id.rc_htab d)
      (ensures_save_errors W)
      (extends_of_good 24 26 _ (good_save_history W))
      (written_all_right (fun n => n.dirty) (fun n => ext_op.put_rcnode n) table_id.rc_htab))
      (written_all_left (fun n => n.dirty) (fun n => ext_op.put_rcnode n) table_id.rc_htab))
      (written_all_left (fun n => n.dirty) (fun n => ext_op.put_rcnode n) table_id.rc_htab))
      (written_all_left (fun n => n.dirty) (fun n => ext_op.put_rcnode n) table_id.rc_htab))
      (written_all_left (fun n => n.dirty) (fun n => ext_op.put_rcnode n) table_id.rc_htab))
      (written_all_left (fun n => n.dirty) (fun n => ext_op.put_rcnode n) table_id.rc_htab))
      (written_all_left (fun n => n.dirty) (fun n => ext_op.put_rcnode n) table_id.rc_htab))
      (written_all_left (fun n => n.dirty) (fun n => ext_op.put_rcnode n) table_id.rc_htab))
      (written_all_left (fun n => n.dirty) (fun n => ext_op.put_rcnode n) table_id.rc_htab))
      (written_all_left (fun n => n.dirty) (fun n => ext_op.put_rcnode n) table_id.rc_htab))
      (written_all_left (fun n => n.dirty) (fun n => ext_op.put_rcnode n) table_id.rc_htab)

theorem nonzero_save_state_steps (W : Outside) :
    step.nonzero
      (step.seq (state_t.save_sysnode W)
      (step.seq (state_t.save_ended W)
      (step.seq (state_t.save_totals W)
      (step.seq (state_t.save_downloads W)
      (step.seq (state_t.save_hosts W)
      (step.seq (state_t.save_urls W)
      (step.seq (state_t.save_referrers W)
      (step.seq (state_t.save_agents W)
      (step.seq (state_t.save_search W)
      (step.seq (state_t.save_users W)
      (step.seq (state_t.save_errors W)
      (state_t.save_history W)))))))))))) :=
  nonzero_seq _ _ (nonzero_save_sysnode W)
    (nonzero_seq _ _ (nonzero_save_ended W)
    (nonzero_seq _ _ (nonzero_save_totals W)
    (nonzero_seq _ _ (nonzero_save_downloads W)
    (nonzero_seq _ _ (nonzero_save_hosts W)
    (nonzero_seq _ _ (nonzero_save_urls W)
    (nonzero_seq _ _ (nonzero_save_referrers W)
    (nonzero_seq _ _ (nonzero_save_agents W)
    (nonzero_seq _ _ (nonzero_save_search W)
    (nonzero_seq _ _ (nonzero_save_users W)
    (nonzero_seq _ _ (nonzero_save_errors W)
    (nonzero_save_history W)))))))))))

theorem save_state_zero (W : Outside) (st : state_t)
    (h : (state_t.save_state W st).1 = result.value 0) :
    ((step.seq (state_t.save_sysnode W)
      (step.seq (state_t.save_ended W)
      (step.seq (state_t.save_totals W)
      (step.seq (state_t.save_downloads W)
      (step.seq (state_t.save_hosts W)
      (step.seq (state_t.save_urls W)
      (step.seq (state_t.save_referrers W)
      (step.seq (state_t.save_agents W)
      (step.seq (state_t.save_search W)
      (step.seq (state_t.save_users W)
      (step.seq (state_t.save_errors W)
      (state_t.save_history W)))))))))))) st).1 = none := by
  have hn := nonzero_save_state_steps W st
  unfold state_t.save_state at h
  split at h
  · next r st1 heq =>
    rw [heq] at hn
    simp only at h
    subst h
    exact absurd rfl hn
  · next st1 heq =>
    rw [heq]

set_option maxRecDepth 100000 in
/-- C10, refuted as stated: in the sample state the referrers table holds a dirty
referrer and `totals.t_ref` is zero. With a storage engine that succeeds on every
call `save_state` returns 0 and has cleared the referrers table, but no call has
written the referrer. -/
theorem save_state_skips_referrers :
    sample_rnode ∈ sample_state.rm_htab.nodes ∧ sample_rnode.dirty = true ∧
      sample_state.totals.t_ref = 0 ∧
      (state_t.save_state (sample_outside (fun _ _ => true)) sample_state).1 = result.value 0 ∧
      (state_t.save_state (sample_outside (fun _ _ => true)) sample_state).2.rm_htab.nodes = [] ∧
      (∀ ok, ({ op := ext_op.put_rnode sample_rnode, ok := ok } : call_t) ∉
        state_t.save_state_calls (sample_outside (fun _ _ => true)) sample_state) := by
  decide

/-- C10, amended: when `save_state` returns 0, every node that was dirty in the
downloads, hosts, URLs, searches, users or errors table at the start of the call has
been written to the database before its table was cleared; so has every dirty node
of the referrers table when `totals.t_ref` is not zero, and every dirty node of the
agents table when `totals.t_agent` is not zero. -/
theorem save_state_writes_dirty_nodes (W : Outside) (st : state_t)
    (h : (state_t.save_state W st).1 = result.value 0) :
    (∀ n ∈ st.dl_htab.nodes, n.dirty = true →
        written_before_clear (ext_op.put_dlnode n) table_id.dl_htab (state_t.save_state_calls W st)) ∧
      (∀ n ∈ st.hm_htab.nodes, n.dirty = true →
        written_before_clear (ext_op.put_hnode n) table_id.hm_htab (state_t.save_state_calls W st)) ∧
      (∀ n ∈ st.um_htab.nodes, n.dirty = true →
        written_before_clear (ext_op.put_unode n) table_id.um_htab (state_t.save_state_calls W st)) ∧
      (st.totals.t_ref ≠ 0 → ∀ n ∈ st.rm_htab.nodes, n.dirty = true →
        written_before_clear (ext_op.put_rnode n) table_id.rm_htab (state_t.save_state_calls W st)) ∧
      (st.totals.t_agent ≠ 0 → ∀ n ∈ st.am_htab.nodes, n.dirty = true →
        written_before_clear (ext_op.put_anode n) table_id.am_htab (state_t.save_state_calls W st)) ∧
      (∀ n ∈ st.sr_htab.nodes, n.dirty = true →
        written_before_clear (ext_op.put_snode n) table_id.sr_htab (state_t.save_state_calls W st)) ∧
      (∀ n ∈ st.im_htab.nodes, n.dirty = true →
        written_before_clear (ext_op.put_inode n) table_id.im_htab (state_t.save_state_calls W st)) ∧
      (∀ n ∈ st.rc_htab.nodes, n.dirty = true →
        written_before_clear (ext_op.put_rcnode n) table_id.rc_htab (state_t.save_state_calls W st)) := by
  have h0 := save_state_zero W st h
  have hcalls : ∀ d, ((step.seq (state_t.save_sysnode W) (step.seq (state_t.save_ended W)
      (step.seq (state_t.save_totals W) (step.seq (state_t.save_downloads W)
      (step.seq (state_t.save_hosts W) (step.seq (state_t.save_urls W)
      (step.seq (state_t.save_referrers W) (step.seq (state_t.save_agents W)
      (step.seq (state_t.save_search W) (step.seq (state_t.save_users W)
      (step.seq (state_t.save_errors W) (state_t.save_history W))))))))))) st).2.log
        = st.log ++ d) → state_t.save_state_calls W st = d := by
    intro d hd
    simp only [state_t.save_state_calls, save_state_state_eq, hd, List.drop_left]
  refine ⟨?_, ?_, ?_, ?_, ?_, ?_, ?_, ?_⟩
  · obtain ⟨d, hd, hq⟩ := ensures_save_state_downloads W st h0
    rw [hcalls d hd]
    exact hq
  · obtain ⟨d, hd, hq⟩ := ensures_save_state_hosts W st h0
    rw [hcalls d hd]
    exact hq
  · obtain ⟨d, hd, hq⟩ := ensures_save_state_urls W st h0
    rw [hcalls d hd]
    exact hq
  · intro ht
    obtain ⟨d, hd, hq⟩ := ensures_save_state_referrers W st h0
    rw [hcalls d hd]
    simp only [if_pos ht] at hq
    exact hq
  · intro ht
    obtain ⟨d, hd, hq⟩ := ensures_save_state_agents W st h0
    rw [hcalls d hd]
    simp only [if_pos ht] at hq
    exact hq
  · obtain ⟨d, hd, hq⟩ := ensures_save_state_search W st h0
    rw [hcalls d hd]
    exact hq
  · obtain ⟨d, hd, hq⟩ := ensures_save_state_users W st h0
    rw [hcalls d hd]
    exact hq
  · obtain ⟨d, hd, hq⟩ := ensures_save_state_errors W st h0
    rw [hcalls d hd]
    exact hq

set_option maxRecDepth 100000 in
/-- C10 as amended, at the sample state with references and a storage engine that
succeeds: the dirty host is written before the hosts table is cleared. -/
theorem save_state_writes_dirty_nodes_witness :
    (state_t.save_state (sample_outside (fun _ _ => true)) sample_state_refs).1
        = result.value 0 ∧
      ∀ n ∈ sample_state_refs.hm_htab.nodes, n.dirty = true →
        written_before_clear (ext_op.put_hnode n) table_id.hm_htab
          (state_t.save_state_calls (sample_outside (fun _ _ => true)) sample_state_refs) :=
  ⟨by decide,
    (save_state_writes_dirty_nodes (sample_outside (fun _ _ => true)) sample_state_refs
      (by decide)).2.1⟩

/-! ## Opening the database -/

theorem within_seq {P : ext_op → Prop} {Q : String → Prop} {f g : step}
    (hf : step.within P Q f) (hg : step.within P Q g) : step.within P Q (step.seq f g) := by
  intro st
  obtain ⟨⟨d1, e1, p1⟩, q1⟩ := hf st
  cases hr : (f st).1 with
  | some r =>
    refine ⟨⟨d1, by simp only [step.seq, hr, e1], p1⟩, ?_⟩
    intro msg hm
    apply q1
    simpa only [step.seq, hr] using hm
  | none =>
    obtain ⟨⟨d2, e2, p2⟩, q2⟩ := hg (f st).2
    refine ⟨⟨d1 ++ d2, by simp only [step.seq, hr, e2, e1, List.append_assoc], ?_⟩, ?_⟩
    · intro c hc
      rcases List.mem_append.1 hc with h | h
      · exact p1 c h
      · exact p2 c h
    · intro msg hm
      apply q2
      simpa only [step.seq, hr] using hm

theorem within_for_each {ν : Type} {P : ext_op → Prop} {Q : String → Prop} (body : ν → step)
    (hb : ∀ n, step.within P Q (body n)) (l : List ν) :
    step.within P Q (step.for_each body l) := by
  induction l with
  | nil =>
    intro st
    exact ⟨⟨[], by simp [step.for_each], fun c hc => absurd hc (List.not_mem_nil c)⟩,
      fun msg hm => by simp [step.for_each] at hm⟩
  | cons n ns ih => exact within_seq (hb n) ih

theorem within_update {P : ext_op → Prop} {Q : String → Prop} (f : state_t → state_t)
    (hf : ∀ st, (f st).log = st.log) : step.within P Q (step.update f) := by
  intro st
  exact ⟨⟨[], by simp [step.update, hf], fun c hc => absurd hc (List.not_mem_nil c)⟩,
    fun msg hm => by simp [step.update] at hm⟩

theorem within_call_or_return {P : ext_op → Prop} {Q : String → Prop} (W : Outside)
    (op : ext_op) (code : Nat) (hp : P op) : step.within P Q (step.call_or_return W op code) := by
  intro st
  refine ⟨⟨[{ op := op, ok := W.result st.log op }], ?_, ?_⟩, ?_⟩
  · unfold step.call_or_return
    split_ifs <;> rfl
  · intro c hc
    rw [List.mem_singleton.1 hc]
    exact hp
  · intro msg hm
    unfold step.call_or_return at hm
    split_ifs at hm
    all_goals simp at hm

theorem within_call_or_throw {P : ext_op → Prop} {Q : String → Prop} (W : Outside)
    (op : ext_op) (msg : String) (hp : P op) (hq : Q msg) :
    step.within P Q (step.call_or_throw W op msg) := by
  intro st
  refine ⟨⟨[{ op := op, ok := W.result st.log op }], ?_, ?_⟩, ?_⟩
  · unfold step.call_or_throw
    split_ifs <;> rfl
  · intro c hc
    rw [List.mem_singleton.1 hc]
    exact hp
  · intro m hm
    unfold step.call_or_throw at hm
    split_ifs at hm
    simp only [Option.some.injEq, result.thrown.injEq] at hm
    exact hm ▸ hq

theorem within_at {P : ext_op → Prop} {Q : String → Prop} (F : state_t → step)
    (h : ∀ s, step.within P Q (F s)) : step.within P Q (fun st => F st st) :=
  fun st => h st st

theorem upgrade_steps_within (W : Outside) :
    step.within ext_op.keeps_data
      (fun msg => msg = "Cannot write the system node to the database")
      (state_t.upgrade_steps W) := by
  have hk : ∀ op : ext_op, op ≠ ext_op.truncate → op ≠ ext_op.sysnode_reset →
      ext_op.keeps_data op := fun _ h1 h2 => ⟨h1, h2⟩
  unfold state_t.upgrade_steps
  refine within_at _ (fun s => ?_)
  refine within_seq ?_ (within_seq ?_ (within_seq ?_ (within_seq ?_ ?_)))
  · split_ifs
    · exact within_call_or_return W _ _ (hk _ (by simp) (by simp))
    · exact within_update _ (fun _ => rfl)
  · split_ifs
    · refine within_seq (within_for_each _ (fun i => ?_) _)
        (within_seq (within_for_each _ (fun i => ?_) _) (within_update _ (fun _ => rfl)))
      · exact within_seq (within_call_or_return W _ _ (hk _ (by simp) (by simp)))
          (within_call_or_return W _ _ (hk _ (by simp) (by simp)))
      · exact within_seq (within_call_or_return W _ _ (hk _ (by simp) (by simp)))
          (within_call_or_return W _ _ (hk _ (by simp) (by simp)))
    · exact within_update _ (fun _ => rfl)
  · exact within_call_or_return W _ _ (hk _ (by simp) (by simp))
  · exact within_at _ (fun _ => within_call_or_return W _ _ (hk _ (by simp) (by simp)))
  · intro st
    exact @within_call_or_throw ext_op.keeps_data
      (fun msg => msg = "Cannot write the system node to the database") W
      (ext_op.put_sysnode { st.sysnode with appver_last := W.VERSION })
      _ (hk _ (by simp) (by simp)) rfl
      { st with sysnode := { st.sysnode with appver_last := W.VERSION } }

theorem upgrade_database_within (W : Outside) (st : state_t) :
    (∃ d, (state_t.upgrade_database W st).2.log = st.log ++ d ∧
      ∀ c ∈ d, ext_op.keeps_data c.op) ∧
    ∀ msg, (state_t.upgrade_database W st).1 = result.thrown msg →
      msg = "Cannot write the system node to the database" := by
  obtain ⟨⟨d, e, p⟩, q⟩ := upgrade_steps_within W st
  unfold state_t.upgrade_database
  split_ifs with h0
  · exact ⟨⟨[], by simp, fun c hc => absurd hc (List.not_mem_nil c)⟩, fun msg hm => by simp at hm⟩
  · rcases hs : state_t.upgrade_steps W st with ⟨r, s1⟩
    rw [hs] at e q
    cases r with
    | none => exact ⟨⟨d, e, p⟩, fun msg hm => by simp at hm⟩
    | some r =>
      refine ⟨⟨d, e, p⟩, fun msg hm => q msg ?_⟩
      simp only at hm
      rw [hm]

theorem initialize_open_ok (W : Outside) (st : state_t)
    (haccess : ∀ l, W.result l ext_op.access_db_path = true)
    (hopen : ∀ l, W.result l ext_op.db_open = true) :
    (state_t.initialize_open W st).1 = none ∧
    (state_t.initialize_open W st).2.config = st.config ∧
    ∃ rest, (state_t.initialize_open W st).2.log =
        st.log ++ { op := ext_op.sysnode_reset, ok := true } :: rest ∧
      ∀ c ∈ rest, ext_op.keeps_data c.op := by
  unfold state_t.initialize_open
  simp only [state_t.call, haccess, hopen, Bool.not_true, Bool.false_eq_true, if_false]
  split_ifs
  · refine ⟨rfl, rfl, [{ op := ext_op.access_db_path, ok := true },
      { op := ext_op.db_open, ok := true }], by simp, ?_⟩
    intro c hc
    simp only [List.mem_cons, List.mem_singleton, List.not_mem_nil, or_false] at hc
    rcases hc with h | h <;> rw [h] <;> exact ⟨by simp, by simp⟩
  · refine ⟨rfl, rfl, [{ op := ext_op.set_trickle, ok := true },
      { op := ext_op.db_open, ok := true }], by simp, ?_⟩
    intro c hc
    simp only [List.mem_cons, List.mem_singleton, List.not_mem_nil, or_false] at hc
    rcases hc with h | h <;> rw [h] <;> exact ⟨by simp, by simp⟩
  · refine ⟨rfl, rfl, [{ op := ext_op.db_open, ok := true }], by simp, ?_⟩
    intro c hc
    simp only [List.mem_cons, List.mem_singleton, List.not_mem_nil, or_false] at hc
    rw [hc]
    exact ⟨by simp, by simp⟩

theorem initialize_sysnode_eq (W : Outside) (s1 : state_t)
    (hprep : s1.config.prep_report = false) (hend : s1.config.end_month = false)
    (hcompact : s1.config.compact_db = false) (hinfo : s1.config.db_info = false)
    (hsys : ∀ l, W.result l ext_op.is_sysnode = true)
    (hget : ∀ l, W.result l ext_op.get_sysnode_by_id = true)
    (hbyte : W.check_byte_order W.stored_sysnode = true)
    (hver : W.VERSION_4_0_0_0 ≤ W.stored_sysnode.appver_last)
    (hsize : W.check_size_of W.stored_sysnode = true)
    (htime : W.check_time_settings W.stored_sysnode s1.config = true)
    (read : state_t)
    (hread : read = { s1 with sysnode := W.stored_sysnode,
                              log := s1.log ++ [{ op := ext_op.is_sysnode, ok := true },
                                { op := ext_op.get_sysnode_by_id, ok := true }] }) :
    state_t.initialize_sysnode W s1 =
      if s1.config.incremental = false ∧ W.stored_sysnode.incremental = true then
        (some (result.thrown "Cannot truncate an incremental database for a non-incremental run"),
          read)
      else if W.stored_sysnode.incremental = false then
        if W.result read.log ext_op.truncate = true then (none, state_t.truncated W read)
        else (some (result.thrown "Cannot truncate the database\n"),
          { read with log := read.log ++ [{ op := ext_op.truncate, ok := false }] })
      else (none, read) := by
  subst hread
  unfold state_t.initialize_sysnode
  simp only [state_t.call, hsys, hget, hbyte, hsize, htime, hprep, hend, hcompact, hinfo,
    Nat.not_lt.2 hver, Bool.not_true, Bool.false_eq_true, if_false, false_and, and_false,
    and_self, or_self, if_true, List.append_assoc, List.cons_append, List.nil_append,
    state_t.truncated]
  generalize W.result (s1.log ++ [{ op := ext_op.is_sysnode, ok := true },
    { op := ext_op.get_sysnode_by_id, ok := true }]) ext_op.truncate = b
  cases s1.config.incremental <;> cases W.stored_sysnode.incremental <;> cases b <;> simp

theorem initialize_structures_log (W : Outside) (st : state_t) :
    (state_t.initialize_structures W st).log =
      st.log ++ [{ op := ext_op.history_initialize, ok := true }] := by
  unfold state_t.initialize_structures
  simp only [state_t.init_counters, state_t.del_htabs]
  split_ifs <;> rfl

theorem initialize_runtime_within (W : Outside) (st : state_t) :
    (∃ d, (state_t.initialize_runtime W st).2.log = st.log ++ d ∧
      ∀ c ∈ d, ext_op.keeps_data c.op) ∧
    ∀ msg, (state_t.initialize_runtime W st).1 = result.thrown msg →
      msg = "Cannot write the system node to the database" ∨
      msg = "Cannot upgrade the database to the latest version" := by
  have hh : ∀ c ∈ [({ op := ext_op.history_initialize, ok := true } : call_t)],
      ext_op.keeps_data c.op := by
    intro c hc
    rw [List.mem_singleton.1 hc]
    exact ⟨by simp, by simp⟩
  obtain ⟨⟨d, e, p⟩, q⟩ := upgrade_database_within W st
  unfold state_t.initialize_runtime
  split_ifs with hinfo hv
  · exact ⟨⟨[], by simp, fun c hc => absurd hc (List.not_mem_nil c)⟩, fun msg hm => by simp at hm⟩
  · rcases hu : state_t.upgrade_database W st with ⟨r, s1⟩
    rw [hu] at e q
    cases r with
    | thrown m =>
      refine ⟨⟨d, e, p⟩, fun msg hm => Or.inl (q msg ?_)⟩
      simp only [result.thrown.injEq] at hm
      rw [hm]
    | value code =>
      by_cases hc : code = 0
      · simp only [hc, ne_eq, not_true_eq_false, if_false]
        refine ⟨⟨d ++ [{ op := ext_op.history_initialize, ok := true }], ?_, ?_⟩,
          fun msg hm => by simp at hm⟩
        · rw [initialize_structures_log]
          simp only at e
          rw [e, List.append_assoc]
        · intro c hc
          rcases List.mem_append.1 hc with h | h
          · exact p c h
          · exact hh c h
      · simp only [hc, ne_eq, not_false_eq_true, if_true]
        refine ⟨⟨d, e, p⟩, fun msg hm => Or.inr ?_⟩
        simp only [result.thrown.injEq] at hm
        exact hm.symm
  · exact ⟨⟨_, initialize_structures_log W st, hh⟩, fun msg hm => by simp at hm⟩

theorem gate_trace (rest mid d calls : List call_t)
    (hrest : ∀ c ∈ rest, ext_op.keeps_data c.op) (hd : ∀ c ∈ d, ext_op.keeps_data c.op)
    (h : calls = { op := ext_op.sysnode_reset, ok := true } ::
      (rest ++ ([{ op := ext_op.is_sysnode, ok := true },
        { op := ext_op.get_sysnode_by_id, ok := true }] ++ (mid ++ d)))) :
    ((∃ c ∈ calls, c.op = ext_op.truncate) ↔ ∃ c ∈ mid, c.op = ext_op.truncate) ∧
    ((∃ c ∈ calls.tail, c.op = ext_op.sysnode_reset) ↔
      ∃ c ∈ mid, c.op = ext_op.sysnode_reset) := by
  subst h
  constructor
  · constructor
    · rintro ⟨c, hc, ht⟩
      simp only [List.mem_cons, List.mem_append, List.mem_singleton, List.not_mem_nil,
        or_false] at hc
      rcases hc with h | h | (h | h) | h | h
      · rw [h] at ht; simp at ht
      · exact absurd ht (hrest c h).1
      · rw [h] at ht; simp at ht
      · rw [h] at ht; simp at ht
      · exact ⟨c, h, ht⟩
      · exact absurd ht (hd c h).1
    · rintro ⟨c, hc, ht⟩
      exact ⟨c, by simp [hc], ht⟩
  · constructor
    · rintro ⟨c, hc, ht⟩
      simp only [List.tail_cons, List.mem_cons, List.mem_append, List.mem_singleton,
        List.not_mem_nil, or_false] at hc
      rcases hc with h | (h | h) | h | h
      · exact absurd ht (hrest c h).2
      · rw [h] at ht; simp at ht
      · rw [h] at ht; simp at ht
      · exact ⟨c, h, ht⟩
      · exact absurd ht (hd c h).2
    · rintro ⟨c, hc, ht⟩
      exact ⟨c, by simp [hc], ht⟩

/-- C8: for a log-processing run (none of `prep_report`, `end_month`, `compact_db` and
`db_info` is set) on a database that opens and whose stored sysnode is read and passes
the checks of byte order, version, type sizes and time settings, `initialize`
(1) throws "Cannot truncate an incremental database for a non-incremental run" exactly
when the run is not incremental and the stored sysnode is incremental;
(2) calls `database.truncate()` exactly when the stored sysnode is not incremental;
(3) resets sysnode again, after the reset at entry that heads its calls, exactly when
the stored sysnode is not incremental and the truncation succeeded, and then goes on
from the reset sysnode;
(4) throws "Cannot truncate the database" when the truncation fails; and
(5) goes on from the stored sysnode when both the run and the stored sysnode are
incremental. -/
theorem initialize_truncation_gate (W : Outside) (st : state_t)
    (hprep : st.config.prep_report = false) (hend : st.config.end_month = false)
    (hcompact : st.config.compact_db = false) (hinfo : st.config.db_info = false)
    (haccess : ∀ l, W.result l ext_op.access_db_path = true)
    (hopen : ∀ l, W.result l ext_op.db_open = true)
    (hsys : ∀ l, W.result l ext_op.is_sysnode = true)
    (hget : ∀ l, W.result l ext_op.get_sysnode_by_id = true)
    (hbyte : W.check_byte_order W.stored_sysnode = true)
    (hver : W.VERSION_4_0_0_0 ≤ W.stored_sysnode.appver_last)
    (hsize : W.check_size_of W.stored_sysnode = true)
    (htime : W.check_time_settings W.stored_sysnode st.config = true) :
    (( state_t.initialize W st).1 =
        result.thrown "Cannot truncate an incremental database for a non-incremental run" ↔
      (st.config.incremental = false ∧ W.stored_sysnode.incremental = true)) ∧
    ((∃ c ∈ state_t.initialize_calls W st, c.op = ext_op.truncate) ↔
      W.stored_sysnode.incremental = false) ∧
    ((∃ c ∈ (state_t.initialize_calls W st).tail, c.op = ext_op.sysnode_reset) ↔
      (W.stored_sysnode.incremental = false ∧
        W.result (state_t.sysnode_read W st).log ext_op.truncate = true)) ∧
    (W.stored_sysnode.incremental = false →
      W.result (state_t.sysnode_read W st).log ext_op.truncate = true →
      state_t.initialize W st =
        state_t.initialize_runtime W (state_t.truncated W (state_t.sysnode_read W st))) ∧
    (W.stored_sysnode.incremental = false →
      W.result (state_t.sysnode_read W st).log ext_op.truncate = false →
      ( state_t.initialize W st).1 = result.thrown "Cannot truncate the database\n") ∧
    (W.stored_sysnode.incremental = true → st.config.incremental = true →
      state_t.initialize W st = state_t.initialize_runtime W (state_t.sysnode_read W st)) := by
  obtain ⟨ho1, hcfg, rest, hlog, hrest⟩ := initialize_open_ok W st haccess hopen
  have hrl : (state_t.sysnode_read W st).log = st.log ++
      { op := ext_op.sysnode_reset, ok := true } :: (rest ++
        [{ op := ext_op.is_sysnode, ok := true },
          { op := ext_op.get_sysnode_by_id, ok := true }]) := by
    simp only [state_t.sysnode_read, hlog, List.append_assoc, List.cons_append]
  have hsn := initialize_sysnode_eq W (state_t.initialize_open W st).2
    (hcfg ▸ hprep) (hcfg ▸ hend) (hcfg ▸ hcompact) (hcfg ▸ hinfo) hsys hget hbyte hver hsize
    (hcfg ▸ htime) (state_t.sysnode_read W st) rfl
  rw [hcfg] at hsn
  have hinit : state_t.initialize W st =
      match state_t.initialize_sysnode W (state_t.initialize_open W st).2 with
      | (some r, st2) => (r, st2)
      | (none, st2) => state_t.initialize_runtime W st2 := by
    rcases hop : state_t.initialize_open W st with ⟨o, s1⟩
    rw [hop] at ho1
    simp only at ho1
    subst ho1
    simp only [ state_t.initialize, hop]
  rw [hsn] at hinit
  have hnil : ∀ c ∈ ([] : List call_t), ext_op.keeps_data c.op :=
    fun c hc => absurd hc (List.not_mem_nil c)
  cases hd : W.stored_sysnode.incremental
  · cases ht : W.result (state_t.sysnode_read W st).log ext_op.truncate
    · simp only [hd, ht, and_false, Bool.false_eq_true, if_false, if_true] at hinit
      have hcalls : state_t.initialize_calls W st = { op := ext_op.sysnode_reset, ok := true } ::
          (rest ++ ([{ op := ext_op.is_sysnode, ok := true },
            { op := ext_op.get_sysnode_by_id, ok := true }] ++
            ([{ op := ext_op.truncate, ok := false }] ++ []))) := by
        rw [state_t.initialize_calls, hinit]
        simp only [hrl, List.append_assoc]
        rw [List.drop_left]
        simp
      obtain ⟨g1, g2⟩ := gate_trace rest _ [] _ hrest hnil hcalls
      refine ⟨?_, ?_, ?_, ?_, ?_, ?_⟩
      · rw [hinit]; simp
      · rw [g1]; simp
      · rw [g2]; simp
      · intro _ h; simp at h
      · intro _ _; rw [hinit]
      · intro h; simp at h
    · simp only [hd, ht, and_false, Bool.false_eq_true, if_false, if_true] at hinit
      obtain ⟨⟨d, e, p⟩, q⟩ := initialize_runtime_within W
        (state_t.truncated W (state_t.sysnode_read W st))
      have hcalls : state_t.initialize_calls W st = { op := ext_op.sysnode_reset, ok := true } ::
          (rest ++ ([{ op := ext_op.is_sysnode, ok := true },
            { op := ext_op.get_sysnode_by_id, ok := true }] ++
            ([{ op := ext_op.truncate, ok := true },
              { op := ext_op.sysnode_reset, ok := true }] ++ d))) := by
        rw [state_t.initialize_calls, hinit, e]
        simp only [state_t.truncated, hrl, List.append_assoc]
        rw [List.drop_left]
        simp
      obtain ⟨g1, g2⟩ := gate_trace rest _ d _ hrest p hcalls
      refine ⟨?_, ?_, ?_, ?_, ?_, ?_⟩
      · rw [hinit]
        constructor
        · intro h
          rcases q _ h with h1 | h1 <;> simp at h1
        · intro h; simp at h
      · rw [g1]; simp
      · rw [g2]; simp
      · intro _ _; exact hinit
      · intro _ h; simp at h
      · intro h; simp at h
  · cases hr : st.config.incremental
    · simp only [hd, hr, and_self, if_true] at hinit
      have hcalls : state_t.initialize_calls W st = { op := ext_op.sysnode_reset, ok := true } ::
          (rest ++ ([{ op := ext_op.is_sysnode, ok := true },
            { op := ext_op.get_sysnode_by_id, ok := true }] ++ ([] ++ []))) := by
        rw [state_t.initialize_calls, hinit]
        simp only [hrl, List.append_assoc]
        rw [List.drop_left]
        simp
      obtain ⟨g1, g2⟩ := gate_trace rest _ [] _ hrest hnil hcalls
      refine ⟨?_, ?_, ?_, ?_, ?_, ?_⟩
      · rw [hinit]; simp
      · rw [g1]; simp
      · rw [g2]; simp
      · intro h; simp at h
      · intro h; simp at h
      · intro _ h; simp at h
    · simp only [hd, hr, Bool.true_eq_false, false_and, and_false, if_false] at hinit
      obtain ⟨⟨d, e, p⟩, q⟩ := initialize_runtime_within W (state_t.sysnode_read W st)
      have hcalls : state_t.initialize_calls W st = { op := ext_op.sysnode_reset, ok := true } ::
          (rest ++ ([{ op := ext_op.is_sysnode, ok := true },
            { op := ext_op.get_sysnode_by_id, ok := true }] ++ ([] ++ d))) := by
        rw [state_t.initialize_calls, hinit, e]
        simp only [hrl, List.append_assoc]
        rw [List.drop_left]
        simp
      obtain ⟨g1, g2⟩ := gate_trace rest _ d _ hrest p hcalls
      refine ⟨?_, ?_, ?_, ?_, ?_, ?_⟩
      · rw [hinit]
        constructor
        · intro h
          rcases q _ h with h1 | h1 <;> simp at h1
        · intro h; simp at h
      · rw [g1]; simp
      · rw [g2]; simp
      · intro h; simp at h
      · intro h; simp at h
      · intro _ _; exact hinit

/-- C8 at the sample state of a run that is not incremental, on a database whose
stored sysnode is incremental and passes every check: `initialize` refuses to truncate. -/
theorem initialize_truncation_gate_witness :
    (sample_state_full_run.config.incremental = false ∧
      (sample_outside (fun _ _ => true)).stored_sysnode.incremental = true) ∧
    ( state_t.initialize (sample_outside (fun _ _ => true)) sample_state_full_run).1 =
      result.thrown "Cannot truncate an incremental database for a non-incremental run" :=
  ⟨⟨rfl, rfl⟩,
    (initialize_truncation_gate (sample_outside (fun _ _ => true)) sample_state_full_run
      rfl rfl rfl rfl (fun _ => rfl) (fun _ => rfl) (fun _ => rfl) (fun _ => rfl)
      (by decide) (by decide) (by decide) rfl).1.2 ⟨rfl, rfl⟩⟩

/-! ## Timestamp-driven updates -/

theorem set_tstamp_days_frame (tstamp : tstamp_t) (st : state_t) :
    (state_t.set_tstamp_days tstamp st).t_daily = st.t_daily ∧
    (state_t.set_tstamp_days tstamp st).totals.cur_tstamp.day = st.totals.cur_tstamp.day ∧
    (state_t.set_tstamp_days tstamp st).totals.cur_tstamp.hour = st.totals.cur_tstamp.hour ∧
    (state_t.set_tstamp_days tstamp st).totals.ht_hits = st.totals.ht_hits := by
  unfold state_t.set_tstamp_days
  simp only []
  split_ifs <;> exact ⟨rfl, rfl, rfl, rfl⟩

theorem set_tstamp_days_first_last (tstamp : tstamp_t) (st : state_t)
    (h : st.totals.f_day ≤ st.totals.l_day) :
    (state_t.set_tstamp_days tstamp st).totals.f_day ≤
      (state_t.set_tstamp_days tstamp st).totals.l_day ∧
    tstamp.day ≤ (state_t.set_tstamp_days tstamp st).totals.l_day ∧
    (st.totals.cur_tstamp.year ≠ tstamp.year ∨ st.totals.cur_tstamp.month ≠ tstamp.month →
      (state_t.set_tstamp_days tstamp st).totals.f_day = tstamp.day ∧
      (state_t.set_tstamp_days tstamp st).totals.l_day = tstamp.day) := by
  unfold state_t.set_tstamp_days
  by_cases h1 : st.totals.cur_tstamp.year ≠ tstamp.year ∨
      st.totals.cur_tstamp.month ≠ tstamp.month
  · simp only [if_pos h1, gt_iff_lt, lt_self_iff_false, if_false, le_refl, and_self,
      implies_true]
  · simp only [if_neg h1]
    split_ifs with h2
    · exact ⟨show st.totals.f_day ≤ tstamp.day by omega, le_refl _, fun hc => absurd hc h1⟩
    · exact ⟨h, show tstamp.day ≤ st.totals.l_day by omega, fun hc => absurd hc h1⟩

theorem set_tstamp_min_sec_frame (tstamp : tstamp_t) (st : state_t) :
    (state_t.set_tstamp_min_sec tstamp st).t_daily = st.t_daily ∧
    (state_t.set_tstamp_min_sec tstamp st).totals.cur_tstamp.day = st.totals.cur_tstamp.day ∧
    (state_t.set_tstamp_min_sec tstamp st).totals.cur_tstamp.hour = st.totals.cur_tstamp.hour ∧
    (state_t.set_tstamp_min_sec tstamp st).totals.ht_hits = st.totals.ht_hits ∧
    (state_t.set_tstamp_min_sec tstamp st).totals.f_day = st.totals.f_day ∧
    (state_t.set_tstamp_min_sec tstamp st).totals.l_day = st.totals.l_day := by
  unfold state_t.set_tstamp_min_sec
  simp only []
  split_ifs <;> exact ⟨rfl, rfl, rfl, rfl, rfl, rfl⟩

theorem update_hourly_stats_frame (W : Outside) (st : state_t) :
    (state_t.update_hourly_stats W st).totals.cur_tstamp = st.totals.cur_tstamp ∧
    (state_t.update_hourly_stats W st).totals.f_day = st.totals.f_day ∧
    (state_t.update_hourly_stats W st).totals.l_day = st.totals.l_day := by
  unfold state_t.update_hourly_stats
  split_ifs <;> exact ⟨rfl, rfl, rfl⟩

theorem set_tstamp_hour_frame (W : Outside) (tstamp : tstamp_t) (st : state_t) :
    (state_t.set_tstamp_hour W tstamp st).totals.cur_tstamp.day = st.totals.cur_tstamp.day ∧
    (state_t.set_tstamp_hour W tstamp st).totals.f_day = st.totals.f_day ∧
    (state_t.set_tstamp_hour W tstamp st).totals.l_day = st.totals.l_day := by
  obtain ⟨h1, h2, h3⟩ := update_hourly_stats_frame W st
  unfold state_t.set_tstamp_hour
  split_ifs
  · exact ⟨by simp only [h1], h2, h3⟩
  · exact ⟨rfl, rfl, rfl⟩

theorem set_tstamp_day_frame (tstamp : tstamp_t) (st : state_t) :
    (state_t.set_tstamp_day tstamp st).totals.f_day = st.totals.f_day ∧
    (state_t.set_tstamp_day tstamp st).totals.l_day = st.totals.l_day ∧
    (state_t.set_tstamp_day tstamp st).totals.ht_hits = st.totals.ht_hits ∧
    (state_t.set_tstamp_day tstamp st).totals.ht_files = st.totals.ht_files ∧
    (state_t.set_tstamp_day tstamp st).totals.ht_pages = st.totals.ht_pages ∧
    (state_t.set_tstamp_day tstamp st).totals.ht_xfer = st.totals.ht_xfer ∧
    (state_t.set_tstamp_day tstamp st).totals.ht_visits = st.totals.ht_visits ∧
    (state_t.set_tstamp_day tstamp st).totals.ht_hosts = st.totals.ht_hosts := by
  unfold state_t.set_tstamp_day
  split_ifs <;> exact ⟨rfl, rfl, rfl, rfl, rfl, rfl, rfl, rfl⟩

/-- C11: `set_tstamp` preserves first day ≤ last day. From any state with
`f_day ≤ l_day`, after `set_tstamp(tstamp)` for any timestamp the totals satisfy
`f_day ≤ l_day` and `tstamp.day ≤ l_day`, and when the timestamp is in another year or
month than the current timestamp, `f_day = l_day = tstamp.day`. -/
theorem set_tstamp_first_day_le_last_day (W : Outside) (tstamp : tstamp_t) (st : state_t)
    (h : st.totals.f_day ≤ st.totals.l_day) :
    (state_t.set_tstamp W tstamp st).totals.f_day ≤
      (state_t.set_tstamp W tstamp st).totals.l_day ∧
    tstamp.day ≤ (state_t.set_tstamp W tstamp st).totals.l_day ∧
    (st.totals.cur_tstamp.year ≠ tstamp.year ∨ st.totals.cur_tstamp.month ≠ tstamp.month →
      (state_t.set_tstamp W tstamp st).totals.f_day = tstamp.day ∧
      (state_t.set_tstamp W tstamp st).totals.l_day = tstamp.day) := by
  obtain ⟨a1, a2, a3⟩ := set_tstamp_days_first_last tstamp st h
  obtain ⟨_, _, _, _, b1, b2⟩ :=
    set_tstamp_min_sec_frame tstamp (state_t.set_tstamp_days tstamp st)
  obtain ⟨_, c1, c2⟩ := set_tstamp_hour_frame W tstamp
    (state_t.set_tstamp_min_sec tstamp (state_t.set_tstamp_days tstamp st))
  obtain ⟨d1, d2, _⟩ := set_tstamp_day_frame tstamp (state_t.set_tstamp_hour W tstamp
    (state_t.set_tstamp_min_sec tstamp (state_t.set_tstamp_days tstamp st)))
  have hf : (state_t.set_tstamp W tstamp st).totals.f_day =
      (state_t.set_tstamp_days tstamp st).totals.f_day := by
    simp only [state_t.set_tstamp, d1, c1, b1]
  have hl : (state_t.set_tstamp W tstamp st).totals.l_day =
      (state_t.set_tstamp_days tstamp st).totals.l_day := by
    simp only [state_t.set_tstamp, d2, c2, b2]
  rw [hf, hl]
  exact ⟨a1, a2, a3⟩

/-- C11 at the sample state, whose first and last day are both 0, and the sample
timestamp of another month. -/
theorem set_tstamp_first_day_le_last_day_witness :
    (state_t.set_tstamp (sample_outside (fun _ _ => true))
        { sample_tstamp with month := 7, day := 3 } sample_state).totals.f_day = 3 ∧
    (state_t.set_tstamp (sample_outside (fun _ _ => true))
        { sample_tstamp with month := 7, day := 3 } sample_state).totals.l_day = 3 :=
  (set_tstamp_first_day_le_last_day (sample_outside (fun _ _ => true))
    { sample_tstamp with month := 7, day := 3 } sample_state (by decide)).2.2
    (Or.inr (by decide))

theorem day_index_eq (day : Nat) (h1 : 1 ≤ day) (h2 : day ≤ 31) : day_index day = day - 1 := by
  unfold day_index
  omega

theorem update_hourly_stats_td_hours (W : Outside) (st : state_t) (i : Nat) (d1 : daily_t)
    (h : (state_t.update_hourly_stats W st).t_daily[i]? = some d1) :
    ∃ d, st.t_daily[i]? = some d ∧
      d1.td_hours = if st.totals.ht_hits ≠ 0 ∧ day_index st.totals.cur_tstamp.day = i
        then (d.td_hours + 1) % 65536 else d.td_hours := by
  unfold state_t.update_hourly_stats at h
  by_cases h0 : st.totals.ht_hits = 0
  · rw [if_pos h0] at h
    exact ⟨d1, h, by simp [h0]⟩
  · rw [if_neg h0] at h
    dsimp only at h
    have h2 := h
    clear h
    rw [List.getElem?_modify] at h2
    cases hd : st.t_daily[i]? with
    | none => simp [hd] at h2
    | some d =>
      have h : (if day_index st.totals.cur_tstamp.day = i
          then state_t.update_hourly_daily W st.totals d else d) = d1 := by
        simpa [hd] using h2
      refine ⟨d, rfl, ?_⟩
      by_cases hi : day_index st.totals.cur_tstamp.day = i
      · simp only [hi, if_true] at h
        rw [← h]
        simp [h0, hi, state_t.update_hourly_daily]
      · simp only [hi, if_false] at h
        rw [← h]
        simp [hi]

theorem set_tstamp_hour_td_hours (W : Outside) (tstamp : tstamp_t) (st : state_t) (i : Nat)
    (d1 : daily_t) (h : (state_t.set_tstamp_hour W tstamp st).t_daily[i]? = some d1) :
    ∃ d, st.t_daily[i]? = some d ∧
      d1.td_hours = if st.totals.cur_tstamp.hour ≠ tstamp.hour ∧ st.totals.ht_hits ≠ 0 ∧
          day_index st.totals.cur_tstamp.day = i
        then (d.td_hours + 1) % 65536 else d.td_hours := by
  unfold state_t.set_tstamp_hour at h
  by_cases hh : st.totals.cur_tstamp.hour ≠ tstamp.hour
  · rw [if_pos hh] at h
    obtain ⟨d, e, q⟩ := update_hourly_stats_td_hours W st i d1 h
    exact ⟨d, e, by rw [q]; simp [hh]⟩
  · rw [if_neg hh] at h
    exact ⟨d1, h, by simp [hh]⟩

theorem set_tstamp_day_td_hours (tstamp : tstamp_t) (st : state_t) (i : Nat)
    (d1 : daily_t) (h : (state_t.set_tstamp_day tstamp st).t_daily[i]? = some d1) :
    ∃ d, st.t_daily[i]? = some d ∧ d1.td_hours = d.td_hours := by
  unfold state_t.set_tstamp_day at h
  split_ifs at h
  · dsimp only at h
    have h2 := h
    clear h
    rw [List.getElem?_modify] at h2
    cases hd : st.t_daily[i]? with
    | none => simp [hd] at h2
    | some d =>
      have h : (if day_index st.totals.cur_tstamp.day = i
          then { d with tm_hosts := st.totals.dt_hosts } else d) = d1 := by
        simpa [hd] using h2
      refine ⟨d, rfl, ?_⟩
      rw [← h]
      split_ifs <;> rfl
  · exact ⟨d1, h, rfl⟩

theorem set_tstamp_td_hours (W : Outside) (tstamp : tstamp_t) (st : state_t) (i : Nat)
    (d1 : daily_t) (h : (state_t.set_tstamp W tstamp st).t_daily[i]? = some d1) :
    ∃ d, st.t_daily[i]? = some d ∧
      d1.td_hours = if st.totals.cur_tstamp.hour ≠ tstamp.hour ∧ st.totals.ht_hits ≠ 0 ∧
          day_index st.totals.cur_tstamp.day = i
        then (d.td_hours + 1) % 65536 else d.td_hours := by
  obtain ⟨a1, a2, a3, a4⟩ := set_tstamp_days_frame tstamp st
  obtain ⟨b1, b2, b3, b4, _, _⟩ :=
    set_tstamp_min_sec_frame tstamp (state_t.set_tstamp_days tstamp st)
  have h1 : (state_t.set_tstamp_day tstamp (state_t.set_tstamp_hour W tstamp
      (state_t.set_tstamp_min_sec tstamp (state_t.set_tstamp_days tstamp st)))).t_daily[i]?
      = some d1 := h
  obtain ⟨d2, e2, q2⟩ := set_tstamp_day_td_hours tstamp _ i d1 h1
  obtain ⟨d, e, q⟩ := set_tstamp_hour_td_hours W tstamp _ i d2 e2
  rw [b1, a1] at e
  rw [b2, b3, b4, a2, a3, a4] at q
  exact ⟨d, e, q2.trans q⟩

theorem set_tstamp_cur_tstamp (W : Outside) (tstamp : tstamp_t) (st : state_t) :
    (state_t.set_tstamp W tstamp st).totals.cur_tstamp = tstamp := rfl

theorem accumulate_frame (c : hour_counts) (st : state_t) :
    (state_t.accumulate c st).t_daily = st.t_daily ∧
    (state_t.accumulate c st).totals.cur_tstamp = st.totals.cur_tstamp := ⟨rfl, rfl⟩

theorem hours_in_order_fresh (W : Outside) (e : tstamp_t × hour_counts) (st : state_t)
    (hfresh : ∀ d ∈ st.t_daily, d.td_hours = 0) (hacc : st.totals.ht_hits = 0)
    (hv : tstamp_t.in_month e.1) :
    state_t.hours_in_order (state_t.accumulate e.2 (state_t.set_tstamp W e.1 st)) := by
  refine ⟨hv, ?_⟩
  intro i d1 h1
  obtain ⟨d, hd, q⟩ := set_tstamp_td_hours W e.1 st i d1 h1
  have h0 : d.td_hours = 0 := hfresh d (List.getElem?_mem hd)
  simp only [hacc, ne_eq, not_true_eq_false, false_and, and_false, if_false] at q
  rw [q, h0]
  exact ⟨by omega, fun _ => Nat.zero_le _, fun _ => rfl⟩

theorem hours_in_order_step (W : Outside) (e : tstamp_t × hour_counts) (st : state_t)
    (hJ : state_t.hours_in_order st) (hv : tstamp_t.in_month e.1)
    (hc : tstamp_t.not_before st.totals.cur_tstamp e.1) :
    state_t.hours_in_order (state_t.accumulate e.2 (state_t.set_tstamp W e.1 st)) := by
  obtain ⟨⟨c1, c2, c3⟩, hall⟩ := hJ
  obtain ⟨v1, v2, v3⟩ := hv
  refine ⟨⟨v1, v2, v3⟩, ?_⟩
  intro i d1 h1
  obtain ⟨d, hd, q⟩ := set_tstamp_td_hours W e.1 st i d1 h1
  obtain ⟨j1, j2, j3⟩ := hall i d hd
  have hidx := day_index_eq st.totals.cur_tstamp.day c1 c2
  show d1.td_hours ≤ 24 ∧ (i + 1 = e.1.day → d1.td_hours ≤ e.1.hour) ∧
    (e.1.day < i + 1 → d1.td_hours = 0)
  unfold tstamp_t.not_before at hc
  rw [q]
  split_ifs with hf
  · obtain ⟨f1, _, f3⟩ := hf
    rw [hidx] at f3
    have j2b := j2 (by omega)
    refine ⟨by omega, fun hi => ?_, fun hi => ?_⟩ <;> omega
  · refine ⟨j1, fun hi => ?_, fun hi => ?_⟩
    · rcases hc with hc | ⟨hc1, hc2⟩
      · rw [j3 (by omega)]
        exact Nat.zero_le _
      · have := j2 (by omega)
        omega
    · exact j3 (by omega)

theorem run_log_hours_in_order (W : Outside) (events : List (tstamp_t × hour_counts)) :
    ∀ st : state_t, state_t.hours_in_order st →
      (∀ e ∈ events, tstamp_t.in_month e.1) →
      List.Chain' (fun a b => tstamp_t.not_before a.1 b.1) events →
      (∀ e ∈ events.head?, tstamp_t.not_before st.totals.cur_tstamp e.1) →
      state_t.hours_in_order (state_t.run_log W events st) := by
  induction events with
  | nil => exact fun st hJ _ _ _ => hJ
  | cons e es ih =>
    intro st hJ hv hc hh
    rw [List.chain'_cons'] at hc
    have hstep := hours_in_order_step W e st hJ (hv e (List.mem_cons_self _ _))
      (hh e (by simp))
    exact ih _ hstep (fun x hx => hv x (List.mem_cons_of_mem _ hx)) hc.2 hc.1

theorem run_log_hours_bounded (W : Outside) (events : List (tstamp_t × hour_counts))
    (st : state_t) (hfresh : ∀ d ∈ st.t_daily, d.td_hours = 0) (hacc : st.totals.ht_hits = 0)
    (hv : ∀ e ∈ events, tstamp_t.in_month e.1)
    (hc : List.Chain' (fun a b => tstamp_t.not_before a.1 b.1) events) :
    ∀ d ∈ (state_t.run_log W events st).t_daily, d.td_hours ≤ 24 := by
  cases events with
  | nil =>
    intro d hd
    rw [hfresh d hd]
    exact Nat.zero_le _
  | cons e es =>
    rw [List.chain'_cons'] at hc
    have h1 := hours_in_order_fresh W e st hfresh hacc (hv e (List.mem_cons_self _ _))
    have h2 := run_log_hours_in_order W es _ h1 (fun x hx => hv x (List.mem_cons_of_mem _ hx))
      hc.2 hc.1
    intro d hd
    obtain ⟨i, hi⟩ := List.mem_iff_getElem?.1 hd
    exact (h2.2 i d hi).1

set_option maxRecDepth 100000 in
/-- C12, refuted as stated: from the sample state with freshly initialised counters,
the sample log whose hours alternate between 10 and 11 on the 15th, one hit after each
`set_tstamp`, leaves the record of the 15th with 25 hours. -/
theorem run_log_exceeds_24_hours :
    (∀ d ∈ sample_state_fresh.t_daily, d.td_hours = 0) ∧
    totals_t.hour_empty sample_state_fresh.totals ∧
    ((state_t.run_log (sample_outside (fun _ _ => true)) sample_log_back_and_forth
        sample_state_fresh).t_daily[14]?).map (fun d => d.td_hours) = some 25 ∧
    ¬ ∀ d ∈ (state_t.run_log (sample_outside (fun _ _ => true)) sample_log_back_and_forth
        sample_state_fresh).t_daily, d.td_hours ≤ 24 := by
  decide

/-- C12, amended: over any sequence of `set_tstamp` calls with hits accumulated between
them, starting from fresh counters (no hours on any day, no hits of an unfinished hour),
whose timestamps name a day 1..31 and an hour 0..23 and never go back in day and hour,
no daily record ever has more than 24 hours: the bound holds after every prefix of the
sequence. -/
theorem run_log_hours_at_most_24 (W : Outside) (events : List (tstamp_t × hour_counts))
    (st : state_t) (hfresh : ∀ d ∈ st.t_daily, d.td_hours = 0) (hacc : st.totals.ht_hits = 0)
    (hv : ∀ e ∈ events, tstamp_t.in_month e.1)
    (hc : List.Chain' (fun a b => tstamp_t.not_before a.1 b.1) events) :
    ∀ n, ∀ d ∈ (state_t.run_log W (events.take n) st).t_daily, d.td_hours ≤ 24 :=
  fun n => run_log_hours_bounded W (events.take n) st hfresh hacc
    (fun e he => hv e (List.mem_of_mem_take he)) (hc.take n)

set_option maxRecDepth 100000 in
/-- C12 as amended, at the sample state with freshly initialised counters and the
sample log in chronological order: the record of the 15th after the four entries of
the log. -/
theorem run_log_hours_at_most_24_witness :
    ((state_t.run_log (sample_outside (fun _ _ => true)) (sample_log.take 4)
        sample_state_fresh).t_daily.getD 14 (daily_t.new 0)).td_hours ≤ 24 :=
  run_log_hours_at_most_24 (sample_outside (fun _ _ => true)) sample_log sample_state_fresh
    (by decide) (by decide) (by decide)
    (by simp [sample_log, tstamp_t.not_before, sample_tstamp]) 4 _
    (by
      rw [List.getD_eq_getElem _ _ (by decide : 14 < (state_t.run_log
        (sample_outside (fun _ _ => true)) (sample_log.take 4)
        sample_state_fresh).t_daily.length)]
      exact List.getElem_mem _)

/-! ## Hourly averages and maxima -/

theorem running_mean_step (S x : ℚ) (k : ℕ) (h0 : k = 0 → S = 0) :
    S / (k : ℚ) + (x - S / (k : ℚ)) / ((k + 1 : ℕ) : ℚ) = (S + x) / ((k + 1 : ℕ) : ℚ) := by
  by_cases hk : k = 0
  · subst hk
    simp [h0 rfl]
  · have h1 : (k : ℚ) ≠ 0 := Nat.cast_ne_zero.2 hk
    have h2 : ((k + 1 : ℕ) : ℚ) ≠ 0 := Nat.cast_ne_zero.2 (Nat.succ_ne_zero k)
    push_cast at h2 ⊢
    field_simp
    ring

theorem update_avg_max_summarizes (W : Outside) (val : Nat → ℚ)
    (hexact : ∀ a x n : Nat, val (W.AVG a x n) = val a + ((x : ℚ) - val a) / (n : ℚ))
    (avg mx x : Nat) (xs : List Nat) (h : stat_summarizes val avg mx xs) :
    stat_summarizes val (state_t.update_avg_max W avg mx x (xs.length + 1)).1
      (state_t.update_avg_max W avg mx x (xs.length + 1)).2 (xs ++ [x]) := by
  obtain ⟨ha, hm⟩ := h
  constructor
  · simp only [state_t.update_avg_max, hexact, ha, List.sum_append, List.sum_singleton,
      List.length_append, List.length_singleton, Nat.cast_add]
    have h0 : xs.length = 0 → ((xs.sum : ℕ) : ℚ) = 0 := by
      intro hl
      rw [List.length_eq_zero.1 hl]
      simp
    have := running_mean_step (xs.sum : ℚ) (x : ℚ) xs.length h0
    push_cast at this ⊢
    exact this
  · simp only [state_t.update_avg_max, List.foldl_append, List.foldl_cons, List.foldl_nil, hm]
    split_ifs with hgt
    · exact (max_eq_right (le_of_lt hgt)).symm
    · exact (max_eq_left (not_lt.1 hgt)).symm

theorem update_hourly_daily_summarizes (W : Outside) (val : Nat → ℚ)
    (hexact : ∀ a x n : Nat, val (W.AVG a x n) = val a + ((x : ℚ) - val a) / (n : ℚ))
    (t : totals_t) (d : daily_t) (hs : List hour_counts) (h : hour_counts)
    (ht : t.ht_hits = h.hits ∧ t.ht_files = h.files ∧ t.ht_pages = h.pages ∧
      t.ht_xfer = h.xfer ∧ t.ht_visits = h.visits ∧ t.ht_hosts = h.hosts)
    (hsum : daily_t.summarizes val d hs) (hlen : hs.length + 1 < 65536) :
    daily_t.summarizes val (state_t.update_hourly_daily W t d) (hs ++ [h]) := by
  obtain ⟨htd, s1, s2, s3, s4, s5, s6⟩ := hsum
  obtain ⟨t1, t2, t3, t4, t5, t6⟩ := ht
  have hcnt : (d.td_hours + 1) % 65536 = hs.length + 1 := by
    rw [htd]
    exact Nat.mod_eq_of_lt hlen
  have e1 := update_avg_max_summarizes W val hexact _ _ h.hits _ s1
  have e2 := update_avg_max_summarizes W val hexact _ _ h.files _ s2
  have e3 := update_avg_max_summarizes W val hexact _ _ h.pages _ s3
  have e4 := update_avg_max_summarizes W val hexact _ _ h.xfer _ s4
  have e5 := update_avg_max_summarizes W val hexact _ _ h.visits _ s5
  have e6 := update_avg_max_summarizes W val hexact _ _ h.hosts _ s6
  simp only [List.length_map] at e1 e2 e3 e4 e5 e6
  unfold daily_t.summarizes state_t.update_hourly_daily
  simp only [hcnt, t1, t2, t3, t4, t5, t6, List.map_append, List.map_cons, List.map_nil,
    List.length_append, List.length_singleton]
  exact ⟨trivial, e1, e2, e3, e4, e5, e6⟩

theorem run_hours_step (W : Outside) (val : Nat → ℚ)
    (hexact : ∀ a x n : Nat, val (W.AVG a x n) = val a + ((x : ℚ) - val a) / (n : ℚ))
    (st : state_t) (i : Nat) (d : daily_t) (hs : List hour_counts) (h : hour_counts)
    (hd : st.t_daily[i]? = some d) (hidx : day_index st.totals.cur_tstamp.day = i)
    (hacc : totals_t.hour_empty st.totals) (hsum : daily_t.summarizes val d hs)
    (hlen : hs.length + 1 < 65536) (hv : hour_counts.valid h) (hpos : h.hits ≠ 0) :
    (∃ d1, (state_t.update_hourly_stats W (state_t.accumulate h st)).t_daily[i]? = some d1 ∧
      daily_t.summarizes val d1 (hs ++ [h])) ∧
    totals_t.hour_empty (state_t.update_hourly_stats W (state_t.accumulate h st)).totals ∧
    (state_t.update_hourly_stats W (state_t.accumulate h st)).totals.cur_tstamp =
      st.totals.cur_tstamp := by
  obtain ⟨a1, a2, a3, a4, a5, a6⟩ := hacc
  obtain ⟨v1, v2, v3, v4, v5, v6⟩ := hv
  have ht : (state_t.accumulate h st).totals.ht_hits = h.hits ∧
      (state_t.accumulate h st).totals.ht_files = h.files ∧
      (state_t.accumulate h st).totals.ht_pages = h.pages ∧
      (state_t.accumulate h st).totals.ht_xfer = h.xfer ∧
      (state_t.accumulate h st).totals.ht_visits = h.visits ∧
      (state_t.accumulate h st).totals.ht_hosts = h.hosts := by
    simp only [state_t.accumulate, a1, a2, a3, a4, a5, a6, Nat.zero_add]
    exact ⟨Nat.mod_eq_of_lt v1, Nat.mod_eq_of_lt v2, Nat.mod_eq_of_lt v3, Nat.mod_eq_of_lt v4,
      Nat.mod_eq_of_lt v5, Nat.mod_eq_of_lt v6⟩
  have hne : ¬ (state_t.accumulate h st).totals.ht_hits = 0 := by
    rw [ht.1]
    exact hpos
  have hsum1 := update_hourly_daily_summarizes W val hexact (state_t.accumulate h st).totals
    d hs h ht hsum hlen
  unfold state_t.update_hourly_stats
  rw [if_neg hne]
  dsimp only
  refine ⟨⟨_, ?_, hsum1⟩, ⟨rfl, rfl, rfl, rfl, rfl, rfl⟩, rfl⟩
  have hday : (state_t.accumulate h st).totals.cur_tstamp.day = st.totals.cur_tstamp.day := rfl
  have hdaily : (state_t.accumulate h st).t_daily = st.t_daily := rfl
  rw [hday, hidx, hdaily, List.getElem?_modify_eq, hd]
  rfl

theorem run_hours_summarizes (W : Outside) (val : Nat → ℚ)
    (hexact : ∀ a x n : Nat, val (W.AVG a x n) = val a + ((x : ℚ) - val a) / (n : ℚ))
    (st : state_t) (i : Nat) (d0 : daily_t)
    (hd0 : st.t_daily[i]? = some d0) (hidx : day_index st.totals.cur_tstamp.day = i)
    (hacc : totals_t.hour_empty st.totals) (hsum : daily_t.summarizes val d0 [])
    (hours : List hour_counts) (hlen : hours.length < 65536)
    (hv : ∀ h ∈ hours, hour_counts.valid h ∧ h.hits ≠ 0) :
    (∃ d, (state_t.run_hours W hours st).t_daily[i]? = some d ∧
      daily_t.summarizes val d hours) ∧
    totals_t.hour_empty (state_t.run_hours W hours st).totals ∧
    (state_t.run_hours W hours st).totals.cur_tstamp = st.totals.cur_tstamp := by
  induction hours using List.reverseRecOn with
  | nil => exact ⟨⟨d0, hd0, hsum⟩, hacc, rfl⟩
  | append_singleton hs h ih =>
    rw [List.length_append, List.length_singleton] at hlen
    obtain ⟨⟨d, hd, hs1⟩, hacc1, hcur⟩ := ih (by omega)
      (fun x hx => hv x (List.mem_append_left _ hx))
    have hvh := hv h (List.mem_append_right _ (List.mem_singleton_self h))
    have hrun : state_t.run_hours W (hs ++ [h]) st =
        state_t.update_hourly_stats W (state_t.accumulate h (state_t.run_hours W hs st)) := by
      simp only [state_t.run_hours, List.foldl_append, List.foldl_cons, List.foldl_nil]
    rw [hrun]
    obtain ⟨r1, r2, r3⟩ := run_hours_step W val hexact (state_t.run_hours W hs st) i d hs h hd
      (by rw [hcur]; exact hidx) hacc1 hs1 hlen hvh.1 hvh.2
    exact ⟨r1, r2, r3.trans hcur⟩

theorem sample_val_nonneg (n : Nat) : 0 ≤ sample_val n := by
  unfold sample_val
  rw [Rat.mkRat_eq_div]
  exact div_nonneg (by exact_mod_cast Nat.zero_le _) (by exact_mod_cast Nat.zero_le _)

theorem sample_val_enc (q : ℚ) (hq : 0 ≤ q) : sample_val (sample_enc q) = q := by
  unfold sample_val sample_enc
  rw [Nat.unpair_pair]
  simp only
  rw [Int.toNat_of_nonneg (Rat.num_nonneg.2 hq)]
  exact Rat.mkRat_self q

theorem sample_val_zero : sample_val 0 = 0 := by
  unfold sample_val
  simp

theorem sample_AVG_exact (a x n : Nat) :
    sample_val (sample_AVG a x n) =
      sample_val a + ((x : ℚ) - sample_val a) / (n : ℚ) := by
  unfold sample_AVG
  apply sample_val_enc
  have ha := sample_val_nonneg a
  by_cases hn : n = 0
  · subst hn
    simpa using ha
  · have h1 : (1 : ℚ) ≤ (n : ℚ) := by exact_mod_cast Nat.one_le_iff_ne_zero.2 hn
    have h2 : (n : ℚ) ≠ 0 := by positivity
    have e : sample_val a + ((x : ℚ) - sample_val a) / (n : ℚ) =
        (sample_val a * ((n : ℚ) - 1) + (x : ℚ)) / (n : ℚ) := by
      field_simp
      ring
    rw [e]
    apply div_nonneg
    · have : 0 ≤ sample_val a * ((n : ℚ) - 1) := mul_nonneg ha (by linarith)
      have hx : (0 : ℚ) ≤ (x : ℚ) := by exact_mod_cast Nat.zero_le x
      linarith
    · linarith

/-- C13: for any day, after the calls of `update_hourly_stats` for the hours `hours`,
each with a hit count that is not zero, starting from a daily record without hours (no
hour counted, zero averages and maxima), the record has `td_hours` equal to the number
of hours and, when `AVG` computes in exact rational arithmetic under the reading `val`
of a `double`, each of `h_hits_avg`, `h_files_avg`, `h_pages_avg`, `h_xfer_avg`,
`h_visits_avg` and `h_hosts_avg` is the mean of its hourly counts and each maximum the
largest of them. The number of hours fits `td_hours`, a `u_short`. -/
theorem hourly_stats_running_mean (W : Outside) (val : Nat → ℚ) (hzero : val 0 = 0)
    (hexact : ∀ a x n : Nat, val (W.AVG a x n) = val a + ((x : ℚ) - val a) / (n : ℚ))
    (st : state_t) (i : Nat) (d0 : daily_t)
    (hd0 : st.t_daily[i]? = some d0) (hidx : day_index st.totals.cur_tstamp.day = i)
    (hfresh : daily_t.no_hours d0) (hacc : totals_t.hour_empty st.totals)
    (hours : List hour_counts) (hlen : hours.length < 65536)
    (hv : ∀ h ∈ hours, hour_counts.valid h ∧ h.hits ≠ 0) :
    ∃ d, (state_t.run_hours W hours st).t_daily[i]? = some d ∧
      daily_t.summarizes val d hours := by
  obtain ⟨f0, f1, f2, f3, f4, f5, f6, f7, f8, f9, f10, f11, f12⟩ := hfresh
  have hsum : daily_t.summarizes val d0 [] := by
    unfold daily_t.summarizes stat_summarizes
    simp [f0, f1, f2, f3, f4, f5, f6, f7, f8, f9, f10, f11, f12, hzero]
  exact (run_hours_summarizes W val hexact st i d0 hd0 hidx hacc hsum hours hlen hv).1

/-- C13 at the sample state, on the 15th, for three sample hours and the sample `AVG`
in exact rational arithmetic. -/
theorem hourly_stats_running_mean_witness :
    ∃ d, (state_t.run_hours (sample_outside (fun _ _ => true)) sample_hours
        sample_state).t_daily[14]? = some d ∧
      daily_t.summarizes sample_val d sample_hours :=
  hourly_stats_running_mean (sample_outside (fun _ _ => true)) sample_val sample_val_zero
    sample_AVG_exact sample_state 14 (daily_t.new 15) (by decide) (by decide) (by decide)
    (by decide) sample_hours (by decide) (by decide)

set_option maxRecDepth 100000 in
/-- C14, evaluated: in the sample state five hits are counted in the hour of
2020-06-15 10:00; after `set_tstamp` with 2020-06-16 10:00, the same hour of the next
day, the hour accumulators still hold the counts and the record of the 15th has no
hour counted. -/
theorem set_tstamp_next_day_same_hour_keeps_counts :
    sample_state_busy_hour.totals.cur_tstamp.day = 15 ∧
    sample_state_busy_hour.totals.cur_tstamp.hour = 10 ∧
    ( state_t.set_tstamp (sample_outside (fun _ _ => true)) { sample_tstamp with day := 16 }
      sample_state_busy_hour).totals.ht_hits = 5 ∧
    ( state_t.set_tstamp (sample_outside (fun _ _ => true)) { sample_tstamp with day := 16 }
      sample_state_busy_hour).totals.ht_xfer = 700 ∧
    (( state_t.set_tstamp (sample_outside (fun _ _ => true)) { sample_tstamp with day := 16 }
      sample_state_busy_hour).t_daily[14]?).map (fun d => d.td_hours) = some 0 := by
  decide

/-- C15, evaluated: `ccnode_t::reset` zeroes `count`, `files`, `visits` and `xfer` of
the sample country node and leaves its 5 pages. -/
theorem ccnode_reset_keeps_pages :
    sample_ccnode.pages = 5 ∧
    (ccnode_t.reset sample_ccnode).pages = 5 ∧
    (ccnode_t.reset sample_ccnode).count = 0 ∧ (ccnode_t.reset sample_ccnode).files = 0 ∧
    (ccnode_t.reset sample_ccnode).visits = 0 ∧ (ccnode_t.reset sample_ccnode).xfer = 0 := by
  decide

/-! ## City nodes -/

theorem pack_ccode_eq (a b g : Nat) (ha : a < 256) (hb : b < 256) (hg : g < 2 ^ 32) :
    ((((a % 256) <<< 48) % 2 ^ 64 ||| ((b % 256) <<< 32) % 2 ^ 64) ||| g) =
      a * 2 ^ 48 + b * 2 ^ 32 + g := by
  have e1 : (a % 256) <<< 48 % 2 ^ 64 = 2 ^ 48 * a := by
    rw [Nat.mod_eq_of_lt ha, Nat.shiftLeft_eq, Nat.mod_eq_of_lt (by omega)]
    ring
  have e2 : (b % 256) <<< 32 % 2 ^ 64 = b * 2 ^ 32 := by
    rw [Nat.mod_eq_of_lt hb, Nat.shiftLeft_eq, Nat.mod_eq_of_lt (by omega)]
  rw [e1, e2, ← Nat.mul_add_lt_is_or (by omega : b * 2 ^ 32 < 2 ^ 48) a]
  have e3 : 2 ^ 48 * a + b * 2 ^ 32 = 2 ^ 32 * (2 ^ 16 * a + b) := by ring
  rw [e3, ← Nat.mul_add_lt_is_or hg]
  ring

theorem make_nodeid_two_char (g : Nat) (cc : string_t) (hg : g < 2 ^ 32)
    (hcc : two_char_ccode cc) :
    ∃ a b, cc = [a, b] ∧ 0 < a ∧ a < 256 ∧ 0 < b ∧ b < 256 ∧
      ctnode_t.make_nodeid g (some cc) = result.value (a * 2 ^ 48 + b * 2 ^ 32 + g) := by
  obtain ⟨hlen, hch, hstar⟩ := hcc
  match cc, hlen, hch, hstar with
  | [a, b], _, hch, hstar =>
    obtain ⟨a0, a1⟩ := hch a (by simp)
    obtain ⟨b0, b1⟩ := hch b (by simp)
    have hs : a ≠ 42 := hstar
    refine ⟨a, b, rfl, a0, a1, b0, b1, ?_⟩
    have ha : ¬ (a = 0 ∨ a = 42) := by omega
    have hb : ¬ (b = 0 ∨ (0 : Nat) ≠ 0) := by omega
    simp only [ctnode_t.make_nodeid, c_char, List.getD_cons_zero, List.getD_cons_succ,
      List.getD_nil, ha, hb, if_false]
    rw [pack_ccode_eq a b g a1 b1 hg]

theorem make_nodeid_unknown (g : Nat) (cc : string_t) (hcc : cc = [] ∨ cc = [42]) :
    ctnode_t.make_nodeid g (some cc) = result.value g := by
  rcases hcc with h | h <;> subst h <;> simp [ctnode_t.make_nodeid, c_char]

/-- C17: `ctnode_t::make_nodeid` is injective. For 32-bit geoname ids and country codes
of two characters (two bytes, none the terminator, the first not `'*'`), equal node ids
come from equal geoname ids and equal country codes, and the id made with a country
code of two characters is never the id made with an empty or `"*"` country code or with
a null pointer. -/
theorem make_nodeid_injective (g1 g2 : Nat) (c1 c2 : string_t)
    (hg1 : g1 < 2 ^ 32) (hg2 : g2 < 2 ^ 32) (h1 : two_char_ccode c1) (h2 : two_char_ccode c2) :
    (∃ id, ctnode_t.make_nodeid g1 (some c1) = result.value id) ∧
    (ctnode_t.make_nodeid g1 (some c1) = ctnode_t.make_nodeid g2 (some c2) →
      g1 = g2 ∧ c1 = c2) ∧
    ctnode_t.make_nodeid g1 (some c1) ≠ ctnode_t.make_nodeid g2 (some []) ∧
    ctnode_t.make_nodeid g1 (some c1) ≠ ctnode_t.make_nodeid g2 (some [42]) ∧
    ctnode_t.make_nodeid g1 (some c1) ≠ ctnode_t.make_nodeid g2 none := by
  obtain ⟨a, b, e1, a0, a1, b0, b1, m1⟩ := make_nodeid_two_char g1 c1 hg1 h1
  obtain ⟨a2, b2, e2, _, a3, _, b3, m2⟩ := make_nodeid_two_char g2 c2 hg2 h2
  rw [m1, m2, make_nodeid_unknown g2 [] (Or.inl rfl), make_nodeid_unknown g2 [42] (Or.inr rfl)]
  refine ⟨⟨_, rfl⟩, ?_, ?_, ?_, ?_⟩
  · intro h
    simp only [result.value.injEq] at h
    have ha : a = a2 := by omega
    have hb : b = b2 := by omega
    have hg : g1 = g2 := by omega
    exact ⟨hg, by rw [e1, e2, ha, hb]⟩
  · intro h
    simp only [result.value.injEq] at h
    omega
  · intro h
    simp only [result.value.injEq] at h
    omega
  · intro h
    simp only [ctnode_t.make_nodeid, result.value.injEq] at h
    omega

/-- C17 at the geoname ids 5 and 7 and the country codes "US" and "CA". -/
theorem make_nodeid_injective_witness :
    ctnode_t.make_nodeid 5 (some [85, 83]) ≠ ctnode_t.make_nodeid 7 (some []) ∧
    (ctnode_t.make_nodeid 5 (some [85, 83]) = ctnode_t.make_nodeid 7 (some [67, 65]) →
      5 = 7 ∧ [85, 83] = [67, 65]) :=
  ⟨(make_nodeid_injective 5 7 [85, 83] [67, 65] (by decide) (by decide) (by decide)
      (by decide)).2.2.1,
    (make_nodeid_injective 5 7 [85, 83] [67, 65] (by decide) (by decide) (by decide)
      (by decide)).2.1⟩

theorem make_nodeid_defined (g : Nat) (cc : string_t) (hcc : ct_ccode cc) :
    ∃ id, ctnode_t.make_nodeid g (some cc) = result.value id := by
  rcases hcc with h | h | ⟨hlen, hch⟩
  · exact ⟨g, make_nodeid_unknown g cc (Or.inl h)⟩
  · exact ⟨g, make_nodeid_unknown g cc (Or.inr h)⟩
  · match cc, hlen, hch with
    | [a, b], _, hch =>
      have hb := hch b (by simp)
      have hb0 : ¬ (b = 0 ∨ (0 : Nat) ≠ 0) := by omega
      simp only [ctnode_t.make_nodeid, c_char, List.getD_cons_zero, List.getD_cons_succ,
        List.getD_nil, hb0, if_false]
      split_ifs
      · exact ⟨_, rfl⟩
      · exact ⟨_, rfl⟩

theorem find_node_mem {ν : Type} (t : hash_table ν) (hashval : Nat) (compare : ν → Bool)
    (n : ν) (h : t.find_node hashval compare = some n) : n ∈ t.nodes ∧ compare n = true := by
  unfold hash_table.find_node at h
  have hc := List.find?_some h
  have hm := List.mem_of_find?_eq_some h
  refine ⟨?_, hc⟩
  unfold hash_table.nodes
  rw [List.mem_flatten]
  refine ⟨_, ?_, hm⟩
  rw [List.getD_eq_getElem?_getD] at hm ⊢
  cases hg : t.htab[hashval % t.htab.length]? with
  | none => simp [hg] at hm
  | some b =>
    simp only [Option.getD_some]
    exact List.getElem?_mem hg

theorem put_node_mem {ν : Type} (t : hash_table ν) (hashval : Nat) (n : ν)
    (hb : 0 < t.htab.length) : n ∈ (t.put_node hashval n).nodes := by
  unfold hash_table.put_node hash_table.nodes
  rw [List.mem_flatten]
  have hlt : hashval % t.htab.length < t.htab.length := Nat.mod_lt _ hb
  have hlt2 : hashval % t.htab.length <
      (List.modify (fun b => n :: b) (hashval % t.htab.length) t.htab).length := by
    rw [List.length_modify]
    exact hlt
  refine ⟨(List.modify (fun b => n :: b) (hashval % t.htab.length) t.htab)[hashval %
    t.htab.length], List.getElem_mem _, ?_⟩
  rw [List.getElem_modify_eq]
  exact List.mem_cons_self _ _

/-- C16: for an empty, `"*"` or two-character country code, `ct_hash_table::get_ctnode`
throws exactly when the GeoName ID is zero and the city name is not empty, or the
GeoName ID is not zero and the city name is empty, and then it is the logic error
"GeoName ID must match city name in whether it contains data or not". In every other
case it returns a city node whose id is `make_nodeid(geoname_id, ccode)` and that is in
the table after: the node found in the table, which is left as it is, or else the node
the constructor makes, put into the table. -/
theorem get_ctnode_cases (get_hash : Nat → string_t → Nat) (t : hash_table ctnode_t)
    (geoname_id : Nat) (city ccode : string_t) (hb : 0 < t.htab.length)
    (hcc : ct_ccode ccode) :
    ((∃ msg, ct_hash_table.get_ctnode get_hash t geoname_id city ccode = result.thrown msg) ↔
      geoname_mismatch geoname_id city) ∧
    (geoname_mismatch geoname_id city →
      ct_hash_table.get_ctnode get_hash t geoname_id city ccode = result.thrown
        "GeoName ID must match city name in whether it contains data or not") ∧
    (¬ geoname_mismatch geoname_id city →
      ∃ n t1, ct_hash_table.get_ctnode get_hash t geoname_id city ccode = result.value (n, t1) ∧
        ctnode_t.make_nodeid geoname_id (some ccode) = result.value n.nodeid ∧
        n ∈ t1.nodes ∧
        (∀ m, t.find_node (get_hash geoname_id ccode) (ctnode_t.match_key geoname_id ccode)
            = some m → n = m ∧ t1 = t) ∧
        (t.find_node (get_hash geoname_id ccode) (ctnode_t.match_key geoname_id ccode) = none →
          ctnode_t.new geoname_id city ccode = result.value n ∧
          t1 = t.put_node (get_hash geoname_id ccode) n)) := by
  have hmis : geoname_mismatch geoname_id city ↔
      (decide (geoname_id = 0)) ≠ (decide (city = [])) := by
    unfold geoname_mismatch
    by_cases h1 : geoname_id = 0 <;> by_cases h2 : city = [] <;> simp [h1, h2]
  obtain ⟨id, hid⟩ := make_nodeid_defined geoname_id ccode hcc
  by_cases hm : geoname_mismatch geoname_id city
  · have hthrow : ct_hash_table.get_ctnode get_hash t geoname_id city ccode = result.thrown
        "GeoName ID must match city name in whether it contains data or not" := by
      unfold ct_hash_table.get_ctnode
      simp only [if_pos (hmis.1 hm)]
    exact ⟨⟨fun _ => hm, fun _ => ⟨_, hthrow⟩⟩, fun _ => hthrow, fun h => absurd hm h⟩
  · have hval : ∃ n t1,
        ct_hash_table.get_ctnode get_hash t geoname_id city ccode = result.value (n, t1) ∧
        ctnode_t.make_nodeid geoname_id (some ccode) = result.value n.nodeid ∧
        n ∈ t1.nodes ∧
        (∀ m, t.find_node (get_hash geoname_id ccode) (ctnode_t.match_key geoname_id ccode)
            = some m → n = m ∧ t1 = t) ∧
        (t.find_node (get_hash geoname_id ccode) (ctnode_t.match_key geoname_id ccode) = none →
          ctnode_t.new geoname_id city ccode = result.value n ∧
          t1 = t.put_node (get_hash geoname_id ccode) n) := by
      unfold ct_hash_table.get_ctnode
      simp only [if_neg (fun h => hm (hmis.2 h))]
      cases hf : t.find_node (get_hash geoname_id ccode) (ctnode_t.match_key geoname_id ccode)
        with
      | some m =>
        obtain ⟨hmem, hcmp⟩ := find_node_mem t _ _ m hf
        refine ⟨m, t, rfl, ?_, hmem, fun m1 h1 => ⟨(Option.some.inj h1), rfl⟩,
          fun h1 => by simp at h1⟩
        simpa [ctnode_t.match_key] using hcmp
      | none =>
        have hnew : ctnode_t.new geoname_id city ccode = result.value
            { nodeid := id, ccode := if ccode ≠ [] then ccode else [42], city := city,
              hits := 0, files := 0, pages := 0, visits := 0, xfer := 0 } := by
          simp only [ctnode_t.new, hid]
        simp only [hnew]
        exact ⟨_, _, rfl, hid, put_node_mem t _ _ hb, fun m1 h1 => by simp at h1,
          fun _ => ⟨rfl, rfl⟩⟩
    refine ⟨⟨fun ⟨msg, h⟩ => ?_, fun h => absurd h hm⟩, fun h => absurd h hm, fun _ => hval⟩
    obtain ⟨n, t1, hv, _⟩ := hval
    rw [hv] at h
    simp at h

/-- C16 at an empty table of two buckets: the city Toronto (GeoName ID 6167865) in
"CA" is created, and a GeoName ID without a city name is refused. -/
theorem get_ctnode_cases_witness :
    (∃ n t1, ct_hash_table.get_ctnode sample_ct_hash (hash_table.empty ctnode_t 2) 6167865
        [84, 111, 114, 111, 110, 116, 111] [67, 65] = result.value (n, t1) ∧
      ctnode_t.make_nodeid 6167865 (some [67, 65]) = result.value n.nodeid ∧ n ∈ t1.nodes) ∧
    ct_hash_table.get_ctnode sample_ct_hash (hash_table.empty ctnode_t 2) 6167865 []
      [67, 65] = result.thrown
        "GeoName ID must match city name in whether it contains data or not" :=
  ⟨(fun ⟨n, t1, h1, h2, h3, _⟩ => ⟨n, t1, h1, h2, h3⟩)
      ((get_ctnode_cases sample_ct_hash (hash_table.empty ctnode_t 2) 6167865
        [84, 111, 114, 111, 110, 116, 111] [67, 65] (by decide) (by decide)).2.2 (by decide)),
    (get_ctnode_cases sample_ct_hash (hash_table.empty ctnode_t 2) 6167865 [] [67, 65]
      (by decide) (by decide)).2.1 (by decide)⟩

/-! ## The visit of a host -/

/-- C20: `hnode_t::set_visit` keeps the visit back-refcounts exact. For a visit `v`
other than the current visit of the host, after `set_visit(v)` the visit of the host is
`v`, `v.hostref` is one more than before, the `hostref` of the previous visit, if there
was one, is one less than before, and no other visit has changed; `set_visit` with the
current visit of the host changes nothing. The counts stay within the type of
`hostref`: that of `v` is not its largest value and that of the previous visit, which
the host refers to, is not zero. -/
theorem set_visit_refcounts (m : Nat) (cur : Option Nat) (v : Nat) (heap : Nat → vnode_t)
    (hne : cur ≠ some v) (hv : (heap v).hostref + 1 < m)
    (hp : ∀ p, cur = some p → 1 ≤ (heap p).hostref ∧ (heap p).hostref < m) :
    (hnode_t.set_visit m cur (some v) heap).1 = some v ∧
    ((hnode_t.set_visit m cur (some v) heap).2 v).hostref = (heap v).hostref + 1 ∧
    (∀ p, cur = some p →
      ((hnode_t.set_visit m cur (some v) heap).2 p).hostref + 1 = (heap p).hostref) ∧
    (∀ q, q ≠ v → cur ≠ some q → (hnode_t.set_visit m cur (some v) heap).2 q = heap q) ∧
    hnode_t.set_visit m cur cur heap = (cur, heap) := by
  have hsame : hnode_t.set_visit m cur cur heap = (cur, heap) := by
    unfold hnode_t.set_visit
    rw [if_pos rfl]
  unfold hnode_t.set_visit
  rw [if_neg hne]
  cases cur with
  | none =>
    refine ⟨rfl, ?_, fun p h => by simp at h, fun q hq _ => ?_, hsame⟩
    · simp only [Function.update_same]
      exact Nat.mod_eq_of_lt hv
    · simp only [Function.update_noteq hq]
  | some p =>
    have hpv : p ≠ v := fun h => hne (by rw [h])
    obtain ⟨p1, p2⟩ := hp p rfl
    refine ⟨rfl, ?_, fun p0 h => ?_, fun q hq hqp => ?_, hsame⟩
    · simp only [Function.update_same, Function.update_noteq hpv.symm]
      exact Nat.mod_eq_of_lt hv
    · have h0 : p0 = p := (Option.some.inj h).symm
      subst h0
      simp only [Function.update_noteq hpv, Function.update_same]
      have : ((heap p0).hostref + m - 1) % m = (heap p0).hostref - 1 := by
        have e : (heap p0).hostref + m - 1 = (heap p0).hostref - 1 + m := by omega
        rw [e, Nat.add_mod_right, Nat.mod_eq_of_lt (by omega)]
      rw [this]
      omega
    · have hqp1 : q ≠ p := fun h => hqp (by rw [h])
      simp only [Function.update_noteq hq, Function.update_noteq hqp1]

/-- C20 at the sample heap: the host refers to the visit at address 1, whose `hostref`
is 1, and is set to the visit at address 2, with `hostref` of 32 bits. -/
theorem set_visit_refcounts_witness :
    (hnode_t.set_visit 4294967296 (some 1) (some 2) sample_heap).1 = some 2 ∧
    ((hnode_t.set_visit 4294967296 (some 1) (some 2) sample_heap).2 2).hostref = 1 ∧
    ((hnode_t.set_visit 4294967296 (some 1) (some 2) sample_heap).2 1).hostref + 1 = 1 :=
  ⟨(set_visit_refcounts 4294967296 (some 1) 2 sample_heap (by decide) (by decide)
      (fun p h => by cases h; decide)).1,
    (set_visit_refcounts 4294967296 (some 1) 2 sample_heap (by decide) (by decide)
      (fun p h => by cases h; decide)).2.1,
    (set_visit_refcounts 4294967296 (some 1) 2 sample_heap (by decide) (by decide)
      (fun p h => by cases h; decide)).2.2.1 1 rfl⟩

/-! ## Country codes -/

theorem ctry_idx_step (idx c : Nat) (hc : 97 ≤ c ∧ c ≤ 122) (hidx : idx * 32 + 32 ≤ 2 ^ 64) :
    (((idx <<< 5) % 2 ^ 64) ||| ((char_value c - 97 + 1) % 2 ^ 64).toNat) =
      idx * 32 + (c - 96) := by
  have e1 : (idx <<< 5) % 2 ^ 64 = 2 ^ 5 * idx := by
    rw [Nat.shiftLeft_eq, Nat.mod_eq_of_lt (by omega)]
    ring
  have e2 : ((char_value c - 97 + 1) % 2 ^ 64).toNat = c - 96 := by
    have hv : char_value c = (c : Int) := by
      unfold char_value
      rw [if_pos (by omega)]
    rw [hv]
    omega
  rw [e1, e2, ← Nat.mul_add_lt_is_or (by omega : c - 96 < 2 ^ 5)]
  ring

theorem ctry_idx_loop_eq (l : List Nat) : ∀ (idx k : Nat), lowercase_code l →
    idx < 32 ^ k → k + l.length ≤ 12 →
    ctry_idx_loop idx l = l.foldl (fun i c => i * 32 + (c - 96)) idx := by
  induction l with
  | nil => exact fun _ _ _ _ _ => rfl
  | cons c rest ih =>
    intro idx k hl hk hlen
    have hc := hl c (List.mem_cons_self _ _)
    rw [List.length_cons] at hlen
    have hpow : (32 : Nat) ^ (k + 1) ≤ 32 ^ 12 := Nat.pow_le_pow_right (by omega) (by omega)
    have hidx : idx * 32 + 32 ≤ 32 ^ (k + 1) := by
      rw [Nat.pow_succ]
      have : idx + 1 ≤ 32 ^ k := hk
      calc idx * 32 + 32 = (idx + 1) * 32 := by ring
        _ ≤ 32 ^ k * 32 := Nat.mul_le_mul_right _ this
    have hc0 : c ≠ 0 := by omega
    simp only [ctry_idx_loop, if_neg hc0, List.foldl_cons]
    rw [ctry_idx_step idx c hc (by omega)]
    exact ih _ (k + 1) (fun x hx => hl x (List.mem_cons_of_mem _ hx)) (by omega) (by omega)

theorem idx_ctry_loop_eq (l : List Nat) : lowercase_code l → ∀ (fuel : Nat) (acc : List Nat),
    l.length ≤ fuel →
    idx_ctry_loop fuel (l.foldl (fun i c => i * 32 + (c - 96)) 0) acc = l ++ acc := by
  induction l using List.reverseRecOn with
  | nil =>
    intro _ fuel acc _
    cases fuel <;> simp [idx_ctry_loop]
  | append_singleton l1 c ih =>
    intro hl fuel acc hlen
    have hc := hl c (List.mem_append_right _ (List.mem_singleton_self c))
    rw [List.length_append, List.length_singleton] at hlen
    obtain ⟨f, rfl⟩ : ∃ f, fuel = f + 1 := ⟨fuel - 1, by omega⟩
    rw [List.foldl_append, List.foldl_cons, List.foldl_nil]
    generalize List.foldl (fun i c => i * 32 + (c - 96)) 0 l1 = x at ih ⊢
    have hne : ¬ (x * 32 + (c - 96) = 0) := by omega
    have hand : (x * 32 + (c - 96)) &&& 31 = c - 96 := by
      have := Nat.and_pow_two_sub_one_eq_mod (x * 32 + (c - 96)) 5
      have e : (2 : Nat) ^ 5 - 1 = 31 := by norm_num
      rw [e] at this
      rw [this]
      omega
    have hshift : (x * 32 + (c - 96)) >>> 5 = x := by
      rw [Nat.shiftRight_eq_div_pow]
      omega
    have hch : (c - 96 + 97 - 1) % 256 = c := by omega
    simp only [idx_ctry_loop, if_neg hne, hand, hshift, hch]
    rw [ih (fun y hy => hl y (List.mem_append_left _ hy)) f (c :: acc) (by omega)]
    simp

/-- C19: for every country code of 1 to 7 lowercase letters `a`..`z`,
`idx_ctry(ctry_idx(code))` is the code; and the unknown country round-trips too:
`ctry_idx("*")` is 0 and `idx_ctry(0)` is `"*"`. -/
theorem ctry_idx_round_trip (code : string_t) (hl : lowercase_code code)
    (h1 : 1 ≤ code.length) (h7 : code.length ≤ 7) :
    idx_ctry (ctry_idx (some code)) = code ∧
    ctry_idx (some [42]) = 0 ∧ idx_ctry 0 = [42] := by
  refine ⟨?_, by decide, by decide⟩
  have hidx : ctry_idx (some code) = code.foldl (fun i c => i * 32 + (c - 96)) 0 := by
    match code, h1, hl with
    | c :: rest, _, hl =>
      have hc := hl c (List.mem_cons_self _ _)
      have h42 : ¬ (c_char (c :: rest) 0 = 42) := by
        simp only [c_char, List.getD_cons_zero]
        omega
      simp only [ctry_idx, if_neg h42]
      exact ctry_idx_loop_eq (c :: rest) 0 0 hl (by norm_num) (by omega)
  have hloop := idx_ctry_loop_eq code hl 13 [] (by omega)
  have hne : ¬ (code.foldl (fun i c => i * 32 + (c - 96)) 0 = 0) := by
    rcases List.eq_nil_or_concat code with h | ⟨l1, c, h⟩
    · rw [h] at h1
      simp at h1
    · rw [h, List.concat_eq_append, List.foldl_append, List.foldl_cons, List.foldl_nil]
      have hc := hl c (by rw [h, List.concat_eq_append]; simp)
      omega
  rw [hidx]
  unfold idx_ctry
  rw [if_neg hne, hloop, List.append_nil]

/-- C19 at the country code "us". -/
theorem ctry_idx_round_trip_witness :
    idx_ctry (ctry_idx (some [117, 115])) = [117, 115] :=
  (ctry_idx_round_trip [117, 115] (by decide) (by decide) (by decide)).1

/-! ## Status codes -/

theorem last_code_max (l : List scnode_t) (d : scnode_t)
    (hp : l.Pairwise (fun a b => a.code < b.code)) :
    ∀ n ∈ l, n.code ≤ (l.getD (l.length - 1) d).code := by
  rcases List.eq_nil_or_concat l with h | ⟨l1, a, h⟩
  · subst h
    exact fun n hn => absurd hn (List.not_mem_nil n)
  · rw [List.concat_eq_append] at h
    subst h
    have hlast : (l1 ++ [a]).getD ((l1 ++ [a]).length - 1) d = a := by
      rw [List.getD_eq_getElem?_getD, List.length_append, List.length_singleton,
        Nat.add_sub_cancel, List.getElem?_append_right (Nat.le_refl _)]
      simp
    rw [hlast]
    intro n hn
    rcases List.mem_append.1 hn with h1 | h1
    · exact Nat.le_of_lt ((List.pairwise_append.1 hp).2.2 n h1 a (List.mem_singleton_self a))
    · rw [List.mem_singleton.1 h1]

theorem well_formed_new : sc_hash_table.well_formed sc_hash_table.new := by
  refine ⟨⟨[], rfl⟩, by simp [sc_hash_table.new], rfl, ?_, ?_⟩
  · intro n hn
    simp only [sc_hash_table.new, List.mem_singleton] at hn
    rw [hn]
    exact Or.inl rfl
  · intro cls h1 h5
    have hk : sc_hash_table.new.clsindex.getD cls 0 = 0 := by
      unfold sc_hash_table.new
      interval_cases cls <;> rfl
    refine ⟨fun _ n hn => ?_, fun h => absurd hk h⟩
    simp only [sc_hash_table.new, List.mem_singleton] at hn
    rw [hn]
    simp only [Nat.zero_div]
    omega

theorem well_formed_add (t : sc_hash_table) (code : Nat) (h : sc_hash_table.well_formed t) :
    sc_hash_table.well_formed (t.add_status_code code) := by
  obtain ⟨⟨rest, h1⟩, h2, h3, h5, h4⟩ := h
  unfold sc_hash_table.add_status_code
  by_cases hc : code / 100 < 1 ∨ code / 100 > 5
  · simp only [if_pos hc]
    exact ⟨⟨rest, h1⟩, h2, h3, h5, h4⟩
  · by_cases ho : t.stcodes.length ≠ 0 ∧ code ≤ (t.stcodes.getD (t.stcodes.length - 1)
        { code := 0, count := 0, dirty := false }).code
    · simp only [if_neg hc, if_pos ho]
      exact ⟨⟨rest, h1⟩, h2, h3, h5, h4⟩
    · simp only [if_neg hc, if_neg ho]
      have hlen : t.stcodes.length ≠ 0 := by rw [h1]; simp
      have hlast : (t.stcodes.getD (t.stcodes.length - 1)
          { code := 0, count := 0, dirty := false }).code < code := by
        by_contra hx
        exact ho ⟨hlen, by omega⟩
      have hall : ∀ n ∈ t.stcodes, n.code < code :=
        fun n hn => lt_of_le_of_lt (last_code_max _ _ h2 n hn) hlast
      have hcls : 1 ≤ code / 100 ∧ code / 100 ≤ 5 := by omega
      refine ⟨⟨rest ++ [{ code := code, count := 0, dirty := false }], by simp [h1]⟩, ?_, ?_, ?_, ?_⟩
      · exact List.pairwise_append.2 ⟨h2, List.pairwise_singleton _ _, fun a ha b hb => by
          rw [List.mem_singleton.1 hb]; exact hall a ha⟩
      · split_ifs
        · rw [List.length_set]; exact h3
        · exact h3
      · intro n hn
        rcases List.mem_append.1 hn with hn1 | hn1
        · exact h5 n hn1
        · rw [List.mem_singleton.1 hn1]
          exact Or.inr hcls
      · intro cls c1 c5
        dsimp only
        obtain ⟨g1, g2⟩ := h4 cls c1 c5
        have hk : (if t.clsindex.getD (code / 100) 0 = 0
              then t.clsindex.set (code / 100) t.stcodes.length else t.clsindex).getD cls 0 =
            if cls = code / 100 ∧ t.clsindex.getD (code / 100) 0 = 0 then t.stcodes.length
            else t.clsindex.getD cls 0 := by
          by_cases hz : t.clsindex.getD (code / 100) 0 = 0
          · rw [if_pos hz]
            by_cases he : cls = code / 100
            · rw [if_pos ⟨he, hz⟩, List.getD_eq_getElem?_getD, List.getElem?_set, if_pos he.symm,
                if_pos (by omega)]
              rfl
            · rw [if_neg (fun h => he h.1), List.getD_eq_getElem?_getD,
                List.getElem?_set_ne (fun h => he h.symm), ← List.getD_eq_getElem?_getD]
          · rw [if_neg hz, if_neg (fun h => hz h.2)]
        rw [hk]
        by_cases hA : cls = code / 100 ∧ t.clsindex.getD (code / 100) 0 = 0
        · rw [if_pos hA]
          obtain ⟨hA1, hA2⟩ := hA
          rw [← hA1] at hA2
          refine ⟨fun h => absurd h hlen, fun _ => ⟨by simp, fun j n hj hlt => ?_⟩⟩
          rw [List.getElem?_append_left hlt] at hj
          exact g1 hA2 n (List.getElem?_mem hj)
        · rw [if_neg hA]
          refine ⟨fun h n hn => ?_, fun h => ⟨?_, fun j n hj hlt => ?_⟩⟩
          · rcases List.mem_append.1 hn with hn1 | hn1
            · exact g1 h n hn1
            · rw [List.mem_singleton.1 hn1]
              intro he
              exact hA ⟨he.symm, by rw [he]; exact h⟩
          · rw [List.length_append, List.length_singleton]
            exact Nat.lt_succ_of_lt (g2 h).1
          · rw [List.getElem?_append_left (Nat.lt_trans hlt (g2 h).1)] at hj
            exact (g2 h).2 j n hj hlt

theorem well_formed_of_codes (codes : List Nat) :
    sc_hash_table.well_formed (sc_hash_table.of_codes codes) := by
  unfold sc_hash_table.of_codes
  induction codes using List.reverseRecOn with
  | nil => exact well_formed_new
  | append_singleton cs c ih =>
    rw [List.foldl_append, List.foldl_cons, List.foldl_nil]
    exact well_formed_add _ c ih

theorem find_from_found (code : Nat) (l : List scnode_t)
    (hp : l.Pairwise (fun a b => a.code < b.code)) :
    ∀ (index j : Nat) (n : scnode_t), l[j]? = some n → n.code = code →
      sc_hash_table.find_from code l index = index + j := by
  induction l with
  | nil => exact fun _ j n h _ => by simp at h
  | cons a rest ih =>
    intro index j n hj hn
    cases j with
    | zero =>
      simp only [List.getElem?_cons_zero, Option.some.injEq] at hj
      simp only [sc_hash_table.find_from, hj, hn, if_true, Nat.add_zero]
    | succ j1 =>
      simp only [List.getElem?_cons_succ] at hj
      have hlt : a.code < n.code := (List.pairwise_cons.1 hp).1 n (List.getElem?_mem hj)
      have h1 : ¬ a.code = code := by omega
      have h2 : ¬ code < a.code := by omega
      simp only [sc_hash_table.find_from, if_neg h1, if_neg h2]
      rw [ih (List.pairwise_cons.1 hp).2 (index + 1) j1 n hj hn]
      omega

theorem find_from_absent (code : Nat) (l : List scnode_t) (h : ∀ n ∈ l, n.code ≠ code) :
    ∀ index, sc_hash_table.find_from code l index = 0 := by
  induction l with
  | nil => exact fun _ => rfl
  | cons a rest ih =>
    intro index
    have h1 : ¬ a.code = code := h a (List.mem_cons_self _ _)
    simp only [sc_hash_table.find_from, if_neg h1]
    split_ifs
    · rfl
    · exact ih (fun n hn => h n (List.mem_cons_of_mem _ hn)) (index + 1)

theorem get_status_code_index_found (t : sc_hash_table) (h : sc_hash_table.well_formed t)
    (code j : Nat) (n : scnode_t) (hj : t.stcodes[j]? = some n) (hn : n.code = code) :
    t.get_status_code_index code = j := by
  obtain ⟨⟨rest, h1⟩, h2, _, h5, h4⟩ := h
  unfold sc_hash_table.get_status_code_index
  by_cases hc : code / 100 < 1 ∨ code / 100 > 5
  · simp only [if_pos hc]
    have h0 : n.code = 0 := by
      rcases h5 n (List.getElem?_mem hj) with h | h
      · exact h
      · rw [hn] at h
        omega
    cases j with
    | zero => rfl
    | succ j1 =>
      rw [h1] at hj h2
      simp only [List.getElem?_cons_succ] at hj
      have := (List.pairwise_cons.1 h2).1 n (List.getElem?_mem hj)
      simp only at this
      omega
  · simp only [if_neg hc]
    obtain ⟨_, g2⟩ := h4 (code / 100) (by omega) (by omega)
    have hle : t.clsindex.getD (code / 100) 0 ≤ j := by
      by_contra hlt
      have hk : t.clsindex.getD (code / 100) 0 ≠ 0 := by omega
      exact (g2 hk).2 j n hj (by omega) (by rw [hn])
    have hdrop : (t.stcodes.drop (t.clsindex.getD (code / 100) 0))[j -
        t.clsindex.getD (code / 100) 0]? = some n := by
      rw [List.getElem?_drop, Nat.add_sub_cancel' hle]
      exact hj
    rw [find_from_found code _ (List.Pairwise.sublist (List.drop_sublist _ _) h2) _ _ n hdrop hn]
    omega

theorem get_status_code_index_absent (t : sc_hash_table) (code : Nat)
    (h : ∀ n ∈ t.stcodes, n.code ≠ code) : t.get_status_code_index code = 0 := by
  unfold sc_hash_table.get_status_code_index
  simp only []
  split_ifs
  · rfl
  · exact find_from_absent code _ (fun n hn => h n (List.mem_of_mem_drop hn)) _

/-- C18: after any sequence of `add_status_code` calls on a fresh `sc_hash_table`, the
stored codes are strictly ascending and, for every code `c`, `get_status_code(c)`
returns the node whose code is `c` when `c` is stored, at the index where it is stored,
and the unknown-code node, index 0 and code 0, otherwise. -/
theorem status_codes_ascending_and_found (codes : List Nat) :
    ((sc_hash_table.of_codes codes).stcodes.map (fun n => n.code)).Pairwise (fun a b => a < b) ∧
    ∀ c,
      (∀ j n, (sc_hash_table.of_codes codes).stcodes[j]? = some n → n.code = c →
        (sc_hash_table.of_codes codes).get_status_code_index c = j ∧
        (sc_hash_table.of_codes codes).get_status_code c = n) ∧
      ((∀ n ∈ (sc_hash_table.of_codes codes).stcodes, n.code ≠ c) →
        (sc_hash_table.of_codes codes).get_status_code_index c = 0 ∧
        (sc_hash_table.of_codes codes).get_status_code c =
          { code := 0, count := 0, dirty := false }) := by
  have hw := well_formed_of_codes codes
  refine ⟨List.pairwise_map.2 hw.2.1, fun c => ⟨fun j n hj hn => ?_, fun habs => ?_⟩⟩
  · have hi := get_status_code_index_found _ hw c j n hj hn
    refine ⟨hi, ?_⟩
    unfold sc_hash_table.get_status_code
    rw [hi, List.getD_eq_getElem?_getD, hj]
    rfl
  · have hi := get_status_code_index_absent _ c habs
    refine ⟨hi, ?_⟩
    obtain ⟨rest, h1⟩ := hw.1
    unfold sc_hash_table.get_status_code
    rw [hi, h1]
    rfl

/-! ## Julian dates -/

/-- C24, evaluated: `jdate1` gives 2004-02-29 and the next day 2004-03-01 the same
number, and gives 2004-01-01 a number two above that of 2003-12-31, the day before. In
the leap year 2000, a year of a century, the numbers of 02-29 and 03-01 do differ by
one. -/
theorem jdate1_leap_year_not_a_day_count :
    jdate1 2004 2 29 = 732006 ∧ jdate1 2004 3 1 = 732006 ∧
    jdate1 2003 12 31 = 731945 ∧ jdate1 2004 1 1 = 731947 ∧
    jdate1 2000 3 1 = jdate1 2000 2 29 + 1 := by
  decide

/-! ## Comparison of strings -/

/-- C30, evaluated: for `s = "b"` and `str = "a"` the sample `compare` is positive and
`s < str` is false, and `s >= str` is false too. -/
theorem operator_ge_is_less_or_equal :
    0 ≤ sample_compare [98] [97] ∧
    string_base.operator_lt sample_compare [98] [97] = false ∧
    string_base.operator_ge sample_compare [98] [97] = false := by
  decide

/-! ## Copies of host nodes -/

/-- C27, evaluated: the sample host, without an active visit and with the city "Ot",
packs to 147 bytes; its copy has no city and packs to 145 bytes. -/
theorem hnode_copy_drops_city :
    sample_hnode.visit = none ∧ sample_hnode.city = [79, 116] ∧
    (hnode_t.copy sample_hnode).city = [] ∧
    (hnode_t.s_pack_data sample_externals sample_hnode (List.replicate 200 170) 200).1 = 147 ∧
    (hnode_t.s_pack_data sample_externals (hnode_t.copy sample_hnode)
      (List.replicate 200 170) 200).1 = 145 ∧
    hnode_t.s_pack_data sample_externals (hnode_t.copy sample_hnode) (List.replicate 200 170) 200
      ≠ hnode_t.s_pack_data sample_externals sample_hnode (List.replicate 200 170) 200 := by
  decide

/-! ## The daily fix of the upgrade -/

set_option maxRecDepth 100000 in
/-- C28, evaluated: on the sample database last written by version 3.3.1.4, with a
storage engine that succeeds, `upgrade_database` reads and writes the daily node ids 0
to 30, and `init_counters` gives the 31 daily records the ids 1 to 31. -/
theorem upgrade_database_daily_ids :
    daily_ids_read ( state_t.upgrade_database (sample_outside (fun _ _ => true))
      sample_state_old_database).2.log = List.range 31 ∧
    daily_ids_written ( state_t.upgrade_database (sample_outside (fun _ _ => true))
      sample_state_old_database).2.log = List.range 31 ∧
    ( state_t.init_counters (sample_outside (fun _ _ => true))
      sample_state_old_database).t_daily.map (fun d => d.nodeid) =
      (List.range 31).map (fun i => i + 1) := by
  decide

/-! ## Unpacking legacy daily records -/

/-- C29, evaluated: the sample version-1 record, and the sample legacy record read
with the fix-version hint, are unpacked into a fresh daily node and into one that was
used before; the two results differ in `h_hosts_max` and `h_hosts_avg`, which keep the
values of the earlier use. -/
theorem daily_unpack_keeps_hosts_statistics :
    (daily_t.s_unpack_data sample_externals (daily_t.new 15)
      (sample_daily_v1_record ++ List.replicate 100 170) 154 none 0).1 = 54 ∧
    (daily_t.s_unpack_data sample_externals (daily_t.new 15)
      (sample_daily_v1_record ++ List.replicate 100 170) 154 none 0).2.h_hosts_max = 0 ∧
    (daily_t.s_unpack_data sample_externals sample_daily_used
      (sample_daily_v1_record ++ List.replicate 100 170) 154 none 0).2.h_hosts_max = 7 ∧
    (daily_t.s_unpack_data sample_externals (daily_t.new 15)
      (daily_t.legacy_record sample_externals 120 100 40 9 11 4652218415073722368 ++
        List.replicate 152 170) 200 none (-1)).2.h_hosts_avg = 0 ∧
    (daily_t.s_unpack_data sample_externals sample_daily_used
      (daily_t.legacy_record sample_externals 120 100 40 9 11 4652218415073722368 ++
        List.replicate 152 170) 200 none (-1)).2.h_hosts_avg = 4607182418800017408 := by
  decide

/-! ## Searching in strings -/

set_option maxRecDepth 100000 in
/-- C22, evaluated: for the text "aabcaabcab" and the pattern "abcab" of the comment
on `strstr_ex`, the delta table built from the pattern moves by 1 for "a", by 3 for
"b", by 2 for "c" and by 5 otherwise; the pattern first occurs at the offset 5, which
the search without a table returns, and the search with the table returns the offset
9 of the last character of that occurrence. -/
theorem strstr_ex_with_table_returns_end_of_match :
    (bmh_delta_table.reset (some sample_pattern) 0).map (fun d => d.length) = some 256 ∧
    (bmh_delta_table.reset (some sample_pattern) 0).map
      (fun d => [d.getD 97 0, d.getD 98 0, d.getD 99 0, d.getD 100 0]) = some [1, 3, 2, 5] ∧
    (sample_text.drop 5).take 5 = sample_pattern ∧
    (List.range 5).all (fun i => (sample_text.drop i).take 5 != sample_pattern) = true ∧
    strstr_ex (some sample_text) (some sample_pattern) 10 5 none = some (some 5) ∧
    strstr_ex (some sample_text) (some sample_pattern) 10 5
      (bmh_delta_table.reset (some sample_pattern) 0) = some (some 9) := by
  decide

/-- C23, evaluated: the string "abc" ends with "abc", and `isinstrex` with the pattern
"*abc" returns false for it, as it does for "a" with the pattern "*a"; for the string
"xabc" it returns true, and so it does for "abc" with the pattern "abc*" of the
forward scan. -/
theorem isinstrex_misses_whole_string :
    [97, 98, 99].isSuffixOf [97, 98, 99] = true ∧
    isinstrex (some [97, 98, 99]) (some [42, 97, 98, 99]) 0 0 true none = some false ∧
    isinstrex (some [97, 98, 99]) (some [42, 97, 98, 99]) 3 4 false none = some false ∧
    isinstrex (some [97]) (some [42, 97]) 0 0 true none = some false ∧
    isinstrex (some [120, 97, 98, 99]) (some [42, 97, 98, 99]) 0 0 true none = some true ∧
    isinstrex (some [97, 98, 99]) (some [97, 98, 99, 42]) 0 0 true none = some true := by
  decide

/-! ## Decoding of URLs -/

theorem strlen_nil : strlen [] = 0 := rfl

theorem strlen_cons (c : Nat) (s : string_t) :
    strlen (c :: s) = if c = 0 then 0 else strlen s + 1 := by
  unfold strlen
  rw [List.takeWhile_cons]
  by_cases h : c = 0
  · simp [h]
  · simp [h]

theorem strlen_le_length (s : string_t) : strlen s ≤ s.length := by
  induction s with
  | nil => simp [strlen_nil]
  | cons c s ih =>
    rw [strlen_cons]
    by_cases h : c = 0
    · simp [h]
    · simp [h, ih]

theorem isxdigitex_ne_zero (ch : Nat) (h : isxdigitex ch = true) : ch ≠ 0 := by
  intro h0
  subst h0
  simp [isxdigitex] at h

theorem c_char_cons_succ (c : Nat) (s : string_t) (i : Nat) :
    c_char (c :: s) (i + 1) = c_char s i := by
  simp [c_char]

theorem c_char_cons_zero (c : Nat) (s : string_t) : c_char (c :: s) 0 = c := by
  simp [c_char]

theorem c_char_nil (i : Nat) : c_char [] i = 0 := by
  simp [c_char]

/-- The loop of `url_decode` writes no more bytes than the string has characters
before its terminator, whatever the fuel. -/
theorem url_decode_loop_length (fuel : Nat) :
    ∀ s : string_t, (url_decode_loop fuel s).length ≤ strlen s := by
  induction fuel with
  | zero => intro s; simp [url_decode_loop]
  | succ fuel ih =>
    intro s
    cases s with
    | nil => simp [url_decode_loop, c_char_nil]
    | cons c rest =>
      unfold url_decode_loop
      rw [c_char_cons_zero, strlen_cons]
      by_cases h0 : c = 0
      · simp [h0]
      · rw [if_neg h0, if_neg h0]
        have hrest : (url_decode_loop fuel (List.drop 1 (c :: rest))).length + 1 ≤
            strlen rest + 1 := by
          have := ih rest
          simpa using this
        by_cases h37 : c = 37
        · rw [if_pos h37]
          by_cases hx : (isxdigitex (c_char (c :: rest) 1) &&
              isxdigitex (c_char (c :: rest) 2)) = true
          · rw [if_pos hx]
            rw [Bool.and_eq_true] at hx
            obtain ⟨hx1, hx2⟩ := hx
            rw [c_char_cons_succ] at hx1 hx2
            cases rest with
            | nil => rw [c_char_nil] at hx1; exact absurd rfl (isxdigitex_ne_zero 0 hx1)
            | cons h1 rest1 =>
              rw [c_char_cons_zero] at hx1
              rw [c_char_cons_succ] at hx2
              cases rest1 with
              | nil => rw [c_char_nil] at hx2; exact absurd rfl (isxdigitex_ne_zero 0 hx2)
              | cons h2 rest2 =>
                rw [c_char_cons_zero] at hx2
                rw [strlen_cons, strlen_cons, if_neg (isxdigitex_ne_zero h1 hx1),
                  if_neg (isxdigitex_ne_zero h2 hx2)]
                have := ih rest2
                simp only [List.drop_succ_cons, List.drop_zero, List.length_cons]
                omega
          · rw [if_neg hx]
            simpa using hrest
        · rw [if_neg h37]
          simpa using hrest

/-- The loop of `url_decode` gives the same bytes with any fuel that is at least the
number of characters of the string. -/
theorem url_decode_loop_fuel (f1 : Nat) :
    ∀ (f2 : Nat) (s : string_t), s.length ≤ f1 → s.length ≤ f2 →
      url_decode_loop f1 s = url_decode_loop f2 s := by
  induction f1 with
  | zero =>
    intro f2 s h1 _
    have hs : s = [] := List.length_eq_zero.mp (Nat.le_zero.mp h1)
    subst hs
    cases f2 with
    | zero => rfl
    | succ f2 => simp [url_decode_loop, c_char_nil]
  | succ f1 ih =>
    intro f2 s h1 h2
    cases s with
    | nil =>
      cases f2 with
      | zero => simp [url_decode_loop, c_char_nil]
      | succ f2 => simp [url_decode_loop, c_char_nil]
    | cons c rest =>
      cases f2 with
      | zero => simp at h2
      | succ f2 =>
        simp only [List.length_cons] at h1 h2
        have e1 : url_decode_loop f1 (List.drop 1 (c :: rest)) =
            url_decode_loop f2 (List.drop 1 (c :: rest)) :=
          ih f2 _ (by simp; omega) (by simp; omega)
        have e3 : url_decode_loop f1 (List.drop 3 (c :: rest)) =
            url_decode_loop f2 (List.drop 3 (c :: rest)) :=
          ih f2 _ (by simp; omega) (by simp; omega)
        unfold url_decode_loop
        rw [e1, e3]

/-- C26: for every string `s`, `url_decode` ends (any fuel of at least the number of
characters of `s` gives the same bytes) and writes before the terminator at most
`strlen(s)` bytes, which is at most the `s.length()` characters that the `string_t`
overload reserves. -/
theorem url_decode_within_reserved (s : string_t) :
    (∀ fuel : Nat, s.length ≤ fuel → url_decode_loop fuel s = url_decode s) ∧
    (url_decode s).length ≤ strlen s ∧ strlen s ≤ s.length := by
  refine ⟨fun fuel h => ?_, url_decode_loop_length _ s, strlen_le_length s⟩
  exact url_decode_loop_fuel fuel s.length s h (Nat.le_refl _)

/-! ## Iterators of hash tables -/

/-- The loop of `next` over the heads of the buckets, started at the end of a chain
with enough fuel: it returns the first node of the buckets from `index` on, if there
is one, and leaves the nodes after that one to be returned. -/
theorem hash_iterator.next_head_spec {ν : Type} (buckets : List (List ν)) (fuel : Nat) :
    ∀ it : hash_iterator ν, it.maxhash = buckets.length → it.nptr.tail = [] →
      it.maxhash - it.index ≤ fuel →
      (hash_iterator.next_head buckets fuel it).1 =
        (hash_iterator.remaining buckets it).head? ∧
      hash_iterator.remaining buckets (hash_iterator.next_head buckets fuel it).2 =
        (hash_iterator.remaining buckets it).tail ∧
      (hash_iterator.next_head buckets fuel it).2.htab = it.htab ∧
      (hash_iterator.next_head buckets fuel it).2.maxhash = it.maxhash := by
  induction fuel with
  | zero =>
    intro it hm ht hf
    have hd : buckets.drop it.index = [] := List.drop_eq_nil_of_le (by omega)
    simp [hash_iterator.next_head, hash_iterator.remaining, ht, hd]
  | succ fuel ih =>
    intro it hm ht hf
    unfold hash_iterator.next_head
    by_cases hi : it.index < it.maxhash
    · rw [if_pos hi]
      have hlt : it.index < buckets.length := by omega
      have hd : buckets.drop it.index = buckets[it.index] :: buckets.drop (it.index + 1) :=
        List.drop_eq_getElem_cons hlt
      rw [List.getD_eq_getElem _ _ hlt]
      cases hb : buckets[it.index] with
      | nil =>
        have h := ih { it with nptr := [], index := it.index + 1 } hm rfl
          (by show it.maxhash - (it.index + 1) ≤ fuel; omega)
        simp only [hash_iterator.remaining, ht, hd, hb, List.flatten_cons, List.nil_append,
          List.tail_nil] at h ⊢
        exact h
      | cons n chain =>
        simp [hash_iterator.remaining, ht, hd, hb]
    · rw [if_neg hi]
      have hd : buckets.drop it.index = [] := List.drop_eq_nil_of_le (by omega)
      simp [hash_iterator.remaining, ht, hd]

/-- One call of `next` on an iterator of the buckets returns the first of the nodes
that remain, NULL when none remains, and leaves the others to be returned. -/
theorem hash_iterator.next_spec {ν : Type} (buckets : List (List ν)) (it : hash_iterator ν)
    (hh : it.htab = some buckets) (hm : it.maxhash = buckets.length) :
    (hash_iterator.next it).1 = (hash_iterator.remaining buckets it).head? ∧
    hash_iterator.remaining buckets (hash_iterator.next it).2 =
      (hash_iterator.remaining buckets it).tail ∧
    (hash_iterator.next it).2.htab = some buckets ∧
    (hash_iterator.next it).2.maxhash = buckets.length := by
  unfold hash_iterator.next
  rw [hh]
  rcases hn : it.nptr with _ | ⟨m, _ | ⟨n, chain⟩⟩
  · have h := hash_iterator.next_head_spec buckets (it.maxhash - it.index) it hm
      (by rw [hn]; rfl) (Nat.le_refl _)
    rw [hh] at h
    simpa [hn, hm] using h
  · have h := hash_iterator.next_head_spec buckets (it.maxhash - it.index) it hm
      (by rw [hn]; rfl) (Nat.le_refl _)
    rw [hh] at h
    simpa [hn, hm] using h
  · simp [hash_iterator.remaining, hn, hh, hm]

/-- The results of `k` calls of `next` on an iterator of the buckets: the call `j`
returns the node `j` of those that remained at the start, NULL when there is none. -/
theorem hash_iterator.run_spec {ν : Type} (buckets : List (List ν)) (k : Nat) :
    ∀ it : hash_iterator ν, it.htab = some buckets → it.maxhash = buckets.length →
      hash_iterator.run k it =
        (List.range k).map (fun j => (hash_iterator.remaining buckets it)[j]?) := by
  induction k with
  | zero => intro it _ _; simp [hash_iterator.run]
  | succ k ih =>
    intro it hh hm
    obtain ⟨h1, h2, h3, h4⟩ := hash_iterator.next_spec buckets it hh hm
    unfold hash_iterator.run
    rw [ih _ h3 h4, h1, h2, List.range_succ_eq_map, List.map_cons, List.map_map,
      List.head?_eq_getElem?]
    congr 1
    apply List.map_congr_left
    intro j _
    simp

/-- C21: on a table that is not modified, the call number `j` (from 0) of `next` on
the iterator of `begin()` returns the node number `j` of the table, the nodes taken
by ascending bucket index and each chain from its head; every call after the last
node returns NULL. -/
theorem iterator_next_visits_every_node {ν : Type} (t : hash_table ν) (k : Nat) :
    hash_iterator.run k t.begin = (List.range k).map (fun j => t.nodes[j]?) ∧
    (∀ j : Nat, j < k → t.nodes.length ≤ j → (hash_iterator.run k t.begin)[j]? = some none) ∧
    t.nodes = t.htab.flatten := by
  have h := hash_iterator.run_spec t.htab k t.begin rfl rfl
  have hr : hash_iterator.remaining t.htab t.begin = t.nodes := by
    simp [hash_iterator.remaining, hash_table.begin, hash_table.nodes]
  rw [hr] at h
  refine ⟨h, ?_, rfl⟩
  intro j hj hl
  rw [h, List.getElem?_map, List.getElem?_range hj]
  simp [List.getElem?_eq_none hl]

/-! ## Numbers and strings -/

theorem ul2str_digits_length (fuel : Nat) : ∀ v : Nat, (ul2str_digits fuel v).length ≤ fuel := by
  induction fuel with
  | zero => intro v; simp [ul2str_digits]
  | succ fuel ih =>
    intro v
    unfold ul2str_digits
    by_cases h : v / 10 ≠ 0
    · rw [if_pos h]
      have := ih (v / 10)
      simp only [List.length_cons]
      omega
    · rw [if_neg h]
      simp

/-- The first loop of `ul2str`, with enough fuel, writes the decimal digits of a
positive value, the last digit first, each as the character of that digit. -/
theorem ul2str_digits_spec (fuel : Nat) : ∀ v : Nat, 0 < v → v < 10 ^ fuel →
    ul2str_digits fuel v = (Nat.digits 10 v).map (fun d => d + 48) := by
  induction fuel with
  | zero => intro v h0 h1; simp at h1; omega
  | succ fuel ih =>
    intro v h0 h1
    unfold ul2str_digits
    rw [Nat.digits_def' (by norm_num) h0, List.map_cons]
    have hd : (48 + v % 10 % 256) % 256 = v % 10 + 48 := by omega
    rw [hd]
    congr 1
    by_cases h : v / 10 ≠ 0
    · rw [if_pos h]
      have hp : 10 ^ (fuel + 1) = 10 ^ fuel * 10 := pow_succ 10 fuel
      exact ih (v / 10) (by omega) (by omega)
    · rw [if_neg h]
      have h2 : v / 10 = 0 := by omega
      rw [h2]
      simp

theorem getD_append_cons (pre : List Nat) (x : Nat) (rest : List Nat) (d : Nat) :
    (pre ++ x :: rest).getD pre.length d = x := by
  induction pre with
  | nil => simp
  | cons a pre ih => simpa using ih

theorem set_append_cons (pre : List Nat) (x y : Nat) (rest : List Nat) :
    (pre ++ x :: rest).set pre.length y = pre ++ y :: rest := by
  induction pre with
  | nil => simp
  | cons a pre ih => simp

/-- The second loop of `ul2str`, with enough fuel, reverses the characters between
`cp1` and `cp2` and leaves the others. -/
theorem ul2str_swap_spec (fuel : Nat) : ∀ (pre mid post : List Nat),
    mid.length ≤ 2 * fuel + 1 →
    ul2str_swap fuel (pre ++ mid ++ post) pre.length (pre.length + mid.length) =
      pre ++ mid.reverse ++ post := by
  induction fuel with
  | zero =>
    intro pre mid post h
    rcases mid with _ | ⟨a, _ | ⟨b, m⟩⟩
    · simp [ul2str_swap]
    · simp [ul2str_swap]
    · simp at h
  | succ fuel ih =>
    intro pre mid post h
    unfold ul2str_swap
    rcases mid with _ | ⟨a, m1⟩
    · simp
    · rcases List.eq_nil_or_concat m1 with h1 | ⟨m, b, h1⟩
      · subst h1
        simp
      · rw [List.concat_eq_append] at h1
        subst h1
        have hc : pre.length < pre.length + (a :: (m ++ [b])).length - 1 := by
          simp only [List.length_cons, List.length_append, List.length_nil]
          omega
        rw [if_pos hc]
        have hbuf1 : pre ++ a :: (m ++ [b]) ++ post = pre ++ a :: (m ++ b :: post) := by simp
        have hbuf2 : pre ++ a :: (m ++ [b]) ++ post = (pre ++ a :: m) ++ b :: post := by simp
        have hidx : pre.length + (a :: (m ++ [b])).length - 1 = (pre ++ a :: m).length := by
          simp only [List.length_cons, List.length_append, List.length_nil]
          omega
        have e1 : (pre ++ a :: (m ++ [b]) ++ post).getD (pre ++ a :: m).length 0 = b := by
          rw [hbuf2]
          exact getD_append_cons _ _ _ _
        have e2 : (pre ++ a :: (m ++ [b]) ++ post).getD pre.length 0 = a := by
          rw [hbuf1]
          exact getD_append_cons _ _ _ _
        have e3 : (pre ++ a :: (m ++ [b]) ++ post).set pre.length b =
            (pre ++ b :: m) ++ b :: post := by
          rw [hbuf1, set_append_cons]
          simp
        have e4 : ((pre ++ b :: m) ++ b :: post).set (pre ++ a :: m).length a =
            (pre ++ [b]) ++ m ++ ([a] ++ post) := by
          have hl : (pre ++ a :: m).length = (pre ++ b :: m).length := by simp
          rw [hl, set_append_cons]
          simp
        rw [hidx, e1, e2, e3, e4]
        have hl1 : pre.length + 1 = (pre ++ [b]).length := by simp
        have hl2 : (pre ++ a :: m).length = (pre ++ [b]).length + m.length := by
          simp only [List.length_cons, List.length_append, List.length_nil]
          omega
        rw [hl1, hl2, ih (pre ++ [b]) m ([a] ++ post)
          (by simp only [List.length_cons, List.length_append, List.length_nil] at h; omega)]
        simp

/-- The function `ul2str` on a positive value of 64 bits writes the decimal digits of the value,
the first digit first, and returns their number. -/
theorem ul2str_spec (v : Nat) (h0 : 0 < v) (hv : v < 2 ^ 64) :
    ul2str v = (((Nat.digits 10 v).reverse).map (fun d => d + 48), (Nat.digits 10 v).length) := by
  unfold ul2str
  have hd := ul2str_digits_spec 20 v h0 (by omega)
  have hs := ul2str_swap_spec (ul2str_digits 20 v).length [] (ul2str_digits 20 v) [] (by omega)
  simp only [List.nil_append, List.append_nil, List.length_nil, Nat.zero_add] at hs
  rw [hd, List.length_map] at hs
  simp only [hd, List.length_map, hs, List.map_reverse]

theorem isdigitex_digit (d : Nat) (h : d < 10) : isdigitex (d + 48) = true := by
  simp [isdigitex]
  omega

theorem str2ul_fold_ge (l : List Nat) : ∀ a : Nat,
    a ≤ l.foldl (fun v c => v * 10 + (c - 48)) a := by
  induction l with
  | nil => intro a; simp
  | cons c l ih =>
    intro a
    have := ih (a * 10 + (c - 48))
    simp only [List.foldl_cons]
    omega

/-- The loop of `str2ul` over characters that are all digits, within the length
`len`, adds up the decimal value when that value fits 64 bits. -/
theorem str2ul_loop_spec (len : Nat) (hlen : len < 4294967296) : ∀ (rest : List Nat)
    (cp v0 : Nat), (∀ c ∈ rest, isdigitex c = true) → cp + rest.length ≤ len →
    rest.foldl (fun v c => v * 10 + (c - 48)) v0 < 2 ^ 64 →
    str2ul_loop len rest cp v0 = rest.foldl (fun v c => v * 10 + (c - 48)) v0 := by
  intro rest
  induction rest with
  | nil => intro cp v0 _ _ _; simp [str2ul_loop]
  | cons c rest ih =>
    intro cp v0 hd hl hf
    have hc : isdigitex c = true := hd c (List.mem_cons_self _ _)
    have hc48 : 48 ≤ c := by
      simp [isdigitex] at hc
      omega
    simp only [List.length_cons] at hl
    simp only [List.foldl_cons] at hf ⊢
    have hge := str2ul_fold_ge rest (v0 * 10 + (c - 48))
    unfold str2ul_loop
    have hcond : c ≠ 0 ∧ cp % 4294967296 < len ∧ isdigitex c = true := by
      refine ⟨by omega, ?_, hc⟩
      rw [Nat.mod_eq_of_lt (by omega)]
      omega
    rw [if_pos hcond]
    have hval : (v0 * 10 % 2 ^ 64 + (c - 48)) % 2 ^ 64 = v0 * 10 + (c - 48) := by
      have h1 : v0 * 10 + (c - 48) < 2 ^ 64 := by omega
      rw [Nat.mod_eq_of_lt (by omega : v0 * 10 < 2 ^ 64), Nat.mod_eq_of_lt h1]
    rw [hval]
    exact ih (cp + 1) _ (fun x hx => hd x (List.mem_cons_of_mem _ hx)) (by omega) hf

/-- The function `str2ul` on a string of digits that is not empty and not longer than
`len` returns the decimal value of the digits when that value fits 64 bits. -/
theorem str2ul_spec (s : string_t) (len : Nat) (hlen : len < 4294967296) (hs : s ≠ [])
    (hd : ∀ c ∈ s, isdigitex c = true) (hl : s.length ≤ len)
    (hf : s.foldl (fun v c => v * 10 + (c - 48)) 0 < 2 ^ 64) :
    str2ul s len = s.foldl (fun v c => v * 10 + (c - 48)) 0 := by
  cases s with
  | nil => exact absurd rfl hs
  | cons c rest =>
    have hc : isdigitex c = true := hd c (List.mem_cons_self _ _)
    have hc48 : 48 ≤ c := by
      simp [isdigitex] at hc
      omega
    simp only [List.length_cons] at hl
    simp only [List.foldl_cons, Nat.zero_mul, Nat.zero_add] at hf ⊢
    unfold str2ul
    rw [c_char_cons_zero]
    have hcond : ¬ (c = 0 ∨ len = 0 ∨ isdigitex c = false) := by
      rw [hc]
      simp
      omega
    rw [if_neg hcond]
    simp only [List.drop_succ_cons, List.drop_zero]
    exact str2ul_loop_spec len hlen rest 1 (c - 48)
      (fun x hx => hd x (List.mem_cons_of_mem _ hx)) (by omega) hf

theorem str2ul_fold_digits (L : List Nat) :
    ((L.reverse).map (fun d => d + 48)).foldl (fun v c => v * 10 + (c - 48)) 0 =
      Nat.ofDigits 10 L := by
  induction L with
  | nil => simp
  | cons d L ih =>
    rw [List.reverse_cons, List.map_append, List.foldl_append, ih, Nat.ofDigits_cons]
    simp
    omega

/-- C25: for every value `v` of 64 bits, `ul2str` writes the decimal digits of `v`,
the first digit first (the single character "0" for zero), the first character is not
"0" unless `v` is zero, the number returned is the number of characters written, and
`str2ul` on the string written, with a length `len` of at least 20, returns `v`. -/
theorem ul2str_str2ul_round_trip (v len : Nat) (hv : v < 2 ^ 64) (h20 : 20 ≤ len)
    (hlen : len < 4294967296) :
    (ul2str v).1 =
      (if v = 0 then [48] else ((Nat.digits 10 v).reverse).map (fun d => d + 48)) ∧
    ((ul2str v).1.head? ≠ some 48 ∨ v = 0) ∧
    (ul2str v).2 = (ul2str v).1.length ∧
    str2ul (ul2str v).1 len = v := by
  by_cases h0 : v = 0
  · subst h0
    have hu : ul2str 0 = ([48], 1) := by decide
    rw [hu]
    refine ⟨rfl, Or.inr rfl, rfl, ?_⟩
    have hcond : ¬ (c_char [48] 0 = 0 ∨ len = 0 ∨ isdigitex (c_char [48] 0) = false) := by
      have h1 : c_char [48] 0 = 48 := by decide
      have h2 : isdigitex 48 = true := by decide
      rw [h1, h2]
      simp
      omega
    unfold str2ul
    rw [if_neg hcond]
    simp [str2ul_loop, c_char]
  · have hpos : 0 < v := Nat.pos_of_ne_zero h0
    have hu := ul2str_spec v hpos hv
    have hne : Nat.digits 10 v ≠ [] := Nat.digits_ne_nil_iff_ne_zero.mpr h0
    have hlast := Nat.getLast_digit_ne_zero 10 h0
    have hdl : (Nat.digits 10 v).length ≤ 20 := by
      have h1 := ul2str_digits_length 20 v
      rw [ul2str_digits_spec 20 v hpos (by omega), List.length_map] at h1
      exact h1
    rw [hu]
    refine ⟨by rw [if_neg h0], Or.inl ?_, by simp, ?_⟩
    · rw [← List.dropLast_append_getLast hne]
      simp only [List.reverse_append, List.reverse_cons, List.reverse_nil, List.nil_append,
        List.singleton_append, List.map_cons, List.head?_cons]
      intro h
      injection h with h
      omega
    · have hfold := str2ul_fold_digits (Nat.digits 10 v)
      rw [Nat.ofDigits_digits] at hfold
      have h := str2ul_spec (((Nat.digits 10 v).reverse).map (fun d => d + 48)) len hlen
        (by simpa using hne)
        (by
          intro c hc
          rw [List.mem_map] at hc
          obtain ⟨d, hd, rfl⟩ := hc
          exact isdigitex_digit d (Nat.digits_lt_base (by norm_num) (List.mem_reverse.mp hd)))
        (by simp; omega)
        (by rw [hfold]; exact hv)
      rw [h, hfold]

/-- Witness for C25 at the value 1234567 and the largest `u_int` length. -/
theorem ul2str_str2ul_round_trip_witness :
    (1234567 < 2 ^ 64 ∧ 20 ≤ 4294967295 ∧ 4294967295 < 4294967296) ∧
    (ul2str 1234567).2 = (ul2str 1234567).1.length ∧
    str2ul (ul2str 1234567).1 4294967295 = 1234567 :=
  ⟨by decide,
    (ul2str_str2ul_round_trip 1234567 4294967295 (by decide) (by decide) (by decide)).2.2⟩

end Webalizer
